import Mathlib

/-!
# BGP router manager (pkg/bgpv1/manager/manager.go): reconciliation engine

Shallow embedding of the BGPv2 part of `BGPRouterManager`:
`ReconcileInstances`, `registerV2`, `registerBGPInstance`, `reconcileBGPConfigV2`,
`updateReconcilerErrors`, `withdrawV2`, `withdrawAllV2`, `reconcileV2`, `Stop`
and the helpers they call, and of the read APIs `GetPeers`, `GetRoutes` and
`GetRoutePolicies` in both configuration modes; and, in namespace `PolicyAPI`,
of the destination selectors of egress rules (pkg/policy/api/egress.go).

Conventions of the embedding
* Go pointers to `instance.BGPInstance` are indices (`Ptr`) into a heap held by
  the manager state; `i.Config = newc` is an update of the heap cell.
* Go maps are association lists with first-match lookup, replacing insertion and
  delete-all deletion (`GoMap`).
* Every call into an external collaborator (Router, reconcilers, the statedb
  table, channels) appends an `Event` to the manager's `trace`; the outcome of a
  call that can fail is given by the environment `Env` as a function of the
  trace so far, so collaborators may behave differently from call to call.
* A read API returns a `GoResult`: a value, an error, or the panic of a nil pointer
  dereference (`i.Config`, `*i.Config.LocalASN`, `s.Config`).
* A Go map is ranged over in the order of its association list.
* Logging and metrics are not modelled.
-/

namespace BGPManager

/-! ## Go error values -/

/-- Go `error` values: a leaf (`errors.New`, `fmt.Errorf` without `%w`; `isAbort`
tells whether the value is the sentinel `reconcilerv2.ErrAbortReconcile`), a
wrapping error (`fmt.Errorf` with one `%w`; `msg` is the whole formatted text), and
the result of `errors.Join`. -/
inductive GoError where
  | leaf (msg : String) (isAbort : Bool)
  | wrap (msg : String) (cause : GoError)
  | join (errs : List GoError)

mutual
/-- The `Error()` method. -/
def GoError.Error : GoError → String
  | .leaf msg _ => msg
  | .wrap msg _ => msg
  | .join errs => GoError.joinMsg errs
/-- Text of a `joinError`: the messages separated by newlines. -/
def GoError.joinMsg : List GoError → String
  | [] => ""
  | e :: es => if es.isEmpty then e.Error else e.Error ++ "\n" ++ GoError.joinMsg es
end

mutual
/-- Go `errors.Is(err, reconcilerv2.ErrAbortReconcile)`: the sentinel is found by
following `Unwrap() error` and `Unwrap() []error`. -/
def GoError.IsAbortReconcile : GoError → Bool
  | .leaf _ b => b
  | .wrap _ c => c.IsAbortReconcile
  | .join es => GoError.anyAbortReconcile es
/-- Some member of the list matches the sentinel. -/
def GoError.anyAbortReconcile : List GoError → Bool
  | [] => false
  | e :: es => e.IsAbortReconcile || GoError.anyAbortReconcile es
end

/-- Go `errors.Join(errs...)`: nil values are dropped; the result is nil when nothing
is left, otherwise a `joinError` holding the non-nil values in order. -/
def errorsJoin (errs : List (Option GoError)) : Option GoError :=
  match errs.filterMap id with
  | [] => none
  | e :: es => some (GoError.join (e :: es))

/-- Go `fmt.Errorf(pre + "%w" + post, cause)`: a nil operand of `%w` is printed as a
bad verb and nothing is wrapped. -/
def Errorf_w (pre : String) (cause : Option GoError) (post : String) : GoError :=
  match cause with
  | none => GoError.leaf (pre ++ "%!w(<nil>)" ++ post) false
  | some e => GoError.wrap (pre ++ e.Error ++ post) e

/-- Go `%v` of a `[]string`. -/
def fmtStrings (xs : List String) : String :=
  "[" ++ " ".intercalate xs ++ "]"

/-! ## Go maps -/

/-- A Go map as an association list. -/
abbrev GoMap (K V : Type) := List (K × V)

/-- Go `v, ok := m[k]`. -/
def GoMap.get {K V : Type} [DecidableEq K] : GoMap K V → K → Option V
  | [], _ => none
  | (k1, v) :: rest, k => if k1 = k then some v else GoMap.get rest k

/-- Go `delete(m, k)`. -/
def GoMap.delete {K V : Type} [DecidableEq K] (m : GoMap K V) (k : K) : GoMap K V :=
  m.filter (fun e => decide (e.1 ≠ k))

/-- Go `m[k] = v`. -/
def GoMap.set {K V : Type} [DecidableEq K] (m : GoMap K V) (k : K) (v : V) : GoMap K V :=
  GoMap.delete m k ++ [(k, v)]

/-- The keys, in the order `range` visits them. -/
def GoMap.keys {K V : Type} (m : GoMap K V) : List K := m.map Prod.fst

/-! ## Data model -/

/-- A pointer to an `instance.BGPInstance` (or, for BGPv1, to a server). -/
abbrev Ptr := Nat

/-- Go `v2.CiliumBGPNodeInstance`: one desired instance. `Peers` stands for the nested
peer configuration, which only the reconcilers read. -/
structure CiliumBGPNodeInstance where
  Name : String
  LocalASN : Option Int
  LocalPort : Option Int
  RouterID : Option String
  Peers : List String
deriving DecidableEq, Repr

/-- Go `v2.CiliumBGPNodeConfig`: the desired state of the node. -/
structure CiliumBGPNodeConfig where
  Name : String
  BGPInstances : List CiliumBGPNodeInstance
deriving DecidableEq, Repr

/-- Go `v2.CiliumNode`: the node identity used for defaults. -/
structure CiliumNode where
  Annotations : List (String × String)
  Addresses : List String
deriving DecidableEq, Repr

/-- Go `types.BGPGlobal`. -/
structure BGPGlobal where
  ASN : Nat
  RouterID : String
  ListenPort : Int
  AdvertiseInactiveRoutes : Bool
deriving DecidableEq, Repr

/-- Go `types.ServerParameters`; `StateNotification` is the identity of the channel. -/
structure ServerParameters where
  Global : BGPGlobal
  StateNotification : Nat
deriving DecidableEq, Repr

/-- Go `instance.BGPInstance`: the Router and the cancelable context are identified
with the pointer to the instance. -/
structure BGPInstance where
  Name : String
  Global : BGPGlobal
  Config : Option CiliumBGPNodeInstance
deriving DecidableEq, Repr

/-- Go `tables.BGPReconcileError`: one record of the reconcile error table. -/
structure BGPReconcileError where
  Instance : String
  ErrorID : Int
  Error : String
deriving DecidableEq, Repr

/-- Go `reconcilerv2.ReconcileParams`. -/
structure ReconcileParams where
  BGPInstance : Ptr
  DesiredConfig : CiliumBGPNodeInstance
  CiliumNode : CiliumNode
deriving DecidableEq, Repr

/-- Go `v2alpha1.CiliumBGPVirtualRouter`: the configuration of one BGPv1 server. `Peers`
stands for the nested configuration, which only the reconcilers read. -/
structure CiliumBGPVirtualRouter where
  LocalASN : Int
  Peers : List String
deriving DecidableEq, Repr

/-- Go `instance.ServerWithConfig`: the Router is identified with the pointer to the
server. -/
structure ServerWithConfig where
  ASN : Nat
  Config : Option CiliumBGPVirtualRouter
deriving DecidableEq, Repr

/-- The Router a query is made on: `s.Server` of the BGPv1 server `s`, or `i.Router` of the
BGPv2 instance `i`. -/
inductive RouterRef where
  | server (s : Ptr)
  | router (i : Ptr)
deriving DecidableEq, Repr

/-- Go `types.GetRoutesRequest`; it is built outside manager.go and only passed on. -/
structure GetRoutesRequest where
  TableType : Nat
  Family : String
  Neighbor : String
deriving DecidableEq, Repr

/-- Calls into the collaborators, in the order they are made. -/
inductive Event where
  | newInstance (i : Ptr) (name : String) (params : ServerParameters)
  | newInstanceFailed (name : String) (params : ServerParameters)
  | trackInstanceStateChange (name : String) (ch : Nat)
  | init (r : Nat) (i : Ptr)
  | reconcile (r : Nat) (p : ReconcileParams)
  | cleanup (r : Nat) (i : Ptr)
  | cancelCtx (i : Ptr)
  | routerStop (i : Ptr) (fullDestroy : Bool)
  | serverStop (s : Ptr) (fullDestroy : Bool)
  | closeCh (ch : Nat)
  | tableInsert (obj : BGPReconcileError)
  | tableDelete (obj : BGPReconcileError)
  | getPeerState (r : RouterRef)
  | getRoutes (r : RouterRef) (req : GetRoutesRequest)
  | getRoutePolicies (r : RouterRef)
  | newServer (s : Ptr) (params : ServerParameters)
  | newServerFailed (params : ServerParameters)
  | initServer (r : Nat) (s : Ptr)
  | reconcileServer (r : Nat) (s : Ptr) (newc : CiliumBGPVirtualRouter) (ciliumNode : CiliumNode)
deriving DecidableEq, Repr

/-- The work diff `reconcileDiffV2`. -/
structure reconcileDiffV2 where
  seen : GoMap String CiliumBGPNodeInstance
  ciliumNode : CiliumNode
  register : List String
  withdraw : List String
  reconcile : List String
deriving DecidableEq, Repr

/-- Go `reconcilerv2.ConfigReconciler`: the outcome of `Init` and `Reconcile` as a
function of the calls made so far and of the instances in memory. `Cleanup` returns
nothing. -/
structure ConfigReconciler where
  Name : String
  Init : List Event → List BGPInstance → Ptr → Option GoError
  Reconcile : List Event → List BGPInstance → ReconcileParams → Option GoError

/-- Go `reconciler.ConfigReconciler` of BGPv1: the outcome of `Init` and `Reconcile` as a
function of the calls made so far and of the servers in memory; the parameters of
`Reconcile` are the current server, the desired configuration and the node. -/
structure ConfigReconcilerV1 where
  Name : String
  Init : List Event → List ServerWithConfig → Ptr → Option GoError
  Reconcile : List Event → List ServerWithConfig → Ptr → CiliumBGPVirtualRouter → CiliumNode →
    Option GoError

/-- Go `agent.Attributes` of one annotation entry. -/
structure Attributes where
  RouterID : String
  LocalPort : Int
deriving DecidableEq, Repr

/-- Go `mode.BGPConfigMode`, the value of `m.ConfigMode.Get()`. -/
inductive BGPConfigMode where
  | Disabled
  | BGPv1
  | BGPv2
deriving DecidableEq, Repr

/-- Go `models.BgpPeer`, as far as the manager reads it. -/
structure BgpPeer where
  LocalAsn : Int
  PeerAddress : String
deriving DecidableEq, Repr

/-- Go `types.Route`; only passed on. -/
structure Route where
  Prefix : String
deriving DecidableEq, Repr

/-- Go `models.BgpRoute`; built outside manager.go. -/
structure BgpRoute where
  RouterAsn : Int
  Neighbor : String
  Prefix : String
deriving DecidableEq, Repr

/-- Go `types.RoutePolicy`; only passed on. -/
structure RoutePolicy where
  Name : String
deriving DecidableEq, Repr

/-- Go `models.BgpRoutePolicy`; built outside manager.go. -/
structure BgpRoutePolicy where
  RouterAsn : Int
  Name : String
deriving DecidableEq, Repr

/-- Go `restapi.GetBgpRoutesParams`. -/
structure GetBgpRoutesParams where
  Afi : String
  Safi : String
  TableType : String
  Neighbor : Option String
  RouterAsn : Option Int
deriving DecidableEq, Repr

/-- Go `restapi.GetBgpRoutePoliciesParams`. -/
structure GetBgpRoutePoliciesParams where
  RouterAsn : Option Int
deriving DecidableEq, Repr

/-- The outcome of a Go call that returns `(result, error)`: `value` is a nil error, `error`
a nil result with a non-nil error, and `panic` a nil pointer dereference. -/
inductive GoResult (α : Type) where
  | value (v : α)
  | error (err : GoError)
  | panic

/-- The state of a `BGPRouterManager`. `heap` holds the `BGPInstance` objects ever
allocated and `serverHeap` the BGPv1 servers, `chans` counts the notification channels
ever made, `table` is the committed content of the reconcile error table and `trace`
the calls made so far. -/
structure BGPRouterManager where
  Servers : GoMap Int Ptr
  serverHeap : List ServerWithConfig
  BGPInstances : GoMap String Ptr
  notifications : GoMap String Nat
  heap : List BGPInstance
  chans : Nat
  table : List BGPReconcileError
  running : Bool
  destroyRouterOnStop : Bool
  trace : List Event
deriving DecidableEq, Repr

/-- The collaborators and constants declared outside manager.go, taken as
parameters. -/
structure Env where
  /-- Go `m.ConfigReconcilers`, fixed when the manager is built. -/
  ConfigReconcilers : List ConfigReconciler
  /-- Go `tables.BGPReconcileErrCountPerInstance`. -/
  BGPReconcileErrCountPerInstance : Nat
  /-- Error returned by `ReconcileErrorTable.Insert`, if any. -/
  tableInsert : List Event → BGPReconcileError → Option GoError
  /-- Error returned by `ReconcileErrorTable.Delete`, if any. -/
  tableDelete : List Event → BGPReconcileError → Option GoError
  /-- Error returned by `instance.NewBGPInstance`, if any. -/
  newBGPInstance : List Event → String → ServerParameters → Option GoError
  /-- Go `agent.NewAnnotationMap`. -/
  NewAnnotationMap : List (String × String) → Except GoError (GoMap Int Attributes)
  /-- Go `AnnotationMap.ResolveRouterID`. -/
  ResolveRouterID : GoMap Int Attributes → Int → Except GoError String
  /-- Go `ciliumNode.GetIP(false)`, printed. -/
  GetIP : CiliumNode → Option String
  /-- Go `option.Config.BGPRouterIDAllocationMode`. -/
  BGPRouterIDAllocationMode : String
  /-- Go `defaults.HostDevice`. -/
  HostDevice : String
  /-- Go `safenetlink.LinkByName(name)` followed by `Attrs().HardwareAddr`. -/
  LinkByName : String → Except GoError (Option (List Nat))
  /-- Go `net.ParseIP(s).To4() != nil`. -/
  ParseIPTo4 : String → Bool
  /-- Go `reconcileDiffV2.diff`, applied to the registry and the desired state. -/
  diff : reconcileDiffV2 → GoMap String Ptr → List BGPInstance → CiliumBGPNodeConfig →
    Except GoError reconcileDiffV2
  /-- Go `m.ConfigMode.Get()`; the mode is set by other components. -/
  ConfigModeGet : List Event → BGPConfigMode
  /-- Go `Router.GetPeerState(ctx)`, its `Peers`. -/
  GetPeerState : List Event → RouterRef → Except GoError (List BgpPeer)
  /-- Go `Router.GetRoutes(ctx, req)`, its `Routes`. -/
  GetRoutes : List Event → RouterRef → GetRoutesRequest → Except GoError (List Route)
  /-- Go `Router.GetRoutePolicies(ctx)`, its `Policies`. -/
  GetRoutePolicies : List Event → RouterRef → Except GoError (List RoutePolicy)
  /-- Go `types.ParseTableType`. -/
  ParseTableType : String → Nat
  /-- Go `types.TableTypeAdjRIBIn`. -/
  TableTypeAdjRIBIn : Nat
  /-- Go `types.TableTypeAdjRIBOut`. -/
  TableTypeAdjRIBOut : Nat
  /-- Go `api.ToAgentGetRoutesRequest`. -/
  ToAgentGetRoutesRequest : GetBgpRoutesParams → Except GoError GetRoutesRequest
  /-- Go `api.ToAPIRoutes`. -/
  ToAPIRoutes : List Route → Int → String → Except GoError (List BgpRoute)
  /-- Go `api.ToAPIRoutePolicies`. -/
  ToAPIRoutePolicies : List RoutePolicy → Int → List BgpRoutePolicy
  /-- Go `m.Reconcilers`, the BGPv1 reconcilers, fixed when the manager is built. -/
  Reconcilers : List ConfigReconcilerV1
  /-- Error returned by `instance.NewServerWithConfig`, if any. -/
  newServerWithConfig : List Event → ServerParameters → Option GoError

/-! ## The reconcile error table -/

/-- Go `table.List(txn, BGPReconcileErrorInstance.Query(instance))`. -/
def tableList (txn : List BGPReconcileError) (inst : String) : List BGPReconcileError :=
  txn.filter (fun r => decide (r.Instance = inst))

/-- Two records have the same primary key (instance, error id). -/
def sameKey (a b : BGPReconcileError) : Bool :=
  decide (a.Instance = b.Instance) && decide (a.ErrorID = b.ErrorID)

/-- Effect of a successful `Delete(txn, obj)`. -/
def tableDeleteObj (txn : List BGPReconcileError) (obj : BGPReconcileError) :
    List BGPReconcileError :=
  txn.filter (fun r => !(sameKey r obj))

/-- Effect of a successful `Insert(txn, obj)`. -/
def tableInsertObj (txn : List BGPReconcileError) (obj : BGPReconcileError) :
    List BGPReconcileError :=
  tableDeleteObj txn obj ++ [obj]

/-- Go `sort.Slice(reconcileErrs, ErrorID <)`. -/
def sortByErrorID (l : List BGPReconcileError) : List BGPReconcileError :=
  l.insertionSort (fun a b => a.ErrorID ≤ b.ErrorID)

/-- Go `getErrorsFromTable`. -/
def getErrorsFromTable (txn : List BGPReconcileError) (inst : String) : List GoError :=
  (sortByErrorID (tableList txn inst)).map (fun rErr => GoError.leaf rErr.Error false)

/-- The loop of `deleteErrorsFromTable` over the listed records: the first failing
`Delete` ends it with the wrapped error. -/
def deleteErrorsLoop (env : Env) :
    List BGPReconcileError → List Event → List BGPReconcileError →
      List Event × List BGPReconcileError × Option GoError
  | [], tr, txn => (tr, txn, none)
  | obj :: rest, tr, txn =>
    match env.tableDelete tr obj with
    | some err =>
      (tr ++ [Event.tableDelete obj], txn,
        some (Errorf_w "error deleting reconcile error from table: " (some err) ""))
    | none => deleteErrorsLoop env rest (tr ++ [Event.tableDelete obj]) (tableDeleteObj txn obj)

/-- Go `deleteErrorsFromTable`. -/
def deleteErrorsFromTable (env : Env) (tr : List Event) (txn : List BGPReconcileError)
    (inst : String) : List Event × List BGPReconcileError × Option GoError :=
  deleteErrorsLoop env (tableList txn inst) tr txn

/-- The inner loop of `errorsChanged`, once the lengths are equal. -/
def errorsChangedLoop : List GoError → List GoError → Bool
  | [], _ => false
  | _ :: _, [] => false
  | p :: ps, n :: ns => if p.Error ≠ n.Error then true else errorsChangedLoop ps ns

/-- Go `errorsChanged`. -/
def errorsChanged (prevErrs newErrs : List GoError) : Bool :=
  if prevErrs.length ≠ newErrs.length then true else errorsChangedLoop prevErrs newErrs

/-- The insert loop of `updateReconcilerErrors`, from index `i` on. -/
def insertErrorsLoop (env : Env) (inst : String) :
    List GoError → Nat → List Event → List BGPReconcileError →
      List Event × List BGPReconcileError × Option GoError
  | [], _, tr, txn => (tr, txn, none)
  | newErr :: rest, i, tr, txn =>
    let obj : BGPReconcileError := { Instance := inst, ErrorID := (i : Int), Error := newErr.Error }
    match env.tableInsert tr obj with
    | some err =>
      (tr ++ [Event.tableInsert obj], txn,
        some (Errorf_w "error inserting reconcile error into table: " (some err) ""))
    | none =>
      insertErrorsLoop env inst rest (i + 1) (tr ++ [Event.tableInsert obj]) (tableInsertObj txn obj)

/-- The truncation at the head of `updateReconcilerErrors`. -/
def truncateErrors (env : Env) (newErrors : List GoError) : List GoError :=
  if newErrors.length > env.BGPReconcileErrCountPerInstance then
    newErrors.take env.BGPReconcileErrCountPerInstance
  else newErrors

/-- Go `updateReconcilerErrors`: the writes of the transaction reach `m.table` only at
`txn.Commit()`; an early return runs the deferred `txn.Abort()`. -/
def updateReconcilerErrors (env : Env) (m : BGPRouterManager) (inst : String)
    (newErrors : List GoError) : BGPRouterManager × Option GoError :=
  let txn := m.table
  let newErrors := truncateErrors env newErrors
  let prevErrors := getErrorsFromTable txn inst
  if errorsChanged prevErrors newErrors then
    match deleteErrorsFromTable env m.trace txn inst with
    | (tr, _, some err) => ({ m with trace := tr }, some err)
    | (tr, txn1, none) =>
      match insertErrorsLoop env inst newErrors 0 tr txn1 with
      | (tr2, _, some err) => ({ m with trace := tr2 }, some err)
      | (tr2, txn2, none) => ({ m with trace := tr2, table := txn2 }, none)
  else (m, none)

/-! ## Reconciling one instance -/

/-- The loop of `reconcileBGPConfigV2` over the reconcilers from index `k` on: an error
is appended to `reconcileErrs`, and one matching `ErrAbortReconcile` breaks the loop. -/
def reconcileLoop (heap : List BGPInstance) (p : ReconcileParams) :
    List ConfigReconciler → Nat → List Event → List GoError → List Event × List GoError
  | [], _, tr, reconcileErrs => (tr, reconcileErrs)
  | r :: rest, k, tr, reconcileErrs =>
    match r.Reconcile tr heap p with
    | some rErr =>
      if rErr.IsAbortReconcile then
        (tr ++ [Event.reconcile k p], reconcileErrs ++ [rErr])
      else reconcileLoop heap p rest (k + 1) (tr ++ [Event.reconcile k p]) (reconcileErrs ++ [rErr])
    | none => reconcileLoop heap p rest (k + 1) (tr ++ [Event.reconcile k p]) reconcileErrs

/-- The assignment `i.Config = newc` through the pointer `i`. -/
def setConfig (heap : List BGPInstance) (i : Ptr) (newc : CiliumBGPNodeInstance) :
    List BGPInstance :=
  heap.modify (fun o => { o with Config := some newc }) i

/-- Go `reconcileBGPConfigV2`. -/
def reconcileBGPConfigV2 (env : Env) (m : BGPRouterManager) (i : Ptr)
    (newc : CiliumBGPNodeInstance) (ciliumNode : CiliumNode) :
    BGPRouterManager × Option GoError :=
  let params : ReconcileParams := { BGPInstance := i, DesiredConfig := newc, CiliumNode := ciliumNode }
  let (tr, reconcileErrs) := reconcileLoop m.heap params env.ConfigReconcilers 0 m.trace []
  let (m1, uErr) := updateReconcilerErrors env { m with trace := tr } newc.Name reconcileErrs
  let reconcileErrs := reconcileErrs.map some ++ [uErr]
  ({ m1 with heap := setConfig m1.heap i newc }, errorsJoin reconcileErrs)

/-! ## Withdrawal -/

/-- The calls `r.Cleanup(i)` for the `n` reconcilers of the chain. -/
def cleanupEvents (n : Nat) (i : Ptr) : List Event :=
  (List.range n).map (fun r => Event.cleanup r i)

/-- The call `close(notifCh)` when the name has a notification channel. -/
def closeEvents (notifications : GoMap String Nat) (name : String) : List Event :=
  match notifications.get name with
  | some notifCh => [Event.closeCh notifCh]
  | none => []

/-- The loop of `withdrawV2` over the names to withdraw; `txn` is the open write
transaction on the error table. A failed deletion of error records is only logged. -/
def withdrawLoop (env : Env) :
    List String → BGPRouterManager → List BGPReconcileError →
      BGPRouterManager × List BGPReconcileError
  | [], m, txn => (m, txn)
  | name :: rest, m, txn =>
    match m.BGPInstances.get name with
    | none => withdrawLoop env rest m txn
    | some i =>
      let tr := m.trace ++ cleanupEvents env.ConfigReconcilers.length i
        ++ [Event.cancelCtx i, Event.routerStop i m.destroyRouterOnStop]
        ++ closeEvents m.notifications name
      let del := deleteErrorsFromTable env tr txn name
      withdrawLoop env rest
        { m with
          BGPInstances := m.BGPInstances.delete name
          notifications := m.notifications.delete name
          trace := del.1 }
        del.2.1

/-- Go `withdrawV2`; the transaction is committed after the loop. -/
def withdrawV2 (env : Env) (m : BGPRouterManager) (rd : reconcileDiffV2) : BGPRouterManager :=
  let res := withdrawLoop env rd.withdraw m m.table
  { res.1 with table := res.2 }

/-- Go `withdrawAllV2`. -/
def withdrawAllV2 (env : Env) (m : BGPRouterManager) (rd : reconcileDiffV2) : BGPRouterManager :=
  if m.BGPInstances.length = 0 then m
  else withdrawV2 env m { rd with withdraw := rd.withdraw ++ m.BGPInstances.keys }

/-! ## Registration -/

/-- Go `getLocalASN`. -/
def getLocalASN (config : CiliumBGPNodeInstance) : Except GoError Int :=
  match config.LocalASN with
  | some asn => .ok asn
  | none => .error (GoError.leaf "missing ASN in desired config" false)

/-- Two hexadecimal digits of a byte. -/
def hexByte (b : Nat) : String :=
  String.mk [Nat.digitChar (b / 16 % 16), Nat.digitChar (b % 16)]

/-- Go `net.HardwareAddr.String()`. -/
def hardwareAddrString (mac : List Nat) : String :=
  ":".intercalate (mac.map hexByte)

/-- Go `macToRouterID`; the address is its list of bytes. -/
def macToRouterID (mac : List Nat) : Except GoError String :=
  let macLen := mac.length
  if macLen < 4 then
    .error (GoError.leaf ("MAC address too short: " ++ hardwareAddrString mac) false)
  else
    .ok (toString (mac.getD (macLen - 4) 0) ++ "." ++ toString (mac.getD (macLen - 3) 0) ++ "."
      ++ toString (mac.getD (macLen - 2) 0) ++ "." ++ toString (mac.getD (macLen - 1) 0))

/-- Go `calcRouterIDFromMacAddress`. -/
def calcRouterIDFromMacAddress (env : Env) : Except GoError String :=
  let hostDeviceName := env.HostDevice
  match env.LinkByName hostDeviceName with
  | .error err =>
    .error (Errorf_w ("failed to get device " ++ hostDeviceName ++ ": ") (some err) "")
  | .ok none => .error (GoError.leaf ("no MAC address found for device " ++ hostDeviceName) false)
  | .ok (some mac) =>
    match macToRouterID mac with
    | .error err =>
      .error (Errorf_w "failed to calculate router ID from MAC address: " (some err) "")
    | .ok routerID => .ok routerID

/-- Go `option.BGPRouterIDAllocationModeDefault`. -/
def BGPRouterIDAllocationModeDefault : String := "default"

/-- Go `option.BGPRouterIDAllocationModeIPPool`. -/
def BGPRouterIDAllocationModeIPPool : String := "ip-pool"

/-- Go `getRouterID`. -/
def getRouterID (env : Env) (config : CiliumBGPNodeInstance) (ciliumNode : CiliumNode)
    (asn : Int) : Except GoError String :=
  match config.RouterID with
  | some routerID => .ok routerID
  | none =>
    match env.NewAnnotationMap ciliumNode.Annotations with
    | .error err =>
      .error (Errorf_w ("failed to parse Node annotations for instance " ++ config.Name ++ ": ")
        (some err) "")
    | .ok annoMap =>
      match env.ResolveRouterID annoMap asn with
      | .ok routerID => .ok routerID
      | .error _ =>
        if env.BGPRouterIDAllocationMode = BGPRouterIDAllocationModeDefault then
          match env.GetIP ciliumNode with
          | some nodeIP => .ok nodeIP
          | none =>
            match calcRouterIDFromMacAddress env with
            | .error err => .error err
            | .ok routerID => .ok routerID
        else if env.BGPRouterIDAllocationMode = BGPRouterIDAllocationModeIPPool then
          match config.RouterID with
          | none => .error (GoError.leaf "can't find the router-id in the CiliumBGPNodeInstance" false)
          | some routerID =>
            if env.ParseIPTo4 routerID then .ok routerID
            else .error (GoError.leaf ("the router-id " ++ routerID ++ " is not a valid IPv4 address") false)
        else
          .error (GoError.leaf ("invalid router-id allocation mode: " ++ env.BGPRouterIDAllocationMode
            ++ " (supported modes: " ++ BGPRouterIDAllocationModeDefault ++ ", "
            ++ BGPRouterIDAllocationModeIPPool ++ ")") false)

/-- Go `getLocalPort`. -/
def getLocalPort (env : Env) (config : CiliumBGPNodeInstance) (ciliumNode : CiliumNode)
    (asn : Int) : Except GoError Int :=
  match config.LocalPort with
  | some port => .ok port
  | none =>
    match env.NewAnnotationMap ciliumNode.Annotations with
    | .error err =>
      .error (Errorf_w ("failed to parse Node annotations for instance " ++ config.Name ++ ": ")
        (some err) "")
    | .ok annoMap =>
      match annoMap.get asn with
      | some attrs => if attrs.LocalPort ≠ 0 then .ok attrs.LocalPort else .ok (-1)
      | none => .ok (-1)

/-- Modelled from the spec: `instance.NewBGPInstance` is declared outside manager.go. It
creates and starts the Router with the given parameters and returns a new instance whose
last-applied configuration is nil until the first reconciliation, or fails. -/
def NewBGPInstance (env : Env) (m : BGPRouterManager) (name : String)
    (params : ServerParameters) : BGPRouterManager × Except GoError Ptr :=
  match env.newBGPInstance m.trace name params with
  | some err => ({ m with trace := m.trace ++ [Event.newInstanceFailed name params] }, .error err)
  | none =>
    ({ m with
        heap := m.heap ++ [{ Name := name, Global := params.Global, Config := none }]
        trace := m.trace ++ [Event.newInstance m.heap.length name params] },
      .ok m.heap.length)

/-- The loop of `registerBGPInstance` initialising the reconcilers from index `k` on. -/
def initLoop (heap : List BGPInstance) (i : Ptr) :
    List ConfigReconciler → Nat → List Event → List Event × Option GoError
  | [], _, tr => (tr, none)
  | r :: rest, k, tr =>
    match r.Init tr heap i with
    | some err =>
      (tr ++ [Event.init k i], some (Errorf_w (r.Name ++ " reconciler initialization failed: ") (some err) ""))
    | none => initLoop heap i rest (k + 1) (tr ++ [Event.init k i])

/-- The second half of `registerBGPInstance`, from the comment "register with manager" on:
the created instance `i` and its notification channel `ch` are committed to the manager, the
consumer of the channel is started, the reconcilers are initialised and the configuration is
reconciled for the first time. -/
def commitBGPInstance (env : Env) (m1 : BGPRouterManager) (i : Ptr) (ch : Nat)
    (c : CiliumBGPNodeInstance) (ciliumNode : CiliumNode) : BGPRouterManager × Option GoError :=
  let m2 : BGPRouterManager :=
    { m1 with
      BGPInstances := m1.BGPInstances.set c.Name i
      notifications := m1.notifications.set c.Name ch
      trace := m1.trace ++ [Event.trackInstanceStateChange c.Name ch] }
  match initLoop m2.heap i env.ConfigReconcilers 0 m2.trace with
  | (tr, some err) => ({ m2 with trace := tr }, some err)
  | (tr, none) =>
    match reconcileBGPConfigV2 env { m2 with trace := tr } i c ciliumNode with
    | (m3, some err) =>
      (m3, some (Errorf_w "failed initial reconciliation of BGP instance: " (some err) ""))
    | (m3, none) => (m3, none)

/-- Go `registerBGPInstance`. -/
def registerBGPInstance (env : Env) (m : BGPRouterManager) (c : CiliumBGPNodeInstance)
    (ciliumNode : CiliumNode) : BGPRouterManager × Option GoError :=
  match getLocalASN c with
  | .error err => (m, some err)
  | .ok localASN =>
    match getLocalPort env c ciliumNode localASN with
    | .error err => (m, some err)
    | .ok localPort =>
      match getRouterID env c ciliumNode localASN with
      | .error err => (m, some err)
      | .ok routerID =>
        let globalConfig : ServerParameters :=
          { Global :=
              { ASN := (localASN % 2 ^ 32).toNat
                RouterID := routerID
                ListenPort := localPort
                AdvertiseInactiveRoutes := true }
            StateNotification := m.chans }
        match NewBGPInstance env { m with chans := m.chans + 1 } c.Name globalConfig with
        | (m1, .error err) => (m1, some (Errorf_w "failed to start BGP instance: " (some err) ""))
        | (m1, .ok i) => commitBGPInstance env m1 i globalConfig.StateNotification c ciliumNode

/-- The loop of `registerV2` over the names to register. -/
def registerLoop (env : Env) (rd : reconcileDiffV2) :
    List String → BGPRouterManager → List String → Option GoError →
      BGPRouterManager × List String × Option GoError
  | [], m, instancesWithError, lastErr => (m, instancesWithError, lastErr)
  | name :: rest, m, instancesWithError, lastErr =>
    match rd.seen.get name with
    | none =>
      registerLoop env rd rest m (instancesWithError ++ [name])
        (some (GoError.leaf "unseen instance" false))
    | some config =>
      match registerBGPInstance env m config rd.ciliumNode with
      | (m1, some rErr) => registerLoop env rd rest m1 (instancesWithError ++ [name]) (some rErr)
      | (m1, none) => registerLoop env rd rest m1 instancesWithError lastErr

/-- Go `registerV2`. -/
def registerV2 (env : Env) (m : BGPRouterManager) (rd : reconcileDiffV2) :
    BGPRouterManager × Option GoError :=
  match registerLoop env rd rd.register m [] none with
  | (m1, instancesWithError, lastErr) =>
    if instancesWithError.length > 0 then
      (m1, some (Errorf_w ("error registering new BGP instances: " ++ fmtStrings instancesWithError
        ++ " (last error: ") lastErr ")"))
    else (m1, none)

/-! ## Reconciling registered instances -/

/-- The loop of `reconcileV2` over the names to reconcile. -/
def reconcileV2Loop (env : Env) (rd : reconcileDiffV2) :
    List String → BGPRouterManager → List String → Option GoError →
      BGPRouterManager × List String × Option GoError
  | [], m, instancesWithError, lastErr => (m, instancesWithError, lastErr)
  | name :: rest, m, instancesWithError, lastErr =>
    match m.BGPInstances.get name with
    | none => reconcileV2Loop env rd rest m (instancesWithError ++ [name]) lastErr
    | some i =>
      match rd.seen.get name with
      | none => reconcileV2Loop env rd rest m (instancesWithError ++ [name]) lastErr
      | some newc =>
        match reconcileBGPConfigV2 env m i newc rd.ciliumNode with
        | (m1, some err) => reconcileV2Loop env rd rest m1 (instancesWithError ++ [name]) (some err)
        | (m1, none) => reconcileV2Loop env rd rest m1 instancesWithError lastErr

/-- Go `reconcileV2`. -/
def reconcileV2 (env : Env) (m : BGPRouterManager) (rd : reconcileDiffV2) :
    BGPRouterManager × Option GoError :=
  match reconcileV2Loop env rd rd.reconcile m [] none with
  | (m1, instancesWithError, lastErr) =>
    if instancesWithError.length > 0 then
      (m1, some (Errorf_w ("error reconciling BGP instances: " ++ fmtStrings instancesWithError
        ++ " (last error: ") lastErr ")"))
    else (m1, none)

/-! ## The entry points -/

/-- Modelled from the spec: `newReconcileDiffV2` is declared outside manager.go. It makes
the diff value of a pass, with no work in it yet and the node object it refers back to. -/
def newReconcileDiffV2 (ciliumNode : CiliumNode) : reconcileDiffV2 :=
  { seen := [], ciliumNode := ciliumNode, register := [], withdraw := [], reconcile := [] }

/-- Modelled from the spec: `reconcileDiffV2.empty` is declared outside manager.go. Per the
spec the diff is empty when it holds no work, that is when its three lists are empty. -/
def reconcileDiffV2.empty (rd : reconcileDiffV2) : Bool :=
  rd.register.length + rd.reconcile.length + rd.withdraw.length == 0

/-- The withdraw step of `ReconcileInstances`. -/
def withdrawPhase (env : Env) (m : BGPRouterManager) (rd : reconcileDiffV2) : BGPRouterManager :=
  if rd.withdraw.length > 0 then withdrawV2 env m rd else m

/-- The register step of `ReconcileInstances`, with the error joined so far. -/
def registerPhase (env : Env) (m : BGPRouterManager) (rd : reconcileDiffV2)
    (err : Option GoError) : BGPRouterManager × Option GoError :=
  if rd.register.length > 0 then
    ((registerV2 env m rd).1, errorsJoin [err, (registerV2 env m rd).2])
  else (m, err)

/-- The reconcile step of `ReconcileInstances`, with the error joined so far. -/
def reconcilePhase (env : Env) (m : BGPRouterManager) (rd : reconcileDiffV2)
    (err : Option GoError) : BGPRouterManager × Option GoError :=
  if rd.reconcile.length > 0 then
    ((reconcileV2 env m rd).1, errorsJoin [err, (reconcileV2 env m rd).2])
  else (m, err)

/-- Go `ReconcileInstances`; the lock makes the call atomic. -/
def ReconcileInstances (env : Env) (m : BGPRouterManager) (nodeObj : Option CiliumBGPNodeConfig)
    (ciliumNode : CiliumNode) : BGPRouterManager × Option GoError :=
  let rd := newReconcileDiffV2 ciliumNode
  match nodeObj with
  | none => (withdrawAllV2 env m rd, none)
  | some nodeObj =>
    match env.diff rd m.BGPInstances m.heap nodeObj with
    | .error err => (m, some err)
    | .ok rd =>
      if rd.empty then (m, none)
      else
        let m1 := withdrawPhase env m rd
        let r2 := registerPhase env m1 rd none
        reconcilePhase env r2.1 rd r2.2

/-- The loop of `Stop` over the BGPv2 instances. -/
def stopLoop (notifications : GoMap String Nat) (fullDestroy : Bool) :
    List (String × Ptr) → List Event → List Event
  | [], tr => tr
  | (name, i) :: rest, tr =>
    stopLoop notifications fullDestroy rest
      (tr ++ [Event.cancelCtx i, Event.routerStop i fullDestroy] ++ closeEvents notifications name)

/-- Go `Stop`. -/
def Stop (m : BGPRouterManager) : BGPRouterManager × Option GoError :=
  let tr := m.trace ++ m.Servers.map (fun s => Event.serverStop s.2 m.destroyRouterOnStop)
  let tr := stopLoop m.notifications m.destroyRouterOnStop m.BGPInstances tr
  ({ m with
      Servers := []
      BGPInstances := []
      notifications := []
      running := false
      trace := tr }, none)

/-! ## The read APIs -/

/-- The loop of `GetPeers` over the BGPv1 servers. -/
def getPeersV1Loop (env : Env) :
    List (Int × Ptr) → List Event → List BgpPeer → List Event × GoResult (List BgpPeer)
  | [], tr, res => (tr, .value res)
  | (_, s) :: rest, tr, res =>
    match env.GetPeerState tr (.server s) with
    | .error err => (tr ++ [Event.getPeerState (.server s)], .error err)
    | .ok peers => getPeersV1Loop env rest (tr ++ [Event.getPeerState (.server s)]) (res ++ peers)

/-- The loop of `GetPeers` over the BGPv2 instances. -/
def getPeersV2Loop (env : Env) :
    List (String × Ptr) → List Event → List BgpPeer → List Event × GoResult (List BgpPeer)
  | [], tr, res => (tr, .value res)
  | (_, i) :: rest, tr, res =>
    match env.GetPeerState tr (.router i) with
    | .error err => (tr ++ [Event.getPeerState (.router i)], .error err)
    | .ok peers => getPeersV2Loop env rest (tr ++ [Event.getPeerState (.router i)]) (res ++ peers)

/-- Go `GetPeers`; the manager comes back with the calls made added to its trace. -/
def GetPeers (env : Env) (m : BGPRouterManager) : BGPRouterManager × GoResult (List BgpPeer) :=
  if !m.running then
    (m, .error (GoError.leaf "bgp router manager is not running" false))
  else
    match env.ConfigModeGet m.trace with
    | .BGPv1 =>
      ({ m with trace := (getPeersV1Loop env m.Servers m.trace []).1 },
        (getPeersV1Loop env m.Servers m.trace []).2)
    | .BGPv2 =>
      ({ m with trace := (getPeersV2Loop env m.BGPInstances m.trace []).1 },
        (getPeersV2Loop env m.BGPInstances m.trace []).2)
    | _ => (m, .value [])

/-- The value of `neighbor` in `getRoutesFromServer` and `getRoutesFromInstance`. -/
def neighborOf (params : GetBgpRoutesParams) : String :=
  match params.Neighbor with
  | some n => n
  | none => ""

/-- Go `getRoutesFromServer`; `sc.Config` is dereferenced after the call of the Router. -/
def getRoutesFromServer (env : Env) (serverHeap : List ServerWithConfig) (tr : List Event)
    (sc : Ptr) (params : GetBgpRoutesParams) : List Event × GoResult (List BgpRoute) :=
  match env.ToAgentGetRoutesRequest params with
  | .error err => (tr, .error err)
  | .ok req =>
    match env.GetRoutes tr (.server sc) req with
    | .error err => (tr ++ [Event.getRoutes (.server sc) req], .error err)
    | .ok routes =>
      match (serverHeap[sc]?).bind (fun s => s.Config) with
      | none => (tr ++ [Event.getRoutes (.server sc) req], .panic)
      | some config =>
        match env.ToAPIRoutes routes config.LocalASN (neighborOf params) with
        | .error err => (tr ++ [Event.getRoutes (.server sc) req], .error err)
        | .ok routes => (tr ++ [Event.getRoutes (.server sc) req], .value routes)

/-- The loop of `getRoutesV1` over the peers of one server; `params.Neighbor` is assigned at
each turn and the parameters are handed back. -/
def getRoutesV1Peers (env : Env) (serverHeap : List ServerWithConfig) (s : Ptr) :
    List BgpPeer → GetBgpRoutesParams → List Event → List BgpRoute →
      GetBgpRoutesParams × List Event × GoResult (List BgpRoute)
  | [], params, tr, res => (params, tr, .value res)
  | peer :: rest, params, tr, res =>
    match getRoutesFromServer env serverHeap tr s { params with Neighbor := some peer.PeerAddress } with
    | (tr1, .value routes) =>
      getRoutesV1Peers env serverHeap s rest { params with Neighbor := some peer.PeerAddress } tr1
        (res ++ routes)
    | (tr1, .error err) => ({ params with Neighbor := some peer.PeerAddress }, tr1, .error err)
    | (tr1, .panic) => ({ params with Neighbor := some peer.PeerAddress }, tr1, .panic)

/-- The loop of `getRoutesV1` over the servers. -/
def getRoutesV1Loop (env : Env) (serverHeap : List ServerWithConfig) (allPeers : Bool) :
    List (Int × Ptr) → GetBgpRoutesParams → List Event → List BgpRoute →
      List Event × GoResult (List BgpRoute)
  | [], _, tr, res => (tr, .value res)
  | (_, s) :: rest, params, tr, res =>
    match (match params.RouterAsn with
      | none => some false
      | some asn =>
        match (serverHeap[s]?).bind (fun sc => sc.Config) with
        | none => none
        | some config => some (decide (asn ≠ config.LocalASN))) with
    | none => (tr, .panic)
    | some true => getRoutesV1Loop env serverHeap allPeers rest params tr res
    | some false =>
      if allPeers then
        match env.GetPeerState tr (.server s) with
        | .error err => (tr ++ [Event.getPeerState (.server s)], .error err)
        | .ok peers =>
          match getRoutesV1Peers env serverHeap s peers params
              (tr ++ [Event.getPeerState (.server s)]) res with
          | (params1, tr1, .value res1) =>
            getRoutesV1Loop env serverHeap allPeers rest params1 tr1 res1
          | (_, tr1, .error err) => (tr1, .error err)
          | (_, tr1, .panic) => (tr1, .panic)
      else
        match getRoutesFromServer env serverHeap tr s params with
        | (tr1, .value routes) =>
          getRoutesV1Loop env serverHeap allPeers rest params tr1 (res ++ routes)
        | (tr1, .error err) => (tr1, .error err)
        | (tr1, .panic) => (tr1, .panic)

/-- The value of `allPeers` in `getRoutesV1` and `getRoutesV2`: the table is an adj-rib and no
neighbor is given. -/
def allPeersOf (env : Env) (params : GetBgpRoutesParams) : Bool :=
  (env.ParseTableType params.TableType == env.TableTypeAdjRIBIn
      || env.ParseTableType params.TableType == env.TableTypeAdjRIBOut)
    && (params.Neighbor == none || params.Neighbor == some "")

/-- Go `getRoutesV1`. -/
def getRoutesV1 (env : Env) (m : BGPRouterManager) (params : GetBgpRoutesParams) :
    List Event × GoResult (List BgpRoute) :=
  let validated :=
    if params.Neighbor.isSome && decide (m.Servers.length > 1) && params.RouterAsn.isNone then
      (m.trace, .error (GoError.leaf
        "multiple virtual routers configured, router ASN must be specified" false))
    else
      getRoutesV1Loop env m.serverHeap (allPeersOf env params) m.Servers params m.trace []
  match params.RouterAsn with
  | none => validated
  | some asn =>
    match m.Servers.get asn with
    | none =>
      (m.trace, .error (GoError.leaf ("virtual router with ASN " ++ toString asn
        ++ " does not exist") false))
    | some _ => validated

/-- Go `getRoutesFromInstance`; `none` of the configuration is the nil dereference of
`i.Config`. -/
def getRoutesFromInstance (env : Env) (heap : List BGPInstance) (tr : List Event) (i : Ptr)
    (params : GetBgpRoutesParams) : List Event × GoResult (List BgpRoute) :=
  match (heap[i]?).bind (fun o => o.Config) with
  | none => (tr, .panic)
  | some config =>
    match config.LocalASN with
    | none => (tr, .error (GoError.leaf "local ASN not set for instance" false))
    | some localASN =>
      match env.ToAgentGetRoutesRequest params with
      | .error err => (tr, .error err)
      | .ok req =>
        match env.GetRoutes tr (.router i) req with
        | .error err => (tr ++ [Event.getRoutes (.router i) req], .error err)
        | .ok routes =>
          match env.ToAPIRoutes routes localASN (neighborOf params) with
          | .error err => (tr ++ [Event.getRoutes (.router i) req], .error err)
          | .ok routes => (tr ++ [Event.getRoutes (.router i) req], .value routes)

/-- The loop of `asnExistsInInstances`; `none` is the nil dereference of `instance.Config`. -/
def asnExistsLoop (heap : List BGPInstance) : List (String × Ptr) → Int → Option Bool
  | [], _ => some false
  | (_, i) :: rest, asn =>
    match (heap[i]?).bind (fun o => o.Config) with
    | none => none
    | some config =>
      match config.LocalASN with
      | some localASN => if localASN = asn then some true else asnExistsLoop heap rest asn
      | none => asnExistsLoop heap rest asn

/-- Go `asnExistsInInstances`. -/
def asnExistsInInstances (m : BGPRouterManager) (asn : Int) : Option Bool :=
  asnExistsLoop m.heap m.BGPInstances asn

/-- The test `params.RouterAsn != nil && i.Config.LocalASN != nil &&
*params.RouterAsn != *i.Config.LocalASN` of `getRoutesV2` and `getRoutePoliciesV2`; `none` is
the nil dereference of `i.Config`. -/
def skipInstance (heap : List BGPInstance) (routerAsn : Option Int) (i : Ptr) : Option Bool :=
  match routerAsn with
  | none => some false
  | some asn =>
    match (heap[i]?).bind (fun o => o.Config) with
    | none => none
    | some config =>
      match config.LocalASN with
      | none => some false
      | some localASN => some (decide (asn ≠ localASN))

/-- The loop of `getRoutesV2` over the peers of one instance; `params.Neighbor` is assigned at
each turn and the parameters are handed back. -/
def getRoutesV2Peers (env : Env) (heap : List BGPInstance) (i : Ptr) :
    List BgpPeer → GetBgpRoutesParams → List Event → List BgpRoute →
      GetBgpRoutesParams × List Event × GoResult (List BgpRoute)
  | [], params, tr, res => (params, tr, .value res)
  | peer :: rest, params, tr, res =>
    match getRoutesFromInstance env heap tr i { params with Neighbor := some peer.PeerAddress } with
    | (tr1, .value routes) =>
      getRoutesV2Peers env heap i rest { params with Neighbor := some peer.PeerAddress } tr1
        (res ++ routes)
    | (tr1, .error err) => ({ params with Neighbor := some peer.PeerAddress }, tr1, .error err)
    | (tr1, .panic) => ({ params with Neighbor := some peer.PeerAddress }, tr1, .panic)

/-- The loop of `getRoutesV2` over the instances. -/
def getRoutesV2Loop (env : Env) (heap : List BGPInstance) (allPeers : Bool) :
    List (String × Ptr) → GetBgpRoutesParams → List Event → List BgpRoute →
      List Event × GoResult (List BgpRoute)
  | [], _, tr, res => (tr, .value res)
  | (_, i) :: rest, params, tr, res =>
    match skipInstance heap params.RouterAsn i with
    | none => (tr, .panic)
    | some true => getRoutesV2Loop env heap allPeers rest params tr res
    | some false =>
      if allPeers then
        match env.GetPeerState tr (.router i) with
        | .error err => (tr ++ [Event.getPeerState (.router i)], .error err)
        | .ok peers =>
          match getRoutesV2Peers env heap i peers params
              (tr ++ [Event.getPeerState (.router i)]) res with
          | (params1, tr1, .value res1) => getRoutesV2Loop env heap allPeers rest params1 tr1 res1
          | (_, tr1, .error err) => (tr1, .error err)
          | (_, tr1, .panic) => (tr1, .panic)
      else
        match getRoutesFromInstance env heap tr i params with
        | (tr1, .value routes) => getRoutesV2Loop env heap allPeers rest params tr1 (res ++ routes)
        | (tr1, .error err) => (tr1, .error err)
        | (tr1, .panic) => (tr1, .panic)

/-- Go `getRoutesV2`. -/
def getRoutesV2 (env : Env) (m : BGPRouterManager) (params : GetBgpRoutesParams) :
    List Event × GoResult (List BgpRoute) :=
  let validated :=
    if params.Neighbor.isSome && decide (m.BGPInstances.length > 1) && params.RouterAsn.isNone then
      (m.trace, .error (GoError.leaf
        "multiple virtual routers configured, router ASN must be specified" false))
    else
      getRoutesV2Loop env m.heap (allPeersOf env params) m.BGPInstances params m.trace []
  match params.RouterAsn with
  | none => validated
  | some asn =>
    match asnExistsInInstances m asn with
    | none => (m.trace, .panic)
    | some false =>
      (m.trace, .error (GoError.leaf ("virtual router with ASN " ++ toString asn
        ++ " does not exist") false))
    | some true => validated

/-- Go `GetRoutes`; the manager comes back with the calls made added to its trace. -/
def GetRoutes (env : Env) (m : BGPRouterManager) (params : GetBgpRoutesParams) :
    BGPRouterManager × GoResult (List BgpRoute) :=
  if !m.running then
    (m, .error (GoError.leaf "bgp router manager is not running" false))
  else
    match env.ConfigModeGet m.trace with
    | .BGPv1 => ({ m with trace := (getRoutesV1 env m params).1 }, (getRoutesV1 env m params).2)
    | .BGPv2 => ({ m with trace := (getRoutesV2 env m params).1 }, (getRoutesV2 env m params).2)
    | _ => (m, .value [])

/-- The loop of `getRoutePoliciesV1` over the servers; `s.Config` is dereferenced in the test
of the router ASN and after the call of the Router. -/
def getRoutePoliciesV1Loop (env : Env) (serverHeap : List ServerWithConfig)
    (routerAsn : Option Int) :
    List (Int × Ptr) → List Event → List BgpRoutePolicy →
      List Event × GoResult (List BgpRoutePolicy)
  | [], tr, res => (tr, .value res)
  | (_, s) :: rest, tr, res =>
    match (match routerAsn with
      | none => some false
      | some asn =>
        match (serverHeap[s]?).bind (fun sc => sc.Config) with
        | none => none
        | some config => some (decide (asn ≠ config.LocalASN))) with
    | none => (tr, .panic)
    | some true => getRoutePoliciesV1Loop env serverHeap routerAsn rest tr res
    | some false =>
      match env.GetRoutePolicies tr (.server s) with
      | .error err => (tr ++ [Event.getRoutePolicies (.server s)], .error err)
      | .ok policies =>
        match (serverHeap[s]?).bind (fun sc => sc.Config) with
        | none => (tr ++ [Event.getRoutePolicies (.server s)], .panic)
        | some config =>
          getRoutePoliciesV1Loop env serverHeap routerAsn rest
            (tr ++ [Event.getRoutePolicies (.server s)])
            (res ++ env.ToAPIRoutePolicies policies config.LocalASN)

/-- Go `getRoutePoliciesV1`. -/
def getRoutePoliciesV1 (env : Env) (m : BGPRouterManager) (params : GetBgpRoutePoliciesParams) :
    List Event × GoResult (List BgpRoutePolicy) :=
  match params.RouterAsn with
  | none => getRoutePoliciesV1Loop env m.serverHeap params.RouterAsn m.Servers m.trace []
  | some asn =>
    match m.Servers.get asn with
    | none =>
      (m.trace, .error (GoError.leaf ("virtual router with ASN " ++ toString asn
        ++ " does not exist") false))
    | some _ => getRoutePoliciesV1Loop env m.serverHeap params.RouterAsn m.Servers m.trace []

/-- The loop of `getRoutePoliciesV2` over the instances; `*i.Config.LocalASN` is dereferenced
after the call of the Router. -/
def getRoutePoliciesV2Loop (env : Env) (heap : List BGPInstance) (routerAsn : Option Int) :
    List (String × Ptr) → List Event → List BgpRoutePolicy →
      List Event × GoResult (List BgpRoutePolicy)
  | [], tr, res => (tr, .value res)
  | (_, i) :: rest, tr, res =>
    match skipInstance heap routerAsn i with
    | none => (tr, .panic)
    | some true => getRoutePoliciesV2Loop env heap routerAsn rest tr res
    | some false =>
      match env.GetRoutePolicies tr (.router i) with
      | .error err => (tr ++ [Event.getRoutePolicies (.router i)], .error err)
      | .ok policies =>
        match ((heap[i]?).bind (fun o => o.Config)).bind (fun c => c.LocalASN) with
        | none => (tr ++ [Event.getRoutePolicies (.router i)], .panic)
        | some localASN =>
          getRoutePoliciesV2Loop env heap routerAsn rest
            (tr ++ [Event.getRoutePolicies (.router i)])
            (res ++ env.ToAPIRoutePolicies policies localASN)

/-- Go `getRoutePoliciesV2`. -/
def getRoutePoliciesV2 (env : Env) (m : BGPRouterManager) (params : GetBgpRoutePoliciesParams) :
    List Event × GoResult (List BgpRoutePolicy) :=
  match params.RouterAsn with
  | none => getRoutePoliciesV2Loop env m.heap params.RouterAsn m.BGPInstances m.trace []
  | some asn =>
    match asnExistsInInstances m asn with
    | none => (m.trace, .panic)
    | some false =>
      (m.trace, .error (GoError.leaf ("virtual router with ASN " ++ toString asn
        ++ " does not exist") false))
    | some true => getRoutePoliciesV2Loop env m.heap params.RouterAsn m.BGPInstances m.trace []

/-- Go `GetRoutePolicies`; the manager comes back with the calls made added to its trace. -/
def GetRoutePolicies (env : Env) (m : BGPRouterManager) (params : GetBgpRoutePoliciesParams) :
    BGPRouterManager × GoResult (List BgpRoutePolicy) :=
  if !m.running then
    (m, .error (GoError.leaf "bgp router manager is not running" false))
  else
    match env.ConfigModeGet m.trace with
    | .BGPv1 =>
      ({ m with trace := (getRoutePoliciesV1 env m params).1 },
        (getRoutePoliciesV1 env m params).2)
    | .BGPv2 =>
      ({ m with trace := (getRoutePoliciesV2 env m params).1 },
        (getRoutePoliciesV2 env m params).2)
    | _ => (m, .value [])

/-! ## Registration of a BGPv1 server -/

/-- The loop of `reconcileBGPConfig` over the BGPv1 reconcilers from index `k` on: the first
error ends it. -/
def reconcileLoopV1 (heap : List ServerWithConfig) (sc : Ptr) (newc : CiliumBGPVirtualRouter)
    (ciliumNode : CiliumNode) :
    List ConfigReconcilerV1 → Nat → List Event → List Event × Option GoError
  | [], _, tr => (tr, none)
  | r :: rest, k, tr =>
    match r.Reconcile tr heap sc newc ciliumNode with
    | some err =>
      (tr ++ [Event.reconcileServer k sc newc ciliumNode],
        some (Errorf_w ("reconciliation of virtual router with local ASN "
          ++ toString newc.LocalASN ++ " failed: ") (some err) ""))
    | none =>
      reconcileLoopV1 heap sc newc ciliumNode rest (k + 1)
        (tr ++ [Event.reconcileServer k sc newc ciliumNode])

/-- Go `reconcileBGPConfig`: `sc.Config` is written only when every reconciler succeeded. -/
def reconcileBGPConfig (env : Env) (m : BGPRouterManager) (sc : Ptr)
    (newc : CiliumBGPVirtualRouter) (ciliumNode : CiliumNode) :
    BGPRouterManager × Option GoError :=
  if (match (m.serverHeap[sc]?).bind (fun s => s.Config) with
      | some cur => decide (cur.LocalASN ≠ newc.LocalASN)
      | none => false) then
    (m, some (GoError.leaf "cannot reconcile two BgpServers with different local ASNs" false))
  else
    match reconcileLoopV1 m.serverHeap sc newc ciliumNode env.Reconcilers 0 m.trace with
    | (tr, some err) => ({ m with trace := tr }, some err)
    | (tr, none) =>
      ({ m with
          trace := tr
          serverHeap := m.serverHeap.modify (fun s => { s with Config := some newc }) sc },
        none)

/-- The server made by `instance.NewServerWithConfig`, which is declared outside manager.go:
it carries the ASN of its parameters and, as the comment of `reconcileBGPConfig` has it for a
server that was never configured, a nil `Config`. -/
def NewServerWithConfig (env : Env) (m : BGPRouterManager) (params : ServerParameters) :
    BGPRouterManager × Except GoError Ptr :=
  match env.newServerWithConfig m.trace params with
  | some err => ({ m with trace := m.trace ++ [Event.newServerFailed params] }, .error err)
  | none =>
    ({ m with
        serverHeap := m.serverHeap ++ [{ ASN := params.Global.ASN, Config := none }]
        trace := m.trace ++ [Event.newServer m.serverHeap.length params] },
      .ok m.serverHeap.length)

/-- The loop of `registerBGPServer` initialising the BGPv1 reconcilers from index `k` on. -/
def initLoopV1 (heap : List ServerWithConfig) (s : Ptr) :
    List ConfigReconcilerV1 → Nat → List Event → List Event × Option GoError
  | [], _, tr => (tr, none)
  | r :: rest, k, tr =>
    match r.Init tr heap s with
    | some err =>
      (tr ++ [Event.initServer k s],
        some (Errorf_w (r.Name ++ " reconciler initialization failed: ") (some err) ""))
    | none => initLoopV1 heap s rest (k + 1) (tr ++ [Event.initServer k s])

/-- The second half of `registerBGPServer`, from the assignment `m.Servers[c.LocalASN] = s`
on. -/
def commitBGPServer (env : Env) (m1 : BGPRouterManager) (s : Ptr) (c : CiliumBGPVirtualRouter)
    (ciliumNode : CiliumNode) : BGPRouterManager × Option GoError :=
  let m2 : BGPRouterManager := { m1 with Servers := m1.Servers.set c.LocalASN s }
  match initLoopV1 m2.serverHeap s env.Reconcilers 0 m2.trace with
  | (tr, some err) => ({ m2 with trace := tr }, some err)
  | (tr, none) =>
    match reconcileBGPConfig env { m2 with trace := tr } s c ciliumNode with
    | (m3, some err) =>
      (m3, some (Errorf_w ("failed initial reconciliation for peer config with local ASN "
        ++ toString c.LocalASN ++ ": ") (some err) ""))
    | (m3, none) => (m3, none)

/-- The local port of `registerBGPServer`: from the annotations when they give one that is
not zero, else -1. -/
def localPortV1 (annoMap : GoMap Int Attributes) (c : CiliumBGPVirtualRouter) : Int :=
  match annoMap.get c.LocalASN with
  | some attrs => if attrs.LocalPort ≠ 0 then attrs.LocalPort else -1
  | none => -1

/-- The router ID of `registerBGPServer`: from the annotations, else the IP of the node. -/
def routerIDV1 (env : Env) (annoMap : GoMap Int Attributes) (c : CiliumBGPVirtualRouter)
    (ciliumNode : CiliumNode) : Except GoError String :=
  match env.ResolveRouterID annoMap c.LocalASN with
  | .ok routerID => .ok routerID
  | .error err =>
    match env.GetIP ciliumNode with
    | none => .error (Errorf_w "failed to get ciliumnode IP <nil>: " (some err) "")
    | some nodeIP => .ok nodeIP

/-- Go `registerBGPServer`. -/
def registerBGPServer (env : Env) (m : BGPRouterManager) (c : CiliumBGPVirtualRouter)
    (ciliumNode : CiliumNode) : BGPRouterManager × Option GoError :=
  match env.NewAnnotationMap ciliumNode.Annotations with
  | .error err =>
    (m, some (Errorf_w "unable to parse local node's annotations: " (some err) ""))
  | .ok annoMap =>
    let localPort : Int := localPortV1 annoMap c
    match routerIDV1 env annoMap c ciliumNode with
    | .error err => (m, some err)
    | .ok routerID =>
      let globalConfig : ServerParameters :=
        { Global :=
            { ASN := (c.LocalASN % 2 ^ 32).toNat
              RouterID := routerID
              ListenPort := localPort
              AdvertiseInactiveRoutes := true }
          StateNotification := 0 }
      match NewServerWithConfig env m globalConfig with
      | (m1, .error err) =>
        (m1, some (Errorf_w ("failed to start BGP server for config with local ASN "
          ++ toString c.LocalASN ++ ": ") (some err) ""))
      | (m1, .ok s) => commitBGPServer env m1 s c ciliumNode

/-- The manager built by `NewBGPRouterManager`, before any call. -/
def NewBGPRouterManager : BGPRouterManager :=
  { Servers := [], serverHeap := [], BGPInstances := [], notifications := [], heap := [],
    chans := 0,
    table := [], running := true, destroyRouterOnStop := false, trace := [] }

/-- A call made on the manager by its owner. -/
inductive Op where
  | reconcileInstances (nodeObj : Option CiliumBGPNodeConfig) (ciliumNode : CiliumNode)
  | stop
  | destroyRouterOnStop (destroy : Bool)

/-- One call; the returned error is dropped. -/
def step (env : Env) (m : BGPRouterManager) : Op → BGPRouterManager
  | .reconcileInstances nodeObj ciliumNode => (ReconcileInstances env m nodeObj ciliumNode).1
  | .stop => (Stop m).1
  | .destroyRouterOnStop destroy => { m with destroyRouterOnStop := destroy }

/-- A sequence of calls, serialised by the manager lock. -/
def runOps (env : Env) (m : BGPRouterManager) (ops : List Op) : BGPRouterManager :=
  ops.foldl (step env) m

/-! ## Specification vocabulary -/

/-- The records mirroring the messages `msgs` for `inst`, numbered from `k`. -/
def errorRecords (inst : String) : Nat → List String → List BGPReconcileError
  | _, [] => []
  | k, msg :: rest =>
    { Instance := inst, ErrorID := (k : Int), Error := msg } :: errorRecords inst (k + 1) rest

/-- The event is a `Delete` or an `Insert` on the error table. -/
def Event.isTableOp : Event → Bool
  | .tableInsert _ => true
  | .tableDelete _ => true
  | _ => false

/-- The stored records of every instance mirror some list of messages. -/
def TableInv (table : List BGPReconcileError) : Prop :=
  ∀ inst, ∃ msgs, tableList table inst = errorRecords inst 0 msgs

/-- A sequence of `updateReconcilerErrors` calls, each for an instance and an error list. -/
def runUpdates (env : Env) (m : BGPRouterManager) (calls : List (String × List GoError)) :
    BGPRouterManager :=
  calls.foldl (fun st c => (updateReconcilerErrors env st c.1 c.2).1) m

/-- The error list of the most recent call for `inst`, if there was one. -/
def lastErrorsFor (inst : String) : List (String × List GoError) → Option (List GoError)
  | [] => none
  | c :: rest =>
    match lastErrorsFor inst rest with
    | some errs => some errs
    | none => if c.1 = inst then some c.2 else none

/-- Modelled from the spec: `reconcileDiffV2.diff` is declared outside manager.go. Per the
spec, `register` holds the desired names absent from the registry, `withdraw` the registered
names absent from the desired state, `reconcile` the names present in both whose desired
configuration differs from the last-applied one, and `seen` maps every desired name to its
configuration. -/
def reconcileDiffV2.diff (rd : reconcileDiffV2) (registry : GoMap String Ptr)
    (heap : List BGPInstance) (desired : CiliumBGPNodeConfig) : Except GoError reconcileDiffV2 :=
  .ok { rd with
    seen := desired.BGPInstances.foldl (fun s c => s.set c.Name c) rd.seen
    register := rd.register ++
      (desired.BGPInstances.filter (fun c => (registry.get c.Name).isNone)).map (fun c => c.Name)
    reconcile := rd.reconcile ++
      (desired.BGPInstances.filter (fun c =>
        match registry.get c.Name with
        | some i => decide ((heap.get? i).bind (fun o => o.Config) ≠ some c)
        | none => false)).map (fun c => c.Name)
    withdraw := rd.withdraw ++
      registry.keys.filter (fun n => desired.BGPInstances.all (fun c => decide (c.Name ≠ n))) }

/-- The event is one of the calls made when an instance is withdrawn. -/
def Event.isWithdrawKind : Event → Bool
  | .cleanup _ _ => true
  | .cancelCtx _ => true
  | .routerStop _ _ => true
  | .closeCh _ => true
  | .tableDelete _ => true
  | _ => false

/-- The event is one of the calls made when an instance is registered and first configured. -/
def Event.isRegisterKind : Event → Bool
  | .newInstance _ _ _ => true
  | .newInstanceFailed _ _ => true
  | .trackInstanceStateChange _ _ => true
  | .init _ _ => true
  | .reconcile _ _ => true
  | .tableInsert _ => true
  | .tableDelete _ => true
  | _ => false

/-- The event is one of the calls made when a registered instance is reconciled. -/
def Event.isReconcileKind : Event → Bool
  | .reconcile _ _ => true
  | .tableInsert _ => true
  | .tableDelete _ => true
  | _ => false

/-- The event is the creation of a Router, successful or not. -/
def Event.isNewInstance : Event → Bool
  | .newInstance _ _ _ => true
  | .newInstanceFailed _ _ => true
  | _ => false

/-- The event is a `Router.Stop`. -/
def Event.isRouterStop : Event → Bool
  | .routerStop _ _ => true
  | _ => false

/-- With `k = true`: the event is `Router.Stop` on the instance `p`; with `k = false`: the
event is `CancelCtx` on the instance `p`. -/
def Event.isKillOf (k : Bool) (p : Ptr) : Event → Bool
  | .routerStop i _ => k && decide (i = p)
  | .cancelCtx i => !k && decide (i = p)
  | _ => false

/-- How many times the Router of instance `p` was stopped. -/
def routerStops (p : Ptr) (tr : List Event) : Nat := tr.countP (Event.isKillOf true p)

/-- How many times the context of instance `p` was canceled. -/
def ctxCancels (p : Ptr) (tr : List Event) : Nat := tr.countP (Event.isKillOf false p)

/-- The instance whose teardown the event is part of (`Cleanup`, `CancelCtx`, `Router.Stop`). -/
def Event.withdrawnPtr : Event → Option Ptr
  | .cleanup _ i => some i
  | .cancelCtx i => some i
  | .routerStop i _ => some i
  | _ => none

/-- The calls made to tear down the instance `i` registered as `name`, before the deletion of
its error records. -/
def teardownEvents (n : Nat) (fullDestroy : Bool) (notifications : GoMap String Nat)
    (name : String) (i : Ptr) : List Event :=
  cleanupEvents n i ++ [Event.cancelCtx i, Event.routerStop i fullDestroy]
    ++ closeEvents notifications name

/-- The invariant behind single teardown: registered instances are allocated and pairwise
distinct, no `Router.Stop` or `CancelCtx` was ever issued for a registered instance or for an
instance not yet allocated, none was issued twice for any instance, and every notification
entry belongs to a registered name. -/
structure Inv (m : BGPRouterManager) : Prop where
  allocated : ∀ e ∈ m.BGPInstances, e.2 < m.heap.length
  distinct : (m.BGPInstances.map Prod.snd).Nodup
  atMostOnce : ∀ k p, m.trace.countP (Event.isKillOf k p) ≤ 1
  live : ∀ e ∈ m.BGPInstances, ∀ k, m.trace.countP (Event.isKillOf k e.2) = 0
  fresh : ∀ p, m.heap.length ≤ p → ∀ k, m.trace.countP (Event.isKillOf k p) = 0
  notif : ∀ e ∈ m.notifications, (m.BGPInstances.get e.1).isSome = true

/-- The manager after the turn of `name` in the register loop, taken in state `m`. -/
def registerTurn (env : Env) (rd : reconcileDiffV2) (m : BGPRouterManager) (name : String) :
    BGPRouterManager :=
  match rd.seen.get name with
  | none => m
  | some config => (registerBGPInstance env m config rd.ciliumNode).1

/-- The cause of the failure of the turn of `name` in the register loop, taken in state `m`;
nil when the turn succeeds. -/
def registerFailure (env : Env) (rd : reconcileDiffV2) (m : BGPRouterManager) (name : String) :
    Option GoError :=
  match rd.seen.get name with
  | none => some (GoError.leaf "unseen instance" false)
  | some config => (registerBGPInstance env m config rd.ciliumNode).2

/-- The manager after the register loop has gone through `names`, started in state `m`. -/
def registerState (env : Env) (rd : reconcileDiffV2) (m : BGPRouterManager)
    (names : List String) : BGPRouterManager :=
  (registerLoop env rd names m [] none).1

/-- The names of `names` whose turn in the register loop fails, each with the cause of its
failure, in the order of the list. -/
def registerFailures (env : Env) (rd : reconcileDiffV2) :
    List String → BGPRouterManager → List (String × GoError)
  | [], _ => []
  | name :: rest, m =>
    match registerFailure env rd m name with
    | some err => (name, err) :: registerFailures env rd rest (registerTurn env rd m name)
    | none => registerFailures env rd rest (registerTurn env rd m name)

/-- The manager after the turn of `name` in the reconcile loop, taken in state `m`. -/
def reconcileTurn (env : Env) (rd : reconcileDiffV2) (m : BGPRouterManager) (name : String) :
    BGPRouterManager :=
  match m.BGPInstances.get name, rd.seen.get name with
  | some i, some newc => (reconcileBGPConfigV2 env m i newc rd.ciliumNode).1
  | _, _ => m

/-- The failure of the turn of `name` in the reconcile loop, taken in state `m`: nil when the
turn succeeds, `some none` when the name is missing from the registry or from the seen map
(a failure without cause), `some (some err)` when the reconciliation returns `err`. -/
def reconcileFailure (env : Env) (rd : reconcileDiffV2) (m : BGPRouterManager) (name : String) :
    Option (Option GoError) :=
  match m.BGPInstances.get name, rd.seen.get name with
  | some i, some newc =>
    match (reconcileBGPConfigV2 env m i newc rd.ciliumNode).2 with
    | some err => some (some err)
    | none => none
  | _, _ => some none

/-- The manager after the reconcile loop has gone through `names`, started in state `m`. -/
def reconcileState (env : Env) (rd : reconcileDiffV2) (m : BGPRouterManager)
    (names : List String) : BGPRouterManager :=
  (reconcileV2Loop env rd names m [] none).1

/-- The names of `names` whose turn in the reconcile loop fails, each with the cause of its
failure if it has one, in the order of the list. -/
def reconcileFailures (env : Env) (rd : reconcileDiffV2) :
    List String → BGPRouterManager → List (String × Option GoError)
  | [], _ => []
  | name :: rest, m =>
    match reconcileFailure env rd m name with
    | some cause => (name, cause) :: reconcileFailures env rd rest (reconcileTurn env rd m name)
    | none => reconcileFailures env rd rest (reconcileTurn env rd m name)

mutual
/-- The error `t` is wrapped in the error: it is reached by following `Unwrap() error` and
`Unwrap() []error`, as `errors.Is` does. -/
def GoError.Wraps : GoError → GoError → Prop
  | .leaf _ _, _ => False
  | .wrap _ c, t => c = t ∨ c.Wraps t
  | .join es, t => GoError.anyWraps es t
/-- A member of the list is `t` or wraps `t`. -/
def GoError.anyWraps : List GoError → GoError → Prop
  | [], _ => False
  | e :: es, t => e = t ∨ e.Wraps t ∨ GoError.anyWraps es t
end

/-- The instance registered under the name of `c` has `c` as its last-applied
configuration. -/
def Configured (m : BGPRouterManager) (c : CiliumBGPNodeInstance) : Prop :=
  ∃ i x, m.BGPInstances.get c.Name = some i ∧ m.heap[i]? = some x ∧ x.Config = some c

/-- The Router on which the event is a query, if the event is one. -/
def Event.queriedRouter : Event → Option RouterRef
  | .getPeerState r => some r
  | .getRoutes r _ => some r
  | .getRoutePolicies r => some r
  | _ => none

/-- The last-applied configuration of the instance at `i`, if it has one. -/
def configOf (heap : List BGPInstance) (i : Ptr) : Option CiliumBGPNodeInstance :=
  (heap[i]?).bind (fun o => o.Config)

/-- Every registered instance has a last-applied configuration. -/
def AllConfigured (m : BGPRouterManager) : Prop :=
  ∀ e ∈ m.BGPInstances, (configOf m.heap e.2).isSome = true

/-- The error returned by the read APIs when the manager is not running. -/
def notRunningError : GoError := GoError.leaf "bgp router manager is not running" false

/-- The error returned when the router ASN is not the local ASN of any instance. -/
def asnNotFoundError (asn : Int) : GoError :=
  GoError.leaf ("virtual router with ASN " ++ toString asn ++ " does not exist") false

/-- The calls `Stop` makes for the instance `i` registered as `name`. -/
def stopEvents (fullDestroy : Bool) (notifications : GoMap String Nat) (name : String)
    (i : Ptr) : List Event :=
  [Event.cancelCtx i, Event.routerStop i fullDestroy] ++ closeEvents notifications name

/-- The event is `Stop` on the BGPv1 server `s`. -/
def Event.isServerStopOf (s : Ptr) : Event → Bool
  | .serverStop s2 _ => decide (s2 = s)
  | _ => false

/-- The event is a `Cleanup` of a reconciler. -/
def Event.isCleanup : Event → Bool
  | .cleanup _ _ => true
  | _ => false

/-- The registry and the notification map hold the same names. -/
def SameNames (m : BGPRouterManager) : Prop :=
  ∀ name, (m.BGPInstances.get name).isSome = (m.notifications.get name).isSome

/-- The trace and the result of a call that returned a value; nothing when it returned an
error or panicked. -/
def valueOf {α : Type} (r : List Event × GoResult α) : Option (List Event × α) :=
  match r with
  | (tr, .value v) => some (tr, v)
  | _ => none

/-- The instances of the registry that the test of the router ASN does not skip, in the order
the registry is ranged over. -/
def matchingInstances (heap : List BGPInstance) (routerAsn : Option Int)
    (insts : List (String × Ptr)) : List Ptr :=
  (insts.filter (fun e => skipInstance heap routerAsn e.2 == some false)).map Prod.snd

/-- Specification of the fan-out over the peers of instance `i`: the routes fetched, for each
peer in turn, with the parameters of the caller and the neighbor set to the address of the
peer, concatenated; the fetches start at trace `tr`, and the whole is nothing when a fetch does
not return a value. -/
def peerRoutes (env : Env) (heap : List BGPInstance) (i : Ptr) (params : GetBgpRoutesParams) :
    List BgpPeer → List Event → Option (List Event × List BgpRoute)
  | [], tr => some (tr, [])
  | peer :: rest, tr =>
    match valueOf (getRoutesFromInstance env heap tr i
      { params with Neighbor := some peer.PeerAddress }) with
    | none => none
    | some (tr1, routes) =>
      match peerRoutes env heap i params rest tr1 with
      | none => none
      | some (tr2, more) => some (tr2, routes ++ more)

/-- Specification of `getRoutesV2` after its validations: for each instance that the router
ASN does not skip, in turn, either the routes of all the peers reported by `GetPeerState` of
the instance (`allPeers`), or the routes of one fetch with the parameters of the caller;
concatenated. Nothing when a call does not return a value. -/
def instanceRoutes (env : Env) (heap : List BGPInstance) (allPeers : Bool)
    (params : GetBgpRoutesParams) :
    List (String × Ptr) → List Event → Option (List Event × List BgpRoute)
  | [], tr => some (tr, [])
  | (_, i) :: rest, tr =>
    match skipInstance heap params.RouterAsn i with
    | none => none
    | some true => instanceRoutes env heap allPeers params rest tr
    | some false =>
      match (if allPeers then
          match env.GetPeerState tr (.router i) with
          | .error _ => none
          | .ok peers => peerRoutes env heap i params peers (tr ++ [Event.getPeerState (.router i)])
        else valueOf (getRoutesFromInstance env heap tr i params)) with
      | none => none
      | some (tr1, routes) =>
        match instanceRoutes env heap allPeers params rest tr1 with
        | none => none
        | some (tr2, more) => some (tr2, routes ++ more)

/-- The peers that `GetPeerState` of instance `i` reports at trace `tr`. -/
def peersOf (env : Env) (tr : List Event) (i : Ptr) : List BgpPeer :=
  match env.GetPeerState tr (.router i) with
  | .ok peers => peers
  | .error _ => []

/-- The routes that `getRoutesFromInstance` returns for instance `i` at trace `tr`. -/
def routesOf (env : Env) (heap : List BGPInstance) (tr : List Event) (i : Ptr)
    (params : GetBgpRoutesParams) : List BgpRoute :=
  match getRoutesFromInstance env heap tr i params with
  | (_, .value routes) => routes
  | _ => []

/-- The Routers answer a query in the same way whatever has been called before. -/
def SteadyRouters (env : Env) : Prop :=
  ∀ tr1 tr2 r, env.GetPeerState tr1 r = env.GetPeerState tr2 r
    ∧ ∀ req, env.GetRoutes tr1 r req = env.GetRoutes tr2 r req

/-- The event is `Stop` on a BGPv1 server. -/
def Event.isServerStop : Event → Bool
  | .serverStop _ _ => true
  | _ => false

/-- The parameters `registerBGPServer` starts the server of `c` with, for the annotations
`annoMap` and the router ID `routerID`. -/
def serverParametersV1 (annoMap : GoMap Int Attributes) (c : CiliumBGPVirtualRouter)
    (routerID : String) : ServerParameters :=
  { Global :=
      { ASN := (c.LocalASN % 2 ^ 32).toNat
        RouterID := routerID
        ListenPort := localPortV1 annoMap c
        AdvertiseInactiveRoutes := true }
    StateNotification := 0 }

/-- Every registered instance has a last-applied configuration whose local ASN is set. -/
def AllConfiguredASN (m : BGPRouterManager) : Prop :=
  ∀ e ∈ m.BGPInstances, ∃ c asn, configOf m.heap e.2 = some c ∧ c.LocalASN = some asn

/-- No `Init` of a reconciler of the chain fails. -/
def InitSucceeds (env : Env) : Prop :=
  ∀ r ∈ env.ConfigReconcilers, ∀ tr heap i, r.Init tr heap i = none

/-- The configurations the work diff has seen are configurations of the desired state. -/
def SeenFromDesired (env : Env) : Prop :=
  ∀ ciliumNode registry heap desired rd,
    env.diff (newReconcileDiffV2 ciliumNode) registry heap desired = .ok rd →
      ∀ n c, rd.seen.get n = some c → c ∈ desired.BGPInstances

/-- Every instance of the desired state handed to `ReconcileInstances` has its local ASN
set. -/
def Op.desiredASNSet : Op → Prop
  | .reconcileInstances (some nodeObj) _ => ∀ c ∈ nodeObj.BGPInstances, c.LocalASN ≠ none
  | _ => True

/-- The call ended in a nil pointer dereference. -/
def GoResult.isPanic {α : Type} : GoResult α → Bool
  | .panic => true
  | _ => false

/-! ## Example collaborators -/

/-- An environment with the given reconciler chain and table outcomes, a cap of five stored
errors, no annotations, and Router creation that always succeeds. -/
def exEnv (rs : List ConfigReconciler) (ins del : Option GoError) : Env :=
  { ConfigReconcilers := rs
    BGPReconcileErrCountPerInstance := 5
    tableInsert := fun _ _ => ins
    tableDelete := fun _ _ => del
    newBGPInstance := fun _ _ _ => none
    NewAnnotationMap := fun _ => .ok []
    ResolveRouterID := fun _ _ => .error (GoError.leaf "router id not specified by annotation" false)
    GetIP := fun _ => some "10.0.0.1"
    BGPRouterIDAllocationMode := BGPRouterIDAllocationModeDefault
    HostDevice := "cilium_host"
    LinkByName := fun _ => .ok (some [0, 1, 2, 3, 4, 5])
    ParseIPTo4 := fun _ => true
    diff := reconcileDiffV2.diff
    ConfigModeGet := fun _ => BGPConfigMode.BGPv2
    GetPeerState := fun _ _ => .ok [{ LocalAsn := 65001, PeerAddress := "192.0.2.1" }]
    GetRoutes := fun _ _ req => .ok [{ Prefix := "10.1.0.0/24 via " ++ req.Neighbor }]
    GetRoutePolicies := fun _ _ => .ok [{ Name := "allow-all" }]
    ParseTableType := fun t =>
      if t = "loc-rib" then 1 else if t = "adj-rib-in" then 2 else if t = "adj-rib-out" then 3
      else 0
    TableTypeAdjRIBIn := 2
    TableTypeAdjRIBOut := 3
    ToAgentGetRoutesRequest := fun params =>
      .ok { TableType :=
              if params.TableType = "loc-rib" then 1
              else if params.TableType = "adj-rib-in" then 2
              else if params.TableType = "adj-rib-out" then 3 else 0
            Family := params.Afi ++ "/" ++ params.Safi
            Neighbor := params.Neighbor.getD "" }
    ToAPIRoutes := fun routes asn neighbor =>
      .ok (routes.map (fun r => { RouterAsn := asn, Neighbor := neighbor, Prefix := r.Prefix }))
    ToAPIRoutePolicies := fun ps asn => ps.map (fun p => { RouterAsn := asn, Name := p.Name })
    Reconcilers := []
    newServerWithConfig := fun _ _ => none }

/-- A reconciler that always succeeds. -/
def okReconciler (name : String) : ConfigReconciler :=
  { Name := name, Init := fun _ _ _ => none, Reconcile := fun _ _ _ => none }

/-- A reconciler whose `Reconcile` always returns the given error. -/
def failReconciler (name : String) (err : GoError) : ConfigReconciler :=
  { Name := name, Init := fun _ _ _ => none, Reconcile := fun _ _ _ => some err }

/-- A manager whose error table holds one record for instance "a". -/
def exManagerOneError : BGPRouterManager :=
  { NewBGPRouterManager with table := [{ Instance := "a", ErrorID := 0, Error := "old" }] }

/-- The calls of `Reconcile` with parameters `p` on the reconcilers at positions
`k, k+1, .., k+n-1` of the chain, in that order. -/
def reconcileEvents (p : ReconcileParams) (k n : Nat) : List Event :=
  (List.range' k n).map (fun j => Event.reconcile j p)

/-- What the reconciler at position `j` of `rs` returns when it is invoked right after the
reconcilers before it, in a pass that started at trace `tr` with `rs` numbered from `k`. -/
def reconcileOutcome (heap : List BGPInstance) (p : ReconcileParams) (rs : List ConfigReconciler)
    (k : Nat) (tr : List Event) (j : Nat) : Option GoError :=
  match rs[j]? with
  | some r => r.Reconcile (tr ++ reconcileEvents p k j) heap p
  | none => none

/-- The errors returned by the first `n` reconcilers of the chain in a pass with parameters
`p` started in state `m`, in invocation order. -/
def reconcileErrsOf (env : Env) (m : BGPRouterManager) (p : ReconcileParams) (n : Nat) :
    List GoError :=
  (List.range n).filterMap (reconcileOutcome m.heap p env.ConfigReconcilers 0 m.trace)

/-- The call of `updateReconcilerErrors` that ends a pass in which `n` reconcilers ran. -/
def reconcileUpdate (env : Env) (m : BGPRouterManager) (p : ReconcileParams) (n : Nat) :
    BGPRouterManager × Option GoError :=
  updateReconcilerErrors env { m with trace := m.trace ++ reconcileEvents p 0 n }
    p.DesiredConfig.Name (reconcileErrsOf env m p n)

/-- A chain of four reconcilers whose second member aborts the pass and whose third fails. -/
def exChainAbortSecond : List ConfigReconciler :=
  [okReconciler "r1", failReconciler "r2" (GoError.leaf "store not ready" true),
   failReconciler "r3" (GoError.leaf "bad peer" false), okReconciler "r4"]

/-- A chain of three reconcilers whose first and third members fail without aborting. -/
def exChainTwoFail : List ConfigReconciler :=
  [failReconciler "r1" (GoError.leaf "bad policy" false), okReconciler "r2",
   failReconciler "r3" (GoError.leaf "bad peer" false)]

/-- A desired instance "a" with local ASN 65001. -/
def exInstanceA : CiliumBGPNodeInstance :=
  { Name := "a", LocalASN := some 65001, LocalPort := none, RouterID := none, Peers := [] }

/-- A node without annotations. -/
def exNode : CiliumNode := { Annotations := [], Addresses := ["10.0.0.1"] }

/-- A manager in which instance "a" is registered, not yet configured. -/
def exManagerA : BGPRouterManager :=
  { NewBGPRouterManager with
    BGPInstances := [("a", 0)]
    notifications := [("a", 0)]
    heap := [{ Name := "a"
               Global := { ASN := 65001, RouterID := "10.0.0.1", ListenPort := -1,
                           AdvertiseInactiveRoutes := true }
               Config := none }]
    chans := 1 }

/-- A manager in which instance "a" is registered and has one stored error record. -/
def exManagerAWithError : BGPRouterManager :=
  { exManagerA with table := [{ Instance := "a", ErrorID := 0, Error := "old" }] }

/-- A work diff that withdraws "a" and a name that is not registered. -/
def exWithdrawDiff : reconcileDiffV2 :=
  { newReconcileDiffV2 exNode with withdraw := ["a", "zz"] }

/-- A desired instance "b" with local ASN 65002. -/
def exInstanceB : CiliumBGPNodeInstance :=
  { Name := "b", LocalASN := some 65002, LocalPort := none, RouterID := none, Peers := [] }

/-- A desired state holding only instance "b". -/
def exNodeConfigB : CiliumBGPNodeConfig := { Name := "node", BGPInstances := [exInstanceB] }

/-- The work diff between the registry of `exManagerA` and `exNodeConfigB`: "a" is withdrawn
and "b" is registered. -/
def exDiffAB : reconcileDiffV2 :=
  { seen := [("b", exInstanceB)], ciliumNode := exNode, register := ["b"], withdraw := ["a"],
    reconcile := [] }

/-- An environment whose work diff withdraws "a" twice, whatever the desired state. -/
def exEnvTwice : Env :=
  { exEnv [okReconciler "r1"] none none with
    diff := fun rd _ _ _ => .ok { rd with withdraw := ["a", "a"] } }

/-- An environment with one reconciler that always fails and an error table on which every
`Delete` fails. -/
def exEnvFailing : Env :=
  exEnv [failReconciler "r1" (GoError.leaf "bad peer" false)] none
    (some (GoError.leaf "closed" false))

/-- An environment with one reconciler that always fails and an error table whose operations
succeed. -/
def exEnvBadPeer : Env :=
  exEnv [failReconciler "r1" (GoError.leaf "bad peer" false)] none none

/-- An environment whose work diff recreates "a": the name is withdrawn and registered in the
same pass. -/
def exEnvRecreate : Env :=
  { exEnv [okReconciler "r1"] none none with
    diff := fun rd _ _ _ =>
      .ok { rd with seen := [("a", exInstanceA)], withdraw := ["a"], register := ["a"] } }

/-- The manager right after `instance.NewBGPInstance` has returned the new instance for the
configuration `c`: the instance sits at the end of the heap, not yet in the registry. -/
def createdState (m : BGPRouterManager) (c : CiliumBGPNodeInstance) (params : ServerParameters) :
    BGPRouterManager :=
  { m with
    heap := m.heap ++ [{ Name := c.Name, Global := params.Global, Config := none }]
    chans := m.chans + 1
    trace := m.trace ++ [Event.newInstance m.heap.length c.Name params] }

/-- The manager right after the instance `i` with channel `ch` has been committed to the
registry and the notification map and the consumer of the channel has been started. -/
def committedState (m1 : BGPRouterManager) (i : Ptr) (ch : Nat) (c : CiliumBGPNodeInstance) :
    BGPRouterManager :=
  { m1 with
    BGPInstances := m1.BGPInstances.set c.Name i
    notifications := m1.notifications.set c.Name ch
    trace := m1.trace ++ [Event.trackInstanceStateChange c.Name ch] }

/-- The manager after the reconcilers have been initialised for the committed instance. -/
def initialisedState (env : Env) (m1 : BGPRouterManager) (i : Ptr) (ch : Nat)
    (c : CiliumBGPNodeInstance) : BGPRouterManager :=
  { committedState m1 i ch c with
    trace := (initLoop (committedState m1 i ch c).heap i env.ConfigReconcilers 0
      (committedState m1 i ch c).trace).1 }

/-- The error of the initialisation of the reconcilers for the committed instance, if any. -/
def initError (env : Env) (m1 : BGPRouterManager) (i : Ptr) (ch : Nat)
    (c : CiliumBGPNodeInstance) : Option GoError :=
  (initLoop (committedState m1 i ch c).heap i env.ConfigReconcilers 0
    (committedState m1 i ch c).trace).2

/-- A reconciler whose `Init` always fails. -/
def failInitReconciler (name : String) (err : GoError) : ConfigReconciler :=
  { Name := name, Init := fun _ _ _ => some err, Reconcile := fun _ _ _ => none }

/-- The number written by a list of decimal digit characters. -/
def decVal (l : List Char) : Nat := l.foldl (fun acc c => acc * 10 + (c.toNat - 48)) 0

/-- The router ID made of the last four bytes of a hardware address of length at least 4. -/
def lastFourDotted (mac : List Nat) : String :=
  toString (mac.getD (mac.length - 4) 0) ++ "." ++ toString (mac.getD (mac.length - 3) 0) ++ "."
    ++ toString (mac.getD (mac.length - 2) 0) ++ "." ++ toString (mac.getD (mac.length - 1) 0)

/-- An environment in which the node annotations cannot be parsed. -/
def exEnvBadAnnotations : Env :=
  { exEnv [okReconciler "r1"] none none with
    NewAnnotationMap := fun _ => .error (GoError.leaf "malformed annotation" false) }

/-- An environment in the ip-pool allocation mode of router IDs. -/
def exEnvIPPool : Env :=
  { exEnv [okReconciler "r1"] none none with
    BGPRouterIDAllocationMode := BGPRouterIDAllocationModeIPPool }

/-- A desired instance "b" without local ASN: its registration fails. -/
def exInstanceBNoASN : CiliumBGPNodeInstance :=
  { Name := "b", LocalASN := none, LocalPort := none, RouterID := none, Peers := [] }

/-- A desired instance "c" with local ASN 65003. -/
def exInstanceC : CiliumBGPNodeInstance :=
  { Name := "c", LocalASN := some 65003, LocalPort := none, RouterID := none, Peers := [] }

/-- A work diff that registers three instances, the second of which cannot be registered. -/
def exDiffThree : reconcileDiffV2 :=
  { seen := [("a", exInstanceA), ("b", exInstanceBNoASN), ("c", exInstanceC)],
    ciliumNode := exNode, register := ["a", "b", "c"], withdraw := [], reconcile := [] }

/-- A work diff that reconciles a name missing from every registry and then "a". -/
def exDiffMissing : reconcileDiffV2 :=
  { seen := [("a", exInstanceA)], ciliumNode := exNode, register := [], withdraw := [],
    reconcile := ["zz", "a"] }

/-- A desired state of two instances: "b" without local ASN, and "c". -/
def exNodeConfigTwoFail : CiliumBGPNodeConfig :=
  { Name := "node", BGPInstances := [exInstanceBNoASN, exInstanceC] }

/-- The work diff between an empty registry and `exNodeConfigTwoFail`. -/
def exDiffTwoFail : reconcileDiffV2 :=
  { seen := [("b", exInstanceBNoASN), ("c", exInstanceC)], ciliumNode := exNode,
    register := ["b", "c"], withdraw := [], reconcile := [] }

/-- The error of a registration whose first reconciliation fails with "bad peer". -/
def exBadPeerCause : GoError :=
  Errorf_w "failed initial reconciliation of BGP instance: "
    (some (GoError.join [GoError.leaf "bad peer" false])) ""

/-- A desired state holding the instances "a" and "b". -/
def exNodeConfigAB : CiliumBGPNodeConfig :=
  { Name := "node", BGPInstances := [exInstanceA, exInstanceB] }

/-- The same desired state after the local ASN of "b" has been taken out. -/
def exNodeConfigABNoASN : CiliumBGPNodeConfig :=
  { Name := "node", BGPInstances := [exInstanceA, exInstanceBNoASN] }

/-- The manager after two passes: "a" and "b" are registered by the first, and "b" is
reconciled by the second to a configuration without local ASN. -/
def exManagerNoASN : BGPRouterManager :=
  runOps (exEnv [okReconciler "r1"] none none) NewBGPRouterManager
    [Op.reconcileInstances (some exNodeConfigAB) exNode,
     Op.reconcileInstances (some exNodeConfigABNoASN) exNode]

/-- A request for the routes received from every peer of the router with ASN `asn`. -/
def exAdjRibInParams (asn : Int) : GetBgpRoutesParams :=
  { Afi := "ipv4", Safi := "unicast", TableType := "adj-rib-in", Neighbor := none,
    RouterAsn := some asn }

/-- The manager after one pass that registers "a" and "b". -/
def exManagerAB : BGPRouterManager :=
  runOps (exEnv [okReconciler "r1"] none none) NewBGPRouterManager
    [Op.reconcileInstances (some exNodeConfigAB) exNode]

/-- A request for the routes received from every peer of every router. -/
def exAdjRibInAll : GetBgpRoutesParams :=
  { Afi := "ipv4", Safi := "unicast", TableType := "adj-rib-in", Neighbor := none,
    RouterAsn := none }

/-- A BGPv1 reconciler whose `Init` always fails. -/
def failInitReconcilerV1 (name : String) (err : GoError) : ConfigReconcilerV1 :=
  { Name := name, Init := fun _ _ _ => some err, Reconcile := fun _ _ _ _ _ => none }

/-- A BGPv1 reconciler whose `Reconcile` always fails. -/
def failReconcilerV1 (name : String) (err : GoError) : ConfigReconcilerV1 :=
  { Name := name, Init := fun _ _ _ => none, Reconcile := fun _ _ _ _ _ => some err }

/-- An environment whose only BGPv1 reconciler fails at `Init`. -/
def exEnvV1InitFails : Env :=
  { exEnv [] none none with
    Reconcilers := [failInitReconcilerV1 "v1" (GoError.leaf "init failed" false)] }

/-- An environment whose only BGPv1 reconciler fails at `Reconcile`. -/
def exEnvV1ReconcileFails : Env :=
  { exEnv [] none none with
    Reconcilers := [failReconcilerV1 "v1" (GoError.leaf "bad peer" false)] }

/-- A virtual router with local ASN 65001. -/
def exVirtualRouter : CiliumBGPVirtualRouter := { LocalASN := 65001, Peers := [] }

/-- A desired state holding only instance "a". -/
def exNodeConfigA : CiliumBGPNodeConfig := { Name := "node", BGPInstances := [exInstanceA] }

/-- An environment whose only reconciler fails at `Init`. -/
def exEnvInitFails : Env :=
  exEnv [failInitReconciler "r1" (GoError.leaf "init failed" false)] none none

/-- The manager after one pass in which the registration of "a" fails at the initialisation
of the reconcilers. -/
def exManagerInitFailed : BGPRouterManager :=
  runOps exEnvInitFails NewBGPRouterManager [Op.reconcileInstances (some exNodeConfigA) exNode]

/-- A second desired instance named "a", with one peer. -/
def exInstanceAPeer : CiliumBGPNodeInstance := { exInstanceA with Peers := ["192.0.2.1"] }

/-- A desired state that names "a" twice, with two different configurations. -/
def exNodeConfigTwiceA : CiliumBGPNodeConfig :=
  { Name := "node", BGPInstances := [exInstanceA, exInstanceAPeer] }

end BGPManager

namespace PolicyAPI

/-! ## Egress rules (pkg/policy/api/egress.go) -/

/-- A Go slice: `none` is the nil slice, `some []` an empty slice that is not nil. -/
abbrev GoSlice (α : Type) := Option (List α)

/-- Go `len(s)`. -/
def GoSlice.len {α : Type} (s : GoSlice α) : Nat :=
  match s with
  | none => 0
  | some l => l.length

/-- The elements of the slice, as `s...` and `range s` see them. -/
def GoSlice.elems {α : Type} (s : GoSlice α) : List α :=
  match s with
  | none => []
  | some l => l

/-- Go `append(s, xs...)`: a nil slice to which nothing is appended stays nil. -/
def GoSlice.append {α : Type} (s : GoSlice α) (xs : List α) : GoSlice α :=
  match s, xs with
  | none, [] => none
  | none, x :: rest => some (x :: rest)
  | some l, xs => some (l ++ xs)

/-- The test `s != nil && len(s) == 0`. -/
def GoSlice.isEmptyNonNil {α : Type} (s : GoSlice α) : Bool :=
  s.isSome && s.len == 0

/-- Go `slim_metav1.LabelSelectorRequirement`. -/
structure LabelSelectorRequirement where
  Key : String
  Operator : String
  Values : List String
deriving DecidableEq, Repr

/-- Go `EndpointSelector`: the label selector with its match expressions, and the cached
text of the selector. -/
structure EndpointSelector where
  MatchLabels : List (String × String)
  MatchExpressions : GoSlice LabelSelectorRequirement
  cachedLabelSelectorString : String
deriving DecidableEq, Repr

/-- Go `CIDRRule`. -/
structure CIDRRule where
  Cidr : String
  ExceptCIDRs : List String
deriving DecidableEq, Repr

/-- Go `FQDNSelector`. -/
structure FQDNSelector where
  MatchName : String
  MatchPattern : String
deriving DecidableEq, Repr

/-- Go `EgressCommonRule`. Entities, CIDRs, services and groups are their text. -/
structure EgressCommonRule where
  ToEndpoints : GoSlice EndpointSelector
  ToRequires : GoSlice EndpointSelector
  ToCIDR : GoSlice String
  ToCIDRSet : GoSlice CIDRRule
  ToEntities : GoSlice String
  ToServices : GoSlice String
  ToGroups : GoSlice String
  ToNodes : GoSlice EndpointSelector
  aggregatedSelectors : GoSlice EndpointSelector
deriving DecidableEq, Repr

/-- Go `EgressRule`. -/
structure EgressRule extends EgressCommonRule where
  ToPorts : GoSlice String
  ToFQDNs : GoSlice FQDNSelector
  ICMPs : GoSlice String
  Authentication : Option String
deriving DecidableEq, Repr

/-- Go `EgressDenyRule`. -/
structure EgressDenyRule extends EgressCommonRule where
  ToPorts : GoSlice String
  ICMPs : GoSlice String
deriving DecidableEq, Repr

/-- The conversions declared outside egress.go, taken as parameters. -/
structure SelectorEnv where
  /-- Go `EntitySlice.GetAsEndpointSelectors`, its elements. -/
  EntitiesAsEndpointSelectors : GoSlice String → List EndpointSelector
  /-- Go `CIDRSlice.GetAsEndpointSelectors`, its elements. -/
  CIDRAsEndpointSelectors : GoSlice String → List EndpointSelector
  /-- Go `CIDRRuleSlice.GetAsEndpointSelectors`, its elements. -/
  CIDRSetAsEndpointSelectors : GoSlice CIDRRule → List EndpointSelector
  /-- Go `FQDNSelectorSlice.GetAsEndpointSelectors`, its elements. -/
  FQDNsAsEndpointSelectors : GoSlice FQDNSelector → List EndpointSelector
  /-- Go `EndpointSelector.SyncRequirementsWithLabelSelector`. -/
  SyncRequirementsWithLabelSelector : EndpointSelector → EndpointSelector
  /-- Go `sel.LabelSelector.String()`. -/
  LabelSelectorString : EndpointSelector → String

/-- Go `EgressCommonRule.getAggregatedSelectors`. -/
def EgressCommonRule.getAggregatedSelectors (env : SelectorEnv) (e : EgressCommonRule) :
    GoSlice EndpointSelector :=
  if e.ToEntities.isEmptyNonNil || e.ToCIDR.isEmptyNonNil || e.ToCIDRSet.isEmptyNonNil then
    none
  else
    let res : GoSlice EndpointSelector := some []
    let res := res.append (env.EntitiesAsEndpointSelectors e.ToEntities)
    let res := res.append (env.CIDRAsEndpointSelectors e.ToCIDR)
    let res := res.append (env.CIDRSetAsEndpointSelectors e.ToCIDRSet)
    res

/-- Go `(*EgressRule).SetAggregatedSelectors`. -/
def EgressRule.SetAggregatedSelectors (env : SelectorEnv) (e : EgressRule) : EgressRule :=
  let ess := e.toEgressCommonRule.getAggregatedSelectors env
  let ess := ess.append (env.FQDNsAsEndpointSelectors e.ToFQDNs)
  { e with aggregatedSelectors := ess }

/-- Go `(*EgressCommonRule).SetAggregatedSelectors`. -/
def EgressCommonRule.SetAggregatedSelectors (env : SelectorEnv) (e : EgressCommonRule) :
    EgressCommonRule :=
  { e with aggregatedSelectors := e.getAggregatedSelectors env }

/-- The selector made of `sel` and the requirements, in the loop of
`getDestinationEndpointSelectorsWithRequirements`. -/
def withRequirements (env : SelectorEnv) (requirements : GoSlice LabelSelectorRequirement)
    (sel : EndpointSelector) : EndpointSelector :=
  let sel1 : EndpointSelector :=
    { sel with MatchExpressions := sel.MatchExpressions.append requirements.elems }
  let sel2 := env.SyncRequirementsWithLabelSelector sel1
  { sel2 with cachedLabelSelectorString := env.LabelSelectorString sel2 }

/-- Go `(*EgressCommonRule).getDestinationEndpointSelectorsWithRequirements`. -/
def EgressCommonRule.getDestinationEndpointSelectorsWithRequirements (env : SelectorEnv)
    (e : EgressCommonRule) (requirements : GoSlice LabelSelectorRequirement) :
    GoSlice EndpointSelector :=
  if e.aggregatedSelectors.isNone || e.ToEndpoints.isEmptyNonNil || e.ToNodes.isEmptyNonNil then
    none
  else
    let res : GoSlice EndpointSelector := some []
    let res :=
      if requirements.len > 0 ∧ e.ToEndpoints.len > 0 then
        e.ToEndpoints.elems.foldl
          (fun res sel => res.append [withRequirements env requirements sel]) res
      else
        (res.append e.ToEndpoints.elems).append e.ToNodes.elems
    res.append e.aggregatedSelectors.elems

/-- Go `(*EgressRule).GetDestinationEndpointSelectorsWithRequirements`; the rule comes back
with its cached selectors. -/
def EgressRule.GetDestinationEndpointSelectorsWithRequirements (env : SelectorEnv)
    (e : EgressRule) (requirements : GoSlice LabelSelectorRequirement) :
    EgressRule × GoSlice EndpointSelector :=
  let e1 := if e.aggregatedSelectors.isNone then e.SetAggregatedSelectors env else e
  (e1, e1.toEgressCommonRule.getDestinationEndpointSelectorsWithRequirements env requirements)

/-- Go `(*EgressDenyRule).GetDestinationEndpointSelectorsWithRequirements`; the rule comes
back with its cached selectors. -/
def EgressDenyRule.GetDestinationEndpointSelectorsWithRequirements (env : SelectorEnv)
    (e : EgressDenyRule) (requirements : GoSlice LabelSelectorRequirement) :
    EgressDenyRule × GoSlice EndpointSelector :=
  let e1 : EgressDenyRule :=
    if e.aggregatedSelectors.isNone then
      { e with toEgressCommonRule := e.toEgressCommonRule.SetAggregatedSelectors env }
    else e
  (e1, e1.toEgressCommonRule.getDestinationEndpointSelectorsWithRequirements env requirements)

/-- Some of `ToEntities`, `ToCIDR`, `ToCIDRSet`, `ToEndpoints` and `ToNodes` is an empty slice
that is not nil. -/
def EgressCommonRule.hasEmptyNonNil (e : EgressCommonRule) : Bool :=
  e.ToEntities.isEmptyNonNil || e.ToCIDR.isEmptyNonNil || e.ToCIDRSet.isEmptyNonNil
    || e.ToEndpoints.isEmptyNonNil || e.ToNodes.isEmptyNonNil

/-- Conversions that make one selector per entity, CIDR, CIDR rule and FQDN selector. -/
def exSelectorEnv : SelectorEnv :=
  { EntitiesAsEndpointSelectors := fun s =>
      s.elems.map (fun x => EndpointSelector.mk [("reserved", x)] none ("reserved:" ++ x))
    CIDRAsEndpointSelectors := fun s =>
      s.elems.map (fun x => EndpointSelector.mk [("cidr", x)] none ("cidr:" ++ x))
    CIDRSetAsEndpointSelectors := fun s =>
      s.elems.map (fun x => EndpointSelector.mk [("cidr", x.Cidr)] none ("cidr:" ++ x.Cidr))
    FQDNsAsEndpointSelectors := fun s =>
      s.elems.map (fun x => EndpointSelector.mk [("fqdn", x.MatchName)] none
        ("fqdn:" ++ x.MatchName))
    SyncRequirementsWithLabelSelector := fun sel => sel
    LabelSelectorString := fun sel => sel.cachedLabelSelectorString }

/-- An egress rule `toEntities: []` with one FQDN selector and nothing else. -/
def exRuleEmptyEntitiesWithFQDN : EgressRule :=
  { ToEndpoints := none, ToRequires := none, ToCIDR := none, ToCIDRSet := none,
    ToEntities := some [], ToServices := none, ToGroups := none, ToNodes := none,
    aggregatedSelectors := none, ToPorts := none,
    ToFQDNs := some [{ MatchName := "example.com", MatchPattern := "" }],
    ICMPs := none, Authentication := none }

/-- The deny rule with the same common part. -/
def exDenyRuleEmptyEntities : EgressDenyRule :=
  { toEgressCommonRule := exRuleEmptyEntitiesWithFQDN.toEgressCommonRule, ToPorts := none,
    ICMPs := none }

/-- The rule `toEntities: []` without FQDN selector. -/
def exRuleEmptyEntities : EgressRule :=
  { exRuleEmptyEntitiesWithFQDN with ToFQDNs := none }

end PolicyAPI

namespace BGPManager

/-! ## Theorems -/

/-! ### The reconcile error table -/

theorem errorsChangedLoop_false_iff (p n : List GoError) (h : p.length = n.length) :
    errorsChangedLoop p n = false ↔ p.map GoError.Error = n.map GoError.Error := by
  induction p generalizing n with
  | nil =>
    cases n with
    | nil => simp [errorsChangedLoop]
    | cons b n => simp at h
  | cons a p ih =>
    cases n with
    | nil => simp at h
    | cons b n =>
      have hlen : p.length = n.length := by simpa using h
      by_cases hab : a.Error = b.Error
      · simp [errorsChangedLoop, hab, ih n hlen]
      · simp [errorsChangedLoop, hab]

theorem errorsChanged_false_iff (p n : List GoError) :
    errorsChanged p n = false ↔ p.map GoError.Error = n.map GoError.Error := by
  unfold errorsChanged
  by_cases h : p.length = n.length
  · simp [h, errorsChangedLoop_false_iff p n h]
  · simp only [ne_eq, h, not_false_eq_true, ↓reduceIte, Bool.true_eq_false, false_iff]
    intro hmap
    exact h (by simpa using congrArg List.length hmap)

theorem getErrorsFromTable_msgs (txn : List BGPReconcileError) (inst : String) :
    (getErrorsFromTable txn inst).map GoError.Error
      = (sortByErrorID (tableList txn inst)).map (fun r => r.Error) := by
  simp [getErrorsFromTable, List.map_map, Function.comp_def, GoError.Error]

theorem deleteErrorsLoop_ok (env : Env) (l : List BGPReconcileError) (tr : List Event)
    (txn : List BGPReconcileError) (h : (deleteErrorsLoop env l tr txn).2.2 = none) :
    deleteErrorsLoop env l tr txn
      = (tr ++ l.map Event.tableDelete, l.foldl tableDeleteObj txn, none) := by
  induction l generalizing tr txn with
  | nil => simp [deleteErrorsLoop]
  | cons obj rest ih =>
    unfold deleteErrorsLoop at h ⊢
    cases hd : env.tableDelete tr obj with
    | some err => simp [hd] at h
    | none =>
      simp only [hd] at h ⊢
      rw [ih _ _ h]
      simp

theorem deleteErrorsLoop_never_fails (env : Env) (hd : ∀ tr obj, env.tableDelete tr obj = none)
    (l : List BGPReconcileError) (tr : List Event) (txn : List BGPReconcileError) :
    (deleteErrorsLoop env l tr txn).2.2 = none := by
  induction l generalizing tr txn with
  | nil => simp [deleteErrorsLoop]
  | cons obj rest ih =>
    unfold deleteErrorsLoop
    simp only [hd]
    exact ih _ _

theorem deleteErrorsLoop_events (env : Env) (l : List BGPReconcileError) (tr : List Event)
    (txn : List BGPReconcileError) :
    ∃ evs, (deleteErrorsLoop env l tr txn).1 = tr ++ evs
      ∧ ∀ e ∈ evs, ∃ obj, e = Event.tableDelete obj := by
  induction l generalizing tr txn with
  | nil => exact ⟨[], by simp [deleteErrorsLoop]⟩
  | cons obj rest ih =>
    unfold deleteErrorsLoop
    cases hd : env.tableDelete tr obj with
    | some err => exact ⟨[Event.tableDelete obj], by simp⟩
    | none =>
      obtain ⟨evs, h1, h2⟩ := ih (tr ++ [Event.tableDelete obj]) (tableDeleteObj txn obj)
      refine ⟨Event.tableDelete obj :: evs, ?_, ?_⟩
      · simp [h1]
      · intro e he
        rcases List.mem_cons.1 he with rfl | he
        · exact ⟨obj, rfl⟩
        · exact h2 e he

theorem foldl_tableDeleteObj (l txn : List BGPReconcileError) :
    l.foldl tableDeleteObj txn = txn.filter (fun r => l.all (fun o => !(sameKey r o))) := by
  induction l generalizing txn with
  | nil => simp
  | cons o rest ih =>
    simp only [List.foldl_cons, ih, tableDeleteObj, List.filter_filter, List.all_cons]
    apply List.filter_congr
    intro r _
    exact Bool.and_comm _ _

theorem sameKey_self (r : BGPReconcileError) : sameKey r r = true := by
  simp [sameKey]

theorem foldl_delete_tableList (txn : List BGPReconcileError) (inst : String) :
    (tableList txn inst).foldl tableDeleteObj txn
      = txn.filter (fun r => decide (r.Instance ≠ inst)) := by
  rw [foldl_tableDeleteObj]
  apply List.filter_congr
  intro r hr
  by_cases h : r.Instance = inst
  · have hmem : r ∈ tableList txn inst := by simp [tableList, hr, h]
    have : (tableList txn inst).all (fun o => !(sameKey r o)) = false := by
      rw [List.all_eq_false]
      exact ⟨r, hmem, by simp [sameKey_self]⟩
    simp [this, h]
  · have : (tableList txn inst).all (fun o => !(sameKey r o)) = true := by
      rw [List.all_eq_true]
      intro o ho
      have ho2 : o.Instance = inst := by
        have := (List.mem_filter.1 ho).2
        simpa using this
      have hne : r.Instance ≠ o.Instance := by rw [ho2]; exact h
      simp [sameKey, hne]
    simp [this, h]

theorem insertErrorsLoop_ok (env : Env) (inst : String) (errs : List GoError) (i : Nat)
    (tr : List Event) (txn : List BGPReconcileError)
    (h : (insertErrorsLoop env inst errs i tr txn).2.2 = none) :
    insertErrorsLoop env inst errs i tr txn
      = (tr ++ (errorRecords inst i (errs.map GoError.Error)).map Event.tableInsert,
         (errorRecords inst i (errs.map GoError.Error)).foldl tableInsertObj txn, none) := by
  induction errs generalizing i tr txn with
  | nil => simp [insertErrorsLoop, errorRecords]
  | cons e rest ih =>
    unfold insertErrorsLoop at h ⊢
    simp only at h ⊢
    cases hd : env.tableInsert tr { Instance := inst, ErrorID := (i : Int), Error := e.Error } with
    | some err => simp [hd] at h
    | none =>
      simp only [hd] at h ⊢
      rw [ih _ _ _ h]
      simp [errorRecords]

theorem insertErrorsLoop_never_fails (env : Env) (hi : ∀ tr obj, env.tableInsert tr obj = none)
    (inst : String) (errs : List GoError) (i : Nat) (tr : List Event)
    (txn : List BGPReconcileError) :
    (insertErrorsLoop env inst errs i tr txn).2.2 = none := by
  induction errs generalizing i tr txn with
  | nil => simp [insertErrorsLoop]
  | cons e rest ih =>
    unfold insertErrorsLoop
    simp only [hi]
    exact ih _ _ _

theorem insertErrorsLoop_events (env : Env) (inst : String) (errs : List GoError) (i : Nat)
    (tr : List Event) (txn : List BGPReconcileError) :
    ∃ evs, (insertErrorsLoop env inst errs i tr txn).1 = tr ++ evs
      ∧ ∀ e ∈ evs, ∃ obj, e = Event.tableInsert obj := by
  induction errs generalizing i tr txn with
  | nil => exact ⟨[], by simp [insertErrorsLoop]⟩
  | cons e rest ih =>
    unfold insertErrorsLoop
    simp only
    generalize ({ Instance := inst, ErrorID := (i : Int), Error := e.Error } : BGPReconcileError)
      = obj
    cases hd : env.tableInsert tr obj with
    | some err => exact ⟨[Event.tableInsert obj], by simp⟩
    | none =>
      obtain ⟨evs, h1, h2⟩ := ih (i + 1) (tr ++ [Event.tableInsert obj]) (tableInsertObj txn obj)
      refine ⟨Event.tableInsert obj :: evs, ?_, ?_⟩
      · simp [h1]
      · intro e he
        rcases List.mem_cons.1 he with rfl | he
        · exact ⟨obj, rfl⟩
        · exact h2 e he

theorem errorRecords_instance (inst : String) (k : Nat) (msgs : List String) :
    ∀ r ∈ errorRecords inst k msgs, r.Instance = inst ∧ (k : Int) ≤ r.ErrorID := by
  induction msgs generalizing k with
  | nil => simp [errorRecords]
  | cons msg rest ih =>
    intro r hr
    simp only [errorRecords, List.mem_cons] at hr
    rcases hr with rfl | hr
    · simp
    · have := ih (k + 1) r hr
      refine ⟨this.1, ?_⟩
      have h2 := this.2
      push_cast at h2
      omega

theorem foldl_insert_errorRecords (inst : String) (msgs : List String) (k : Nat)
    (txn : List BGPReconcileError)
    (h : ∀ r ∈ txn, r.Instance = inst → r.ErrorID < (k : Int)) :
    (errorRecords inst k msgs).foldl tableInsertObj txn = txn ++ errorRecords inst k msgs := by
  induction msgs generalizing k txn with
  | nil => simp [errorRecords]
  | cons msg rest ih =>
    simp only [errorRecords, List.foldl_cons]
    have hfil : tableInsertObj txn { Instance := inst, ErrorID := (k : Int), Error := msg }
        = txn ++ [{ Instance := inst, ErrorID := (k : Int), Error := msg }] := by
      unfold tableInsertObj tableDeleteObj
      congr 1
      rw [List.filter_eq_self]
      intro r hr
      by_cases hri : r.Instance = inst
      · have := h r hr hri
        have hne : r.ErrorID ≠ (k : Int) := by omega
        simp [sameKey, hne]
      · simp [sameKey, hri]
    rw [hfil, ih (k + 1)]
    · simp
    · intro r hr hri
      rcases List.mem_append.1 hr with hr | hr
      · have := h r hr hri
        push_cast
        omega
      · simp only [List.mem_singleton] at hr
        subst hr
        push_cast
        simp

theorem errorRecords_sorted (inst : String) (k : Nat) (msgs : List String) :
    List.Sorted (fun a b : BGPReconcileError => a.ErrorID ≤ b.ErrorID)
      (errorRecords inst k msgs) := by
  induction msgs generalizing k with
  | nil => simp [errorRecords]
  | cons msg rest ih =>
    simp only [errorRecords, List.sorted_cons]
    refine ⟨?_, ih (k + 1)⟩
    intro b hb
    have := (errorRecords_instance inst (k + 1) rest b hb).2
    push_cast at this
    omega

theorem errorRecords_msgs (inst : String) (k : Nat) (msgs : List String) :
    (errorRecords inst k msgs).map (fun r => r.Error) = msgs := by
  induction msgs generalizing k with
  | nil => simp [errorRecords]
  | cons msg rest ih => simp [errorRecords, ih]

theorem sortByErrorID_errorRecords (inst : String) (k : Nat) (msgs : List String) :
    sortByErrorID (errorRecords inst k msgs) = errorRecords inst k msgs :=
  List.Sorted.insertionSort_eq (errorRecords_sorted inst k msgs)

theorem truncateErrors_eq_take (env : Env) (l : List GoError) :
    truncateErrors env l = l.take env.BGPReconcileErrCountPerInstance := by
  unfold truncateErrors
  split
  · rfl
  · rw [List.take_of_length_le (by omega)]

theorem updateReconcilerErrors_unchanged (env : Env) (m : BGPRouterManager) (inst : String)
    (newErrors : List GoError)
    (h : (sortByErrorID (tableList m.table inst)).map (fun r => r.Error)
      = (newErrors.take env.BGPReconcileErrCountPerInstance).map GoError.Error) :
    updateReconcilerErrors env m inst newErrors = (m, none) := by
  have hc : errorsChanged (getErrorsFromTable m.table inst) (truncateErrors env newErrors)
      = false := by
    rw [errorsChanged_false_iff, getErrorsFromTable_msgs, truncateErrors_eq_take, h]
  simp [updateReconcilerErrors, hc]

theorem updateReconcilerErrors_changed_ok (env : Env) (m : BGPRouterManager) (inst : String)
    (newErrors : List GoError)
    (h : (sortByErrorID (tableList m.table inst)).map (fun r => r.Error)
      ≠ (newErrors.take env.BGPReconcileErrCountPerInstance).map GoError.Error)
    (hok : (updateReconcilerErrors env m inst newErrors).2 = none) :
    (updateReconcilerErrors env m inst newErrors).1 =
      { m with
        trace := m.trace ++ (tableList m.table inst).map Event.tableDelete
          ++ (errorRecords inst 0 ((newErrors.take
              env.BGPReconcileErrCountPerInstance).map GoError.Error)).map Event.tableInsert
        table := m.table.filter (fun r => decide (r.Instance ≠ inst))
          ++ errorRecords inst 0 ((newErrors.take
              env.BGPReconcileErrCountPerInstance).map GoError.Error) } := by
  have hc : errorsChanged (getErrorsFromTable m.table inst) (truncateErrors env newErrors)
      = true := by
    cases hb : errorsChanged (getErrorsFromTable m.table inst) (truncateErrors env newErrors)
    · rw [errorsChanged_false_iff, getErrorsFromTable_msgs, truncateErrors_eq_take] at hb
      exact absurd hb h
    · rfl
  unfold updateReconcilerErrors at hok ⊢
  simp only [hc, if_true] at hok ⊢
  rcases hdel : deleteErrorsFromTable env m.trace m.table inst with ⟨tr, txn1, _ | err⟩
  · have hdel2 := hdel
    unfold deleteErrorsFromTable at hdel2
    rw [deleteErrorsLoop_ok env _ _ _ (by rw [hdel2])] at hdel2
    simp only [Prod.mk.injEq, and_true] at hdel2
    obtain ⟨htr, htxn⟩ := hdel2
    simp only [hdel] at hok ⊢
    rcases hins : insertErrorsLoop env inst (truncateErrors env newErrors) 0 tr txn1
      with ⟨tr2, txn2, _ | err⟩
    · have hins2 := hins
      rw [insertErrorsLoop_ok env _ _ _ _ _ (by rw [hins2])] at hins2
      simp only [Prod.mk.injEq, and_true] at hins2
      obtain ⟨htr2, htxn2⟩ := hins2
      simp only
      rw [← htr2, ← htxn2, ← htr, ← htxn, foldl_delete_tableList, truncateErrors_eq_take,
        foldl_insert_errorRecords]
      intro r hr hri
      have := (List.mem_filter.1 hr).2
      simp [hri] at this
    · simp [hins] at hok
  · simp [hdel] at hok

theorem updateReconcilerErrors_failed (env : Env) (m : BGPRouterManager) (inst : String)
    (newErrors : List GoError) (hfail : (updateReconcilerErrors env m inst newErrors).2 ≠ none) :
    ∃ tr, (updateReconcilerErrors env m inst newErrors).1 = { m with trace := tr } := by
  unfold updateReconcilerErrors at hfail ⊢
  simp only at hfail ⊢
  split
  · rcases hdel : deleteErrorsFromTable env m.trace m.table inst with ⟨tr, txn1, _ | err⟩
    · simp only [hdel] at hfail ⊢
      rcases hins : insertErrorsLoop env inst (truncateErrors env newErrors) 0 tr txn1
        with ⟨tr2, txn2, _ | err⟩
      · rename_i hc
        simp [hc, hdel, hins] at hfail
      · exact ⟨tr2, rfl⟩
    · exact ⟨tr, rfl⟩
  · rename_i hc
    simp [hc] at hfail

/-- C5 (amended): `updateReconcilerErrors` issues no `Delete` and no `Insert` and leaves the
whole state unchanged when the stored records of the instance, ordered by `ErrorID`, carry the
same messages in the same order as the new errors truncated to the cap. When they differ and
the call returns nil, it has called `Delete` on every stored record of the instance and then
`Insert` on one record per truncated new error, and the table holds exactly these new records
for the instance. When they differ and the call returns an error, the table is unchanged. -/
theorem updateReconcilerErrors_rewrites_only_on_change (env : Env) (m : BGPRouterManager)
    (inst : String) (newErrors : List GoError) :
    ((sortByErrorID (tableList m.table inst)).map (fun r => r.Error)
        = (newErrors.take env.BGPReconcileErrCountPerInstance).map GoError.Error →
      updateReconcilerErrors env m inst newErrors = (m, none))
    ∧ ((sortByErrorID (tableList m.table inst)).map (fun r => r.Error)
        ≠ (newErrors.take env.BGPReconcileErrCountPerInstance).map GoError.Error →
      ((updateReconcilerErrors env m inst newErrors).2 = none →
        (updateReconcilerErrors env m inst newErrors).1.trace
          = m.trace ++ (tableList m.table inst).map Event.tableDelete
            ++ (errorRecords inst 0 ((newErrors.take
                env.BGPReconcileErrCountPerInstance).map GoError.Error)).map Event.tableInsert
        ∧ (updateReconcilerErrors env m inst newErrors).1.table
          = m.table.filter (fun r => decide (r.Instance ≠ inst))
            ++ errorRecords inst 0 ((newErrors.take
                env.BGPReconcileErrCountPerInstance).map GoError.Error))
      ∧ ((updateReconcilerErrors env m inst newErrors).2 ≠ none →
        (updateReconcilerErrors env m inst newErrors).1.table = m.table)) := by
  refine ⟨updateReconcilerErrors_unchanged env m inst newErrors, fun h => ⟨fun hok => ?_, ?_⟩⟩
  · rw [updateReconcilerErrors_changed_ok env m inst newErrors h hok]
    exact ⟨rfl, rfl⟩
  · intro hfail
    obtain ⟨tr, htr⟩ := updateReconcilerErrors_failed env m inst newErrors hfail
    rw [htr]

/-- Witness for C5: with a stored record "old" for instance "a" and the new error "new", on a
table whose operations succeed, the call returns nil and the table is rewritten. -/
theorem updateReconcilerErrors_rewrites_only_on_change_witness :
    ((sortByErrorID (tableList exManagerOneError.table "a")).map (fun r => r.Error)
        ≠ (([GoError.leaf "new" false] : List GoError).take
            (exEnv [] none none).BGPReconcileErrCountPerInstance).map GoError.Error)
    ∧ (updateReconcilerErrors (exEnv [] none none) exManagerOneError "a"
        [GoError.leaf "new" false]).2 = none
    ∧ (updateReconcilerErrors (exEnv [] none none) exManagerOneError "a"
        [GoError.leaf "new" false]).1.table
        = [{ Instance := "a", ErrorID := 0, Error := "new" }] := by
  refine ⟨by decide, rfl, ?_⟩
  have h := (((updateReconcilerErrors_rewrites_only_on_change (exEnv [] none none)
    exManagerOneError "a" [GoError.leaf "new" false]).2 (by decide)).1 rfl).2
  rw [h]
  decide

/-- Counterexample to C5 as stated: the stored message "old" differs from the new message
"new", but `Delete` fails, so no `Insert` is made and the stored record stays. -/
theorem updateReconcilerErrors_failed_delete_counterexample :
    ((sortByErrorID (tableList exManagerOneError.table "a")).map (fun r => r.Error)
        ≠ (([GoError.leaf "new" false] : List GoError).take
            (Env.BGPReconcileErrCountPerInstance
              (exEnv [] none (some (GoError.leaf "transaction closed" false))))).map
            GoError.Error)
    ∧ (updateReconcilerErrors (exEnv [] none (some (GoError.leaf "transaction closed" false)))
        exManagerOneError "a" [GoError.leaf "new" false]).1.trace
        = [Event.tableDelete { Instance := "a", ErrorID := 0, Error := "old" }]
    ∧ (updateReconcilerErrors (exEnv [] none (some (GoError.leaf "transaction closed" false)))
        exManagerOneError "a" [GoError.leaf "new" false]).1.table
        = [{ Instance := "a", ErrorID := 0, Error := "old" }] := by
  refine ⟨by decide, by decide, by decide⟩

theorem tableList_append (a b : List BGPReconcileError) (inst : String) :
    tableList (a ++ b) inst = tableList a inst ++ tableList b inst := by
  simp [tableList]

theorem tableList_errorRecords_self (inst : String) (k : Nat) (msgs : List String) :
    tableList (errorRecords inst k msgs) inst = errorRecords inst k msgs := by
  unfold tableList
  rw [List.filter_eq_self]
  intro r hr
  simp [(errorRecords_instance inst k msgs r hr).1]

theorem tableList_errorRecords_other (inst inst2 : String) (k : Nat) (msgs : List String)
    (h : inst2 ≠ inst) : tableList (errorRecords inst k msgs) inst2 = [] := by
  unfold tableList
  rw [List.filter_eq_nil_iff]
  intro r hr
  simp [(errorRecords_instance inst k msgs r hr).1, h.symm]

theorem tableList_filter_ne_self (txn : List BGPReconcileError) (inst : String) :
    tableList (txn.filter (fun r => decide (r.Instance ≠ inst))) inst = [] := by
  unfold tableList
  rw [List.filter_filter, List.filter_eq_nil_iff]
  intro r _
  by_cases h : r.Instance = inst <;> simp [h]

theorem tableList_filter_ne_other (txn : List BGPReconcileError) (inst inst2 : String)
    (h : inst2 ≠ inst) :
    tableList (txn.filter (fun r => decide (r.Instance ≠ inst))) inst2 = tableList txn inst2 := by
  unfold tableList
  rw [List.filter_filter]
  apply List.filter_congr
  intro r _
  by_cases h2 : r.Instance = inst2
  · simp [h2, h]
  · simp [h2]

theorem updateReconcilerErrors_other (env : Env) (m : BGPRouterManager) (inst inst2 : String)
    (newErrors : List GoError) (h : inst2 ≠ inst) :
    tableList (updateReconcilerErrors env m inst newErrors).1.table inst2
      = tableList m.table inst2 := by
  by_cases hmsg : (sortByErrorID (tableList m.table inst)).map (fun r => r.Error)
      = (newErrors.take env.BGPReconcileErrCountPerInstance).map GoError.Error
  · rw [updateReconcilerErrors_unchanged env m inst newErrors hmsg]
  · by_cases hok : (updateReconcilerErrors env m inst newErrors).2 = none
    · rw [updateReconcilerErrors_changed_ok env m inst newErrors hmsg hok]
      simp only
      rw [tableList_append, tableList_filter_ne_other _ _ _ h,
        tableList_errorRecords_other _ _ _ _ h, List.append_nil]
    · obtain ⟨tr, htr⟩ := updateReconcilerErrors_failed env m inst newErrors hok
      rw [htr]

theorem updateReconcilerErrors_never_fails (env : Env)
    (hd : ∀ tr obj, env.tableDelete tr obj = none) (hi : ∀ tr obj, env.tableInsert tr obj = none)
    (m : BGPRouterManager) (inst : String) (newErrors : List GoError) :
    (updateReconcilerErrors env m inst newErrors).2 = none := by
  unfold updateReconcilerErrors
  simp only
  split
  · rcases hdel : deleteErrorsFromTable env m.trace m.table inst with ⟨tr, txn1, _ | err⟩
    · simp only
      rcases hins : insertErrorsLoop env inst (truncateErrors env newErrors) 0 tr txn1
        with ⟨tr2, txn2, _ | err⟩
      · rfl
      · have := insertErrorsLoop_never_fails env hi inst (truncateErrors env newErrors) 0 tr txn1
        rw [hins] at this
        simp at this
    · have := deleteErrorsLoop_never_fails env hd (tableList m.table inst) m.trace m.table
      unfold deleteErrorsFromTable at hdel
      rw [hdel] at this
      simp at this
  · rfl

theorem updateReconcilerErrors_self (env : Env)
    (hd : ∀ tr obj, env.tableDelete tr obj = none) (hi : ∀ tr obj, env.tableInsert tr obj = none)
    (m : BGPRouterManager) (inst : String) (newErrors : List GoError) (hinv : TableInv m.table) :
    tableList (updateReconcilerErrors env m inst newErrors).1.table inst
      = errorRecords inst 0
          ((newErrors.take env.BGPReconcileErrCountPerInstance).map GoError.Error) := by
  by_cases hmsg : (sortByErrorID (tableList m.table inst)).map (fun r => r.Error)
      = (newErrors.take env.BGPReconcileErrCountPerInstance).map GoError.Error
  · rw [updateReconcilerErrors_unchanged env m inst newErrors hmsg]
    obtain ⟨msgs, hm⟩ := hinv inst
    rw [hm, sortByErrorID_errorRecords, errorRecords_msgs] at hmsg
    simp only
    rw [hm, hmsg]
  · rw [updateReconcilerErrors_changed_ok env m inst newErrors hmsg
      (updateReconcilerErrors_never_fails env hd hi m inst newErrors)]
    simp only
    rw [tableList_append, tableList_filter_ne_self, tableList_errorRecords_self, List.nil_append]

theorem updateReconcilerErrors_inv (env : Env)
    (hd : ∀ tr obj, env.tableDelete tr obj = none) (hi : ∀ tr obj, env.tableInsert tr obj = none)
    (m : BGPRouterManager) (inst : String) (newErrors : List GoError) (hinv : TableInv m.table) :
    TableInv (updateReconcilerErrors env m inst newErrors).1.table := by
  intro inst2
  by_cases h : inst2 = inst
  · subst h
    exact ⟨_, updateReconcilerErrors_self env hd hi m inst2 newErrors hinv⟩
  · rw [updateReconcilerErrors_other env m inst inst2 newErrors h]
    exact hinv inst2

theorem runUpdates_last (env : Env)
    (hd : ∀ tr obj, env.tableDelete tr obj = none) (hi : ∀ tr obj, env.tableInsert tr obj = none)
    (calls : List (String × List GoError)) (m : BGPRouterManager) (hinv : TableInv m.table)
    (inst : String) :
    tableList (runUpdates env m calls).table inst =
      match lastErrorsFor inst calls with
      | some errs =>
        errorRecords inst 0 ((errs.take env.BGPReconcileErrCountPerInstance).map GoError.Error)
      | none => tableList m.table inst := by
  induction calls generalizing m with
  | nil => simp [runUpdates, lastErrorsFor]
  | cons c rest ih =>
    have hstep : runUpdates env m (c :: rest)
        = runUpdates env (updateReconcilerErrors env m c.1 c.2).1 rest := by
      simp [runUpdates]
    rw [hstep, ih _ (updateReconcilerErrors_inv env hd hi m c.1 c.2 hinv)]
    simp only [lastErrorsFor]
    cases hl : lastErrorsFor inst rest with
    | some errs => rfl
    | none =>
      simp only
      by_cases hc : c.1 = inst
      · simp only [hc, if_true]
        rw [← hc]
        exact updateReconcilerErrors_self env hd hi m c.1 c.2 hinv
      · simp only [hc, if_false]
        exact updateReconcilerErrors_other env m c.1 inst c.2 (fun h => hc h.symm)

/-- C6: from an empty error table and with table operations that succeed, after any sequence
of `updateReconcilerErrors` calls the records stored for an instance are exactly
`(instance, k, message of the k-th error)` for the errors of the most recent call for that
instance, truncated to the cap (none if it was never called); and a call leaves the records of
every other instance unchanged. -/
theorem updateReconcilerErrors_mirrors_last_call (env : Env)
    (hd : ∀ tr obj, env.tableDelete tr obj = none) (hi : ∀ tr obj, env.tableInsert tr obj = none)
    (m : BGPRouterManager) (hm : m.table = []) (calls : List (String × List GoError)) :
    (∀ inst, tableList (runUpdates env m calls).table inst
      = errorRecords inst 0
          ((((lastErrorsFor inst calls).getD []).take
              env.BGPReconcileErrCountPerInstance).map GoError.Error))
    ∧ (∀ (c : String × List GoError) (inst2 : String), inst2 ≠ c.1 →
        tableList (runUpdates env m (calls ++ [c])).table inst2
          = tableList (runUpdates env m calls).table inst2) := by
  have hinv : TableInv m.table := by
    intro inst
    exact ⟨[], by simp [hm, tableList, errorRecords]⟩
  constructor
  · intro inst
    rw [runUpdates_last env hd hi calls m hinv inst]
    cases hl : lastErrorsFor inst calls with
    | some errs => simp
    | none => simp [hm, tableList, errorRecords]
  · intro c inst2 hne
    have : runUpdates env m (calls ++ [c])
        = (updateReconcilerErrors env (runUpdates env m calls) c.1 c.2).1 := by
      simp [runUpdates, List.foldl_append]
    rw [this]
    exact updateReconcilerErrors_other env _ c.1 inst2 c.2 hne

/-- Witness for C6: three calls, two for "a" and one for "b"; "a" ends with the record of its
second call and the last call, for "a", leaves the record of "b" in place. -/
theorem updateReconcilerErrors_mirrors_last_call_witness :
    tableList (runUpdates (exEnv [] none none) NewBGPRouterManager
        [("a", [GoError.leaf "e1" false, GoError.leaf "e2" false]),
         ("b", [GoError.leaf "e3" false]), ("a", [GoError.leaf "e4" false])]).table "a"
      = [{ Instance := "a", ErrorID := 0, Error := "e4" }]
    ∧ tableList (runUpdates (exEnv [] none none) NewBGPRouterManager
        ([("a", [GoError.leaf "e1" false, GoError.leaf "e2" false]),
          ("b", [GoError.leaf "e3" false])] ++ [("a", [GoError.leaf "e4" false])])).table "b"
      = [{ Instance := "b", ErrorID := 0, Error := "e3" }] := by
  have h := updateReconcilerErrors_mirrors_last_call (exEnv [] none none)
    (fun _ _ => rfl) (fun _ _ => rfl) NewBGPRouterManager rfl
    [("a", [GoError.leaf "e1" false, GoError.leaf "e2" false]),
     ("b", [GoError.leaf "e3" false])]
  refine ⟨by decide, ?_⟩
  rw [h.2 ("a", [GoError.leaf "e4" false]) "b" (by decide)]
  decide

/-! ### Reconciling one instance -/

theorem reconcileEvents_succ (p : ReconcileParams) (k n : Nat) :
    reconcileEvents p k (n + 1) = Event.reconcile k p :: reconcileEvents p (k + 1) n := by
  simp [reconcileEvents, List.range'_succ]

theorem reconcileOutcome_zero (heap : List BGPInstance) (p : ReconcileParams)
    (r : ConfigReconciler) (rest : List ConfigReconciler) (k : Nat) (tr : List Event) :
    reconcileOutcome heap p (r :: rest) k tr 0 = r.Reconcile tr heap p := by
  simp [reconcileOutcome, reconcileEvents]

theorem reconcileOutcome_succ (heap : List BGPInstance) (p : ReconcileParams)
    (r : ConfigReconciler) (rest : List ConfigReconciler) (k : Nat) (tr : List Event) (j : Nat) :
    reconcileOutcome heap p (r :: rest) k tr (j + 1)
      = reconcileOutcome heap p rest (k + 1) (tr ++ [Event.reconcile k p]) j := by
  simp [reconcileOutcome, reconcileEvents_succ]

theorem filterMap_range_succ {α : Type} (f : Nat → Option α) (n : Nat) :
    (List.range (n + 1)).filterMap f
      = (f 0).toList ++ (List.range n).filterMap (fun j => f (j + 1)) := by
  rw [List.range_succ_eq_map, List.filterMap_cons, List.filterMap_map]
  cases f 0 <;> simp [Function.comp_def]

/-- The reconciler loop invokes a prefix of the chain: it stops after the first reconciler
that aborts, and collects the errors returned on the way. -/
theorem reconcileLoop_spec (heap : List BGPInstance) (p : ReconcileParams)
    (rs : List ConfigReconciler) (k : Nat) (tr : List Event) (errs : List GoError) :
    ∃ n, n ≤ rs.length
      ∧ reconcileLoop heap p rs k tr errs
          = (tr ++ reconcileEvents p k n,
             errs ++ (List.range n).filterMap (reconcileOutcome heap p rs k tr))
      ∧ (∀ j, j + 1 < n → ∀ e, reconcileOutcome heap p rs k tr j = some e →
          e.IsAbortReconcile = false)
      ∧ (n < rs.length → 0 < n ∧ ∃ e, reconcileOutcome heap p rs k tr (n - 1) = some e
          ∧ e.IsAbortReconcile = true) := by
  induction rs generalizing k tr errs with
  | nil => exact ⟨0, by simp [reconcileLoop, reconcileEvents]⟩
  | cons r rest ih =>
    have hz := reconcileOutcome_zero heap p r rest k tr
    unfold reconcileLoop
    cases hr : r.Reconcile tr heap p with
    | some rErr =>
      rw [hr] at hz
      by_cases hab : rErr.IsAbortReconcile = true
      · refine ⟨1, by simp, ?_, ?_, ?_⟩
        · have h1 : List.range 1 = [0] := rfl
          simp [hab, reconcileEvents, hz, h1]
        · intro j hj
          omega
        · intro _
          exact ⟨by omega, rErr, by simpa using hz, hab⟩
      · obtain ⟨n, hn, hloop, hmid, hlast⟩ :=
          ih (k + 1) (tr ++ [Event.reconcile k p]) (errs ++ [rErr])
        refine ⟨n + 1, by simpa using hn, ?_, ?_, ?_⟩
        · simp only [hab, Bool.false_eq_true, if_false, hloop, reconcileEvents_succ,
            filterMap_range_succ, hz, reconcileOutcome_succ]
          simp
        · intro j hj e he
          cases j with
          | zero =>
            rw [hz] at he
            cases he
            simpa using hab
          | succ j =>
            rw [reconcileOutcome_succ] at he
            exact hmid j (by omega) e he
        · intro hlt
          have hlt2 : n < rest.length := by simpa using hlt
          obtain ⟨hpos, e, he, hea⟩ := hlast hlt2
          refine ⟨by omega, e, ?_, hea⟩
          have : n + 1 - 1 = (n - 1) + 1 := by omega
          rw [this, reconcileOutcome_succ]
          exact he
    | none =>
      rw [hr] at hz
      obtain ⟨n, hn, hloop, hmid, hlast⟩ :=
        ih (k + 1) (tr ++ [Event.reconcile k p]) errs
      refine ⟨n + 1, by simpa using hn, ?_, ?_, ?_⟩
      · simp only [hloop, reconcileEvents_succ, filterMap_range_succ, hz,
          reconcileOutcome_succ]
        simp
      · intro j hj e he
        cases j with
        | zero =>
          rw [hz] at he
          cases he
        | succ j =>
          rw [reconcileOutcome_succ] at he
          exact hmid j (by omega) e he
      · intro hlt
        have hlt2 : n < rest.length := by simpa using hlt
        obtain ⟨hpos, e, he, hea⟩ := hlast hlt2
        refine ⟨by omega, e, ?_, hea⟩
        have : n + 1 - 1 = (n - 1) + 1 := by omega
        rw [this, reconcileOutcome_succ]
        exact he

theorem updateReconcilerErrors_frame (env : Env) (m : BGPRouterManager) (inst : String)
    (newErrors : List GoError) :
    ∃ evs tbl, (updateReconcilerErrors env m inst newErrors).1
        = { m with trace := m.trace ++ evs, table := tbl }
      ∧ ∀ e ∈ evs, e.isTableOp = true := by
  unfold updateReconcilerErrors
  simp only
  split
  · obtain ⟨evs1, hev1, hall1⟩ := deleteErrorsLoop_events env (tableList m.table inst) m.trace m.table
    rcases hdel : deleteErrorsFromTable env m.trace m.table inst with ⟨tr, txn1, _ | err⟩
    · have htr : tr = m.trace ++ evs1 := by
        unfold deleteErrorsFromTable at hdel
        rw [hdel] at hev1
        exact hev1
      obtain ⟨evs2, hev2, hall2⟩ :=
        insertErrorsLoop_events env inst (truncateErrors env newErrors) 0 tr txn1
      simp only
      rcases hins : insertErrorsLoop env inst (truncateErrors env newErrors) 0 tr txn1
        with ⟨tr2, txn2, _ | err⟩
      · rw [hins] at hev2
        simp only at hev2
        refine ⟨evs1 ++ evs2, txn2, ?_, ?_⟩
        · simp [hev2, htr]
        · intro e he
          rcases List.mem_append.1 he with he | he
          · obtain ⟨obj, rfl⟩ := hall1 e he
            rfl
          · obtain ⟨obj, rfl⟩ := hall2 e he
            rfl
      · rw [hins] at hev2
        simp only at hev2
        refine ⟨evs1 ++ evs2, m.table, ?_, ?_⟩
        · simp [hev2, htr]
        · intro e he
          rcases List.mem_append.1 he with he | he
          · obtain ⟨obj, rfl⟩ := hall1 e he
            rfl
          · obtain ⟨obj, rfl⟩ := hall2 e he
            rfl
    · have htr : tr = m.trace ++ evs1 := by
        unfold deleteErrorsFromTable at hdel
        rw [hdel] at hev1
        exact hev1
      refine ⟨evs1, m.table, ?_, ?_⟩
      · simp [htr]
      · intro e he
        obtain ⟨obj, rfl⟩ := hall1 e he
        rfl
  · exact ⟨[], m.table, by simp, by simp⟩

theorem errorsJoin_map_some (errs : List GoError) (u : Option GoError) :
    (errorsJoin (errs.map some ++ [u]) = none ↔ errs = [] ∧ u = none)
    ∧ (∀ e, errorsJoin (errs.map some ++ [u]) = some e → e = GoError.join (errs ++ u.toList)) := by
  have hfm : (errs.map some ++ [u]).filterMap id = errs ++ u.toList := by
    rw [List.filterMap_append, List.filterMap_map]
    cases u <;> simp
  unfold errorsJoin
  rw [hfm]
  cases hl : errs ++ u.toList with
  | nil =>
    have h1 : errs = [] := (List.append_eq_nil.1 hl).1
    have h2 : u = none := by
      have := (List.append_eq_nil.1 hl).2
      cases u <;> simp_all
    simp [h1, h2]
  | cons a l =>
    refine ⟨⟨fun h => by simp at h, fun h => ?_⟩, ?_⟩
    · simp [h.1, h.2] at hl
    · intro e he
      simp only [Option.some.injEq] at he
      exact he.symm

/-- The pass over one instance: a prefix of the chain is invoked, the collected errors go to
`updateReconcilerErrors`, the configuration is stored and the errors are joined. -/
theorem reconcileBGPConfigV2_spec (env : Env) (m : BGPRouterManager) (i : Ptr)
    (newc : CiliumBGPNodeInstance) (ciliumNode : CiliumNode) (p : ReconcileParams)
    (hp : p = { BGPInstance := i, DesiredConfig := newc, CiliumNode := ciliumNode }) :
    ∃ n, n ≤ env.ConfigReconcilers.length
      ∧ (∀ j, j + 1 < n → ∀ e,
          reconcileOutcome m.heap p env.ConfigReconcilers 0 m.trace j = some e →
            e.IsAbortReconcile = false)
      ∧ (n < env.ConfigReconcilers.length → 0 < n ∧ ∃ e,
          reconcileOutcome m.heap p env.ConfigReconcilers 0 m.trace (n - 1) = some e
            ∧ e.IsAbortReconcile = true)
      ∧ reconcileBGPConfigV2 env m i newc ciliumNode
        = ({ m with
              heap := setConfig m.heap i newc
              table := (reconcileUpdate env m p n).1.table
              trace := (reconcileUpdate env m p n).1.trace },
            errorsJoin ((reconcileErrsOf env m p n).map some ++ [(reconcileUpdate env m p n).2]))
      := by
  obtain ⟨n, hn, hloop, hmid, hlast⟩ := reconcileLoop_spec m.heap p
    env.ConfigReconcilers 0 m.trace []
  refine ⟨n, hn, hmid, hlast, ?_⟩
  obtain ⟨evs, tbl, hfr, -⟩ := updateReconcilerErrors_frame env
    { m with trace := m.trace ++ reconcileEvents p 0 n } newc.Name (reconcileErrsOf env m p n)
  have hname : p.DesiredConfig.Name = newc.Name := by rw [hp]
  simp only [reconcileBGPConfigV2, ← hp, hloop, List.nil_append, reconcileUpdate, hname]
  unfold reconcileErrsOf at hfr ⊢
  rw [hfr]

theorem reconcileUpdate_trace (env : Env) (m : BGPRouterManager) (p : ReconcileParams) (n : Nat) :
    ∃ tbl, (reconcileUpdate env m p n).1.trace = m.trace ++ reconcileEvents p 0 n ++ tbl
      ∧ ∀ e ∈ tbl, e.isTableOp = true := by
  obtain ⟨evs, tbl, hfr, hall⟩ := updateReconcilerErrors_frame env
    { m with trace := m.trace ++ reconcileEvents p 0 n } p.DesiredConfig.Name
    (reconcileErrsOf env m p n)
  refine ⟨evs, ?_, hall⟩
  unfold reconcileUpdate
  rw [hfr]

/-- C2: if reconciler `k` of the chain is the first whose `Reconcile` returns an error matching
`ErrAbortReconcile`, then `reconcileBGPConfigV2` invokes exactly the reconcilers `0 .. k`, in
chain order, and nothing after them but operations on the error table. -/
theorem reconcileBGPConfigV2_abort_stops_chain (env : Env) (m : BGPRouterManager) (i : Ptr)
    (newc : CiliumBGPNodeInstance) (ciliumNode : CiliumNode) (k : Nat)
    (hk : k < env.ConfigReconcilers.length)
    (hbefore : ∀ j, j < k → ∀ e,
      reconcileOutcome m.heap (ReconcileParams.mk i newc ciliumNode) env.ConfigReconcilers 0
        m.trace j = some e → e.IsAbortReconcile = false)
    (habort : ∃ e,
      reconcileOutcome m.heap (ReconcileParams.mk i newc ciliumNode) env.ConfigReconcilers 0
        m.trace k = some e ∧ e.IsAbortReconcile = true) :
    ∃ tbl, (reconcileBGPConfigV2 env m i newc ciliumNode).1.trace
        = m.trace ++ reconcileEvents (ReconcileParams.mk i newc ciliumNode) 0 (k + 1) ++ tbl
      ∧ ∀ e ∈ tbl, e.isTableOp = true := by
  obtain ⟨n, hn, hmid, hlast, heq⟩ := reconcileBGPConfigV2_spec env m i newc ciliumNode
    (ReconcileParams.mk i newc ciliumNode) rfl
  have hnk : n = k + 1 := by
    obtain ⟨e, he, hea⟩ := habort
    rcases Nat.lt_trichotomy n (k + 1) with h | h | h
    · obtain ⟨hpos, e2, he2, hea2⟩ := hlast (by omega)
      have := hbefore (n - 1) (by omega) e2 he2
      rw [this] at hea2
      cases hea2
    · exact h
    · have := hmid k h e he
      rw [this] at hea
      cases hea
  subst hnk
  rw [heq]
  exact reconcileUpdate_trace env m _ _

/-- Witness for C2: in a chain of four reconcilers whose second one aborts, exactly the first
two are invoked. -/
theorem reconcileBGPConfigV2_abort_stops_chain_witness :
    ∃ tbl, (reconcileBGPConfigV2 (exEnv exChainAbortSecond none none) exManagerA 0 exInstanceA
        exNode).1.trace
        = exManagerA.trace ++ reconcileEvents (ReconcileParams.mk 0 exInstanceA exNode) 0 (1 + 1)
          ++ tbl
      ∧ ∀ e ∈ tbl, e.isTableOp = true :=
  reconcileBGPConfigV2_abort_stops_chain
    (exEnv exChainAbortSecond none none) exManagerA 0 exInstanceA exNode 1 (by decide)
    (by
      intro j hj e he
      have hj0 : j = 0 := by omega
      subst hj0
      simp [reconcileOutcome, exEnv, exChainAbortSecond, okReconciler] at he)
    ⟨GoError.leaf "store not ready" true, rfl, rfl⟩

/-- The run behind the witness for C2: reconcilers 0 and 1 are invoked, 2 and 3 are not, and
the abort error is stored. -/
theorem reconcileBGPConfigV2_abort_example :
    (reconcileBGPConfigV2 (exEnv exChainAbortSecond none none) exManagerA 0 exInstanceA
        exNode).1.trace
      = [Event.reconcile 0 (ReconcileParams.mk 0 exInstanceA exNode),
         Event.reconcile 1 (ReconcileParams.mk 0 exInstanceA exNode),
         Event.tableInsert { Instance := "a", ErrorID := 0, Error := "store not ready" }] := by
  decide

/-- C3: if no reconciler returns an error matching `ErrAbortReconcile`, then
`reconcileBGPConfigV2` invokes every reconciler of the chain exactly once, in chain order,
whatever other errors they return. -/
theorem reconcileBGPConfigV2_continues_on_error (env : Env) (m : BGPRouterManager) (i : Ptr)
    (newc : CiliumBGPNodeInstance) (ciliumNode : CiliumNode)
    (hnoabort : ∀ j, j < env.ConfigReconcilers.length → ∀ e,
      reconcileOutcome m.heap (ReconcileParams.mk i newc ciliumNode) env.ConfigReconcilers 0
        m.trace j = some e → e.IsAbortReconcile = false) :
    ∃ tbl, (reconcileBGPConfigV2 env m i newc ciliumNode).1.trace
        = m.trace ++ reconcileEvents (ReconcileParams.mk i newc ciliumNode) 0
            env.ConfigReconcilers.length ++ tbl
      ∧ ∀ e ∈ tbl, e.isTableOp = true := by
  obtain ⟨n, hn, hmid, hlast, heq⟩ := reconcileBGPConfigV2_spec env m i newc ciliumNode
    (ReconcileParams.mk i newc ciliumNode) rfl
  have hnk : n = env.ConfigReconcilers.length := by
    by_contra hne
    obtain ⟨hpos, e2, he2, hea2⟩ := hlast (by omega)
    have := hnoabort (n - 1) (by omega) e2 he2
    rw [this] at hea2
    cases hea2
  subst hnk
  rw [heq]
  exact reconcileUpdate_trace env m _ _

/-- Witness for C3: in a chain of three reconcilers whose first and third fail without
aborting, all three are invoked. -/
theorem reconcileBGPConfigV2_continues_on_error_witness :
    ∃ tbl, (reconcileBGPConfigV2 (exEnv exChainTwoFail none none) exManagerA 0 exInstanceA
        exNode).1.trace
        = exManagerA.trace ++ reconcileEvents (ReconcileParams.mk 0 exInstanceA exNode) 0
            (exEnv exChainTwoFail none none).ConfigReconcilers.length ++ tbl
      ∧ ∀ e ∈ tbl, e.isTableOp = true :=
  reconcileBGPConfigV2_continues_on_error
    (exEnv exChainTwoFail none none) exManagerA 0 exInstanceA exNode
    (by
      intro j hj e he
      have hj3 : j < 3 := hj
      interval_cases j <;>
        simp [reconcileOutcome, exEnv, exChainTwoFail, okReconciler, failReconciler] at he <;>
        subst he <;> rfl)

/-- The run behind the witness for C3. -/
theorem reconcileBGPConfigV2_continues_example :
    (reconcileBGPConfigV2 (exEnv exChainTwoFail none none) exManagerA 0 exInstanceA
        exNode).1.trace
      = [Event.reconcile 0 (ReconcileParams.mk 0 exInstanceA exNode),
         Event.reconcile 1 (ReconcileParams.mk 0 exInstanceA exNode),
         Event.reconcile 2 (ReconcileParams.mk 0 exInstanceA exNode),
         Event.tableInsert { Instance := "a", ErrorID := 0, Error := "bad policy" },
         Event.tableInsert { Instance := "a", ErrorID := 1, Error := "bad peer" }] := by
  decide

/-- C4: after `reconcileBGPConfigV2(i, newc, node)` the last-applied configuration of the
instance `i` is `newc`, whatever the reconcilers and the error table return. -/
theorem reconcileBGPConfigV2_sets_config (env : Env) (m : BGPRouterManager) (i : Ptr)
    (newc : CiliumBGPNodeInstance) (ciliumNode : CiliumNode) (hi : i < m.heap.length) :
    ((reconcileBGPConfigV2 env m i newc ciliumNode).1.heap[i]?).map (fun o => o.Config)
      = some (some newc) := by
  obtain ⟨n, -, -, -, heq⟩ := reconcileBGPConfigV2_spec env m i newc ciliumNode
    (ReconcileParams.mk i newc ciliumNode) rfl
  rw [heq]
  simp only [setConfig, List.getElem?_modify_eq]
  rw [List.getElem?_eq_getElem hi]
  rfl

/-- Witness for C4: the second reconciler aborts and the table insert fails; the
configuration of instance "a" is still set. -/
theorem reconcileBGPConfigV2_sets_config_witness :
    (0 < exManagerA.heap.length)
    ∧ ((reconcileBGPConfigV2 (exEnv exChainAbortSecond (some (GoError.leaf "closed" false)) none)
          exManagerA 0 exInstanceA exNode).1.heap[0]?).map (fun o => o.Config)
        = some (some exInstanceA) :=
  ⟨by decide, reconcileBGPConfigV2_sets_config
    (exEnv exChainAbortSecond (some (GoError.leaf "closed" false)) none) exManagerA 0
    exInstanceA exNode (by decide)⟩

theorem reconcileErrsOf_dropLast (env : Env) (m : BGPRouterManager) (p : ReconcileParams)
    (n : Nat) (e : GoError) (he : e ∈ (reconcileErrsOf env m p n).dropLast) :
    ∃ j, j + 1 < n ∧ reconcileOutcome m.heap p env.ConfigReconcilers 0 m.trace j = some e := by
  cases n with
  | zero => simp [reconcileErrsOf] at he
  | succ n =>
    unfold reconcileErrsOf at he
    rw [List.range_succ, List.filterMap_append] at he
    have hA : e ∈ (List.range n).filterMap
        (reconcileOutcome m.heap p env.ConfigReconcilers 0 m.trace) := by
      cases hx : reconcileOutcome m.heap p env.ConfigReconcilers 0 m.trace n with
      | none =>
        simp only [List.filterMap_cons, hx, List.filterMap_nil, List.append_nil] at he
        exact List.mem_of_mem_dropLast he
      | some x =>
        simp only [List.filterMap_cons, hx, List.filterMap_nil] at he
        rw [List.dropLast_concat] at he
        exact he
    obtain ⟨j, hj, hje⟩ := List.mem_filterMap.1 hA
    exact ⟨j, by simpa using hj, hje⟩

/-- C7: the error returned by `reconcileBGPConfigV2` is the join of the errors returned by the
invoked reconcilers, in invocation order, followed by the error of the table update if any.
Only the last reconciler error can be an abort; no error is dropped, whatever their number;
and the result is nil exactly when every invoked reconciler returned nil and the table update
succeeded. -/
theorem reconcileBGPConfigV2_error_joins_all (env : Env) (m : BGPRouterManager) (i : Ptr)
    (newc : CiliumBGPNodeInstance) (ciliumNode : CiliumNode) :
    ∃ n, n ≤ env.ConfigReconcilers.length
      ∧ (∃ tbl, (reconcileBGPConfigV2 env m i newc ciliumNode).1.trace
          = m.trace ++ reconcileEvents (ReconcileParams.mk i newc ciliumNode) 0 n ++ tbl
          ∧ ∀ e ∈ tbl, e.isTableOp = true)
      ∧ (∀ e ∈ (reconcileErrsOf env m (ReconcileParams.mk i newc ciliumNode) n).dropLast,
          e.IsAbortReconcile = false)
      ∧ (reconcileBGPConfigV2 env m i newc ciliumNode).2
          = errorsJoin ((reconcileErrsOf env m (ReconcileParams.mk i newc ciliumNode) n).map some
              ++ [(reconcileUpdate env m (ReconcileParams.mk i newc ciliumNode) n).2])
      ∧ ((reconcileBGPConfigV2 env m i newc ciliumNode).2 = none ↔
          (∀ j, j < n → reconcileOutcome m.heap (ReconcileParams.mk i newc ciliumNode)
              env.ConfigReconcilers 0 m.trace j = none)
          ∧ (reconcileUpdate env m (ReconcileParams.mk i newc ciliumNode) n).2 = none)
      ∧ (∀ e, (reconcileBGPConfigV2 env m i newc ciliumNode).2 = some e →
          e = GoError.join (reconcileErrsOf env m (ReconcileParams.mk i newc ciliumNode) n
            ++ (reconcileUpdate env m (ReconcileParams.mk i newc ciliumNode) n).2.toList)) := by
  obtain ⟨n, hn, hmid, hlast, heq⟩ := reconcileBGPConfigV2_spec env m i newc ciliumNode
    (ReconcileParams.mk i newc ciliumNode) rfl
  have hj := errorsJoin_map_some (reconcileErrsOf env m (ReconcileParams.mk i newc ciliumNode) n)
    (reconcileUpdate env m (ReconcileParams.mk i newc ciliumNode) n).2
  refine ⟨n, hn, ?_, ?_, ?_, ?_, ?_⟩
  · rw [heq]
    exact reconcileUpdate_trace env m _ _
  · intro e he
    obtain ⟨j, hj1, hj2⟩ := reconcileErrsOf_dropLast env m _ n e he
    exact hmid j hj1 e hj2
  · rw [heq]
  · rw [heq]
    simp only
    rw [hj.1]
    have hnil : reconcileErrsOf env m (ReconcileParams.mk i newc ciliumNode) n = [] ↔
        ∀ j, j < n → reconcileOutcome m.heap (ReconcileParams.mk i newc ciliumNode)
          env.ConfigReconcilers 0 m.trace j = none := by
      unfold reconcileErrsOf
      rw [List.filterMap_eq_nil_iff]
      simp
    rw [hnil]
  · intro e he
    rw [heq] at he
    exact hj.2 e he

/-- Six failing reconcilers against a cap of five: the returned error joins all six errors
while the table stores the first five. -/
theorem reconcileBGPConfigV2_error_beyond_cap_example :
    (reconcileBGPConfigV2
        (exEnv (List.replicate 6 (failReconciler "r" (GoError.leaf "e" false))) none none)
        exManagerA 0 exInstanceA exNode).2
      = some (GoError.join (List.replicate 6 (GoError.leaf "e" false)))
    ∧ (reconcileBGPConfigV2
        (exEnv (List.replicate 6 (failReconciler "r" (GoError.leaf "e" false))) none none)
        exManagerA 0 exInstanceA exNode).1.table.length = 5 := by
  refine ⟨rfl, by decide⟩

/-! ### Go maps -/

theorem GoMap.get_eq_none_iff {K V : Type} [DecidableEq K] (m : GoMap K V) (k : K) :
    m.get k = none ↔ ∀ e ∈ m, e.1 ≠ k := by
  induction m with
  | nil => simp [GoMap.get]
  | cons e rest ih =>
    obtain ⟨k1, v⟩ := e
    by_cases h : k1 = k
    · simp [GoMap.get, h]
    · simp [GoMap.get, h, ih]

theorem GoMap.mem_of_get {K V : Type} [DecidableEq K] (m : GoMap K V) (k : K) (v : V)
    (h : m.get k = some v) : (k, v) ∈ m := by
  induction m with
  | nil => simp [GoMap.get] at h
  | cons e rest ih =>
    obtain ⟨k1, v1⟩ := e
    by_cases hk : k1 = k
    · simp only [GoMap.get, hk, if_true, Option.some.injEq] at h
      subst hk h
      exact List.mem_cons_self _ _
    · simp only [GoMap.get, hk, if_false] at h
      exact List.mem_cons_of_mem _ (ih h)

theorem GoMap.get_filter {K V : Type} [DecidableEq K] (m : GoMap K V) (q : K → Bool) (k : K) :
    GoMap.get (m.filter (fun e => q e.1)) k = if q k then m.get k else none := by
  induction m with
  | nil => simp [GoMap.get]
  | cons e rest ih =>
    obtain ⟨k1, v⟩ := e
    by_cases hq1 : q k1 = true
    · by_cases hk : k1 = k
      · subst hk
        simp [List.filter_cons, hq1, GoMap.get]
      · simp only [List.filter_cons, hq1, if_true, GoMap.get, hk, if_false]
        exact ih
    · by_cases hk : k1 = k
      · subst hk
        simp only [List.filter_cons, hq1, Bool.false_eq_true, if_false, GoMap.get, if_true]
        rw [ih]
        simp [hq1]
      · simp only [List.filter_cons, hq1, Bool.false_eq_true, if_false, GoMap.get, hk]
        exact ih

theorem GoMap.get_delete {K V : Type} [DecidableEq K] (m : GoMap K V) (k k2 : K) :
    (m.delete k).get k2 = if k2 = k then none else m.get k2 := by
  unfold GoMap.delete
  rw [GoMap.get_filter m (fun x => decide (x ≠ k)) k2]
  by_cases h : k2 = k <;> simp [h]

theorem GoMap.get_append {K V : Type} [DecidableEq K] (a b : GoMap K V) (k : K) :
    GoMap.get (a ++ b) k = match GoMap.get a k with
      | some v => some v
      | none => GoMap.get b k := by
  induction a with
  | nil => simp [GoMap.get]
  | cons e rest ih =>
    obtain ⟨k1, v⟩ := e
    by_cases hk : k1 = k
    · simp [GoMap.get, hk]
    · simp only [List.cons_append, GoMap.get, hk, if_false]
      exact ih

theorem GoMap.get_set {K V : Type} [DecidableEq K] (m : GoMap K V) (k k2 : K) (v : V) :
    (m.set k v).get k2 = if k2 = k then some v else m.get k2 := by
  unfold GoMap.set
  rw [GoMap.get_append, GoMap.get_delete]
  by_cases h : k2 = k
  · subst h
    simp [GoMap.get]
  · have h2 : ¬ k = k2 := fun e => h e.symm
    simp only [h, if_false]
    cases hg : GoMap.get m k2 with
    | none => simp [GoMap.get, h2]
    | some w => rfl

/-! ### Withdrawal -/

theorem closeEvents_kind (notifications : GoMap String Nat) (name : String) :
    ∀ e ∈ closeEvents notifications name, ∃ ch, e = Event.closeCh ch := by
  intro e he
  unfold closeEvents at he
  cases h : notifications.get name with
  | none => simp [h] at he
  | some ch =>
    simp only [h, List.mem_singleton] at he
    exact ⟨ch, he⟩

theorem teardownEvents_kind (n : Nat) (fd : Bool) (notifications : GoMap String Nat)
    (name : String) (i : Ptr) :
    ∀ e ∈ teardownEvents n fd notifications name i,
      e.isWithdrawKind = true ∧ ∀ j, e.withdrawnPtr = some j → j = i := by
  intro e he
  simp only [teardownEvents, cleanupEvents, List.mem_append, List.mem_map, List.mem_range,
    List.mem_cons, List.mem_singleton, List.not_mem_nil, or_false] at he
  rcases he with (⟨r, -, rfl⟩ | rfl | rfl) | he
  · exact ⟨rfl, fun j hj => by simpa [Event.withdrawnPtr] using hj.symm⟩
  · exact ⟨rfl, fun j hj => by simpa [Event.withdrawnPtr] using hj.symm⟩
  · exact ⟨rfl, fun j hj => by simpa [Event.withdrawnPtr] using hj.symm⟩
  · obtain ⟨ch, rfl⟩ := closeEvents_kind notifications name e he
    exact ⟨rfl, fun j hj => by simp [Event.withdrawnPtr] at hj⟩

theorem withdrawLoop_nil (env : Env) (m : BGPRouterManager) (txn : List BGPReconcileError) :
    withdrawLoop env [] m txn = (m, txn) := by
  simp [withdrawLoop]

theorem withdrawLoop_cons_none (env : Env) (name : String) (rest : List String)
    (m : BGPRouterManager) (txn : List BGPReconcileError) (h : m.BGPInstances.get name = none) :
    withdrawLoop env (name :: rest) m txn = withdrawLoop env rest m txn := by
  simp [withdrawLoop, h]

theorem withdrawLoop_cons_some (env : Env) (name : String) (rest : List String)
    (m : BGPRouterManager) (txn : List BGPReconcileError) (i : Ptr)
    (h : m.BGPInstances.get name = some i) :
    ∃ dels txn1,
      (∀ e ∈ dels, ∃ obj, e = Event.tableDelete obj)
      ∧ ((∀ tr obj, env.tableDelete tr obj = none) →
          txn1 = txn.filter (fun r => decide (r.Instance ≠ name)))
      ∧ withdrawLoop env (name :: rest) m txn
        = withdrawLoop env rest
            { m with
              BGPInstances := m.BGPInstances.delete name
              notifications := m.notifications.delete name
              trace := m.trace ++ (teardownEvents env.ConfigReconcilers.length
                m.destroyRouterOnStop m.notifications name i ++ dels) }
            txn1 := by
  obtain ⟨dels, hd1, hd2⟩ := deleteErrorsLoop_events env (tableList txn name)
    (m.trace ++ cleanupEvents env.ConfigReconcilers.length i
        ++ [Event.cancelCtx i, Event.routerStop i m.destroyRouterOnStop]
        ++ closeEvents m.notifications name) txn
  refine ⟨dels, (deleteErrorsFromTable env (m.trace ++ cleanupEvents env.ConfigReconcilers.length i
        ++ [Event.cancelCtx i, Event.routerStop i m.destroyRouterOnStop]
        ++ closeEvents m.notifications name) txn name).2.1, hd2, ?_, ?_⟩
  · intro hnf
    unfold deleteErrorsFromTable
    rw [deleteErrorsLoop_ok env _ _ _ (deleteErrorsLoop_never_fails env hnf _ _ _)]
    exact foldl_delete_tableList txn name
  · simp only [withdrawLoop, h]
    unfold deleteErrorsFromTable
    rw [hd1]
    simp [teardownEvents, List.append_assoc]

/-- The state after the withdraw loop: the listed names have left the registry, the listed
names that were registered have left the notification map, and only teardown calls were made. -/
theorem withdrawLoop_state (env : Env) (names : List String) (m : BGPRouterManager)
    (txn : List BGPReconcileError) :
    ∃ W, (withdrawLoop env names m txn).1
        = { m with
            BGPInstances := m.BGPInstances.filter (fun e => decide (e.1 ∉ names))
            notifications := m.notifications.filter
              (fun e => !(decide (e.1 ∈ names) && (m.BGPInstances.get e.1).isSome))
            trace := m.trace ++ W }
      ∧ (∀ e ∈ W, e.isWithdrawKind = true)
      ∧ (∀ name i, name ∈ names → m.BGPInstances.get name = some i →
          ∀ e ∈ teardownEvents env.ConfigReconcilers.length m.destroyRouterOnStop
            m.notifications name i, e ∈ W)
      ∧ (∀ e ∈ W, ∀ i, e.withdrawnPtr = some i →
          ∃ name ∈ names, m.BGPInstances.get name = some i) := by
  induction names generalizing m txn with
  | nil =>
    refine ⟨[], ?_, by simp, by simp, by simp⟩
    simp [withdrawLoop_nil]
  | cons name rest ih =>
    cases hget : m.BGPInstances.get name with
    | none =>
      rw [withdrawLoop_cons_none env name rest m txn hget]
      obtain ⟨W, hst, hkind, hall, hconv⟩ := ih m txn
      have hnone := (GoMap.get_eq_none_iff m.BGPInstances name).1 hget
      refine ⟨W, ?_, hkind, ?_, ?_⟩
      · rw [hst]
        have h1 : m.BGPInstances.filter (fun e => decide (e.1 ∉ rest))
            = m.BGPInstances.filter (fun e => decide (e.1 ∉ name :: rest)) := by
          apply List.filter_congr
          intro e he
          have := hnone e he
          simp [this]
        have h2 : m.notifications.filter
              (fun e => !(decide (e.1 ∈ rest) && (m.BGPInstances.get e.1).isSome))
            = m.notifications.filter
              (fun e => !(decide (e.1 ∈ name :: rest) && (m.BGPInstances.get e.1).isSome)) := by
          apply List.filter_congr
          intro e _
          by_cases hen : e.1 = name
          · simp [hen, hget]
          · simp [hen]
        rw [h1, h2]
      · intro name2 i hmem hg2
        have hne : name2 ≠ name := by
          intro h
          rw [h, hget] at hg2
          cases hg2
        have hmem2 : name2 ∈ rest := by
          rcases List.mem_cons.1 hmem with h | h
          · exact absurd h hne
          · exact h
        exact hall name2 i hmem2 hg2
      · intro e he i hi
        obtain ⟨name2, hm2, hg2⟩ := hconv e he i hi
        exact ⟨name2, List.mem_cons_of_mem _ hm2, hg2⟩
    | some i =>
      obtain ⟨dels, txn1, hdels, -, hstep⟩ := withdrawLoop_cons_some env name rest m txn i hget
      rw [hstep]
      obtain ⟨W, hst, hkind, hall, hconv⟩ := ih
        { m with
          BGPInstances := m.BGPInstances.delete name
          notifications := m.notifications.delete name
          trace := m.trace ++ (teardownEvents env.ConfigReconcilers.length
            m.destroyRouterOnStop m.notifications name i ++ dels) }
        txn1
      refine ⟨teardownEvents env.ConfigReconcilers.length m.destroyRouterOnStop
        m.notifications name i ++ dels ++ W, ?_, ?_, ?_, ?_⟩
      · rw [hst]
        simp only
        have h1 : (m.BGPInstances.delete name).filter (fun e => decide (e.1 ∉ rest))
            = m.BGPInstances.filter (fun e => decide (e.1 ∉ name :: rest)) := by
          unfold GoMap.delete
          rw [List.filter_filter]
          apply List.filter_congr
          intro e _
          by_cases hen : e.1 = name <;> simp [hen]
        have h2 : (m.notifications.delete name).filter
              (fun e => !(decide (e.1 ∈ rest)
                && (GoMap.get (m.BGPInstances.delete name) e.1).isSome))
            = m.notifications.filter
              (fun e => !(decide (e.1 ∈ name :: rest) && (m.BGPInstances.get e.1).isSome)) := by
          unfold GoMap.delete
          rw [List.filter_filter]
          apply List.filter_congr
          intro e _
          have hd := GoMap.get_delete m.BGPInstances name e.1
          unfold GoMap.delete at hd
          rw [hd]
          by_cases hen : e.1 = name
          · simp [hen, hget]
          · simp [hen]
        rw [h1, h2]
        simp [List.append_assoc]
      · intro e he
        rcases List.mem_append.1 he with he | he
        · rcases List.mem_append.1 he with he | he
          · exact (teardownEvents_kind _ _ _ _ _ e he).1
          · obtain ⟨obj, rfl⟩ := hdels e he
            rfl
        · exact hkind e he
      · intro name2 i2 hmem hg2 e he
        by_cases hne : name2 = name
        · subst hne
          rw [hget] at hg2
          cases hg2
          exact List.mem_append_left _ (List.mem_append_left _ he)
        · have hmem2 : name2 ∈ rest := by
            rcases List.mem_cons.1 hmem with h | h
            · exact absurd h hne
            · exact h
          have hg3 : GoMap.get (m.BGPInstances.delete name) name2 = some i2 := by
            rw [GoMap.get_delete]
            simp [hne, hg2]
          have hn3 : GoMap.get (m.notifications.delete name) name2 = m.notifications.get name2 := by
            rw [GoMap.get_delete]
            simp [hne]
          have he2 : e ∈ teardownEvents env.ConfigReconcilers.length m.destroyRouterOnStop
              (m.notifications.delete name) name2 i2 := by
            simpa [teardownEvents, closeEvents, hn3] using he
          exact List.mem_append_right _ (hall name2 i2 hmem2 hg3 e he2)
      · intro e he j hj
        rcases List.mem_append.1 he with he | he
        · rcases List.mem_append.1 he with he | he
          · have := (teardownEvents_kind _ _ _ _ _ e he).2 j hj
            subst this
            exact ⟨name, List.mem_cons_self _ _, hget⟩
          · obtain ⟨obj, rfl⟩ := hdels e he
            simp [Event.withdrawnPtr] at hj
        · obtain ⟨name2, hm2, hg2⟩ := hconv e he j hj
          rw [GoMap.get_delete] at hg2
          by_cases hne : name2 = name
          · simp [hne] at hg2
          · simp only [hne, if_false] at hg2
            exact ⟨name2, List.mem_cons_of_mem _ hm2, hg2⟩

/-- When deletions succeed, the withdraw loop removes from the open transaction exactly the
records of the listed names that were registered. -/
theorem withdrawLoop_table (env : Env) (hnf : ∀ tr obj, env.tableDelete tr obj = none)
    (names : List String) (m : BGPRouterManager) (txn : List BGPReconcileError) :
    (withdrawLoop env names m txn).2
      = txn.filter (fun r =>
          !(decide (r.Instance ∈ names) && (m.BGPInstances.get r.Instance).isSome)) := by
  induction names generalizing m txn with
  | nil => simp [withdrawLoop_nil]
  | cons name rest ih =>
    cases hget : m.BGPInstances.get name with
    | none =>
      rw [withdrawLoop_cons_none env name rest m txn hget, ih]
      apply List.filter_congr
      intro r _
      by_cases hen : r.Instance = name
      · simp [hen, hget]
      · simp [hen]
    | some i =>
      obtain ⟨dels, txn1, -, htxn, hstep⟩ := withdrawLoop_cons_some env name rest m txn i hget
      rw [hstep, ih, htxn hnf, List.filter_filter]
      apply List.filter_congr
      intro r _
      simp only
      rw [GoMap.get_delete]
      by_cases hen : r.Instance = name
      · simp [hen, hget]
      · simp [hen]

theorem withdrawV2_state (env : Env) (m : BGPRouterManager) (rd : reconcileDiffV2) :
    ∃ W tbl, withdrawV2 env m rd
        = { m with
            BGPInstances := m.BGPInstances.filter (fun e => decide (e.1 ∉ rd.withdraw))
            notifications := m.notifications.filter
              (fun e => !(decide (e.1 ∈ rd.withdraw) && (m.BGPInstances.get e.1).isSome))
            table := tbl
            trace := m.trace ++ W }
      ∧ ((∀ tr obj, env.tableDelete tr obj = none) →
          tbl = m.table.filter (fun r =>
            !(decide (r.Instance ∈ rd.withdraw) && (m.BGPInstances.get r.Instance).isSome)))
      ∧ (∀ e ∈ W, e.isWithdrawKind = true)
      ∧ (∀ name i, name ∈ rd.withdraw → m.BGPInstances.get name = some i →
          ∀ e ∈ teardownEvents env.ConfigReconcilers.length m.destroyRouterOnStop
            m.notifications name i, e ∈ W)
      ∧ (∀ e ∈ W, ∀ i, e.withdrawnPtr = some i →
          ∃ name ∈ rd.withdraw, m.BGPInstances.get name = some i) := by
  obtain ⟨W, hst, hkind, hall, hconv⟩ := withdrawLoop_state env rd.withdraw m m.table
  refine ⟨W, (withdrawLoop env rd.withdraw m m.table).2, ?_, ?_, hkind, hall, hconv⟩
  · unfold withdrawV2
    simp only
    rw [hst]
  · intro hnf
    exact withdrawLoop_table env hnf rd.withdraw m m.table

theorem mem_teardownEvents (n : Nat) (fd : Bool) (notifications : GoMap String Nat)
    (name : String) (i : Ptr) :
    (∀ r, r < n → Event.cleanup r i ∈ teardownEvents n fd notifications name i)
    ∧ Event.cancelCtx i ∈ teardownEvents n fd notifications name i
    ∧ Event.routerStop i fd ∈ teardownEvents n fd notifications name i
    ∧ (∀ ch, notifications.get name = some ch →
        Event.closeCh ch ∈ teardownEvents n fd notifications name i) := by
  refine ⟨?_, ?_, ?_, ?_⟩
  · intro r hr
    simp only [teardownEvents, cleanupEvents, List.mem_append, List.mem_map, List.mem_range]
    exact Or.inl (Or.inl ⟨r, hr, rfl⟩)
  · simp [teardownEvents]
  · simp [teardownEvents]
  · intro ch hch
    simp [teardownEvents, closeEvents, hch]

/-- C9: `withdrawV2` is best-effort. For every listed name that is registered, whatever the
deletion of its error records returns, `Cleanup` of every reconciler, `CancelCtx`,
`Router.Stop` and the close of its notification channel are called, and afterwards the name is
in neither the registry nor the notification map. No teardown call is made for a listed name
that is not registered, and its notification entry is left alone. Registry entries with names
outside the list are unchanged, as are their notification entries and all instances. -/
theorem withdrawV2_best_effort (env : Env) (m : BGPRouterManager) (rd : reconcileDiffV2) :
    ∃ W, (withdrawV2 env m rd).trace = m.trace ++ W
      ∧ (∀ name i, name ∈ rd.withdraw → m.BGPInstances.get name = some i →
          (∀ r, r < env.ConfigReconcilers.length → Event.cleanup r i ∈ W)
          ∧ Event.cancelCtx i ∈ W
          ∧ Event.routerStop i m.destroyRouterOnStop ∈ W
          ∧ (∀ ch, m.notifications.get name = some ch → Event.closeCh ch ∈ W)
          ∧ (withdrawV2 env m rd).BGPInstances.get name = none
          ∧ (withdrawV2 env m rd).notifications.get name = none)
      ∧ (∀ e ∈ W, ∀ i, e.withdrawnPtr = some i →
          ∃ name ∈ rd.withdraw, m.BGPInstances.get name = some i)
      ∧ (∀ name, name ∈ rd.withdraw → m.BGPInstances.get name = none →
          (withdrawV2 env m rd).notifications.get name = m.notifications.get name)
      ∧ (withdrawV2 env m rd).BGPInstances
          = m.BGPInstances.filter (fun e => decide (e.1 ∉ rd.withdraw))
      ∧ (∀ name, name ∉ rd.withdraw →
          (withdrawV2 env m rd).BGPInstances.get name = m.BGPInstances.get name
          ∧ (withdrawV2 env m rd).notifications.get name = m.notifications.get name)
      ∧ (withdrawV2 env m rd).heap = m.heap := by
  obtain ⟨W, tbl, hst, -, -, hall, hconv⟩ := withdrawV2_state env m rd
  have hreg : ∀ name, (withdrawV2 env m rd).BGPInstances.get name
      = if name ∉ rd.withdraw then m.BGPInstances.get name else none := by
    intro name
    rw [hst]
    simp only
    rw [GoMap.get_filter m.BGPInstances (fun k => decide (k ∉ rd.withdraw)) name]
    by_cases h : name ∈ rd.withdraw <;> simp [h]
  have hnot : ∀ name, (withdrawV2 env m rd).notifications.get name
      = if (decide (name ∈ rd.withdraw) && (m.BGPInstances.get name).isSome) = true then none
        else m.notifications.get name := by
    intro name
    rw [hst]
    simp only
    rw [GoMap.get_filter m.notifications
      (fun k => !(decide (k ∈ rd.withdraw) && (m.BGPInstances.get k).isSome)) name]
    by_cases h : (decide (name ∈ rd.withdraw) && (m.BGPInstances.get name).isSome) = true
    · simp [h]
    · simp only [h]
      simp at h
      simp [h]
  refine ⟨W, by rw [hst], ?_, hconv, ?_, by rw [hst], ?_, by rw [hst]⟩
  · intro name i hmem hget
    have hT := mem_teardownEvents env.ConfigReconcilers.length m.destroyRouterOnStop
      m.notifications name i
    have hin := hall name i hmem hget
    refine ⟨fun r hr => hin _ (hT.1 r hr), hin _ hT.2.1, hin _ hT.2.2.1,
      fun ch hch => hin _ (hT.2.2.2 ch hch), ?_, ?_⟩
    · rw [hreg]
      simp [hmem]
    · rw [hnot]
      simp [hmem, hget]
  · intro name _ hget
    rw [hnot]
    simp [hget]
  · intro name hmem
    refine ⟨?_, ?_⟩
    · rw [hreg]
      simp [hmem]
    · rw [hnot]
      simp [hmem]

/-- Witness for C9: "a" is registered and "zz" is not, and every `Delete` on the error table
fails; "a" is still torn down and removed. -/
theorem withdrawV2_best_effort_witness :
    (withdrawV2 (exEnv [okReconciler "r1"] none (some (GoError.leaf "closed" false)))
        exManagerAWithError exWithdrawDiff).BGPInstances.get "a" = none
    ∧ (withdrawV2 (exEnv [okReconciler "r1"] none (some (GoError.leaf "closed" false)))
        exManagerAWithError exWithdrawDiff).notifications.get "a" = none
    ∧ Event.routerStop 0 false
        ∈ (withdrawV2 (exEnv [okReconciler "r1"] none (some (GoError.leaf "closed" false)))
            exManagerAWithError exWithdrawDiff).trace := by
  obtain ⟨W, htr, hall, -⟩ := withdrawV2_best_effort
    (exEnv [okReconciler "r1"] none (some (GoError.leaf "closed" false)))
    exManagerAWithError exWithdrawDiff
  have h := hall "a" 0 (by decide) (by decide)
  refine ⟨h.2.2.2.2.1, h.2.2.2.2.2, ?_⟩
  rw [htr]
  exact List.mem_append_right _ h.2.2.1

theorem GoMap.mem_keys_of_get {K V : Type} [DecidableEq K] (m : GoMap K V) (k : K) (v : V)
    (h : m.get k = some v) : k ∈ m.keys := by
  have := GoMap.mem_of_get m k v h
  exact List.mem_map.2 ⟨(k, v), this, rfl⟩

/-- The nil desired state in a state in which each notification entry belongs to a registered
name: the call returns nil, leaves the registry and the notification map empty, and has torn
down every previously registered instance; when the deletions on the error table succeed, no
error record of a previously registered instance is left. -/
theorem ReconcileInstances_nil_spec (env : Env) (m : BGPRouterManager)
    (ciliumNode : CiliumNode)
    (hN : ∀ e ∈ m.notifications, (m.BGPInstances.get e.1).isSome = true) :
    (ReconcileInstances env m none ciliumNode).2 = none
    ∧ (ReconcileInstances env m none ciliumNode).1.BGPInstances = []
    ∧ (ReconcileInstances env m none ciliumNode).1.notifications = []
    ∧ (∃ W, (ReconcileInstances env m none ciliumNode).1.trace = m.trace ++ W
        ∧ (∀ e ∈ W, e.isWithdrawKind = true)
        ∧ ∀ name i, m.BGPInstances.get name = some i →
            ∀ e ∈ teardownEvents env.ConfigReconcilers.length m.destroyRouterOnStop
              m.notifications name i, e ∈ W)
    ∧ ((∀ tr obj, env.tableDelete tr obj = none) →
        ∀ name, (m.BGPInstances.get name).isSome = true →
          tableList (ReconcileInstances env m none ciliumNode).1.table name = []) := by
  have hRI : ReconcileInstances env m none ciliumNode
      = (withdrawAllV2 env m (newReconcileDiffV2 ciliumNode), none) := rfl
  rw [hRI]
  simp only
  unfold withdrawAllV2
  by_cases hlen : m.BGPInstances.length = 0
  · have hreg : m.BGPInstances = [] := List.length_eq_zero.1 hlen
    have hnot : m.notifications = [] := by
      cases hn : m.notifications with
      | nil => rfl
      | cons e rest =>
        have := hN e (by rw [hn]; exact List.mem_cons_self _ _)
        rw [hreg] at this
        simp [GoMap.get] at this
    simp only [hlen, if_true]
    refine ⟨trivial, hreg, hnot, ⟨[], by simp, by simp, ?_⟩, ?_⟩
    · intro name i hget
      rw [hreg] at hget
      simp [GoMap.get] at hget
    · intro _ name hsome
      rw [hreg] at hsome
      simp [GoMap.get] at hsome
  · simp only [hlen, if_false]
    obtain ⟨W, tbl, hst, htbl, hkind, hall, -⟩ := withdrawV2_state env m
      { newReconcileDiffV2 ciliumNode with
        withdraw := (newReconcileDiffV2 ciliumNode).withdraw ++ m.BGPInstances.keys }
    have hw : (newReconcileDiffV2 ciliumNode).withdraw ++ m.BGPInstances.keys
        = m.BGPInstances.keys := by
      simp [newReconcileDiffV2]
    simp only [hw] at hst htbl hall ⊢
    rw [hst]
    refine ⟨trivial, ?_, ?_, ⟨W, rfl, hkind, ?_⟩, ?_⟩
    · simp only
      rw [List.filter_eq_nil_iff]
      intro e he
      have : e.1 ∈ m.BGPInstances.keys := List.mem_map.2 ⟨e, he, rfl⟩
      simp [this]
    · simp only
      rw [List.filter_eq_nil_iff]
      intro e he
      have hs := hN e he
      cases hg : m.BGPInstances.get e.1 with
      | none => simp [hg] at hs
      | some i =>
        have := GoMap.mem_keys_of_get m.BGPInstances e.1 i hg
        simp [this]
    · intro name i hget
      exact hall name i (GoMap.mem_keys_of_get m.BGPInstances name i hget) hget
    · intro hnf name hsome
      simp only
      rw [htbl hnf]
      unfold tableList
      rw [List.filter_filter, List.filter_eq_nil_iff]
      intro r _
      by_cases hr : r.Instance = name
      · cases hg : m.BGPInstances.get name with
        | none => simp [hg] at hsome
        | some i =>
          have := GoMap.mem_keys_of_get m.BGPInstances name i hg
          simp [hr, hg, this]
      · simp [hr]

/-! ### Registration -/

theorem initLoop_events (heap : List BGPInstance) (i : Ptr) (rs : List ConfigReconciler)
    (k : Nat) (tr : List Event) :
    ∃ evs, (initLoop heap i rs k tr).1 = tr ++ evs ∧ ∀ e ∈ evs, ∃ r, e = Event.init r i := by
  induction rs generalizing k tr with
  | nil => exact ⟨[], by simp [initLoop]⟩
  | cons r rest ih =>
    unfold initLoop
    cases hr : r.Init tr heap i with
    | some err => exact ⟨[Event.init k i], by simp⟩
    | none =>
      obtain ⟨evs, h1, h2⟩ := ih (k + 1) (tr ++ [Event.init k i])
      refine ⟨Event.init k i :: evs, ?_, ?_⟩
      · simp [h1]
      · intro e he
        rcases List.mem_cons.1 he with rfl | he
        · exact ⟨k, rfl⟩
        · exact h2 e he

theorem isReconcileKind_of_isTableOp (e : Event) (h : e.isTableOp = true) :
    e.isReconcileKind = true := by
  cases e <;> simp_all [Event.isTableOp, Event.isReconcileKind]

theorem isRegisterKind_of_isReconcileKind (e : Event) (h : e.isReconcileKind = true) :
    e.isRegisterKind = true := by
  cases e <;> simp_all [Event.isRegisterKind, Event.isReconcileKind]

theorem reconcileEvents_kind (p : ReconcileParams) (k n : Nat) :
    ∀ e ∈ reconcileEvents p k n, e.isReconcileKind = true := by
  intro e he
  simp only [reconcileEvents, List.mem_map] at he
  obtain ⟨j, -, rfl⟩ := he
  rfl

/-- The effect of one pass on the manager: the configuration of `i` is stored, the table may
change, and only `Reconcile` calls and table operations are made. -/
theorem reconcileBGPConfigV2_ext (env : Env) (m : BGPRouterManager) (i : Ptr)
    (newc : CiliumBGPNodeInstance) (ciliumNode : CiliumNode) :
    ∃ evs tbl, (reconcileBGPConfigV2 env m i newc ciliumNode).1
        = { m with heap := setConfig m.heap i newc, table := tbl, trace := m.trace ++ evs }
      ∧ ∀ e ∈ evs, e.isReconcileKind = true := by
  obtain ⟨n, -, -, -, heq⟩ := reconcileBGPConfigV2_spec env m i newc ciliumNode
    (ReconcileParams.mk i newc ciliumNode) rfl
  obtain ⟨evs, tbl, hfr, hall⟩ := updateReconcilerErrors_frame env
    { m with trace := m.trace ++ reconcileEvents (ReconcileParams.mk i newc ciliumNode) 0 n }
    newc.Name (reconcileErrsOf env m (ReconcileParams.mk i newc ciliumNode) n)
  refine ⟨reconcileEvents (ReconcileParams.mk i newc ciliumNode) 0 n ++ evs, tbl, ?_, ?_⟩
  · rw [heq]
    simp only [reconcileUpdate]
    rw [hfr]
    simp [List.append_assoc]
  · intro e he
    rcases List.mem_append.1 he with he | he
    · exact reconcileEvents_kind _ _ _ e he
    · exact isReconcileKind_of_isTableOp e (hall e he)

theorem setConfig_append_last (heap : List BGPInstance) (x : BGPInstance)
    (newc : CiliumBGPNodeInstance) :
    setConfig (heap ++ [x]) heap.length newc = heap ++ [{ x with Config := some newc }] := by
  induction heap with
  | nil => rfl
  | cons a rest ih =>
    simp only [setConfig, List.cons_append, List.length_cons, List.modify_succ_cons] at ih ⊢
    rw [ih]

/-- The commit of a created instance: the two maps are updated under the name of the
configuration, and after it either the initialisation failed and the configuration of the
instance is untouched, or the configuration of the instance is the desired one. -/
theorem commitBGPInstance_ext (env : Env) (m1 : BGPRouterManager) (i : Ptr) (ch : Nat)
    (c : CiliumBGPNodeInstance) (ciliumNode : CiliumNode) :
    ∃ evs tbl, (∀ e ∈ evs, e.isRegisterKind = true)
      ∧ (((commitBGPInstance env m1 i ch c ciliumNode).1
            = { m1 with
                BGPInstances := m1.BGPInstances.set c.Name i
                notifications := m1.notifications.set c.Name ch
                trace := m1.trace ++ evs }
          ∧ (commitBGPInstance env m1 i ch c ciliumNode).2 ≠ none)
        ∨ (commitBGPInstance env m1 i ch c ciliumNode).1
            = { m1 with
                BGPInstances := m1.BGPInstances.set c.Name i
                notifications := m1.notifications.set c.Name ch
                heap := setConfig m1.heap i c
                table := tbl
                trace := m1.trace ++ evs }) := by
  unfold commitBGPInstance
  simp only
  obtain ⟨ievs, hie, hik⟩ := initLoop_events m1.heap i env.ConfigReconcilers 0
    (m1.trace ++ [Event.trackInstanceStateChange c.Name ch])
  rcases hinit : initLoop m1.heap i env.ConfigReconcilers 0
    (m1.trace ++ [Event.trackInstanceStateChange c.Name ch]) with ⟨tr, _ | err⟩
  · rw [hinit] at hie
    simp only at hie
    obtain ⟨revs, tbl, hrec, hrk⟩ := reconcileBGPConfigV2_ext env
      { m1 with
        BGPInstances := m1.BGPInstances.set c.Name i
        notifications := m1.notifications.set c.Name ch
        trace := tr } i c ciliumNode
    refine ⟨Event.trackInstanceStateChange c.Name ch :: (ievs ++ revs), tbl, ?_, Or.inr ?_⟩
    · intro e he
      rcases List.mem_cons.1 he with rfl | he
      · rfl
      · rcases List.mem_append.1 he with he | he
        · obtain ⟨r, rfl⟩ := hik e he
          rfl
        · exact isRegisterKind_of_isReconcileKind e (hrk e he)
    · simp only
      split
      · rename_i m3 err hre
        have : m3 = (reconcileBGPConfigV2 env
          { m1 with
            BGPInstances := m1.BGPInstances.set c.Name i
            notifications := m1.notifications.set c.Name ch
            trace := tr } i c ciliumNode).1 := by rw [hre]
        rw [this, hrec, hie]
        simp [List.append_assoc]
      · rename_i m3 hre
        have : m3 = (reconcileBGPConfigV2 env
          { m1 with
            BGPInstances := m1.BGPInstances.set c.Name i
            notifications := m1.notifications.set c.Name ch
            trace := tr } i c ciliumNode).1 := by rw [hre]
        rw [this, hrec, hie]
        simp [List.append_assoc]
  · rw [hinit] at hie
    simp only at hie
    refine ⟨Event.trackInstanceStateChange c.Name ch :: ievs, m1.table, ?_, Or.inl ⟨?_, ?_⟩⟩
    · intro e he
      rcases List.mem_cons.1 he with rfl | he
      · rfl
      · obtain ⟨r, rfl⟩ := hik e he
        rfl
    · simp [hie, List.append_assoc]
    · simp

/-- The outcomes of `registerBGPInstance`: either no instance is created and only the trace
(and the channel counter) may change, or a new instance is allocated at the end of the heap
and committed to the registry and the notification map under the name of the configuration. -/
theorem registerBGPInstance_ext (env : Env) (m : BGPRouterManager) (c : CiliumBGPNodeInstance)
    (ciliumNode : CiliumNode) :
    ∃ evs, (∀ e ∈ evs, e.isRegisterKind = true)
      ∧ ((∃ ch, (registerBGPInstance env m c ciliumNode).1
            = { m with chans := ch, trace := m.trace ++ evs }
          ∧ (registerBGPInstance env m c ciliumNode).2 ≠ none)
        ∨ (∃ x tbl, (registerBGPInstance env m c ciliumNode).1
            = { m with
                BGPInstances := m.BGPInstances.set c.Name m.heap.length
                notifications := m.notifications.set c.Name m.chans
                heap := m.heap ++ [x]
                chans := m.chans + 1
                table := tbl
                trace := m.trace ++ evs }
          ∧ x.Name = c.Name
          ∧ (x.Config = some c
            ∨ (x.Config = none ∧ (registerBGPInstance env m c ciliumNode).2 ≠ none)))) := by
  unfold registerBGPInstance
  cases hasn : getLocalASN c with
  | error err => exact ⟨[], by simp, Or.inl ⟨m.chans, by simp, by simp⟩⟩
  | ok localASN =>
    simp only
    cases hport : getLocalPort env c ciliumNode localASN with
    | error err => exact ⟨[], by simp, Or.inl ⟨m.chans, by simp, by simp⟩⟩
    | ok localPort =>
      simp only
      cases hrid : getRouterID env c ciliumNode localASN with
      | error err => exact ⟨[], by simp, Or.inl ⟨m.chans, by simp, by simp⟩⟩
      | ok routerID =>
        simp only
        unfold NewBGPInstance
        simp only
        split
        · rename_i m1 err hnew
          split at hnew
          · simp only [Prod.mk.injEq] at hnew
            obtain ⟨hm1, -⟩ := hnew
            subst hm1
            exact ⟨[Event.newInstanceFailed _ _], by simp [Event.isRegisterKind],
              Or.inl ⟨m.chans + 1, rfl, by simp⟩⟩
          · simp at hnew
        · rename_i m1 i hnew
          split at hnew
          · simp at hnew
          · simp only [Prod.mk.injEq, Except.ok.injEq] at hnew
            obtain ⟨hm1, hi⟩ := hnew
            subst hm1 hi
            obtain ⟨evs, tbl, hk, hcase⟩ := commitBGPInstance_ext env _ m.heap.length m.chans c
              ciliumNode
            refine ⟨Event.newInstance m.heap.length c.Name
              ⟨⟨(localASN % 2 ^ 32).toNat, routerID, localPort, true⟩, m.chans⟩ :: evs, ?_,
              Or.inr ?_⟩
            · intro e he
              rcases List.mem_cons.1 he with rfl | he
              · rfl
              · exact hk e he
            · rcases hcase with ⟨h1, h2⟩ | h1
              · refine ⟨⟨c.Name, ⟨(localASN % 2 ^ 32).toNat, routerID, localPort, true⟩, none⟩,
                  m.table, ?_, rfl, Or.inr ⟨rfl, h2⟩⟩
                rw [h1]
                simp [List.append_assoc]
              · refine ⟨⟨c.Name, ⟨(localASN % 2 ^ 32).toNat, routerID, localPort, true⟩, some c⟩,
                  tbl, ?_, rfl, Or.inl rfl⟩
                rw [h1]
                simp only
                rw [setConfig_append_last]
                simp [List.append_assoc]

/-! ### Single teardown -/

theorem isKillOf_of_isRegisterKind (e : Event) (h : e.isRegisterKind = true) (k : Bool)
    (p : Ptr) : e.isKillOf k p = false := by
  cases e <;> simp_all [Event.isRegisterKind, Event.isKillOf]

theorem countP_kill_registerKind (evs : List Event) (h : ∀ e ∈ evs, e.isRegisterKind = true)
    (k : Bool) (p : Ptr) : evs.countP (Event.isKillOf k p) = 0 := by
  rw [List.countP_eq_zero]
  intro e he
  simp [isKillOf_of_isRegisterKind e (h e he) k p]

theorem Inv_init : Inv NewBGPRouterManager := by
  refine ⟨?_, ?_, ?_, ?_, ?_, ?_⟩ <;> simp [NewBGPRouterManager]

/-- Calls of the register and reconcile kinds that leave the registry alone keep the
invariant. -/
theorem Inv_quiet (m m2 : BGPRouterManager) (h : Inv m)
    (hreg : m2.BGPInstances = m.BGPInstances) (hnot : m2.notifications = m.notifications)
    (hheap : m2.heap.length = m.heap.length) (evs : List Event)
    (htr : m2.trace = m.trace ++ evs) (hk : ∀ e ∈ evs, e.isRegisterKind = true) : Inv m2 := by
  have hc : ∀ k p, m2.trace.countP (Event.isKillOf k p) = m.trace.countP (Event.isKillOf k p) := by
    intro k p
    rw [htr, List.countP_append, countP_kill_registerKind evs hk k p, Nat.add_zero]
  refine ⟨?_, ?_, ?_, ?_, ?_, ?_⟩
  · rw [hreg, hheap]
    exact h.allocated
  · rw [hreg]
    exact h.distinct
  · intro k p
    rw [hc]
    exact h.atMostOnce k p
  · rw [hreg]
    intro e he k
    rw [hc]
    exact h.live e he k
  · intro p hp k
    rw [hc]
    exact h.fresh p (by omega) k
  · rw [hreg, hnot]
    exact h.notif

theorem setConfig_length (heap : List BGPInstance) (i : Ptr) (newc : CiliumBGPNodeInstance) :
    (setConfig heap i newc).length = heap.length := by
  simp [setConfig]

theorem Inv_reconcileBGPConfigV2 (env : Env) (m : BGPRouterManager) (i : Ptr)
    (newc : CiliumBGPNodeInstance) (ciliumNode : CiliumNode) (h : Inv m) :
    Inv (reconcileBGPConfigV2 env m i newc ciliumNode).1 := by
  obtain ⟨evs, tbl, heq, hk⟩ := reconcileBGPConfigV2_ext env m i newc ciliumNode
  rw [heq]
  exact Inv_quiet m _ h rfl rfl (setConfig_length _ _ _) evs rfl
    (fun e he => isRegisterKind_of_isReconcileKind e (hk e he))

theorem GoMap.mem_set {K V : Type} [DecidableEq K] (m : GoMap K V) (k : K) (v : V)
    (e : K × V) (he : e ∈ m.set k v) : e = (k, v) ∨ (e ∈ m ∧ e.1 ≠ k) := by
  unfold GoMap.set GoMap.delete at he
  rcases List.mem_append.1 he with he | he
  · have := List.mem_filter.1 he
    exact Or.inr ⟨this.1, by simpa using this.2⟩
  · exact Or.inl (by simpa using he)

theorem Inv_registerBGPInstance (env : Env) (m : BGPRouterManager) (c : CiliumBGPNodeInstance)
    (ciliumNode : CiliumNode) (h : Inv m) : Inv (registerBGPInstance env m c ciliumNode).1 := by
  obtain ⟨evs, hk, hcase⟩ := registerBGPInstance_ext env m c ciliumNode
  rcases hcase with ⟨ch, heq, -⟩ | ⟨x, tbl, heq, -, -⟩
  · rw [heq]
    exact Inv_quiet m _ h rfl rfl rfl evs rfl hk
  · rw [heq]
    have hc : ∀ k p, (m.trace ++ evs).countP (Event.isKillOf k p)
        = m.trace.countP (Event.isKillOf k p) := by
      intro k p
      rw [List.countP_append, countP_kill_registerKind evs hk k p, Nat.add_zero]
    refine ⟨?_, ?_, ?_, ?_, ?_, ?_⟩
    · intro e he
      simp only [List.length_append, List.length_singleton]
      rcases GoMap.mem_set _ _ _ e he with rfl | ⟨he, -⟩
      · exact Nat.lt_succ_self _
      · exact Nat.lt_succ_of_lt (h.allocated e he)
    · simp only [GoMap.set, GoMap.delete, List.map_append, List.map_cons, List.map_nil]
      rw [List.nodup_append]
      refine ⟨?_, by simp, ?_⟩
      · exact List.Nodup.sublist (List.Sublist.map _ (List.filter_sublist _)) h.distinct
      · intro p hp1 hp2
        simp only [List.mem_singleton] at hp2
        obtain ⟨e, he, hep⟩ := List.mem_map.1 hp1
        have := h.allocated e (List.mem_filter.1 he).1
        rw [hep, hp2] at this
        exact absurd this (Nat.lt_irrefl _)
    · intro k p
      simp only
      rw [hc]
      exact h.atMostOnce k p
    · intro e he k
      simp only
      rw [hc]
      rcases GoMap.mem_set _ _ _ e he with rfl | ⟨he, -⟩
      · exact h.fresh _ (Nat.le_refl _) k
      · exact h.live e he k
    · intro p hp k
      simp only
      rw [hc]
      simp only [List.length_append, List.length_singleton] at hp
      exact h.fresh p (by omega) k
    · intro e he
      simp only
      rw [GoMap.get_set]
      rcases GoMap.mem_set _ _ _ e he with rfl | ⟨he, hne⟩
      · simp
      · simp only [hne, if_false]
        exact h.notif e he

theorem countP_kill_closeEvents (notifications : GoMap String Nat) (name : String) (k : Bool)
    (p : Ptr) : (closeEvents notifications name).countP (Event.isKillOf k p) = 0 := by
  rw [List.countP_eq_zero]
  intro e he
  obtain ⟨ch, rfl⟩ := closeEvents_kind notifications name e he
  simp [Event.isKillOf]

theorem countP_kill_pair (i : Ptr) (fd : Bool) (k : Bool) (p : Ptr) :
    [Event.cancelCtx i, Event.routerStop i fd].countP (Event.isKillOf k p)
      = if i = p then 1 else 0 := by
  by_cases h : i = p <;> cases k <;> simp [List.countP_cons, Event.isKillOf, h]

theorem countP_kill_teardownEvents (n : Nat) (fd : Bool) (notifications : GoMap String Nat)
    (name : String) (i : Ptr) (k : Bool) (p : Ptr) :
    (teardownEvents n fd notifications name i).countP (Event.isKillOf k p)
      = if i = p then 1 else 0 := by
  have hcl : (cleanupEvents n i).countP (Event.isKillOf k p) = 0 := by
    rw [List.countP_eq_zero]
    intro e he
    simp only [cleanupEvents, List.mem_map] at he
    obtain ⟨r, -, rfl⟩ := he
    simp [Event.isKillOf]
  unfold teardownEvents
  rw [List.countP_append, List.countP_append, hcl, countP_kill_closeEvents, countP_kill_pair]
  simp

theorem countP_kill_tableDeletes (dels : List Event)
    (h : ∀ e ∈ dels, ∃ obj, e = Event.tableDelete obj) (k : Bool) (p : Ptr) :
    dels.countP (Event.isKillOf k p) = 0 := by
  rw [List.countP_eq_zero]
  intro e he
  obtain ⟨obj, rfl⟩ := h e he
  simp [Event.isKillOf]

theorem Inv_withdrawStep (m : BGPRouterManager) (h : Inv m) (name : String) (i : Ptr)
    (hget : m.BGPInstances.get name = some i) (n : Nat) (dels : List Event)
    (hdels : ∀ e ∈ dels, ∃ obj, e = Event.tableDelete obj) :
    Inv { m with
          BGPInstances := m.BGPInstances.delete name
          notifications := m.notifications.delete name
          trace := m.trace ++ (teardownEvents n m.destroyRouterOnStop m.notifications name i
            ++ dels) } := by
  have hmem : (name, i) ∈ m.BGPInstances := GoMap.mem_of_get _ _ _ hget
  have hc : ∀ k p, (m.trace ++ (teardownEvents n m.destroyRouterOnStop m.notifications name i
      ++ dels)).countP (Event.isKillOf k p)
      = m.trace.countP (Event.isKillOf k p) + if i = p then 1 else 0 := by
    intro k p
    rw [List.countP_append, List.countP_append, countP_kill_teardownEvents,
      countP_kill_tableDeletes dels hdels, Nat.add_zero]
  have hsub : ∀ e ∈ m.BGPInstances.delete name, e ∈ m.BGPInstances ∧ e.1 ≠ name := by
    intro e he
    have := List.mem_filter.1 he
    exact ⟨this.1, by simpa using this.2⟩
  have hli : i < m.heap.length := h.allocated (name, i) hmem
  refine ⟨?_, ?_, ?_, ?_, ?_, ?_⟩
  · intro e he
    exact h.allocated e (hsub e he).1
  · exact List.Nodup.sublist (List.Sublist.map _ (List.filter_sublist _)) h.distinct
  · intro k p
    simp only
    rw [hc]
    by_cases hip : i = p
    · subst hip
      have := h.live (name, i) hmem k
      simp only at this
      simp [this]
    · simp only [hip, if_false, Nat.add_zero]
      exact h.atMostOnce k p
  · intro e he k
    simp only
    rw [hc]
    have hne : i ≠ e.2 := by
      intro hie
      have heq := List.inj_on_of_nodup_map h.distinct hmem (hsub e he).1 hie
      exact (hsub e he).2 (by rw [← heq])
    simp only [hne, if_false, Nat.add_zero]
    exact h.live e (hsub e he).1 k
  · intro p hp k
    simp only
    rw [hc]
    have hne : i ≠ p := by
      intro hip
      rw [hip] at hli
      exact absurd hli (Nat.not_lt.2 hp)
    simp only [hne, if_false, Nat.add_zero]
    exact h.fresh p hp k
  · intro e he
    simp only
    have := List.mem_filter.1 he
    have hne : e.1 ≠ name := by simpa using this.2
    rw [GoMap.get_delete]
    simp only [hne, if_false]
    exact h.notif e this.1

theorem Inv_withdrawLoop (env : Env) (names : List String) (m : BGPRouterManager)
    (txn : List BGPReconcileError) (h : Inv m) : Inv (withdrawLoop env names m txn).1 := by
  induction names generalizing m txn with
  | nil =>
    rw [withdrawLoop_nil]
    exact h
  | cons name rest ih =>
    cases hget : m.BGPInstances.get name with
    | none =>
      rw [withdrawLoop_cons_none env name rest m txn hget]
      exact ih m txn h
    | some i =>
      obtain ⟨dels, txn1, hdels, -, hstep⟩ := withdrawLoop_cons_some env name rest m txn i hget
      rw [hstep]
      exact ih _ txn1 (Inv_withdrawStep m h name i hget _ dels hdels)

theorem Inv_withdrawV2 (env : Env) (m : BGPRouterManager) (rd : reconcileDiffV2) (h : Inv m) :
    Inv (withdrawV2 env m rd) := by
  unfold withdrawV2
  exact Inv_quiet _ _ (Inv_withdrawLoop env rd.withdraw m m.table h) rfl rfl rfl [] (by simp)
    (by simp)

theorem Inv_registerLoop (env : Env) (rd : reconcileDiffV2) (names : List String)
    (m : BGPRouterManager) (iwe : List String) (lastErr : Option GoError) (h : Inv m) :
    Inv (registerLoop env rd names m iwe lastErr).1 := by
  induction names generalizing m iwe lastErr with
  | nil => simpa [registerLoop] using h
  | cons name rest ih =>
    unfold registerLoop
    cases hs : rd.seen.get name with
    | none => exact ih m _ _ h
    | some config =>
      simp only
      have hI := Inv_registerBGPInstance env m config rd.ciliumNode h
      rcases hr : registerBGPInstance env m config rd.ciliumNode with ⟨m1, _ | rErr⟩
      · rw [hr] at hI
        exact ih m1 _ _ hI
      · rw [hr] at hI
        exact ih m1 _ _ hI

theorem Inv_reconcileV2Loop (env : Env) (rd : reconcileDiffV2) (names : List String)
    (m : BGPRouterManager) (iwe : List String) (lastErr : Option GoError) (h : Inv m) :
    Inv (reconcileV2Loop env rd names m iwe lastErr).1 := by
  induction names generalizing m iwe lastErr with
  | nil => simpa [reconcileV2Loop] using h
  | cons name rest ih =>
    unfold reconcileV2Loop
    cases hg : m.BGPInstances.get name with
    | none => exact ih m _ _ h
    | some i =>
      simp only
      cases hs : rd.seen.get name with
      | none => exact ih m _ _ h
      | some newc =>
        simp only
        have hI := Inv_reconcileBGPConfigV2 env m i newc rd.ciliumNode h
        rcases hr : reconcileBGPConfigV2 env m i newc rd.ciliumNode with ⟨m1, _ | err⟩
        · rw [hr] at hI
          exact ih m1 _ _ hI
        · rw [hr] at hI
          exact ih m1 _ _ hI

theorem registerV2_fst (env : Env) (m : BGPRouterManager) (rd : reconcileDiffV2) :
    (registerV2 env m rd).1 = (registerLoop env rd rd.register m [] none).1 := by
  unfold registerV2
  split
  rename_i m1 iwe lastErr hl
  rw [hl]
  split <;> rfl

theorem reconcileV2_fst (env : Env) (m : BGPRouterManager) (rd : reconcileDiffV2) :
    (reconcileV2 env m rd).1 = (reconcileV2Loop env rd rd.reconcile m [] none).1 := by
  unfold reconcileV2
  split
  rename_i m1 iwe lastErr hl
  rw [hl]
  split <;> rfl

theorem registerLoop_trace (env : Env) (rd : reconcileDiffV2) (names : List String)
    (m : BGPRouterManager) (iwe : List String) (lastErr : Option GoError) :
    ∃ evs, (registerLoop env rd names m iwe lastErr).1.trace = m.trace ++ evs
      ∧ ∀ e ∈ evs, e.isRegisterKind = true := by
  induction names generalizing m iwe lastErr with
  | nil => exact ⟨[], by simp [registerLoop]⟩
  | cons name rest ih =>
    unfold registerLoop
    cases hs : rd.seen.get name with
    | none => exact ih m _ _
    | some config =>
      simp only
      obtain ⟨evs, hk, hcase⟩ := registerBGPInstance_ext env m config rd.ciliumNode
      have htr : (registerBGPInstance env m config rd.ciliumNode).1.trace = m.trace ++ evs := by
        rcases hcase with ⟨ch, heq, -⟩ | ⟨x, tbl, heq, -, -⟩ <;> rw [heq]
      rcases hr : registerBGPInstance env m config rd.ciliumNode with ⟨m1, _ | rErr⟩
      · rw [hr] at htr
        obtain ⟨evs2, h2, hk2⟩ := ih m1 iwe lastErr
        refine ⟨evs ++ evs2, ?_, ?_⟩
        · simp only
          rw [h2, htr, List.append_assoc]
        · intro e he
          rcases List.mem_append.1 he with he | he
          · exact hk e he
          · exact hk2 e he
      · rw [hr] at htr
        obtain ⟨evs2, h2, hk2⟩ := ih m1 (iwe ++ [name]) (some rErr)
        refine ⟨evs ++ evs2, ?_, ?_⟩
        · simp only
          rw [h2, htr, List.append_assoc]
        · intro e he
          rcases List.mem_append.1 he with he | he
          · exact hk e he
          · exact hk2 e he

theorem reconcileV2Loop_trace (env : Env) (rd : reconcileDiffV2) (names : List String)
    (m : BGPRouterManager) (iwe : List String) (lastErr : Option GoError) :
    ∃ evs, (reconcileV2Loop env rd names m iwe lastErr).1.trace = m.trace ++ evs
      ∧ ∀ e ∈ evs, e.isReconcileKind = true := by
  induction names generalizing m iwe lastErr with
  | nil => exact ⟨[], by simp [reconcileV2Loop]⟩
  | cons name rest ih =>
    unfold reconcileV2Loop
    cases hg : m.BGPInstances.get name with
    | none => exact ih m _ _
    | some i =>
      simp only
      cases hs : rd.seen.get name with
      | none => exact ih m _ _
      | some newc =>
        simp only
        obtain ⟨evs, tbl, heq, hk⟩ := reconcileBGPConfigV2_ext env m i newc rd.ciliumNode
        have htr : (reconcileBGPConfigV2 env m i newc rd.ciliumNode).1.trace = m.trace ++ evs := by
          rw [heq]
        rcases hr : reconcileBGPConfigV2 env m i newc rd.ciliumNode with ⟨m1, _ | err⟩
        · rw [hr] at htr
          obtain ⟨evs2, h2, hk2⟩ := ih m1 iwe lastErr
          refine ⟨evs ++ evs2, ?_, ?_⟩
          · simp only
            rw [h2, htr, List.append_assoc]
          · intro e he
            rcases List.mem_append.1 he with he | he
            · exact hk e he
            · exact hk2 e he
        · rw [hr] at htr
          obtain ⟨evs2, h2, hk2⟩ := ih m1 (iwe ++ [name]) (some err)
          refine ⟨evs ++ evs2, ?_, ?_⟩
          · simp only
            rw [h2, htr, List.append_assoc]
          · intro e he
            rcases List.mem_append.1 he with he | he
            · exact hk e he
            · exact hk2 e he

theorem withdrawPhase_trace (env : Env) (m : BGPRouterManager) (rd : reconcileDiffV2) :
    ∃ W, (withdrawPhase env m rd).trace = m.trace ++ W
      ∧ ∀ e ∈ W, e.isWithdrawKind = true := by
  unfold withdrawPhase
  split
  · obtain ⟨W, tbl, hst, -, hk, -, -⟩ := withdrawV2_state env m rd
    exact ⟨W, by rw [hst], hk⟩
  · exact ⟨[], by simp, by simp⟩

theorem registerPhase_trace (env : Env) (m : BGPRouterManager) (rd : reconcileDiffV2)
    (err : Option GoError) :
    ∃ R, (registerPhase env m rd err).1.trace = m.trace ++ R
      ∧ ∀ e ∈ R, e.isRegisterKind = true := by
  unfold registerPhase
  split
  · simp only
    rw [registerV2_fst]
    exact registerLoop_trace env rd rd.register m [] none
  · exact ⟨[], by simp, by simp⟩

theorem reconcilePhase_trace (env : Env) (m : BGPRouterManager) (rd : reconcileDiffV2)
    (err : Option GoError) :
    ∃ C, (reconcilePhase env m rd err).1.trace = m.trace ++ C
      ∧ ∀ e ∈ C, e.isReconcileKind = true := by
  unfold reconcilePhase
  split
  · simp only
    rw [reconcileV2_fst]
    exact reconcileV2Loop_trace env rd rd.reconcile m [] none
  · exact ⟨[], by simp, by simp⟩

theorem Inv_phases (env : Env) (m : BGPRouterManager) (rd : reconcileDiffV2)
    (err : Option GoError) (h : Inv m) :
    Inv (withdrawPhase env m rd) ∧ Inv (registerPhase env m rd err).1
      ∧ Inv (reconcilePhase env m rd err).1 := by
  refine ⟨?_, ?_, ?_⟩
  · unfold withdrawPhase
    split
    · exact Inv_withdrawV2 env m rd h
    · exact h
  · unfold registerPhase
    split
    · simp only
      rw [registerV2_fst]
      exact Inv_registerLoop env rd rd.register m [] none h
    · exact h
  · unfold reconcilePhase
    split
    · simp only
      rw [reconcileV2_fst]
      exact Inv_reconcileV2Loop env rd rd.reconcile m [] none h
    · exact h

theorem Inv_ReconcileInstances (env : Env) (m : BGPRouterManager)
    (nodeObj : Option CiliumBGPNodeConfig) (ciliumNode : CiliumNode) (h : Inv m) :
    Inv (ReconcileInstances env m nodeObj ciliumNode).1 := by
  unfold ReconcileInstances
  cases nodeObj with
  | none =>
    simp only
    unfold withdrawAllV2
    split
    · exact h
    · exact Inv_withdrawV2 env m _ h
  | some obj =>
    simp only
    cases hd : env.diff (newReconcileDiffV2 ciliumNode) m.BGPInstances m.heap obj with
    | error err => exact h
    | ok rd =>
      simp only
      split
      · exact h
      · have h1 := (Inv_phases env m rd none h).1
        have h2 := (Inv_phases env (withdrawPhase env m rd) rd none h1).2.1
        exact (Inv_phases env _ rd _ h2).2.2

theorem countP_kill_stopLoop (notifications : GoMap String Nat) (fd : Bool)
    (l : List (String × Ptr)) (tr : List Event) (k : Bool) (p : Ptr) :
    (stopLoop notifications fd l tr).countP (Event.isKillOf k p)
      = tr.countP (Event.isKillOf k p) + (l.map Prod.snd).count p := by
  induction l generalizing tr with
  | nil => simp [stopLoop]
  | cons e rest ih =>
    obtain ⟨name, i⟩ := e
    unfold stopLoop
    rw [ih, List.countP_append, List.countP_append, countP_kill_closeEvents, countP_kill_pair,
      List.map_cons, List.count_cons]
    by_cases h : i = p
    · simp [h]
      omega
    · simp [h]

theorem Inv_Stop (m : BGPRouterManager) (h : Inv m) : Inv (Stop m).1 := by
  have hc : ∀ k p, (Stop m).1.trace.countP (Event.isKillOf k p)
      = m.trace.countP (Event.isKillOf k p) + (m.BGPInstances.map Prod.snd).count p := by
    intro k p
    simp only [Stop]
    rw [countP_kill_stopLoop, List.countP_append]
    have : (m.Servers.map (fun s => Event.serverStop s.2 m.destroyRouterOnStop)).countP
        (Event.isKillOf k p) = 0 := by
      rw [List.countP_eq_zero]
      intro e he
      obtain ⟨s, -, rfl⟩ := List.mem_map.1 he
      simp [Event.isKillOf]
    rw [this, Nat.add_zero]
  refine ⟨?_, ?_, ?_, ?_, ?_, ?_⟩
  · simp [Stop]
  · simp [Stop]
  · intro k p
    rw [hc]
    have hle := List.nodup_iff_count_le_one.1 h.distinct p
    by_cases hz : (m.BGPInstances.map Prod.snd).count p = 0
    · rw [hz, Nat.add_zero]
      exact h.atMostOnce k p
    · have hmem : p ∈ m.BGPInstances.map Prod.snd := List.count_pos_iff.1 (by omega)
      obtain ⟨e, he, hep⟩ := List.mem_map.1 hmem
      have := h.live e he k
      rw [hep] at this
      omega
  · simp [Stop]
  · intro p hp k
    rw [hc]
    have hnm : p ∉ m.BGPInstances.map Prod.snd := by
      intro hmem
      obtain ⟨e, he, hep⟩ := List.mem_map.1 hmem
      have := h.allocated e he
      rw [hep] at this
      have hp2 : m.heap.length ≤ p := by simpa [Stop] using hp
      exact absurd this (Nat.not_lt.2 hp2)
    rw [List.count_eq_zero.2 hnm, Nat.add_zero]
    exact h.fresh p (by simpa [Stop] using hp) k
  · simp [Stop]

theorem Inv_step (env : Env) (m : BGPRouterManager) (op : Op) (h : Inv m) :
    Inv (step env m op) := by
  cases op with
  | reconcileInstances nodeObj ciliumNode => exact Inv_ReconcileInstances env m nodeObj ciliumNode h
  | stop => exact Inv_Stop m h
  | destroyRouterOnStop destroy => exact Inv_quiet m _ h rfl rfl rfl [] (by simp [step]) (by simp)

theorem Inv_runOps (env : Env) (ops : List Op) (m : BGPRouterManager) (h : Inv m) :
    Inv (runOps env m ops) := by
  induction ops generalizing m with
  | nil => exact h
  | cons op rest ih => exact ih (step env m op) (Inv_step env m op h)

/-- C10: after any sequence of `ReconcileInstances`, `Stop` and `DestroyRouterOnStop` calls on
a new manager, whatever the work diffs were (repeated names included), every instance has had
its Router stopped at most once and its context canceled at most once. -/
theorem instance_torn_down_at_most_once (env : Env) (ops : List Op) (p : Ptr) :
    routerStops p (runOps env NewBGPRouterManager ops).trace ≤ 1
    ∧ ctxCancels p (runOps env NewBGPRouterManager ops).trace ≤ 1 := by
  have h := Inv_runOps env ops NewBGPRouterManager Inv_init
  exact ⟨h.atMostOnce true p, h.atMostOnce false p⟩

/-- A run in which the work diff names "a" twice for withdrawal, followed by `Stop`: the
Router of the instance registered as "a" is stopped exactly once. -/
theorem withdraw_twice_example :
    routerStops 0 (ReconcileInstances exEnvTwice exManagerA (some exNodeConfigB) exNode).1.trace = 1
    ∧ routerStops 0
        (Stop (ReconcileInstances exEnvTwice exManagerA (some exNodeConfigB) exNode).1).1.trace
      = 1 := by
  refine ⟨by decide, by decide⟩

/-! ### Order of the phases -/

theorem isNewInstance_of_isWithdrawKind (e : Event) (h : e.isWithdrawKind = true) :
    e.isNewInstance = false := by
  cases e <;> simp_all [Event.isWithdrawKind, Event.isNewInstance]

theorem isRouterStop_of_isRegisterKind (e : Event) (h : e.isRegisterKind = true) :
    e.isRouterStop = false := by
  cases e <;> simp_all [Event.isRegisterKind, Event.isRouterStop]

theorem isNewInstance_of_isReconcileKind (e : Event) (h : e.isReconcileKind = true) :
    e.isNewInstance = false := by
  cases e <;> simp_all [Event.isReconcileKind, Event.isNewInstance]

/-- C1: in `ReconcileInstances` with a non-empty work diff, the calls made are those of the
withdraw phase, then those of the register phase, then those of the reconcile phase. Every
`Router.Stop` of the pass is in the first part, where it is made for each registered name of
the withdraw list and for nothing else; every creation of a Router is in the second part; the
third part holds only `Reconcile` calls and error-table operations. -/
theorem ReconcileInstances_withdraw_before_register (env : Env) (m : BGPRouterManager)
    (nodeObj : CiliumBGPNodeConfig) (ciliumNode : CiliumNode) (rd : reconcileDiffV2)
    (hdiff : env.diff (newReconcileDiffV2 ciliumNode) m.BGPInstances m.heap nodeObj = .ok rd)
    (hne : rd.empty = false) :
    ∃ W R C,
      (withdrawPhase env m rd).trace = m.trace ++ W
      ∧ (registerPhase env (withdrawPhase env m rd) rd none).1.trace = m.trace ++ W ++ R
      ∧ (ReconcileInstances env m (some nodeObj) ciliumNode).1.trace = m.trace ++ W ++ R ++ C
      ∧ (∀ e ∈ W, e.isWithdrawKind = true ∧ e.isNewInstance = false)
      ∧ (∀ e ∈ R, e.isRegisterKind = true ∧ e.isRouterStop = false)
      ∧ (∀ e ∈ C, e.isReconcileKind = true ∧ e.isRouterStop = false ∧ e.isNewInstance = false)
      ∧ (∀ name i, name ∈ rd.withdraw → m.BGPInstances.get name = some i →
          Event.routerStop i m.destroyRouterOnStop ∈ W)
      ∧ (∀ i fd, Event.routerStop i fd ∈ W →
          ∃ name ∈ rd.withdraw, m.BGPInstances.get name = some i) := by
  obtain ⟨W, hW, hWk⟩ := withdrawPhase_trace env m rd
  obtain ⟨R, hR, hRk⟩ := registerPhase_trace env (withdrawPhase env m rd) rd none
  obtain ⟨C, hC, hCk⟩ := reconcilePhase_trace env
    (registerPhase env (withdrawPhase env m rd) rd none).1 rd
    (registerPhase env (withdrawPhase env m rd) rd none).2
  have hRI : (ReconcileInstances env m (some nodeObj) ciliumNode)
      = reconcilePhase env (registerPhase env (withdrawPhase env m rd) rd none).1 rd
          (registerPhase env (withdrawPhase env m rd) rd none).2 := by
    simp [ReconcileInstances, hdiff, hne]
  refine ⟨W, R, C, hW, ?_, ?_, ?_, ?_, ?_, ?_, ?_⟩
  · rw [hR, hW]
  · rw [hRI, hC, hR, hW]
  · exact fun e he => ⟨hWk e he, isNewInstance_of_isWithdrawKind e (hWk e he)⟩
  · exact fun e he => ⟨hRk e he, isRouterStop_of_isRegisterKind e (hRk e he)⟩
  · exact fun e he => ⟨hCk e he,
      isRouterStop_of_isRegisterKind e (isRegisterKind_of_isReconcileKind e (hCk e he)),
      isNewInstance_of_isReconcileKind e (hCk e he)⟩
  · intro name i hmem hget
    have hpos : rd.withdraw.length > 0 := List.length_pos_of_mem hmem
    obtain ⟨W2, tbl, hst, -, -, hall, -⟩ := withdrawV2_state env m rd
    have hW2 : (withdrawPhase env m rd).trace = m.trace ++ W2 := by
      simp only [withdrawPhase, hpos, if_true]
      rw [hst]
    have hWW : W = W2 := List.append_cancel_left (hW.symm.trans hW2)
    rw [hWW]
    exact hall name i hmem hget _ (mem_teardownEvents _ _ _ name i).2.2.1
  · intro i fd hin
    by_cases hpos : rd.withdraw.length > 0
    · obtain ⟨W2, tbl, hst, -, -, -, hconv⟩ := withdrawV2_state env m rd
      have hW2 : (withdrawPhase env m rd).trace = m.trace ++ W2 := by
        simp only [withdrawPhase, hpos, if_true]
        rw [hst]
      have hWW : W = W2 := List.append_cancel_left (hW.symm.trans hW2)
      rw [hWW] at hin
      exact hconv _ hin i rfl
    · have hW2 : (withdrawPhase env m rd).trace = m.trace ++ [] := by
        simp [withdrawPhase, hpos]
      have hWW : W = [] := List.append_cancel_left (hW.symm.trans hW2)
      rw [hWW] at hin
      simp at hin

/-- Witness for C1: "a" is registered and the desired state holds only "b"; the Router of "a"
is stopped before the Router of "b" is created. -/
theorem ReconcileInstances_withdraw_before_register_witness :
    ∃ W R C,
      (withdrawPhase (exEnv [okReconciler "r1"] none none) exManagerA exDiffAB).trace
        = exManagerA.trace ++ W
      ∧ (registerPhase (exEnv [okReconciler "r1"] none none)
          (withdrawPhase (exEnv [okReconciler "r1"] none none) exManagerA exDiffAB) exDiffAB
          none).1.trace = exManagerA.trace ++ W ++ R
      ∧ (ReconcileInstances (exEnv [okReconciler "r1"] none none) exManagerA (some exNodeConfigB)
          exNode).1.trace = exManagerA.trace ++ W ++ R ++ C
      ∧ (∀ e ∈ W, e.isWithdrawKind = true ∧ e.isNewInstance = false)
      ∧ (∀ e ∈ R, e.isRegisterKind = true ∧ e.isRouterStop = false)
      ∧ (∀ e ∈ C, e.isReconcileKind = true ∧ e.isRouterStop = false ∧ e.isNewInstance = false)
      ∧ (∀ name i, name ∈ exDiffAB.withdraw → exManagerA.BGPInstances.get name = some i →
          Event.routerStop i exManagerA.destroyRouterOnStop ∈ W)
      ∧ (∀ i fd, Event.routerStop i fd ∈ W →
          ∃ name ∈ exDiffAB.withdraw, exManagerA.BGPInstances.get name = some i) :=
  ReconcileInstances_withdraw_before_register (exEnv [okReconciler "r1"] none none) exManagerA
    exNodeConfigB exNode exDiffAB rfl rfl

/-- The run behind the witness for C1, call by call. -/
theorem ReconcileInstances_recreate_example :
    (ReconcileInstances (exEnv [okReconciler "r1"] none none) exManagerA (some exNodeConfigB)
        exNode).1.trace
      = [Event.cleanup 0 0, Event.cancelCtx 0, Event.routerStop 0 false, Event.closeCh 0,
         Event.newInstance 1 "b"
           { Global := { ASN := 65002, RouterID := "10.0.0.1", ListenPort := -1,
                         AdvertiseInactiveRoutes := true },
             StateNotification := 1 },
         Event.trackInstanceStateChange "b" 1, Event.init 0 1,
         Event.reconcile 0 (ReconcileParams.mk 1 exInstanceB exNode)] := by
  decide

/-- In every state the manager reaches, each notification entry belongs to a registered name:
the hypothesis of the nil-desired-state theorem holds there. -/
theorem reachable_notifications_registered (env : Env) (ops : List Op) :
    ∀ e ∈ (runOps env NewBGPRouterManager ops).notifications,
      ((runOps env NewBGPRouterManager ops).BGPInstances.get e.1).isSome = true :=
  (Inv_runOps env ops NewBGPRouterManager Inv_init).notif

/-! ### The nil desired state -/

/-- C8 (amended): in every state the manager reaches, `ReconcileInstances` with a nil desired
state returns nil, leaves the registry and the notification map empty, and has torn down every
previously registered instance (`Cleanup`, `CancelCtx`, `Router.Stop`, close of its channel);
when the deletions on the error table succeed, no error record of a previously registered
instance is left. -/
theorem ReconcileInstances_nil_withdraws_all (env : Env) (ops : List Op)
    (ciliumNode : CiliumNode) :
    (ReconcileInstances env (runOps env NewBGPRouterManager ops) none ciliumNode).2 = none
    ∧ (ReconcileInstances env (runOps env NewBGPRouterManager ops) none
        ciliumNode).1.BGPInstances = []
    ∧ (ReconcileInstances env (runOps env NewBGPRouterManager ops) none
        ciliumNode).1.notifications = []
    ∧ (∃ W, (ReconcileInstances env (runOps env NewBGPRouterManager ops) none
          ciliumNode).1.trace = (runOps env NewBGPRouterManager ops).trace ++ W
        ∧ (∀ e ∈ W, e.isWithdrawKind = true)
        ∧ ∀ name i, (runOps env NewBGPRouterManager ops).BGPInstances.get name = some i →
            ∀ e ∈ teardownEvents env.ConfigReconcilers.length
              (runOps env NewBGPRouterManager ops).destroyRouterOnStop
              (runOps env NewBGPRouterManager ops).notifications name i, e ∈ W)
    ∧ ((∀ tr obj, env.tableDelete tr obj = none) →
        ∀ name, ((runOps env NewBGPRouterManager ops).BGPInstances.get name).isSome = true →
          tableList (ReconcileInstances env (runOps env NewBGPRouterManager ops) none
            ciliumNode).1.table name = []) := by
  have hinv : Inv (runOps env NewBGPRouterManager ops) :=
    Inv_runOps env ops NewBGPRouterManager Inv_init
  exact ReconcileInstances_nil_spec env (runOps env NewBGPRouterManager ops) ciliumNode
    hinv.notif

/-- Witness for C8: after a pass that registered "b" and stored the error of its failing
reconciler, on a table whose deletions succeed, the nil desired state empties the registry and
removes the record of "b". -/
theorem ReconcileInstances_nil_withdraws_all_witness :
    ((runOps exEnvBadPeer NewBGPRouterManager
        [Op.reconcileInstances (some exNodeConfigB) exNode]).BGPInstances.get "b").isSome = true
    ∧ tableList (runOps exEnvBadPeer NewBGPRouterManager
        [Op.reconcileInstances (some exNodeConfigB) exNode]).table "b"
      = [{ Instance := "b", ErrorID := 0, Error := "bad peer" }]
    ∧ (ReconcileInstances exEnvBadPeer (runOps exEnvBadPeer NewBGPRouterManager
        [Op.reconcileInstances (some exNodeConfigB) exNode]) none exNode).1.BGPInstances = []
    ∧ tableList (ReconcileInstances exEnvBadPeer (runOps exEnvBadPeer NewBGPRouterManager
        [Op.reconcileInstances (some exNodeConfigB) exNode]) none exNode).1.table "b" = [] := by
  have h := ReconcileInstances_nil_withdraws_all exEnvBadPeer
    [Op.reconcileInstances (some exNodeConfigB) exNode] exNode
  exact ⟨by decide, by decide, h.2.1, h.2.2.2.2 (fun _ _ => rfl) "b" (by decide)⟩

/-- Counterexample to C8 as stated: a pass registers "b" and stores the error of its failing
reconciler; `Delete` on the error table fails; the nil desired state then empties the registry
but the record of "b" stays in the table. -/
theorem ReconcileInstances_nil_failed_delete_counterexample :
    (runOps exEnvFailing NewBGPRouterManager
        [Op.reconcileInstances (some exNodeConfigB) exNode]).BGPInstances.get "b" = some 0
    ∧ (ReconcileInstances exEnvFailing (runOps exEnvFailing NewBGPRouterManager
        [Op.reconcileInstances (some exNodeConfigB) exNode]) none exNode).1.BGPInstances = []
    ∧ tableList (ReconcileInstances exEnvFailing (runOps exEnvFailing NewBGPRouterManager
        [Op.reconcileInstances (some exNodeConfigB) exNode]) none exNode).1.table "b"
      = [{ Instance := "b", ErrorID := 0, Error := "bad peer" }] := by
  refine ⟨by decide, by decide, by decide⟩

/-- Recreation under the same name: when the work diff withdraws and registers "a" in one
pass, the Router of the old instance is stopped before the Router of the new one is created. -/
theorem ReconcileInstances_same_name_example :
    (ReconcileInstances exEnvRecreate exManagerA (some exNodeConfigB) exNode).1.trace
      = [Event.cleanup 0 0, Event.cancelCtx 0, Event.routerStop 0 false, Event.closeCh 0,
         Event.newInstance 1 "a"
           { Global := { ASN := 65001, RouterID := "10.0.0.1", ListenPort := -1,
                         AdvertiseInactiveRoutes := true },
             StateNotification := 1 },
         Event.trackInstanceStateChange "a" 1, Event.init 0 1,
         Event.reconcile 0 (ReconcileParams.mk 1 exInstanceA exNode)]
    ∧ (ReconcileInstances exEnvRecreate exManagerA (some exNodeConfigB) exNode).1.BGPInstances
      = [("a", 1)] := by
  refine ⟨by decide, by decide⟩

/-! ### Registration of one instance -/

/-- C16: when the desired configuration has no local ASN, `getLocalASN` returns an error and
`registerBGPInstance` returns that error and leaves the whole manager state as it was: no
Router is created, no call is made, the registry and the notification map are unchanged. When
the local ASN is set, `getLocalASN` returns it without error. -/
theorem registerBGPInstance_missing_asn (env : Env) (m : BGPRouterManager)
    (c : CiliumBGPNodeInstance) (ciliumNode : CiliumNode) :
    (c.LocalASN = none →
      ∃ err, getLocalASN c = .error err
        ∧ registerBGPInstance env m c ciliumNode = (m, some err))
    ∧ (∀ asn, c.LocalASN = some asn → getLocalASN c = .ok asn) := by
  refine ⟨fun h => ?_, fun asn h => ?_⟩
  · refine ⟨GoError.leaf "missing ASN in desired config" false, ?_, ?_⟩
    · simp [getLocalASN, h]
    · simp [registerBGPInstance, getLocalASN, h]
  · simp [getLocalASN, h]

/-- Witness for C16: a configuration named "a" without local ASN is refused and the manager
keeps its state. -/
theorem registerBGPInstance_missing_asn_witness :
    ∃ err, getLocalASN { exInstanceA with LocalASN := none } = .error err
      ∧ registerBGPInstance (exEnv [okReconciler "r1"] none none) NewBGPRouterManager
          { exInstanceA with LocalASN := none } exNode = (NewBGPRouterManager, some err) :=
  (registerBGPInstance_missing_asn (exEnv [okReconciler "r1"] none none) NewBGPRouterManager
    { exInstanceA with LocalASN := none } exNode).1 rfl

theorem registerBGPInstance_created (env : Env) (m : BGPRouterManager)
    (c : CiliumBGPNodeInstance) (ciliumNode : CiliumNode) (asn port : Int) (rid : String)
    (hasn : getLocalASN c = .ok asn) (hport : getLocalPort env c ciliumNode asn = .ok port)
    (hrid : getRouterID env c ciliumNode asn = .ok rid)
    (hnew : env.newBGPInstance m.trace c.Name
      ⟨⟨(asn % 2 ^ 32).toNat, rid, port, true⟩, m.chans⟩ = none) :
    registerBGPInstance env m c ciliumNode
      = commitBGPInstance env
          (createdState m c ⟨⟨(asn % 2 ^ 32).toNat, rid, port, true⟩, m.chans⟩)
          m.heap.length m.chans c ciliumNode := by
  simp only [registerBGPInstance, hasn, hport, hrid, NewBGPInstance, hnew, createdState]

theorem commitBGPInstance_cases (env : Env) (m1 : BGPRouterManager) (i : Ptr) (ch : Nat)
    (c : CiliumBGPNodeInstance) (ciliumNode : CiliumNode) :
    (∀ err, initError env m1 i ch c = some err →
      commitBGPInstance env m1 i ch c ciliumNode = (initialisedState env m1 i ch c, some err))
    ∧ (initError env m1 i ch c = none →
        (commitBGPInstance env m1 i ch c ciliumNode).1
          = (reconcileBGPConfigV2 env (initialisedState env m1 i ch c) i c ciliumNode).1
        ∧ ((commitBGPInstance env m1 i ch c ciliumNode).2 = none ↔
            (reconcileBGPConfigV2 env (initialisedState env m1 i ch c) i c ciliumNode).2 = none))
    := by
  refine ⟨fun err herr => ?_, fun hok => ?_⟩
  · unfold initError at herr
    unfold commitBGPInstance initialisedState
    simp only
    rcases hinit : initLoop (committedState m1 i ch c).heap i env.ConfigReconcilers 0
      (committedState m1 i ch c).trace with ⟨tr, e⟩
    rw [hinit] at herr
    simp only at herr
    subst herr
    have h2 := hinit
    simp only [committedState] at h2
    simp only [h2]
    rfl
  · unfold initError at hok
    unfold commitBGPInstance initialisedState
    simp only
    rcases hinit : initLoop (committedState m1 i ch c).heap i env.ConfigReconcilers 0
      (committedState m1 i ch c).trace with ⟨tr, e⟩
    rw [hinit] at hok
    simp only at hok
    subst hok
    have h2 := hinit
    simp only [committedState] at h2
    simp only [h2]
    have h3 : ({ committedState m1 i ch c with trace := tr } : BGPRouterManager)
        = { m1 with
            BGPInstances := m1.BGPInstances.set c.Name i
            notifications := m1.notifications.set c.Name ch
            trace := tr } := rfl
    rw [h3]
    rcases hrec : reconcileBGPConfigV2 env
      { m1 with
        BGPInstances := m1.BGPInstances.set c.Name i
        notifications := m1.notifications.set c.Name ch
        trace := tr } i c ciliumNode with ⟨m3, _ | err⟩
    · simp
    · simp

theorem withdrawnPtr_of_isRegisterKind (e : Event) (h : e.isRegisterKind = true) :
    e.withdrawnPtr = none := by
  cases e <;> simp_all [Event.isRegisterKind, Event.withdrawnPtr]

/-- C15: when `registerBGPInstance` gets its Router instance created, the instance is in the
registry and its channel in the notification map when the function returns, whatever happens
afterwards. If the initialisation of a reconciler fails, or the first reconciliation returns an
error, the function returns an error; and in every case the calls made are of the register
kind only: no `Cleanup`, `CancelCtx` or `Router.Stop` is made and nothing is removed. -/
theorem registerBGPInstance_keeps_created_instance (env : Env) (m : BGPRouterManager)
    (c : CiliumBGPNodeInstance) (ciliumNode : CiliumNode) (asn port : Int) (rid : String)
    (hasn : getLocalASN c = .ok asn) (hport : getLocalPort env c ciliumNode asn = .ok port)
    (hrid : getRouterID env c ciliumNode asn = .ok rid)
    (hnew : env.newBGPInstance m.trace c.Name
      ⟨⟨(asn % 2 ^ 32).toNat, rid, port, true⟩, m.chans⟩ = none) :
    (registerBGPInstance env m c ciliumNode).1.BGPInstances.get c.Name = some m.heap.length
    ∧ (registerBGPInstance env m c ciliumNode).1.notifications.get c.Name = some m.chans
    ∧ (∃ x, (registerBGPInstance env m c ciliumNode).1.heap[m.heap.length]? = some x
        ∧ x.Name = c.Name)
    ∧ (∃ evs, (registerBGPInstance env m c ciliumNode).1.trace = m.trace ++ evs
        ∧ Event.newInstance m.heap.length c.Name
            ⟨⟨(asn % 2 ^ 32).toNat, rid, port, true⟩, m.chans⟩ ∈ evs
        ∧ ∀ e ∈ evs, e.isRegisterKind = true ∧ e.isRouterStop = false
            ∧ e.withdrawnPtr = none)
    ∧ (initError env (createdState m c ⟨⟨(asn % 2 ^ 32).toNat, rid, port, true⟩, m.chans⟩)
          m.heap.length m.chans c ≠ none →
        (registerBGPInstance env m c ciliumNode).2 ≠ none)
    ∧ (initError env (createdState m c ⟨⟨(asn % 2 ^ 32).toNat, rid, port, true⟩, m.chans⟩)
          m.heap.length m.chans c = none →
        (reconcileBGPConfigV2 env
          (initialisedState env
            (createdState m c ⟨⟨(asn % 2 ^ 32).toNat, rid, port, true⟩, m.chans⟩)
            m.heap.length m.chans c) m.heap.length c ciliumNode).2 ≠ none →
        (registerBGPInstance env m c ciliumNode).2 ≠ none) := by
  have hreg := registerBGPInstance_created env m c ciliumNode asn port rid hasn hport hrid hnew
  obtain ⟨evs, tbl, hk, hcase⟩ := commitBGPInstance_ext env
    (createdState m c ⟨⟨(asn % 2 ^ 32).toNat, rid, port, true⟩, m.chans⟩)
    m.heap.length m.chans c ciliumNode
  have hcases := commitBGPInstance_cases env
    (createdState m c ⟨⟨(asn % 2 ^ 32).toNat, rid, port, true⟩, m.chans⟩)
    m.heap.length m.chans c ciliumNode
  rw [hreg]
  have hst : (commitBGPInstance env
      (createdState m c ⟨⟨(asn % 2 ^ 32).toNat, rid, port, true⟩, m.chans⟩)
      m.heap.length m.chans c ciliumNode).1.BGPInstances
        = m.BGPInstances.set c.Name m.heap.length
      ∧ (commitBGPInstance env
      (createdState m c ⟨⟨(asn % 2 ^ 32).toNat, rid, port, true⟩, m.chans⟩)
      m.heap.length m.chans c ciliumNode).1.notifications
        = m.notifications.set c.Name m.chans
      ∧ (∃ x, (commitBGPInstance env
      (createdState m c ⟨⟨(asn % 2 ^ 32).toNat, rid, port, true⟩, m.chans⟩)
      m.heap.length m.chans c ciliumNode).1.heap = m.heap ++ [x] ∧ x.Name = c.Name)
      ∧ (commitBGPInstance env
      (createdState m c ⟨⟨(asn % 2 ^ 32).toNat, rid, port, true⟩, m.chans⟩)
      m.heap.length m.chans c ciliumNode).1.trace
        = m.trace ++ (Event.newInstance m.heap.length c.Name
            ⟨⟨(asn % 2 ^ 32).toNat, rid, port, true⟩, m.chans⟩ :: evs) := by
    rcases hcase with ⟨h1, -⟩ | h1
    · rw [h1]
      exact ⟨rfl, rfl, ⟨_, rfl, rfl⟩, by simp [createdState]⟩
    · rw [h1]
      refine ⟨rfl, rfl, ⟨⟨c.Name, ⟨(asn % 2 ^ 32).toNat, rid, port, true⟩, some c⟩, ?_, rfl⟩,
        by simp [createdState]⟩
      simp only [createdState]
      rw [setConfig_append_last]
  obtain ⟨hB, hN, ⟨x, hx, hxn⟩, hT⟩ := hst
  refine ⟨?_, ?_, ⟨x, ?_, hxn⟩, ⟨_, hT, List.mem_cons_self _ _, ?_⟩, ?_, ?_⟩
  · rw [hB, GoMap.get_set]
    simp
  · rw [hN, GoMap.get_set]
    simp
  · rw [hx]
    simp
  · intro e he
    have hke : e.isRegisterKind = true := by
      rcases List.mem_cons.1 he with rfl | he
      · rfl
      · exact hk e he
    exact ⟨hke, isRouterStop_of_isRegisterKind e hke, withdrawnPtr_of_isRegisterKind e hke⟩
  · intro hinit
    cases herr : initError env
        (createdState m c ⟨⟨(asn % 2 ^ 32).toNat, rid, port, true⟩, m.chans⟩)
        m.heap.length m.chans c with
    | none => exact absurd herr hinit
    | some err =>
      rw [hcases.1 err herr]
      simp
  · intro hinit hrec hnone
    exact hrec (((hcases.2 hinit).2).1 hnone)

/-- Witness for C15: the only reconciler fails at `Init`; the instance "a" has been created
and stays registered, and the function returns an error. -/
theorem registerBGPInstance_keeps_created_instance_witness :
    (registerBGPInstance (exEnv [failInitReconciler "r1" (GoError.leaf "init failed" false)]
        none none) NewBGPRouterManager exInstanceA exNode).1.BGPInstances.get exInstanceA.Name
      = some NewBGPRouterManager.heap.length
    ∧ (registerBGPInstance (exEnv [failInitReconciler "r1" (GoError.leaf "init failed" false)]
        none none) NewBGPRouterManager exInstanceA exNode).2 ≠ none := by
  have h := registerBGPInstance_keeps_created_instance
    (exEnv [failInitReconciler "r1" (GoError.leaf "init failed" false)] none none)
    NewBGPRouterManager exInstanceA exNode 65001 (-1) "10.0.0.1" rfl rfl rfl rfl
  refine ⟨h.1, h.2.2.2.2.1 ?_⟩
  intro hnone
  have hs : (initError
      (exEnv [failInitReconciler "r1" (GoError.leaf "init failed" false)] none none)
      (createdState NewBGPRouterManager exInstanceA
        ⟨⟨((65001 : Int) % 2 ^ 32).toNat, "10.0.0.1", -1, true⟩, NewBGPRouterManager.chans⟩)
      NewBGPRouterManager.heap.length NewBGPRouterManager.chans exInstanceA).isSome = true := rfl
  rw [hnone] at hs
  cases hs

/-! ### The router ID -/

/-- C17 (amended): `getRouterID` returns the `RouterID` of the configuration when it is set.
Otherwise it returns an error when the node annotations cannot be parsed, and the router ID
resolved from the annotations for the ASN when that resolution succeeds. Otherwise, in the
default allocation mode, it returns the IP of the node if the node has one, and else whatever
the derivation from the MAC address of the host device returns, which is `macToRouterID` of
that address when the device has one. In the default allocation mode an error is returned
only when the annotations cannot be parsed or when no source yields a value. -/
theorem getRouterID_precedence (env : Env) (c : CiliumBGPNodeInstance) (ciliumNode : CiliumNode)
    (asn : Int) :
    (∀ r, c.RouterID = some r → getRouterID env c ciliumNode asn = .ok r)
    ∧ (c.RouterID = none → ∀ err, env.NewAnnotationMap ciliumNode.Annotations = .error err →
        ∃ e, getRouterID env c ciliumNode asn = .error e)
    ∧ (c.RouterID = none → ∀ annoMap, env.NewAnnotationMap ciliumNode.Annotations = .ok annoMap →
        (∀ r, env.ResolveRouterID annoMap asn = .ok r →
          getRouterID env c ciliumNode asn = .ok r)
        ∧ (∀ err, env.ResolveRouterID annoMap asn = .error err →
            env.BGPRouterIDAllocationMode = BGPRouterIDAllocationModeDefault →
              (∀ ip, env.GetIP ciliumNode = some ip → getRouterID env c ciliumNode asn = .ok ip)
              ∧ (env.GetIP ciliumNode = none →
                  getRouterID env c ciliumNode asn = calcRouterIDFromMacAddress env)))
    ∧ (∀ mac, env.LinkByName env.HostDevice = .ok (some mac) →
        calcRouterIDFromMacAddress env
          = match macToRouterID mac with
            | .ok routerID => .ok routerID
            | .error err =>
              .error (Errorf_w "failed to calculate router ID from MAC address: " (some err) ""))
    ∧ (env.BGPRouterIDAllocationMode = BGPRouterIDAllocationModeDefault →
        ∀ e, getRouterID env c ciliumNode asn = .error e →
          c.RouterID = none
          ∧ ((∃ err, env.NewAnnotationMap ciliumNode.Annotations = .error err)
            ∨ (∃ annoMap err, env.NewAnnotationMap ciliumNode.Annotations = .ok annoMap
                ∧ env.ResolveRouterID annoMap asn = .error err
                ∧ env.GetIP ciliumNode = none
                ∧ calcRouterIDFromMacAddress env = .error e)))
    := by
  refine ⟨?_, ?_, ?_, ?_, ?_⟩
  · intro r hr
    simp [getRouterID, hr]
  · intro hnone err herr
    simp only [getRouterID, hnone, herr]
    exact ⟨_, rfl⟩
  · intro hnone annoMap hanno
    refine ⟨?_, ?_⟩
    · intro r hr
      simp only [getRouterID, hnone, hanno, hr]
    · intro err herr hmode
      refine ⟨?_, ?_⟩
      · intro ip hip
        simp only [getRouterID, hnone, hanno, herr, hmode, if_true, hip]
      · intro hip
        simp only [getRouterID, hnone, hanno, herr, hmode, if_true, hip]
        cases calcRouterIDFromMacAddress env <;> rfl
  · intro mac hmac
    simp only [calcRouterIDFromMacAddress, hmac]
    cases macToRouterID mac <;> rfl
  · intro hmode e he
    cases hrid : c.RouterID with
    | some r => simp [getRouterID, hrid] at he
    | none =>
      refine ⟨rfl, ?_⟩
      cases hanno : env.NewAnnotationMap ciliumNode.Annotations with
      | error err => exact Or.inl ⟨err, rfl⟩
      | ok annoMap =>
        right
        cases hres : env.ResolveRouterID annoMap asn with
        | ok r => simp [getRouterID, hrid, hanno, hres] at he
        | error err =>
          cases hip : env.GetIP ciliumNode with
          | some ip => simp [getRouterID, hrid, hanno, hres, hmode, hip] at he
          | none =>
            refine ⟨annoMap, err, rfl, hres, rfl, ?_⟩
            simp only [getRouterID, hrid, hanno, hres, hmode, if_true, hip] at he
            cases hcalc : calcRouterIDFromMacAddress env with
            | ok r => simp [hcalc] at he
            | error e2 =>
              simp only [hcalc, Except.error.injEq] at he
              rw [he]

/-- Witness for C17: without `RouterID` and without annotations, in the default mode, the IP
of the node is the router ID. -/
theorem getRouterID_precedence_witness :
    getRouterID (exEnv [] none none) exInstanceA exNode 65001 = .ok "10.0.0.1" :=
  ((((getRouterID_precedence (exEnv [] none none) exInstanceA exNode 65001).2.2.1 rfl [] rfl).2
    (GoError.leaf "router id not specified by annotation" false) rfl) rfl).1 "10.0.0.1" rfl

/-- Counterexample to C17 as stated: the node has an IP, yet `getRouterID` returns an error,
because the annotations of the node cannot be parsed. -/
theorem getRouterID_error_despite_node_ip_counterexample :
    exEnvBadAnnotations.BGPRouterIDAllocationMode = BGPRouterIDAllocationModeDefault
    ∧ exInstanceA.RouterID = none
    ∧ exEnvBadAnnotations.GetIP exNode = some "10.0.0.1"
    ∧ getRouterID exEnvBadAnnotations exInstanceA exNode 65001
      = .error (GoError.wrap
          "failed to parse Node annotations for instance a: malformed annotation"
          (GoError.leaf "malformed annotation" false)) := by
  refine ⟨rfl, rfl, rfl, ?_⟩
  rfl

/-! ### The router ID derived from a hardware address -/

theorem foldl_dec (l : List Char) (a : Nat) :
    l.foldl (fun acc c => acc * 10 + (c.toNat - 48)) a = a * 10 ^ l.length + decVal l := by
  induction l generalizing a with
  | nil => simp [decVal]
  | cons c rest ih =>
    simp only [List.foldl_cons, List.length_cons, decVal]
    rw [ih, ih (0 * 10 + _)]
    ring

theorem digitChar_val (k : Nat) (h : k < 10) : (Nat.digitChar k).toNat - 48 = k := by
  interval_cases k <;> rfl

theorem digitChar_ne_dot (k : Nat) (h : k < 10) : Nat.digitChar k ≠ '.' := by
  interval_cases k <;> decide

theorem toDigitsCore_val (fuel n : Nat) (ds : List Char) (h : n < fuel) :
    decVal (Nat.toDigitsCore 10 fuel n ds) = n * 10 ^ ds.length + decVal ds := by
  induction fuel generalizing n ds with
  | zero => omega
  | succ fuel ih =>
    unfold Nat.toDigitsCore
    simp only
    split
    · rename_i h0
      have hn : n % 10 = n := by omega
      simp only [decVal, List.foldl_cons, List.length_cons]
      rw [foldl_dec, digitChar_val _ (Nat.mod_lt _ (by decide)), hn]
      simp [decVal]
    · rename_i h0
      rw [ih (n / 10) _ (by omega)]
      simp only [decVal, List.foldl_cons, List.length_cons]
      rw [foldl_dec, digitChar_val _ (Nat.mod_lt _ (by decide))]
      simp only [decVal]
      have : n = 10 * (n / 10) + n % 10 := (Nat.div_add_mod n 10).symm
      generalize n / 10 = q at *
      generalize n % 10 = r at *
      subst this
      ring

/-- Reading back the decimal digits of a number gives the number. -/
theorem toDigits_val (n : Nat) : decVal (Nat.toDigits 10 n) = n := by
  unfold Nat.toDigits
  rw [toDigitsCore_val _ _ _ (Nat.lt_succ_self n)]
  simp [decVal]

theorem toDigitsCore_no_dot (fuel n : Nat) (ds : List Char) (h : '.' ∉ ds) :
    '.' ∉ Nat.toDigitsCore 10 fuel n ds := by
  induction fuel generalizing n ds with
  | zero => simpa [Nat.toDigitsCore] using h
  | succ fuel ih =>
    unfold Nat.toDigitsCore
    simp only
    have hd : '.' ∉ Nat.digitChar (n % 10) :: ds := by
      intro hmem
      rcases List.mem_cons.1 hmem with h1 | h1
      · exact digitChar_ne_dot _ (Nat.mod_lt _ (by decide)) h1.symm
      · exact h h1
    split
    · exact hd
    · exact ih _ _ hd

theorem toDigits_no_dot (n : Nat) : '.' ∉ Nat.toDigits 10 n :=
  toDigitsCore_no_dot _ _ [] (by simp)

theorem toDigits_injective (a b : Nat) (h : Nat.toDigits 10 a = Nat.toDigits 10 b) : a = b := by
  have := congrArg decVal h
  rwa [toDigits_val, toDigits_val] at this

theorem append_dot_inj (l1 l2 r1 r2 : List Char) (h1 : '.' ∉ l1) (h2 : '.' ∉ l2)
    (h : l1 ++ '.' :: r1 = l2 ++ '.' :: r2) : l1 = l2 ∧ r1 = r2 := by
  induction l1 generalizing l2 with
  | nil =>
    cases l2 with
    | nil => exact ⟨rfl, by simpa using h⟩
    | cons b l2 =>
      simp only [List.nil_append, List.cons_append, List.cons.injEq] at h
      exact absurd (List.mem_cons.2 (Or.inl h.1)) h2
  | cons a l1 ih =>
    cases l2 with
    | nil =>
      simp only [List.nil_append, List.cons_append, List.cons.injEq] at h
      exact absurd (List.mem_cons.2 (Or.inl h.1.symm)) h1
    | cons b l2 =>
      simp only [List.cons_append, List.cons.injEq] at h
      have h1b : '.' ∉ l1 := fun hm => h1 (List.mem_cons_of_mem _ hm)
      have h2b : '.' ∉ l2 := fun hm => h2 (List.mem_cons_of_mem _ hm)
      obtain ⟨hl, hr⟩ := ih l2 h1b h2b h.2
      exact ⟨by rw [h.1, hl], hr⟩

theorem dotted_data (a b c d : Nat) :
    (toString a ++ "." ++ toString b ++ "." ++ toString c ++ "." ++ toString d).data
      = Nat.toDigits 10 a ++ '.' :: (Nat.toDigits 10 b ++ '.' :: (Nat.toDigits 10 c
          ++ '.' :: Nat.toDigits 10 d)) := by
  have hs : ∀ n : Nat, (toString n).data = Nat.toDigits 10 n := fun _ => rfl
  have hdot : (".").data = ['.'] := rfl
  simp only [String.data_append, hs, hdot, List.append_assoc, List.singleton_append,
    List.cons_append, List.nil_append]

theorem dotted_injective (a b c d a2 b2 c2 d2 : Nat)
    (h : toString a ++ "." ++ toString b ++ "." ++ toString c ++ "." ++ toString d
      = toString a2 ++ "." ++ toString b2 ++ "." ++ toString c2 ++ "." ++ toString d2) :
    a = a2 ∧ b = b2 ∧ c = c2 ∧ d = d2 := by
  have hd := congrArg String.data h
  rw [dotted_data, dotted_data] at hd
  obtain ⟨h1, hd⟩ := append_dot_inj _ _ _ _ (toDigits_no_dot a) (toDigits_no_dot a2) hd
  obtain ⟨h2, hd⟩ := append_dot_inj _ _ _ _ (toDigits_no_dot b) (toDigits_no_dot b2) hd
  obtain ⟨h3, h4⟩ := append_dot_inj _ _ _ _ (toDigits_no_dot c) (toDigits_no_dot c2) hd
  exact ⟨toDigits_injective _ _ h1, toDigits_injective _ _ h2, toDigits_injective _ _ h3,
    toDigits_injective _ _ h4⟩

/-- C18: `macToRouterID` returns an error exactly when the hardware address has fewer than
four bytes; for an address of length `n ≥ 4` it returns the decimal numbers `mac[n-4]`,
`mac[n-3]`, `mac[n-2]`, `mac[n-1]` joined by dots; and two such addresses get the same router
ID exactly when their last four bytes are equal. -/
theorem macToRouterID_last_four_bytes :
    (∀ mac : List Nat, (∃ err, macToRouterID mac = .error err) ↔ mac.length < 4)
    ∧ (∀ mac : List Nat, 4 ≤ mac.length → macToRouterID mac = .ok (lastFourDotted mac))
    ∧ (∀ mac1 mac2 : List Nat, 4 ≤ mac1.length → 4 ≤ mac2.length →
        (macToRouterID mac1 = macToRouterID mac2 ↔
          mac1.getD (mac1.length - 4) 0 = mac2.getD (mac2.length - 4) 0
          ∧ mac1.getD (mac1.length - 3) 0 = mac2.getD (mac2.length - 3) 0
          ∧ mac1.getD (mac1.length - 2) 0 = mac2.getD (mac2.length - 2) 0
          ∧ mac1.getD (mac1.length - 1) 0 = mac2.getD (mac2.length - 1) 0)) := by
  have hok : ∀ mac : List Nat, 4 ≤ mac.length → macToRouterID mac = .ok (lastFourDotted mac) := by
    intro mac h
    have : ¬ mac.length < 4 := by omega
    simp only [macToRouterID, this, if_false, lastFourDotted]
  refine ⟨?_, hok, ?_⟩
  · intro mac
    constructor
    · rintro ⟨err, herr⟩
      by_contra hlen
      rw [hok mac (by omega)] at herr
      cases herr
    · intro hlen
      simp only [macToRouterID, hlen, if_true]
      exact ⟨_, rfl⟩
  · intro mac1 mac2 h1 h2
    rw [hok mac1 h1, hok mac2 h2]
    constructor
    · intro h
      have hs : lastFourDotted mac1 = lastFourDotted mac2 := by
        simpa using h
      exact dotted_injective _ _ _ _ _ _ _ _ hs
    · rintro ⟨ha, hb, hc, hd⟩
      simp only [lastFourDotted, ha, hb, hc, hd]

/-- Witness for C18: two six-byte addresses that differ only in their first two bytes get the
same router ID, and a three-byte address is refused. -/
theorem macToRouterID_last_four_bytes_witness :
    macToRouterID [0, 1, 10, 20, 30, 40] = macToRouterID [7, 9, 10, 20, 30, 40]
    ∧ (∃ err, macToRouterID [1, 2, 3] = .error err) := by
  refine ⟨?_, ?_⟩
  · exact (macToRouterID_last_four_bytes.2.2 [0, 1, 10, 20, 30, 40] [7, 9, 10, 20, 30, 40]
      (by decide) (by decide)).2 ⟨rfl, rfl, rfl, rfl⟩
  · exact (macToRouterID_last_four_bytes.1 [1, 2, 3]).2 (by decide)

/-- The router ID of one address, written out. -/
theorem macToRouterID_example :
    macToRouterID [0, 1, 10, 20, 30, 255] = .ok "10.20.30.255" := by
  rfl

/-! ### The register loop, turn by turn -/

theorem registerLoop_cons (env : Env) (rd : reconcileDiffV2) (name : String)
    (rest : List String) (m : BGPRouterManager) (iwe : List String) (le : Option GoError) :
    registerLoop env rd (name :: rest) m iwe le
      = registerLoop env rd rest (registerTurn env rd m name)
          (match registerFailure env rd m name with
            | some _ => iwe ++ [name]
            | none => iwe)
          (match registerFailure env rd m name with
            | some err => some err
            | none => le) := by
  unfold registerTurn registerFailure
  rw [registerLoop]
  cases hs : rd.seen.get name with
  | none => rfl
  | some config =>
    simp only
    rcases hr : registerBGPInstance env m config rd.ciliumNode with ⟨m1, _ | rErr⟩ <;> rfl

theorem registerLoop_fst (env : Env) (rd : reconcileDiffV2) (names : List String)
    (m : BGPRouterManager) (iwe : List String) (le : Option GoError) :
    (registerLoop env rd names m iwe le).1 = registerState env rd m names := by
  unfold registerState
  induction names generalizing m iwe le with
  | nil => simp [registerLoop]
  | cons name rest ih =>
    rw [registerLoop_cons, registerLoop_cons]
    exact (ih _ _ _).trans (ih _ _ _).symm

theorem registerState_nil (env : Env) (rd : reconcileDiffV2) (m : BGPRouterManager) :
    registerState env rd m [] = m := by
  simp [registerState, registerLoop]

theorem registerState_cons (env : Env) (rd : reconcileDiffV2) (m : BGPRouterManager)
    (name : String) (rest : List String) :
    registerState env rd m (name :: rest)
      = registerState env rd (registerTurn env rd m name) rest := by
  unfold registerState
  rw [registerLoop_cons, registerLoop_fst]
  rfl

theorem registerState_append (env : Env) (rd : reconcileDiffV2) (m : BGPRouterManager)
    (l1 l2 : List String) :
    registerState env rd m (l1 ++ l2) = registerState env rd (registerState env rd m l1) l2 := by
  induction l1 generalizing m with
  | nil => simp [registerState_nil]
  | cons name rest ih =>
    rw [List.cons_append, registerState_cons, registerState_cons, ih]

theorem registerV2_state (env : Env) (m : BGPRouterManager) (rd : reconcileDiffV2) :
    (registerV2 env m rd).1 = registerState env rd m rd.register := by
  rw [registerV2_fst]
  rfl

theorem getLast?_cons_of_ne {α : Type} (a : α) (l : List α) (h : l ≠ []) :
    (a :: l).getLast? = l.getLast? := by
  cases l with
  | nil => exact absurd rfl h
  | cons b t => simp [List.getLast?_cons_cons]

theorem registerFailures_cons (env : Env) (rd : reconcileDiffV2) (name : String)
    (rest : List String) (m : BGPRouterManager) :
    registerFailures env rd (name :: rest) m
      = match registerFailure env rd m name with
        | some err => (name, err) :: registerFailures env rd rest (registerTurn env rd m name)
        | none => registerFailures env rd rest (registerTurn env rd m name) := rfl

/-- The accumulators of the register loop: the names that failed, and the cause of the last
failure. -/
theorem registerLoop_snd (env : Env) (rd : reconcileDiffV2) (names : List String)
    (m : BGPRouterManager) (iwe : List String) (le : Option GoError) :
    (registerLoop env rd names m iwe le).2
      = (iwe ++ (registerFailures env rd names m).map Prod.fst,
         match (registerFailures env rd names m).getLast? with
         | some f => some f.2
         | none => le) := by
  induction names generalizing m iwe le with
  | nil => simp [registerLoop, registerFailures]
  | cons name rest ih =>
    rw [registerLoop_cons, ih, registerFailures_cons]
    cases hf : registerFailure env rd m name with
    | none => rfl
    | some err =>
      simp only [List.map_cons, List.append_assoc, List.singleton_append]
      cases hl : (registerFailures env rd rest (registerTurn env rd m name)).getLast? with
      | none =>
        have hnil : registerFailures env rd rest (registerTurn env rd m name) = [] :=
          List.getLast?_eq_none_iff.1 hl
        simp [hnil]
      | some f =>
        have hne : registerFailures env rd rest (registerTurn env rd m name) ≠ [] := by
          intro h
          rw [h] at hl
          simp at hl
        rw [getLast?_cons_of_ne _ _ hne, hl]

/-! ### Failures of single instances in the register loop -/

theorem Configured_of_registered (env : Env) (m : BGPRouterManager) (c : CiliumBGPNodeInstance)
    (ciliumNode : CiliumNode) (hok : (registerBGPInstance env m c ciliumNode).2 = none) :
    Configured (registerBGPInstance env m c ciliumNode).1 c := by
  obtain ⟨evs, -, h⟩ := registerBGPInstance_ext env m c ciliumNode
  rcases h with ⟨ch, -, hne⟩ | ⟨x, tbl, hst, -, hx⟩
  · exact absurd hok hne
  · rcases hx with hx | ⟨-, hne⟩
    · refine ⟨m.heap.length, x, ?_, ?_, hx⟩
      · rw [hst]
        simp only
        rw [GoMap.get_set]
        simp
      · rw [hst]
        simp
    · exact absurd hok hne

theorem Configured_registerBGPInstance (env : Env) (m : BGPRouterManager)
    (c c2 : CiliumBGPNodeInstance) (ciliumNode : CiliumNode) (hne : c2.Name ≠ c.Name)
    (h : Configured m c) : Configured (registerBGPInstance env m c2 ciliumNode).1 c := by
  obtain ⟨i, x, hi, hx, hc⟩ := h
  obtain ⟨evs, -, h⟩ := registerBGPInstance_ext env m c2 ciliumNode
  rcases h with ⟨ch, hst, -⟩ | ⟨y, tbl, hst, -, -⟩
  · rw [hst]
    exact ⟨i, x, hi, hx, hc⟩
  · refine ⟨i, x, ?_, ?_, hc⟩
    · rw [hst]
      simp only
      rw [GoMap.get_set, if_neg (Ne.symm hne)]
      exact hi
    · rw [hst]
      simp only
      have hlt : i < m.heap.length := by
        rcases Nat.lt_or_ge i m.heap.length with hlt | hge
        · exact hlt
        · rw [List.getElem?_eq_none hge] at hx
          cases hx
      rw [List.getElem?_append_left hlt]
      exact hx

theorem Configured_registerState (env : Env) (rd : reconcileDiffV2) (c : CiliumBGPNodeInstance)
    (names : List String) (m : BGPRouterManager)
    (hnames : ∀ n ∈ names, ∀ c2, rd.seen.get n = some c2 → c2.Name ≠ c.Name)
    (h : Configured m c) : Configured (registerState env rd m names) c := by
  induction names generalizing m with
  | nil => rwa [registerState_nil]
  | cons name rest ih =>
    rw [registerState_cons]
    apply ih _ (fun n hn => hnames n (List.mem_cons_of_mem _ hn))
    unfold registerTurn
    cases hs : rd.seen.get name with
    | none => exact h
    | some c2 =>
      exact Configured_registerBGPInstance env m c c2 rd.ciliumNode
        (hnames name (List.mem_cons_self _ _) c2 hs) h

/-- C11: the register loop goes through the whole list, whatever fails on the way. A name that
is missing from the seen map is skipped without any effect on the manager, and every name of
the list whose registration succeeds at its turn ends up in the registry with its last-applied
configuration set to its desired configuration, whatever happened at the turns of the other
names (no later name of the list being resolved to a configuration of the same name, as is
the case of a list without repetition). -/
theorem registerV2_isolates_failures (env : Env) (m : BGPRouterManager) (rd : reconcileDiffV2) :
    (registerV2 env m rd).1 = registerState env rd m rd.register
    ∧ (∀ pre name post, rd.register = pre ++ name :: post → rd.seen.get name = none →
        registerState env rd m (pre ++ [name]) = registerState env rd m pre)
    ∧ (∀ pre name post c, rd.register = pre ++ name :: post → rd.seen.get name = some c →
        registerFailure env rd (registerState env rd m pre) name = none →
        (∀ n ∈ post, ∀ c2, rd.seen.get n = some c2 → c2.Name ≠ c.Name) →
        Configured (registerV2 env m rd).1 c) := by
  refine ⟨registerV2_state env m rd, ?_, ?_⟩
  · intro pre name post _ hs
    rw [registerState_append, registerState_cons, registerState_nil]
    unfold registerTurn
    rw [hs]
  · intro pre name post c hl hs hok hpost
    rw [registerV2_state, hl, registerState_append, registerState_cons]
    apply Configured_registerState env rd c post _ hpost
    unfold registerTurn
    rw [hs]
    unfold registerFailure at hok
    rw [hs] at hok
    exact Configured_of_registered env _ c rd.ciliumNode hok

/-- Witness for C11: of three instances to register the second has no local ASN and fails;
the first and the third end up registered and configured. -/
theorem registerV2_isolates_failures_witness :
    registerFailure (exEnv [okReconciler "r1"] none none) exDiffThree
        (registerState (exEnv [okReconciler "r1"] none none) exDiffThree NewBGPRouterManager ["a"])
        "b" = some (GoError.leaf "missing ASN in desired config" false)
    ∧ Configured (registerV2 (exEnv [okReconciler "r1"] none none) NewBGPRouterManager
        exDiffThree).1 exInstanceC := by
  refine ⟨rfl, (registerV2_isolates_failures (exEnv [okReconciler "r1"] none none)
    NewBGPRouterManager exDiffThree).2.2 ["a", "b"] "c" [] exInstanceC rfl rfl rfl ?_⟩
  intro n hn
  cases hn

/-! ### The reconcile loop, turn by turn -/

theorem reconcileV2Loop_cons (env : Env) (rd : reconcileDiffV2) (name : String)
    (rest : List String) (m : BGPRouterManager) (iwe : List String) (le : Option GoError) :
    reconcileV2Loop env rd (name :: rest) m iwe le
      = reconcileV2Loop env rd rest (reconcileTurn env rd m name)
          (match reconcileFailure env rd m name with
            | some _ => iwe ++ [name]
            | none => iwe)
          (match reconcileFailure env rd m name with
            | some (some err) => some err
            | _ => le) := by
  unfold reconcileTurn reconcileFailure
  rw [reconcileV2Loop]
  cases hi : m.BGPInstances.get name with
  | none => rfl
  | some i =>
    cases hs : rd.seen.get name with
    | none => rfl
    | some newc =>
      simp only
      rcases hr : reconcileBGPConfigV2 env m i newc rd.ciliumNode with ⟨m1, _ | rErr⟩ <;> rfl

theorem reconcileV2Loop_fst (env : Env) (rd : reconcileDiffV2) (names : List String)
    (m : BGPRouterManager) (iwe : List String) (le : Option GoError) :
    (reconcileV2Loop env rd names m iwe le).1 = reconcileState env rd m names := by
  unfold reconcileState
  induction names generalizing m iwe le with
  | nil => simp [reconcileV2Loop]
  | cons name rest ih =>
    rw [reconcileV2Loop_cons, reconcileV2Loop_cons]
    exact (ih _ _ _).trans (ih _ _ _).symm

theorem reconcileState_nil (env : Env) (rd : reconcileDiffV2) (m : BGPRouterManager) :
    reconcileState env rd m [] = m := by
  simp [reconcileState, reconcileV2Loop]

theorem reconcileState_cons (env : Env) (rd : reconcileDiffV2) (m : BGPRouterManager)
    (name : String) (rest : List String) :
    reconcileState env rd m (name :: rest)
      = reconcileState env rd (reconcileTurn env rd m name) rest := by
  unfold reconcileState
  rw [reconcileV2Loop_cons, reconcileV2Loop_fst]
  rfl

theorem reconcileState_append (env : Env) (rd : reconcileDiffV2) (m : BGPRouterManager)
    (l1 l2 : List String) :
    reconcileState env rd m (l1 ++ l2)
      = reconcileState env rd (reconcileState env rd m l1) l2 := by
  induction l1 generalizing m with
  | nil => simp [reconcileState_nil]
  | cons name rest ih =>
    rw [List.cons_append, reconcileState_cons, reconcileState_cons, ih]

theorem reconcileV2_state (env : Env) (m : BGPRouterManager) (rd : reconcileDiffV2) :
    (reconcileV2 env m rd).1 = reconcileState env rd m rd.reconcile := by
  rw [reconcileV2_fst]
  rfl

theorem reconcileFailures_cons (env : Env) (rd : reconcileDiffV2) (name : String)
    (rest : List String) (m : BGPRouterManager) :
    reconcileFailures env rd (name :: rest) m
      = match reconcileFailure env rd m name with
        | some cause => (name, cause) :: reconcileFailures env rd rest (reconcileTurn env rd m name)
        | none => reconcileFailures env rd rest (reconcileTurn env rd m name) := rfl

/-- The accumulators of the reconcile loop: the names that failed, and the last cause of a
failure that has one. -/
theorem reconcileV2Loop_snd (env : Env) (rd : reconcileDiffV2) (names : List String)
    (m : BGPRouterManager) (iwe : List String) (le : Option GoError) :
    (reconcileV2Loop env rd names m iwe le).2
      = (iwe ++ (reconcileFailures env rd names m).map Prod.fst,
         match ((reconcileFailures env rd names m).filterMap Prod.snd).getLast? with
         | some err => some err
         | none => le) := by
  induction names generalizing m iwe le with
  | nil => simp [reconcileV2Loop, reconcileFailures]
  | cons name rest ih =>
    rw [reconcileV2Loop_cons, ih, reconcileFailures_cons]
    cases hf : reconcileFailure env rd m name with
    | none => rfl
    | some cause =>
      simp only [List.map_cons, List.append_assoc, List.singleton_append]
      cases cause with
      | none => simp [List.filterMap_cons]
      | some err =>
        simp only [List.filterMap_cons]
        cases hl : ((reconcileFailures env rd rest (reconcileTurn env rd m name)).filterMap
          Prod.snd).getLast? with
        | none =>
          have hnil : (reconcileFailures env rd rest (reconcileTurn env rd m name)).filterMap
              Prod.snd = [] := List.getLast?_eq_none_iff.1 hl
          simp [hnil]
        | some f =>
          have hne : (reconcileFailures env rd rest (reconcileTurn env rd m name)).filterMap
              Prod.snd ≠ [] := by
            intro h
            rw [h] at hl
            simp at hl
          rw [getLast?_cons_of_ne _ _ hne, hl]

theorem reconcileTurn_registry (env : Env) (rd : reconcileDiffV2) (m : BGPRouterManager)
    (name : String) : (reconcileTurn env rd m name).BGPInstances = m.BGPInstances := by
  unfold reconcileTurn
  split
  · rename_i i newc _ _
    obtain ⟨evs, tbl, h, -⟩ := reconcileBGPConfigV2_ext env m i newc rd.ciliumNode
    rw [h]
  · rfl

theorem reconcileState_registry (env : Env) (rd : reconcileDiffV2) (names : List String)
    (m : BGPRouterManager) : (reconcileState env rd m names).BGPInstances = m.BGPInstances := by
  induction names generalizing m with
  | nil => rw [reconcileState_nil]
  | cons name rest ih => rw [reconcileState_cons, ih, reconcileTurn_registry]

theorem reconcileFailures_append (env : Env) (rd : reconcileDiffV2) (l1 l2 : List String)
    (m : BGPRouterManager) :
    reconcileFailures env rd (l1 ++ l2) m
      = reconcileFailures env rd l1 m
        ++ reconcileFailures env rd l2 (reconcileState env rd m l1) := by
  induction l1 generalizing m with
  | nil => simp [reconcileFailures, reconcileState_nil]
  | cons name rest ih =>
    rw [List.cons_append, reconcileFailures_cons, reconcileFailures_cons, reconcileState_cons, ih]
    cases reconcileFailure env rd m name <;> rfl

theorem reconcileV2_snd (env : Env) (m : BGPRouterManager) (rd : reconcileDiffV2) :
    (reconcileV2 env m rd).2
      = if (reconcileFailures env rd rd.reconcile m).isEmpty then none
        else some (Errorf_w ("error reconciling BGP instances: "
          ++ fmtStrings ((reconcileFailures env rd rd.reconcile m).map Prod.fst)
          ++ " (last error: ")
          (((reconcileFailures env rd rd.reconcile m).filterMap Prod.snd).getLast?) ")") := by
  have h := reconcileV2Loop_snd env rd rd.reconcile m [] none
  unfold reconcileV2
  rcases hl : reconcileV2Loop env rd rd.reconcile m [] none with ⟨m1, iwe, le⟩
  rw [hl] at h
  simp only [List.nil_append, Prod.mk.injEq] at h
  obtain ⟨h1, h2⟩ := h
  simp only
  have hle : le = ((reconcileFailures env rd rd.reconcile m).filterMap Prod.snd).getLast? := by
    rw [h2]
    cases ((reconcileFailures env rd rd.reconcile m).filterMap Prod.snd).getLast? <;> rfl
  subst h1
  rw [hle]
  by_cases hnil : reconcileFailures env rd rd.reconcile m = []
  · simp [hnil]
  · have hpos : (List.map Prod.fst (reconcileFailures env rd rd.reconcile m)).length > 0 := by
      rw [List.length_map]
      exact List.length_pos.2 hnil
    have hemp : ¬ (reconcileFailures env rd rd.reconcile m).isEmpty = true := by
      rw [List.isEmpty_iff]
      exact hnil
    rw [if_pos hpos, if_neg hemp]

/-- C12: the reconcile loop goes through the whole list. At the turn of a name that is missing
from the registry or from the seen map nothing is invoked and the manager is left as it is,
the error returned by `reconcileV2` is non-nil, and the loop goes on with the names after it:
at its turn each of them that is registered and seen is reconciled by `reconcileBGPConfigV2`
with its desired configuration. -/
theorem reconcileV2_isolates_failures (env : Env) (m : BGPRouterManager) (rd : reconcileDiffV2)
    (pre post : List String) (name : String) (hlist : rd.reconcile = pre ++ name :: post)
    (hmiss : m.BGPInstances.get name = none ∨ rd.seen.get name = none) :
    reconcileState env rd m (pre ++ [name]) = reconcileState env rd m pre
    ∧ (reconcileV2 env m rd).2 ≠ none
    ∧ (reconcileV2 env m rd).1 = reconcileState env rd (reconcileState env rd m pre) post
    ∧ (∀ p1 n p2 i newc, post = p1 ++ n :: p2 → m.BGPInstances.get n = some i →
        rd.seen.get n = some newc →
        reconcileState env rd m (pre ++ name :: p1 ++ [n])
          = (reconcileBGPConfigV2 env (reconcileState env rd m (pre ++ name :: p1)) i newc
              rd.ciliumNode).1) := by
  have hturn : ∀ st : BGPRouterManager, st.BGPInstances = m.BGPInstances →
      reconcileTurn env rd st name = st ∧ reconcileFailure env rd st name = some none := by
    intro st hst
    unfold reconcileTurn reconcileFailure
    rw [hst]
    rcases hmiss with h | h
    · rw [h]
      exact ⟨rfl, rfl⟩
    · rw [h]
      cases m.BGPInstances.get name <;> exact ⟨rfl, rfl⟩
  have hpre := hturn (reconcileState env rd m pre) (reconcileState_registry env rd pre m)
  have hstep : reconcileState env rd m (pre ++ [name]) = reconcileState env rd m pre := by
    rw [reconcileState_append, reconcileState_cons, reconcileState_nil]
    exact hpre.1
  refine ⟨hstep, ?_, ?_, ?_⟩
  · rw [reconcileV2_snd]
    have hne : ¬ (reconcileFailures env rd rd.reconcile m).isEmpty = true := by
      rw [List.isEmpty_iff, hlist, reconcileFailures_append, reconcileFailures_cons, hpre.2]
      simp
    rw [if_neg hne]
    simp
  · rw [reconcileV2_state, hlist, reconcileState_append, reconcileState_cons, hpre.1]
  · intro p1 n p2 i newc _ hi hs
    rw [reconcileState_append, reconcileState_cons, reconcileState_nil]
    unfold reconcileTurn
    rw [reconcileState_registry, hi, hs]

/-- Witness for C12: "zz" is not registered and "a" is; the pass returns an error and "a" is
reconciled all the same. -/
theorem reconcileV2_isolates_failures_witness :
    (reconcileV2 (exEnv [okReconciler "r1"] none none) exManagerA exDiffMissing).2 ≠ none
    ∧ reconcileState (exEnv [okReconciler "r1"] none none) exDiffMissing exManagerA
        ([] ++ "zz" :: [] ++ ["a"])
      = (reconcileBGPConfigV2 (exEnv [okReconciler "r1"] none none)
          (reconcileState (exEnv [okReconciler "r1"] none none) exDiffMissing exManagerA
            ([] ++ "zz" :: [])) 0 exInstanceA exDiffMissing.ciliumNode).1 :=
  ⟨(reconcileV2_isolates_failures (exEnv [okReconciler "r1"] none none) exManagerA exDiffMissing
      [] ["a"] "zz" rfl (Or.inl rfl)).2.1,
   (reconcileV2_isolates_failures (exEnv [okReconciler "r1"] none none) exManagerA exDiffMissing
      [] ["a"] "zz" rfl (Or.inl rfl)).2.2.2 [] "a" [] 0 exInstanceA rfl rfl rfl⟩

/-! ### The error returned by a pass -/

theorem split_cons_iff {α : Type} (a n : α) (l : List α) (P : List α → Prop) :
    (∃ pre post, a :: l = pre ++ n :: post ∧ P pre)
      ↔ (a = n ∧ P []) ∨ (∃ pre post, l = pre ++ n :: post ∧ P (a :: pre)) := by
  constructor
  · rintro ⟨pre, post, h, hp⟩
    cases pre with
    | nil =>
      simp only [List.nil_append, List.cons.injEq] at h
      exact Or.inl ⟨h.1, hp⟩
    | cons b pre2 =>
      simp only [List.cons_append, List.cons.injEq] at h
      obtain ⟨rfl, h⟩ := h
      exact Or.inr ⟨pre2, post, h, hp⟩
  · rintro (⟨rfl, hp⟩ | ⟨pre, post, h, hp⟩)
    · exact ⟨[], l, rfl, hp⟩
    · exact ⟨a :: pre, post, by rw [h]; rfl, hp⟩

/-- The failures of the register loop are the failures of the turns of the list, each taken in
the state the loop has reached. -/
theorem mem_registerFailures_iff (env : Env) (rd : reconcileDiffV2) (names : List String)
    (m : BGPRouterManager) (n : String) (e : GoError) :
    (n, e) ∈ registerFailures env rd names m
      ↔ ∃ pre post, names = pre ++ n :: post
          ∧ registerFailure env rd (registerState env rd m pre) n = some e := by
  induction names generalizing m with
  | nil => simp [registerFailures]
  | cons name rest ih =>
    rw [split_cons_iff name n rest
      (fun pre => registerFailure env rd (registerState env rd m pre) n = some e)]
    simp only [registerState_nil, registerState_cons]
    rw [← ih, registerFailures_cons]
    cases hf : registerFailure env rd m name with
    | none =>
      simp only
      constructor
      · exact Or.inr
      · rintro (⟨rfl, h⟩ | h)
        · rw [hf] at h
          cases h
        · exact h
    | some err =>
      simp only [List.mem_cons, Prod.mk.injEq]
      constructor
      · rintro (⟨rfl, rfl⟩ | h)
        · exact Or.inl ⟨rfl, hf⟩
        · exact Or.inr h
      · rintro (⟨rfl, h⟩ | h)
        · rw [hf] at h
          exact Or.inl ⟨rfl, (Option.some.inj h).symm⟩
        · exact Or.inr h

/-- The failures of the reconcile loop are the failures of the turns of the list, each taken
in the state the loop has reached. -/
theorem mem_reconcileFailures_iff (env : Env) (rd : reconcileDiffV2) (names : List String)
    (m : BGPRouterManager) (n : String) (cause : Option GoError) :
    (n, cause) ∈ reconcileFailures env rd names m
      ↔ ∃ pre post, names = pre ++ n :: post
          ∧ reconcileFailure env rd (reconcileState env rd m pre) n = some cause := by
  induction names generalizing m with
  | nil => simp [reconcileFailures]
  | cons name rest ih =>
    rw [split_cons_iff name n rest
      (fun pre => reconcileFailure env rd (reconcileState env rd m pre) n = some cause)]
    simp only [reconcileState_nil, reconcileState_cons]
    rw [← ih, reconcileFailures_cons]
    cases hf : reconcileFailure env rd m name with
    | none =>
      simp only
      constructor
      · exact Or.inr
      · rintro (⟨rfl, h⟩ | h)
        · rw [hf] at h
          cases h
        · exact h
    | some err =>
      simp only [List.mem_cons, Prod.mk.injEq]
      constructor
      · rintro (⟨rfl, rfl⟩ | h)
        · exact Or.inl ⟨rfl, hf⟩
        · exact Or.inr h
      · rintro (⟨rfl, h⟩ | h)
        · rw [hf] at h
          exact Or.inl ⟨rfl, (Option.some.inj h).symm⟩
        · exact Or.inr h

theorem registerFailures_ne_nil_iff (env : Env) (rd : reconcileDiffV2) (names : List String)
    (m : BGPRouterManager) :
    registerFailures env rd names m ≠ []
      ↔ ∃ pre name post, names = pre ++ name :: post
          ∧ registerFailure env rd (registerState env rd m pre) name ≠ none := by
  constructor
  · intro h
    obtain ⟨⟨n, e⟩, hmem⟩ := List.exists_mem_of_ne_nil _ h
    obtain ⟨pre, post, hl, hf⟩ := (mem_registerFailures_iff env rd names m n e).1 hmem
    exact ⟨pre, n, post, hl, by rw [hf]; simp⟩
  · rintro ⟨pre, name, post, hl, hf⟩
    cases he : registerFailure env rd (registerState env rd m pre) name with
    | none => exact absurd he hf
    | some e =>
      exact List.ne_nil_of_mem ((mem_registerFailures_iff env rd names m name e).2
        ⟨pre, post, hl, he⟩)

theorem reconcileFailures_ne_nil_iff (env : Env) (rd : reconcileDiffV2) (names : List String)
    (m : BGPRouterManager) :
    reconcileFailures env rd names m ≠ []
      ↔ ∃ pre name post, names = pre ++ name :: post
          ∧ reconcileFailure env rd (reconcileState env rd m pre) name ≠ none := by
  constructor
  · intro h
    obtain ⟨⟨n, e⟩, hmem⟩ := List.exists_mem_of_ne_nil _ h
    obtain ⟨pre, post, hl, hf⟩ := (mem_reconcileFailures_iff env rd names m n e).1 hmem
    exact ⟨pre, n, post, hl, by rw [hf]; simp⟩
  · rintro ⟨pre, name, post, hl, hf⟩
    cases he : reconcileFailure env rd (reconcileState env rd m pre) name with
    | none => exact absurd he hf
    | some e =>
      exact List.ne_nil_of_mem ((mem_reconcileFailures_iff env rd names m name e).2
        ⟨pre, post, hl, he⟩)

theorem registerV2_snd (env : Env) (m : BGPRouterManager) (rd : reconcileDiffV2) :
    (registerV2 env m rd).2
      = if (registerFailures env rd rd.register m).isEmpty then none
        else some (Errorf_w ("error registering new BGP instances: "
          ++ fmtStrings ((registerFailures env rd rd.register m).map Prod.fst)
          ++ " (last error: ")
          ((registerFailures env rd rd.register m).getLast?.map Prod.snd) ")") := by
  have h := registerLoop_snd env rd rd.register m [] none
  unfold registerV2
  rcases hl : registerLoop env rd rd.register m [] none with ⟨m1, iwe, le⟩
  rw [hl] at h
  simp only [List.nil_append, Prod.mk.injEq] at h
  obtain ⟨h1, h2⟩ := h
  simp only
  have hle : le = (registerFailures env rd rd.register m).getLast?.map Prod.snd := by
    rw [h2]
    cases (registerFailures env rd rd.register m).getLast? <;> rfl
  subst h1
  rw [hle]
  by_cases hnil : registerFailures env rd rd.register m = []
  · simp [hnil]
  · have hpos : (List.map Prod.fst (registerFailures env rd rd.register m)).length > 0 := by
      rw [List.length_map]
      exact List.length_pos.2 hnil
    have hemp : ¬ (registerFailures env rd rd.register m).isEmpty = true := by
      rw [List.isEmpty_iff]
      exact hnil
    rw [if_pos hpos, if_neg hemp]

theorem registerV2_snd_ne_none_iff (env : Env) (m : BGPRouterManager) (rd : reconcileDiffV2) :
    (registerV2 env m rd).2 ≠ none ↔ registerFailures env rd rd.register m ≠ [] := by
  rw [registerV2_snd]
  by_cases hnil : registerFailures env rd rd.register m = []
  · simp [hnil]
  · have hemp : ¬ (registerFailures env rd rd.register m).isEmpty = true := by
      rw [List.isEmpty_iff]
      exact hnil
    rw [if_neg hemp]
    simp [hnil]

theorem reconcileV2_snd_ne_none_iff (env : Env) (m : BGPRouterManager) (rd : reconcileDiffV2) :
    (reconcileV2 env m rd).2 ≠ none ↔ reconcileFailures env rd rd.reconcile m ≠ [] := by
  rw [reconcileV2_snd]
  by_cases hnil : reconcileFailures env rd rd.reconcile m = []
  · simp [hnil]
  · have hemp : ¬ (reconcileFailures env rd rd.reconcile m).isEmpty = true := by
      rw [List.isEmpty_iff]
      exact hnil
    rw [if_neg hemp]
    simp [hnil]

theorem registerV2_nil (env : Env) (m : BGPRouterManager) (rd : reconcileDiffV2)
    (h : rd.register = []) : registerV2 env m rd = (m, none) := by
  unfold registerV2
  rw [h]
  rfl

theorem reconcileV2_nil (env : Env) (m : BGPRouterManager) (rd : reconcileDiffV2)
    (h : rd.reconcile = []) : reconcileV2 env m rd = (m, none) := by
  unfold reconcileV2
  rw [h]
  rfl

theorem registerPhase_none (env : Env) (m : BGPRouterManager) (rd : reconcileDiffV2) :
    registerPhase env m rd none
      = (registerState env rd m rd.register, errorsJoin [none, (registerV2 env m rd).2]) := by
  unfold registerPhase
  split
  · rw [registerV2_state]
  · rename_i h
    have hnil : rd.register = [] := by
      cases hr : rd.register with
      | nil => rfl
      | cons a l =>
        rw [hr] at h
        simp at h
    rw [registerV2_nil env m rd hnil, hnil, registerState_nil]
    rfl

/-- The shape of the error of a pass whose diff succeeds: the error of `registerV2` joined to
nil, and to that the error of `reconcileV2` when there are names to reconcile. -/
theorem ReconcileInstances_snd (env : Env) (m : BGPRouterManager) (nodeObj : CiliumBGPNodeConfig)
    (ciliumNode : CiliumNode) (rd : reconcileDiffV2)
    (hdiff : env.diff (newReconcileDiffV2 ciliumNode) m.BGPInstances m.heap nodeObj = .ok rd) :
    (ReconcileInstances env m (some nodeObj) ciliumNode).2
      = if rd.reconcile.length > 0 then
          errorsJoin [errorsJoin [none, (registerV2 env (withdrawPhase env m rd) rd).2],
            (reconcileV2 env (registerState env rd (withdrawPhase env m rd) rd.register) rd).2]
        else errorsJoin [none, (registerV2 env (withdrawPhase env m rd) rd).2] := by
  unfold ReconcileInstances
  simp only [hdiff]
  by_cases hemp : rd.empty = true
  · rw [if_pos hemp]
    simp only [reconcileDiffV2.empty, beq_iff_eq] at hemp
    have h1 : rd.register = [] := List.length_eq_zero.1 (by omega)
    have h2 : rd.reconcile = [] := List.length_eq_zero.1 (by omega)
    rw [registerV2_nil env _ rd h1, h2]
    rfl
  · rw [if_neg hemp, registerPhase_none]
    unfold reconcilePhase
    split <;> rfl
theorem errorsJoin_pair_ne_none (a b : Option GoError) :
    errorsJoin [errorsJoin [none, a], b] ≠ none ↔ a ≠ none ∨ b ≠ none := by
  cases a <;> cases b <;> simp [errorsJoin]

theorem errorsJoin_single_ne_none (a : Option GoError) :
    errorsJoin [none, a] ≠ none ↔ a ≠ none := by
  cases a <;> simp [errorsJoin]

/-- C13: for a non-nil desired state whose diff succeeds, the error returned by
`ReconcileInstances` is non-nil exactly when the turn of some name of the register list fails
(its registration returns an error, or the name is unseen) or the turn of some name of the
reconcile list fails (its reconciliation returns an error, or the name is missing from the
registry or from the seen map). Withdrawals have no part in it, and an empty diff returns nil
and leaves the manager as it is. -/
theorem ReconcileInstances_error_iff (env : Env) (m : BGPRouterManager)
    (nodeObj : CiliumBGPNodeConfig) (ciliumNode : CiliumNode) (rd : reconcileDiffV2)
    (hdiff : env.diff (newReconcileDiffV2 ciliumNode) m.BGPInstances m.heap nodeObj = .ok rd) :
    ((ReconcileInstances env m (some nodeObj) ciliumNode).2 ≠ none ↔
      (∃ pre name post, rd.register = pre ++ name :: post
        ∧ registerFailure env rd (registerState env rd (withdrawPhase env m rd) pre) name ≠ none)
      ∨ (∃ pre name post, rd.reconcile = pre ++ name :: post
        ∧ reconcileFailure env rd
            (reconcileState env rd (registerState env rd (withdrawPhase env m rd) rd.register)
              pre) name ≠ none))
    ∧ (∀ st name, (rd.seen.get name = none → registerFailure env rd st name ≠ none)
        ∧ (∀ c, rd.seen.get name = some c →
            registerFailure env rd st name = (registerBGPInstance env st c rd.ciliumNode).2))
    ∧ (∀ st name, (st.BGPInstances.get name = none ∨ rd.seen.get name = none →
          reconcileFailure env rd st name ≠ none)
        ∧ (∀ i c, st.BGPInstances.get name = some i → rd.seen.get name = some c →
            (reconcileFailure env rd st name ≠ none
              ↔ (reconcileBGPConfigV2 env st i c rd.ciliumNode).2 ≠ none)))
    ∧ (rd.empty = true → ReconcileInstances env m (some nodeObj) ciliumNode = (m, none)) := by
  refine ⟨?_, ?_, ?_, ?_⟩
  · rw [ReconcileInstances_snd env m nodeObj ciliumNode rd hdiff,
      ← registerFailures_ne_nil_iff, ← reconcileFailures_ne_nil_iff,
      ← registerV2_snd_ne_none_iff, ← reconcileV2_snd_ne_none_iff]
    by_cases hrec : rd.reconcile.length > 0
    · rw [if_pos hrec, errorsJoin_pair_ne_none]
    · rw [if_neg hrec, errorsJoin_single_ne_none]
      have hnil : rd.reconcile = [] := List.length_eq_zero.1 (by omega)
      rw [reconcileV2_nil env _ rd hnil]
      simp
  · intro st name
    unfold registerFailure
    refine ⟨fun h => ?_, fun c h => ?_⟩
    · rw [h]
      simp
    · rw [h]
  · intro st name
    unfold reconcileFailure
    refine ⟨fun h => ?_, fun i c hi hs => ?_⟩
    · rcases h with h | h
      · rw [h]
        simp
      · rw [h]
        cases st.BGPInstances.get name <;> simp
    · rw [hi, hs]
      simp only
      cases (reconcileBGPConfigV2 env st i c rd.ciliumNode).2 <;> simp
  · intro hemp
    unfold ReconcileInstances
    simp only [hdiff]
    rw [if_pos hemp]

theorem getLast?_mem {α : Type} (l : List α) (a : α) (h : l.getLast? = some a) : a ∈ l := by
  rw [List.getLast?_eq_some_iff] at h
  obtain ⟨ys, rfl⟩ := h
  simp

theorem Wraps_join_two (a b : Option GoError) (x e : GoError)
    (h : (a = some x ∨ b = some x)) (hx : x = e ∨ x.Wraps e) :
    ∃ err, errorsJoin [errorsJoin [none, a], b] = some err ∧ err.Wraps e := by
  rcases h with rfl | rfl
  · cases b with
    | none =>
      refine ⟨_, rfl, ?_⟩
      simp only [GoError.Wraps, GoError.anyWraps]
      rcases hx with hx | hx
      · exact Or.inr (Or.inl (Or.inl hx))
      · exact Or.inr (Or.inl (Or.inr (Or.inl hx)))
    | some y =>
      refine ⟨_, rfl, ?_⟩
      simp only [GoError.Wraps, GoError.anyWraps]
      rcases hx with hx | hx
      · exact Or.inr (Or.inl (Or.inl hx))
      · exact Or.inr (Or.inl (Or.inr (Or.inl hx)))
  · cases a with
    | none =>
      refine ⟨_, rfl, ?_⟩
      simp only [GoError.Wraps, GoError.anyWraps]
      rcases hx with hx | hx
      · exact Or.inl hx
      · exact Or.inr (Or.inl hx)
    | some y =>
      refine ⟨_, rfl, ?_⟩
      simp only [GoError.Wraps, GoError.anyWraps]
      rcases hx with hx | hx
      · exact Or.inr (Or.inr (Or.inl hx))
      · exact Or.inr (Or.inr (Or.inr (Or.inl hx)))

theorem Wraps_join_one (x e : GoError) (hx : x = e ∨ x.Wraps e) :
    ∃ err, errorsJoin [none, some x] = some err ∧ err.Wraps e := by
  refine ⟨_, rfl, ?_⟩
  simp only [GoError.Wraps, GoError.anyWraps]
  rcases hx with hx | hx
  · exact Or.inl hx
  · exact Or.inr (Or.inl hx)

/-- C14 (amended): the error returned by a pass is the join of the errors of its register and
reconcile phases. The error of a phase in which an instance failed lists, in its message, the
name of every instance that failed in the phase; of the causes it wraps one only, the cause of the last instance that
failed in the phase (for the register phase) or of the last one that failed with a cause (for
the reconcile phase), and that cause is reached from the returned error. -/
theorem ReconcileInstances_error_names_last_cause (env : Env) (m : BGPRouterManager)
    (nodeObj : CiliumBGPNodeConfig) (ciliumNode : CiliumNode) (rd : reconcileDiffV2)
    (hdiff : env.diff (newReconcileDiffV2 ciliumNode) m.BGPInstances m.heap nodeObj = .ok rd) :
    ((ReconcileInstances env m (some nodeObj) ciliumNode).2
      = if rd.reconcile.length > 0 then
          errorsJoin [errorsJoin [none, (registerV2 env (withdrawPhase env m rd) rd).2],
            (reconcileV2 env (registerState env rd (withdrawPhase env m rd) rd.register) rd).2]
        else errorsJoin [none, (registerV2 env (withdrawPhase env m rd) rd).2])
    ∧ (∀ pre name post, rd.register = pre ++ name :: post →
        registerFailure env rd (registerState env rd (withdrawPhase env m rd) pre) name ≠ none →
        name ∈ (registerFailures env rd rd.register (withdrawPhase env m rd)).map Prod.fst)
    ∧ (∀ pre name post, rd.reconcile = pre ++ name :: post →
        reconcileFailure env rd
          (reconcileState env rd (registerState env rd (withdrawPhase env m rd) rd.register)
            pre) name ≠ none →
        name ∈ (reconcileFailures env rd rd.reconcile
          (registerState env rd (withdrawPhase env m rd) rd.register)).map Prod.fst)
    ∧ (∀ n e, (registerFailures env rd rd.register (withdrawPhase env m rd)).getLast?
          = some (n, e) →
        (registerV2 env (withdrawPhase env m rd) rd).2
          = some (GoError.wrap ("error registering new BGP instances: "
              ++ fmtStrings ((registerFailures env rd rd.register
                  (withdrawPhase env m rd)).map Prod.fst)
              ++ " (last error: " ++ e.Error ++ ")") e)
        ∧ ∃ err, (ReconcileInstances env m (some nodeObj) ciliumNode).2 = some err
            ∧ err.Wraps e)
    ∧ (∀ e, ((reconcileFailures env rd rd.reconcile
          (registerState env rd (withdrawPhase env m rd) rd.register)).filterMap
            Prod.snd).getLast? = some e →
        (reconcileV2 env (registerState env rd (withdrawPhase env m rd) rd.register) rd).2
          = some (GoError.wrap ("error reconciling BGP instances: "
              ++ fmtStrings ((reconcileFailures env rd rd.reconcile
                  (registerState env rd (withdrawPhase env m rd) rd.register)).map Prod.fst)
              ++ " (last error: " ++ e.Error ++ ")") e)
        ∧ ∃ err, (ReconcileInstances env m (some nodeObj) ciliumNode).2 = some err
            ∧ err.Wraps e)
    ∧ (registerFailures env rd rd.register (withdrawPhase env m rd) ≠ [] →
        ∃ cause, (registerV2 env (withdrawPhase env m rd) rd).2
          = some (Errorf_w ("error registering new BGP instances: "
              ++ fmtStrings ((registerFailures env rd rd.register
                  (withdrawPhase env m rd)).map Prod.fst)
              ++ " (last error: ") cause ")"))
    ∧ (reconcileFailures env rd rd.reconcile
          (registerState env rd (withdrawPhase env m rd) rd.register) ≠ [] →
        ∃ cause,
          (reconcileV2 env (registerState env rd (withdrawPhase env m rd) rd.register) rd).2
            = some (Errorf_w ("error reconciling BGP instances: "
                ++ fmtStrings ((reconcileFailures env rd rd.reconcile
                    (registerState env rd (withdrawPhase env m rd) rd.register)).map Prod.fst)
                ++ " (last error: ") cause ")")) := by
  have hsnd := ReconcileInstances_snd env m nodeObj ciliumNode rd hdiff
  refine ⟨hsnd, ?_, ?_, ?_, ?_, ?_, ?_⟩
  · intro pre name post hl hf
    cases he : registerFailure env rd (registerState env rd (withdrawPhase env m rd) pre)
      name with
    | none => exact absurd he hf
    | some e =>
      exact List.mem_map.2 ⟨(name, e),
        (mem_registerFailures_iff env rd rd.register _ name e).2 ⟨pre, post, hl, he⟩, rfl⟩
  · intro pre name post hl hf
    cases he : reconcileFailure env rd
      (reconcileState env rd (registerState env rd (withdrawPhase env m rd) rd.register) pre)
      name with
    | none => exact absurd he hf
    | some e =>
      exact List.mem_map.2 ⟨(name, e),
        (mem_reconcileFailures_iff env rd rd.reconcile _ name e).2 ⟨pre, post, hl, he⟩, rfl⟩
  · intro n e hlast
    have hne : ¬ (registerFailures env rd rd.register (withdrawPhase env m rd)).isEmpty
        = true := by
      rw [List.isEmpty_iff]
      exact List.ne_nil_of_mem (getLast?_mem _ _ hlast)
    have hreg : (registerV2 env (withdrawPhase env m rd) rd).2
        = some (GoError.wrap ("error registering new BGP instances: "
            ++ fmtStrings ((registerFailures env rd rd.register
                (withdrawPhase env m rd)).map Prod.fst)
            ++ " (last error: " ++ e.Error ++ ")") e) := by
      rw [registerV2_snd, if_neg hne, hlast]
      rfl
    refine ⟨hreg, ?_⟩
    rw [hsnd]
    split
    · exact Wraps_join_two _ _ _ e (Or.inl hreg) (Or.inr (Or.inl rfl))
    · rw [hreg]
      exact Wraps_join_one _ e (Or.inr (Or.inl rfl))
  · intro e hlast
    have hmem := getLast?_mem _ _ hlast
    have hne : ¬ (reconcileFailures env rd rd.reconcile
        (registerState env rd (withdrawPhase env m rd) rd.register)).isEmpty = true := by
      rw [List.isEmpty_iff]
      intro hnil
      rw [hnil] at hmem
      simp at hmem
    have hrec : (reconcileV2 env (registerState env rd (withdrawPhase env m rd) rd.register)
        rd).2
        = some (GoError.wrap ("error reconciling BGP instances: "
            ++ fmtStrings ((reconcileFailures env rd rd.reconcile
                (registerState env rd (withdrawPhase env m rd) rd.register)).map Prod.fst)
            ++ " (last error: " ++ e.Error ++ ")") e) := by
      rw [reconcileV2_snd, if_neg hne, hlast]
      rfl
    refine ⟨hrec, ?_⟩
    have hpos : rd.reconcile.length > 0 := by
      cases hr : rd.reconcile with
      | nil =>
        rw [hr] at hmem
        simp [reconcileFailures] at hmem
      | cons a l => simp
    rw [hsnd, if_pos hpos]
    exact Wraps_join_two _ _ _ e (Or.inr hrec) (Or.inr (Or.inl rfl))
  · intro hne
    have hemp : ¬ (registerFailures env rd rd.register (withdrawPhase env m rd)).isEmpty
        = true := by
      rw [List.isEmpty_iff]
      exact hne
    exact ⟨_, by rw [registerV2_snd, if_neg hemp]⟩
  · intro hne
    have hemp : ¬ (reconcileFailures env rd rd.reconcile
        (registerState env rd (withdrawPhase env m rd) rd.register)).isEmpty = true := by
      rw [List.isEmpty_iff]
      exact hne
    exact ⟨_, by rw [reconcileV2_snd, if_neg hemp]⟩
theorem ne_none_of_eq_some {α : Type} {x : Option α} {a : α} (h : x = some a) : x ≠ none := by
  rw [h]
  simp

/-- Witness for C13: the registration of "b" fails for want of a local ASN, and the pass
returns an error. -/
theorem ReconcileInstances_error_iff_witness :
    (ReconcileInstances exEnvBadPeer NewBGPRouterManager (some exNodeConfigTwoFail) exNode).2
      ≠ none :=
  (ReconcileInstances_error_iff exEnvBadPeer NewBGPRouterManager exNodeConfigTwoFail exNode
    exDiffTwoFail rfl).1.2 (Or.inl ⟨[], "b", ["c"], rfl,
      ne_none_of_eq_some (a := GoError.leaf "missing ASN in desired config" false) rfl⟩)

/-- Witness for C14: "b" and "c" both fail to register; the cause of "c", the last to fail, is
wrapped in the error of the pass. -/
theorem ReconcileInstances_error_names_last_cause_witness :
    (registerV2 exEnvBadPeer (withdrawPhase exEnvBadPeer NewBGPRouterManager exDiffTwoFail)
        exDiffTwoFail).2
      = some (GoError.wrap ("error registering new BGP instances: "
          ++ fmtStrings ((registerFailures exEnvBadPeer exDiffTwoFail exDiffTwoFail.register
              (withdrawPhase exEnvBadPeer NewBGPRouterManager exDiffTwoFail)).map Prod.fst)
          ++ " (last error: " ++ exBadPeerCause.Error ++ ")") exBadPeerCause)
    ∧ ∃ err, (ReconcileInstances exEnvBadPeer NewBGPRouterManager (some exNodeConfigTwoFail)
        exNode).2 = some err ∧ err.Wraps exBadPeerCause :=
  (ReconcileInstances_error_names_last_cause exEnvBadPeer NewBGPRouterManager
    exNodeConfigTwoFail exNode exDiffTwoFail rfl).2.2.2.1 "c" exBadPeerCause rfl

/-- Counterexample to C14 as stated: "b" fails to register for want of a local ASN and "c"
fails after it; the error of the pass names both but wraps the cause of "c" only, and the
cause of "b" is not reached from it. -/
theorem ReconcileInstances_first_cause_dropped_counterexample :
    exEnvBadPeer.diff (newReconcileDiffV2 exNode) NewBGPRouterManager.BGPInstances
        NewBGPRouterManager.heap exNodeConfigTwoFail = .ok exDiffTwoFail
    ∧ registerFailures exEnvBadPeer exDiffTwoFail exDiffTwoFail.register NewBGPRouterManager
        = [("b", GoError.leaf "missing ASN in desired config" false), ("c", exBadPeerCause)]
    ∧ (ReconcileInstances exEnvBadPeer NewBGPRouterManager (some exNodeConfigTwoFail) exNode).2
        = some (GoError.join [GoError.wrap
            "error registering new BGP instances: [b c] (last error: failed initial reconciliation of BGP instance: bad peer)"
            exBadPeerCause])
    ∧ ¬ (GoError.join [GoError.wrap
            "error registering new BGP instances: [b c] (last error: failed initial reconciliation of BGP instance: bad peer)"
            exBadPeerCause]).Wraps (GoError.leaf "missing ASN in desired config" false) := by
  refine ⟨rfl, rfl, rfl, ?_⟩
  simp [GoError.Wraps, GoError.anyWraps, exBadPeerCause, Errorf_w]

/-! ### The read APIs -/

theorem running_withdrawV2 (env : Env) (m : BGPRouterManager) (rd : reconcileDiffV2) :
    (withdrawV2 env m rd).running = m.running := by
  obtain ⟨W, tbl, hst, -⟩ := withdrawV2_state env m rd
  rw [hst]

theorem running_withdrawPhase (env : Env) (m : BGPRouterManager) (rd : reconcileDiffV2) :
    (withdrawPhase env m rd).running = m.running := by
  unfold withdrawPhase
  split
  · exact running_withdrawV2 env m rd
  · rfl

theorem running_registerState (env : Env) (rd : reconcileDiffV2) (names : List String)
    (m : BGPRouterManager) : (registerState env rd m names).running = m.running := by
  induction names generalizing m with
  | nil => rw [registerState_nil]
  | cons name rest ih =>
    rw [registerState_cons, ih]
    unfold registerTurn
    cases rd.seen.get name with
    | none => rfl
    | some c =>
      obtain ⟨evs, -, h⟩ := registerBGPInstance_ext env m c rd.ciliumNode
      rcases h with ⟨ch, hst, -⟩ | ⟨x, tbl, hst, -⟩
      · simp only [hst]
      · simp only [hst]

theorem running_reconcileState (env : Env) (rd : reconcileDiffV2) (names : List String)
    (m : BGPRouterManager) : (reconcileState env rd m names).running = m.running := by
  induction names generalizing m with
  | nil => rw [reconcileState_nil]
  | cons name rest ih =>
    rw [reconcileState_cons, ih]
    unfold reconcileTurn
    split
    · rename_i i newc _ _
      obtain ⟨evs, tbl, h, -⟩ := reconcileBGPConfigV2_ext env m i newc rd.ciliumNode
      rw [h]
    · rfl

theorem running_ReconcileInstances (env : Env) (m : BGPRouterManager)
    (nodeObj : Option CiliumBGPNodeConfig) (ciliumNode : CiliumNode) :
    (ReconcileInstances env m nodeObj ciliumNode).1.running = m.running := by
  unfold ReconcileInstances
  cases nodeObj with
  | none =>
    simp only
    unfold withdrawAllV2
    split
    · rfl
    · exact running_withdrawV2 env m _
  | some nodeObj =>
    simp only
    cases env.diff (newReconcileDiffV2 ciliumNode) m.BGPInstances m.heap nodeObj with
    | error err => rfl
    | ok rd =>
      simp only
      split
      · rfl
      · rw [registerPhase_none]
        unfold reconcilePhase
        split
        · simp only
          rw [reconcileV2_state, running_reconcileState, running_registerState,
            running_withdrawPhase]
        · simp only
          rw [running_registerState, running_withdrawPhase]

theorem running_runOps (env : Env) (ops : List Op) (m : BGPRouterManager)
    (h : m.running = false) : (runOps env m ops).running = false := by
  unfold runOps
  induction ops generalizing m with
  | nil => exact h
  | cons op rest ih =>
    rw [List.foldl_cons]
    apply ih
    cases op with
    | reconcileInstances nodeObj ciliumNode =>
      simp only [step]
      rw [running_ReconcileInstances]
      exact h
    | stop => rfl
    | destroyRouterOnStop d => exact h

/-- C19: when the manager is not running, `GetPeers`, `GetRoutes` and `GetRoutePolicies` each
return the "not running" error with a nil result and leave the trace as it is, so no Router
is called. The manager is not running once `Stop` has returned, and no later call of
`ReconcileInstances`, `Stop` or `DestroyRouterOnStop` makes it run again. -/
theorem read_apis_fail_when_not_running (env : Env) :
    (∀ m rp pp, m.running = false →
      GetPeers env m = (m, .error notRunningError)
      ∧ GetRoutes env m rp = (m, .error notRunningError)
      ∧ GetRoutePolicies env m pp = (m, .error notRunningError))
    ∧ (∀ m ops, (runOps env (Stop m).1 ops).running = false) := by
  refine ⟨fun m rp pp h => ⟨?_, ?_, ?_⟩, fun m ops => running_runOps env ops _ rfl⟩
  · simp [GetPeers, h, notRunningError]
  · simp [GetRoutes, h, notRunningError]
  · simp [GetRoutePolicies, h, notRunningError]

/-- Witness for C19: after `Stop` on a manager with one registered instance the three read
APIs fail without calling a Router. -/
theorem read_apis_fail_when_not_running_witness :
    GetPeers (exEnv [okReconciler "r1"] none none) (Stop exManagerA).1
        = ((Stop exManagerA).1, .error notRunningError)
    ∧ GetRoutes (exEnv [okReconciler "r1"] none none) (Stop exManagerA).1
        { Afi := "ipv4", Safi := "unicast", TableType := "loc-rib", Neighbor := none,
          RouterAsn := none }
        = ((Stop exManagerA).1, .error notRunningError)
    ∧ GetRoutePolicies (exEnv [okReconciler "r1"] none none) (Stop exManagerA).1
        { RouterAsn := none }
        = ((Stop exManagerA).1, .error notRunningError) :=
  (read_apis_fail_when_not_running (exEnv [okReconciler "r1"] none none)).1 (Stop exManagerA).1
    _ _ rfl
theorem skipInstance_false_iff (heap : List BGPInstance) (asn : Int) (i : Ptr) :
    skipInstance heap (some asn) i = some false
      ↔ ∃ c, configOf heap i = some c ∧ (c.LocalASN = some asn ∨ c.LocalASN = none) := by
  unfold skipInstance configOf
  simp only
  cases (heap[i]?).bind (fun o => o.Config) with
  | none => simp
  | some c =>
    simp only [Option.some.injEq, exists_eq_left']
    cases hl : c.LocalASN with
    | none => simp
    | some l =>
      simp only [Option.some.injEq, decide_eq_false_iff_not, ne_eq, not_not, or_false,
        reduceCtorEq]
      exact eq_comm

theorem asnExistsLoop_false (heap : List BGPInstance) (insts : List (String × Ptr)) (asn : Int)
    (hcfg : ∀ e ∈ insts, (configOf heap e.2).isSome = true)
    (hno : ∀ e ∈ insts, ∀ c, configOf heap e.2 = some c → c.LocalASN ≠ some asn) :
    asnExistsLoop heap insts asn = some false := by
  induction insts with
  | nil => rfl
  | cons e rest ih =>
    obtain ⟨name, i⟩ := e
    unfold asnExistsLoop
    have h1 := hcfg (name, i) (List.mem_cons_self _ _)
    have h2 := hno (name, i) (List.mem_cons_self _ _)
    unfold configOf at h1 h2
    simp only at h1 h2
    cases hc : (heap[i]?).bind (fun o => o.Config) with
    | none =>
      rw [hc] at h1
      cases h1
    | some c =>
      simp only
      have h3 := h2 c hc
      have ihr := ih (fun e he => hcfg e (List.mem_cons_of_mem _ he))
        (fun e he => hno e (List.mem_cons_of_mem _ he))
      cases hl : c.LocalASN with
      | none => exact ihr
      | some l =>
        simp only
        have hne : ¬ l = asn := by
          intro h
          apply h3
          rw [hl, h]
        rw [if_neg hne]
        exact ihr

theorem getRoutesFromInstance_trace (env : Env) (heap : List BGPInstance) (tr : List Event)
    (i : Ptr) (params : GetBgpRoutesParams) :
    ∃ evs, (getRoutesFromInstance env heap tr i params).1 = tr ++ evs
      ∧ ∀ ev ∈ evs, ev.queriedRouter = some (.router i) := by
  unfold getRoutesFromInstance
  cases (heap[i]?).bind (fun o => o.Config) with
  | none => exact ⟨[], by simp⟩
  | some c =>
    simp only
    cases c.LocalASN with
    | none => exact ⟨[], by simp⟩
    | some l =>
      simp only
      cases env.ToAgentGetRoutesRequest params with
      | error err => exact ⟨[], by simp⟩
      | ok req =>
        simp only
        cases env.GetRoutes tr (.router i) req with
        | error err => exact ⟨[Event.getRoutes (.router i) req], rfl, by simp [Event.queriedRouter]⟩
        | ok routes =>
          simp only
          cases env.ToAPIRoutes routes l (neighborOf params) with
          | error err =>
            exact ⟨[Event.getRoutes (.router i) req], rfl, by simp [Event.queriedRouter]⟩
          | ok rs =>
            exact ⟨[Event.getRoutes (.router i) req], rfl, by simp [Event.queriedRouter]⟩

theorem getRoutesV2Peers_trace (env : Env) (heap : List BGPInstance) (i : Ptr)
    (peers : List BgpPeer) (params : GetBgpRoutesParams) (tr : List Event)
    (res : List BgpRoute) :
    (getRoutesV2Peers env heap i peers params tr res).1.RouterAsn = params.RouterAsn
    ∧ ∃ evs, (getRoutesV2Peers env heap i peers params tr res).2.1 = tr ++ evs
      ∧ ∀ ev ∈ evs, ev.queriedRouter = some (.router i) := by
  induction peers generalizing params tr res with
  | nil => exact ⟨rfl, [], by simp [getRoutesV2Peers]⟩
  | cons peer rest ih =>
    unfold getRoutesV2Peers
    obtain ⟨evs, he, hq⟩ := getRoutesFromInstance_trace env heap tr i
      { params with Neighbor := some peer.PeerAddress }
    rcases hr : getRoutesFromInstance env heap tr i
      { params with Neighbor := some peer.PeerAddress } with ⟨tr1, r⟩
    rw [hr] at he
    simp only at he
    subst he
    cases r with
    | value routes =>
      simp only
      obtain ⟨h1, evs2, h2, hq2⟩ := ih { params with Neighbor := some peer.PeerAddress }
        (tr ++ evs) (res ++ routes)
      refine ⟨h1, evs ++ evs2, ?_, ?_⟩
      · rw [h2, List.append_assoc]
      · intro ev hev
        rcases List.mem_append.1 hev with h | h
        · exact hq ev h
        · exact hq2 ev h
    | error err => exact ⟨rfl, evs, rfl, hq⟩
    | panic => exact ⟨rfl, evs, rfl, hq⟩

theorem getRoutesV2Loop_trace (env : Env) (heap : List BGPInstance) (allPeers : Bool)
    (ra : Option Int) (insts : List (String × Ptr)) (params : GetBgpRoutesParams)
    (hra : params.RouterAsn = ra) (tr : List Event) (res : List BgpRoute) :
    ∃ evs, (getRoutesV2Loop env heap allPeers insts params tr res).1 = tr ++ evs
      ∧ ∀ ev ∈ evs, ∃ e ∈ insts, ev.queriedRouter = some (.router e.2)
          ∧ skipInstance heap ra e.2 = some false := by
  induction insts generalizing params tr res with
  | nil => exact ⟨[], by simp [getRoutesV2Loop]⟩
  | cons e rest ih =>
    obtain ⟨name, i⟩ := e
    have lift : ∀ (tr1 : List Event) (evs1 : List Event) (r : List Event × GoResult (List BgpRoute)),
        tr1 = tr ++ evs1 →
        (∀ ev ∈ evs1, ev.queriedRouter = some (.router i)) →
        skipInstance heap ra i = some false →
        (∃ evs, r.1 = tr1 ++ evs ∧ ∀ ev ∈ evs, ∃ e ∈ rest, ev.queriedRouter = some (.router e.2)
          ∧ skipInstance heap ra e.2 = some false) →
        ∃ evs, r.1 = tr ++ evs ∧ ∀ ev ∈ evs, ∃ e ∈ (name, i) :: rest,
          ev.queriedRouter = some (.router e.2) ∧ skipInstance heap ra e.2 = some false := by
      intro tr1 evs1 r htr hq hs ⟨evs, he, hall⟩
      refine ⟨evs1 ++ evs, ?_, ?_⟩
      · rw [he, htr, List.append_assoc]
      · intro ev hev
        rcases List.mem_append.1 hev with h | h
        · exact ⟨(name, i), List.mem_cons_self _ _, hq ev h, hs⟩
        · obtain ⟨e, hmem, h1, h2⟩ := hall ev h
          exact ⟨e, List.mem_cons_of_mem _ hmem, h1, h2⟩
    unfold getRoutesV2Loop
    rw [hra]
    cases hs : skipInstance heap ra i with
    | none => exact ⟨[], by simp⟩
    | some b =>
      cases b with
      | true =>
        simp only
        obtain ⟨evs, he, hall⟩ := ih params hra tr res
        exact ⟨evs, he, fun ev hev => by
          obtain ⟨e, hmem, h1, h2⟩ := hall ev hev
          exact ⟨e, List.mem_cons_of_mem _ hmem, h1, h2⟩⟩
      | false =>
        simp only
        cases allPeers with
        | true =>
          simp only [if_true]
          cases env.GetPeerState tr (.router i) with
          | error err =>
            exact ⟨[Event.getPeerState (.router i)], rfl, fun ev hev => by
              rw [List.mem_singleton] at hev
              subst hev
              exact ⟨(name, i), List.mem_cons_self _ _, rfl, hs⟩⟩
          | ok peers =>
            simp only
            obtain ⟨hp, evs1, he1, hq1⟩ := getRoutesV2Peers_trace env heap i peers params
              (tr ++ [Event.getPeerState (.router i)]) res
            rcases hr : getRoutesV2Peers env heap i peers params
              (tr ++ [Event.getPeerState (.router i)]) res with ⟨params1, tr1, r⟩
            rw [hr] at hp he1
            simp only at hp he1
            have hq : ∀ ev ∈ Event.getPeerState (.router i) :: evs1,
                ev.queriedRouter = some (.router i) := by
              intro ev hev
              rcases List.mem_cons.1 hev with rfl | h
              · rfl
              · exact hq1 ev h
            have htr : tr1 = tr ++ (Event.getPeerState (.router i) :: evs1) := by
              rw [he1]
              simp
            cases r with
            | value res1 =>
              simp only
              exact lift tr1 _ _ htr hq hs (ih params1 (hp.trans hra) tr1 res1)
            | error err =>
              exact lift tr1 _ (tr1, .error err) htr hq hs ⟨[], by simp⟩
            | panic =>
              exact lift tr1 _ (tr1, .panic) htr hq hs ⟨[], by simp⟩
        | false =>
          simp only [Bool.false_eq_true, if_false]
          obtain ⟨evs1, he1, hq1⟩ := getRoutesFromInstance_trace env heap tr i params
          rcases hr : getRoutesFromInstance env heap tr i params with ⟨tr1, r⟩
          rw [hr] at he1
          simp only at he1
          cases r with
          | value routes =>
            simp only
            exact lift tr1 _ _ he1 hq1 hs (ih params hra tr1 (res ++ routes))
          | error err =>
            exact lift tr1 _ (tr1, .error err) he1 hq1 hs ⟨[], by simp⟩
          | panic =>
            exact lift tr1 _ (tr1, .panic) he1 hq1 hs ⟨[], by simp⟩

theorem getRoutePoliciesV2Loop_trace (env : Env) (heap : List BGPInstance) (ra : Option Int)
    (insts : List (String × Ptr)) (tr : List Event) (res : List BgpRoutePolicy) :
    ∃ evs, (getRoutePoliciesV2Loop env heap ra insts tr res).1 = tr ++ evs
      ∧ ∀ ev ∈ evs, ∃ e ∈ insts, ev.queriedRouter = some (.router e.2)
          ∧ skipInstance heap ra e.2 = some false := by
  induction insts generalizing tr res with
  | nil => exact ⟨[], by simp [getRoutePoliciesV2Loop]⟩
  | cons e rest ih =>
    obtain ⟨name, i⟩ := e
    unfold getRoutePoliciesV2Loop
    cases hs : skipInstance heap ra i with
    | none => exact ⟨[], by simp⟩
    | some b =>
      cases b with
      | true =>
        simp only
        obtain ⟨evs, he, hall⟩ := ih tr res
        exact ⟨evs, he, fun ev hev => by
          obtain ⟨e, hmem, h1, h2⟩ := hall ev hev
          exact ⟨e, List.mem_cons_of_mem _ hmem, h1, h2⟩⟩
      | false =>
        simp only
        have hself : ∀ ev ∈ [Event.getRoutePolicies (.router i)],
            ∃ e ∈ (name, i) :: rest, ev.queriedRouter = some (.router e.2)
              ∧ skipInstance heap ra e.2 = some false := by
          intro ev hev
          rw [List.mem_singleton] at hev
          subst hev
          exact ⟨(name, i), List.mem_cons_self _ _, rfl, hs⟩
        cases env.GetRoutePolicies tr (.router i) with
        | error err => exact ⟨[Event.getRoutePolicies (.router i)], rfl, hself⟩
        | ok policies =>
          simp only
          cases ((heap[i]?).bind (fun o => o.Config)).bind (fun c => c.LocalASN) with
          | none => exact ⟨[Event.getRoutePolicies (.router i)], rfl, hself⟩
          | some l =>
            simp only
            obtain ⟨evs, he, hall⟩ := ih (tr ++ [Event.getRoutePolicies (.router i)])
              (res ++ env.ToAPIRoutePolicies policies l)
            refine ⟨Event.getRoutePolicies (.router i) :: evs, ?_, ?_⟩
            · rw [he]
              simp
            · intro ev hev
              rcases List.mem_cons.1 hev with rfl | h
              · exact ⟨(name, i), List.mem_cons_self _ _, rfl, hs⟩
              · obtain ⟨e, hmem, h1, h2⟩ := hall ev h
                exact ⟨e, List.mem_cons_of_mem _ hmem, h1, h2⟩
theorem getRoutesV2_trace (env : Env) (m : BGPRouterManager) (params : GetBgpRoutesParams) :
    ∃ evs, (getRoutesV2 env m params).1 = m.trace ++ evs
      ∧ ∀ ev ∈ evs, ∃ e ∈ m.BGPInstances, ev.queriedRouter = some (.router e.2)
          ∧ skipInstance m.heap params.RouterAsn e.2 = some false := by
  have hval : ∃ evs, (if (params.Neighbor.isSome && decide (m.BGPInstances.length > 1)
        && params.RouterAsn.isNone) = true then
        ((m.trace, GoResult.error (GoError.leaf
          "multiple virtual routers configured, router ASN must be specified" false)) :
          List Event × GoResult (List BgpRoute))
      else getRoutesV2Loop env m.heap (allPeersOf env params) m.BGPInstances params m.trace
        []).1 = m.trace ++ evs
      ∧ ∀ ev ∈ evs, ∃ e ∈ m.BGPInstances, ev.queriedRouter = some (.router e.2)
          ∧ skipInstance m.heap params.RouterAsn e.2 = some false := by
    split
    · exact ⟨[], by simp⟩
    · exact getRoutesV2Loop_trace env m.heap _ params.RouterAsn m.BGPInstances params rfl
        m.trace []
  unfold getRoutesV2
  simp only
  cases hra : params.RouterAsn with
  | none =>
    rw [hra] at hval
    exact hval
  | some asn =>
    rw [hra] at hval
    simp only
    cases asnExistsInInstances m asn with
    | none => exact ⟨[], by simp⟩
    | some b =>
      cases b with
      | false => exact ⟨[], by simp⟩
      | true => exact hval

theorem getRoutePoliciesV2_trace (env : Env) (m : BGPRouterManager)
    (params : GetBgpRoutePoliciesParams) :
    ∃ evs, (getRoutePoliciesV2 env m params).1 = m.trace ++ evs
      ∧ ∀ ev ∈ evs, ∃ e ∈ m.BGPInstances, ev.queriedRouter = some (.router e.2)
          ∧ skipInstance m.heap params.RouterAsn e.2 = some false := by
  unfold getRoutePoliciesV2
  cases hra : params.RouterAsn with
  | none => exact getRoutePoliciesV2Loop_trace env m.heap none m.BGPInstances m.trace []
  | some asn =>
    simp only
    cases asnExistsInInstances m asn with
    | none => exact ⟨[], by simp⟩
    | some b =>
      cases b with
      | false => exact ⟨[], by simp⟩
      | true => exact getRoutePoliciesV2Loop_trace env m.heap (some asn) m.BGPInstances m.trace []

/-- What the router ASN selects: for a running manager in BGPv2 mode in which every
registered instance has a configuration, `GetRoutes` and `GetRoutePolicies` called with a
router ASN that is not the local ASN of any registered instance return the validation error
and call no Router; and whenever a router ASN is given, the only instances queried are
registered instances whose local ASN equals it or is not set. -/
theorem routerASN_selects_instances (env : Env) (m : BGPRouterManager) (asn : Int)
    (rp : GetBgpRoutesParams) (pp : GetBgpRoutePoliciesParams)
    (hrun : m.running = true) (hmode : env.ConfigModeGet m.trace = .BGPv2)
    (hrp : rp.RouterAsn = some asn) (hpp : pp.RouterAsn = some asn) :
    (AllConfigured m →
      (∀ e ∈ m.BGPInstances, ∀ c, configOf m.heap e.2 = some c → c.LocalASN ≠ some asn) →
        GetRoutes env m rp = (m, .error (asnNotFoundError asn))
        ∧ GetRoutePolicies env m pp = (m, .error (asnNotFoundError asn)))
    ∧ (∃ evs, (GetRoutes env m rp).1 = { m with trace := m.trace ++ evs }
        ∧ ∀ ev ∈ evs, ∃ e ∈ m.BGPInstances, ∃ c, ev.queriedRouter = some (.router e.2)
            ∧ configOf m.heap e.2 = some c ∧ (c.LocalASN = some asn ∨ c.LocalASN = none))
    ∧ (∃ evs, (GetRoutePolicies env m pp).1 = { m with trace := m.trace ++ evs }
        ∧ ∀ ev ∈ evs, ∃ e ∈ m.BGPInstances, ∃ c, ev.queriedRouter = some (.router e.2)
            ∧ configOf m.heap e.2 = some c ∧ (c.LocalASN = some asn ∨ c.LocalASN = none)) := by
  have hR : GetRoutes env m rp
      = ({ m with trace := (getRoutesV2 env m rp).1 }, (getRoutesV2 env m rp).2) := by
    simp [GetRoutes, hrun, hmode]
  have hP : GetRoutePolicies env m pp
      = ({ m with trace := (getRoutePoliciesV2 env m pp).1 }, (getRoutePoliciesV2 env m pp).2)
      := by
    simp [GetRoutePolicies, hrun, hmode]
  refine ⟨fun hcfg hno => ?_, ?_, ?_⟩
  · have hex : asnExistsInInstances m asn = some false :=
      asnExistsLoop_false m.heap m.BGPInstances asn hcfg hno
    have h1 : getRoutesV2 env m rp = (m.trace, .error (asnNotFoundError asn)) := by
      unfold getRoutesV2
      simp only [hrp, hex]
      rfl
    have h2 : getRoutePoliciesV2 env m pp = (m.trace, .error (asnNotFoundError asn)) := by
      unfold getRoutePoliciesV2
      simp only [hpp, hex]
      rfl
    rw [hR, hP, h1, h2]
    exact ⟨rfl, rfl⟩
  · obtain ⟨evs, he, hall⟩ := getRoutesV2_trace env m rp
    refine ⟨evs, by rw [hR, he], fun ev hev => ?_⟩
    obtain ⟨e, hmem, hq, hs⟩ := hall ev hev
    rw [hrp] at hs
    obtain ⟨c, hc, hl⟩ := (skipInstance_false_iff m.heap asn e.2).1 hs
    exact ⟨e, hmem, c, hq, hc, hl⟩
  · obtain ⟨evs, he, hall⟩ := getRoutePoliciesV2_trace env m pp
    refine ⟨evs, by rw [hP, he], fun ev hev => ?_⟩
    obtain ⟨e, hmem, hq, hs⟩ := hall ev hev
    rw [hpp] at hs
    obtain ⟨c, hc, hl⟩ := (skipInstance_false_iff m.heap asn e.2).1 hs
    exact ⟨e, hmem, c, hq, hc, hl⟩

theorem exManagerNoASN_registry : exManagerNoASN.BGPInstances = [("a", 0), ("b", 1)] := by
  decide

/-- No registered instance has the local ASN 65009, and the two read APIs return the
validation error without calling a Router. -/
theorem routerASN_selects_instances_witness :
    GetRoutes (exEnv [okReconciler "r1"] none none) exManagerNoASN (exAdjRibInParams 65009)
        = (exManagerNoASN, .error (asnNotFoundError 65009))
    ∧ GetRoutePolicies (exEnv [okReconciler "r1"] none none) exManagerNoASN
        { RouterAsn := some 65009 } = (exManagerNoASN, .error (asnNotFoundError 65009)) := by
  refine (routerASN_selects_instances (exEnv [okReconciler "r1"] none none) exManagerNoASN 65009
    (exAdjRibInParams 65009) { RouterAsn := some 65009 } rfl rfl rfl rfl).1 ?_ ?_
  · intro e he
    rw [exManagerNoASN_registry] at he
    simp only [List.mem_cons, List.mem_singleton, List.not_mem_nil, or_false] at he
    rcases he with rfl | rfl <;> rfl
  · intro e he c hc
    rw [exManagerNoASN_registry] at he
    simp only [List.mem_cons, List.mem_singleton, List.not_mem_nil, or_false] at he
    rcases he with rfl | rfl
    · have h : configOf exManagerNoASN.heap 0 = some exInstanceA := by decide
      rw [h] at hc
      cases hc
      decide
    · have h : configOf exManagerNoASN.heap 1 = some exInstanceBNoASN := by decide
      rw [h] at hc
      cases hc
      decide

/-- C20, evaluated on the registry reached by two passes in which "a" has the local ASN 65001
and "b" was reconciled to a configuration without local ASN, in BGPv2 mode: asked for the
router with ASN 65001, `GetRoutes` queries the Router of "a" and then the Router of "b", whose
local ASN is not 65001, and `GetRoutePolicies` does the same and ends in the nil dereference
of the local ASN of "b". -/
theorem GetRoutes_queries_instance_without_asn :
    exManagerNoASN.running = true
    ∧ (exEnv [okReconciler "r1"] none none).ConfigModeGet exManagerNoASN.trace
        = BGPConfigMode.BGPv2
    ∧ exManagerNoASN.BGPInstances = [("a", 0), ("b", 1)]
    ∧ configOf exManagerNoASN.heap 0 = some exInstanceA
    ∧ configOf exManagerNoASN.heap 1 = some exInstanceBNoASN
    ∧ exInstanceA.LocalASN = some 65001
    ∧ exInstanceBNoASN.LocalASN = none
    ∧ (GetRoutes (exEnv [okReconciler "r1"] none none) exManagerNoASN
        (exAdjRibInParams 65001)).1.trace
      = exManagerNoASN.trace ++
          [Event.getPeerState (.router 0),
           Event.getRoutes (.router 0)
             { TableType := 2, Family := "ipv4/unicast", Neighbor := "192.0.2.1" },
           Event.getPeerState (.router 1)]
    ∧ (GetRoutePolicies (exEnv [okReconciler "r1"] none none) exManagerNoASN
        { RouterAsn := some 65001 }).1.trace
      = exManagerNoASN.trace ++
          [Event.getRoutePolicies (.router 0), Event.getRoutePolicies (.router 1)]
    ∧ (GetRoutePolicies (exEnv [okReconciler "r1"] none none) exManagerNoASN
        { RouterAsn := some 65001 }).2.isPanic = true := by
  refine ⟨by decide, rfl, by decide, by decide, by decide, rfl, rfl, by decide, by decide, rfl⟩

/-! ### Stop -/

theorem stopLoop_eq (notifications : GoMap String Nat) (fd : Bool) (l : List (String × Ptr))
    (tr : List Event) :
    stopLoop notifications fd l tr
      = tr ++ (l.map (fun e => stopEvents fd notifications e.1 e.2)).flatten := by
  induction l generalizing tr with
  | nil => simp [stopLoop]
  | cons e rest ih =>
    obtain ⟨name, i⟩ := e
    unfold stopLoop
    rw [ih]
    simp [stopEvents, List.append_assoc]

theorem Stop_trace (m : BGPRouterManager) :
    (Stop m).1.trace
      = m.trace ++ (m.Servers.map (fun s => Event.serverStop s.2 m.destroyRouterOnStop)
        ++ (m.BGPInstances.map
            (fun e => stopEvents m.destroyRouterOnStop m.notifications e.1 e.2)).flatten) := by
  simp only [Stop]
  rw [stopLoop_eq, List.append_assoc]

theorem countP_kill_stopEvents (fd : Bool) (n : GoMap String Nat) (l : List (String × Ptr))
    (p : Ptr) :
    ((l.map (fun e => stopEvents fd n e.1 e.2)).flatten).countP (Event.isKillOf true p)
      = (l.map Prod.snd).count p := by
  have h := countP_kill_stopLoop n fd l [] true p
  rw [stopLoop_eq] at h
  simpa using h

theorem countP_serverStop (fd : Bool) (l : List (Int × Ptr)) (s : Ptr) :
    (l.map (fun e => Event.serverStop e.2 fd)).countP (Event.isServerStopOf s)
      = (l.map Prod.snd).count s := by
  induction l with
  | nil => rfl
  | cons e rest ih =>
    obtain ⟨asn, s2⟩ := e
    simp only [List.map_cons, List.countP_cons, ih, List.count_cons]
    by_cases h : s2 = s
    · simp [h, Event.isServerStopOf]
    · simp [h, Event.isServerStopOf]

/-- C22: `Stop` returns nil and leaves the server map, the instance registry and the
notification map empty and the running flag false. Nothing that a `Stop` of a Router returns
is looked at. The calls it makes are one `Stop` per entry of the server map and, per entry of
the registry, `CancelCtx`, one `Router.Stop` and the closing of the notification channel: a
Router registered once is stopped once. -/
theorem Stop_clears_and_stops_once (m : BGPRouterManager) :
    (Stop m).2 = none
    ∧ (Stop m).1.Servers = []
    ∧ (Stop m).1.BGPInstances = []
    ∧ (Stop m).1.notifications = []
    ∧ (Stop m).1.running = false
    ∧ (Stop m).1.trace
        = m.trace ++ (m.Servers.map (fun s => Event.serverStop s.2 m.destroyRouterOnStop)
          ++ (m.BGPInstances.map
              (fun e => stopEvents m.destroyRouterOnStop m.notifications e.1 e.2)).flatten)
    ∧ (∀ p, ((m.Servers.map (fun s => Event.serverStop s.2 m.destroyRouterOnStop)
          ++ (m.BGPInstances.map
              (fun e => stopEvents m.destroyRouterOnStop m.notifications e.1 e.2)).flatten).countP
            (Event.isKillOf true p) = (m.BGPInstances.map Prod.snd).count p)
        ∧ ((m.Servers.map (fun s => Event.serverStop s.2 m.destroyRouterOnStop)
          ++ (m.BGPInstances.map
              (fun e => stopEvents m.destroyRouterOnStop m.notifications e.1 e.2)).flatten).countP
            (Event.isServerStopOf p) = (m.Servers.map Prod.snd).count p))
    ∧ (∀ name i, (name, i) ∈ m.BGPInstances → (m.BGPInstances.map Prod.snd).Nodup →
        (m.BGPInstances.map Prod.snd).count i = 1)
    ∧ (∀ asn s, (asn, s) ∈ m.Servers → (m.Servers.map Prod.snd).Nodup →
        (m.Servers.map Prod.snd).count s = 1) := by
  refine ⟨rfl, rfl, rfl, rfl, rfl, Stop_trace m, fun p => ⟨?_, ?_⟩, ?_, ?_⟩
  · rw [List.countP_append, countP_kill_stopEvents]
    have h0 : (m.Servers.map (fun s => Event.serverStop s.2 m.destroyRouterOnStop)).countP
        (Event.isKillOf true p) = 0 := by
      rw [List.countP_eq_zero]
      intro e he
      obtain ⟨s, -, rfl⟩ := List.mem_map.1 he
      simp [Event.isKillOf]
    rw [h0, Nat.zero_add]
  · rw [List.countP_append, countP_serverStop]
    have h0 : ((m.BGPInstances.map
        (fun e => stopEvents m.destroyRouterOnStop m.notifications e.1 e.2)).flatten).countP
        (Event.isServerStopOf p) = 0 := by
      rw [List.countP_eq_zero]
      intro e he
      rw [List.mem_flatten] at he
      obtain ⟨l, hl, hel⟩ := he
      obtain ⟨x, -, rfl⟩ := List.mem_map.1 hl
      simp only [stopEvents, closeEvents, List.mem_append, List.mem_cons, List.mem_singleton,
        List.not_mem_nil, or_false] at hel
      rcases hel with (rfl | rfl) | hel
      · simp [Event.isServerStopOf]
      · simp [Event.isServerStopOf]
      · cases hn : m.notifications.get x.1 with
        | none => simp [hn] at hel
        | some ch =>
          simp only [hn, List.mem_singleton] at hel
          subst hel
          simp [Event.isServerStopOf]
    rw [h0, Nat.add_zero]
  · intro name i hmem hnd
    exact List.count_eq_one_of_mem hnd (List.mem_map.2 ⟨(name, i), hmem, rfl⟩)
  · intro asn s hmem hnd
    exact List.count_eq_one_of_mem hnd (List.mem_map.2 ⟨(asn, s), hmem, rfl⟩)

/-- Witness for C22: `Stop` on a manager with one registered instance stops its Router once. -/
theorem Stop_clears_and_stops_once_witness :
    (Stop exManagerA).1.trace
        = [Event.cancelCtx 0, Event.routerStop 0 false, Event.closeCh 0]
    ∧ (exManagerA.BGPInstances.map Prod.snd).count 0 = 1 :=
  ⟨by decide,
    (Stop_clears_and_stops_once exManagerA).2.2.2.2.2.2.2.1 "a" 0 (by decide) (by decide)⟩

/-- C23 (amended): for every registered instance `Stop` cancels the context, stops the Router
and closes the notification channel, and it empties the registry; it makes no `Cleanup` call
on a reconciler and no operation on the error table, whose records stay as they are. -/
theorem Stop_teardown_without_cleanup (m : BGPRouterManager) :
    ∃ evs, (Stop m).1.trace = m.trace ++ evs
      ∧ (∀ e ∈ m.BGPInstances, Event.cancelCtx e.2 ∈ evs
          ∧ Event.routerStop e.2 m.destroyRouterOnStop ∈ evs
          ∧ ∀ ch, m.notifications.get e.1 = some ch → Event.closeCh ch ∈ evs)
      ∧ (Stop m).1.BGPInstances = []
      ∧ (∀ ev ∈ evs, ev.isCleanup = false ∧ ev.isTableOp = false)
      ∧ (Stop m).1.table = m.table := by
  refine ⟨_, Stop_trace m, ?_, rfl, ?_, rfl⟩
  · intro e he
    have hsub : ∀ ev ∈ stopEvents m.destroyRouterOnStop m.notifications e.1 e.2,
        ev ∈ m.Servers.map (fun s => Event.serverStop s.2 m.destroyRouterOnStop)
          ++ (m.BGPInstances.map
              (fun e => stopEvents m.destroyRouterOnStop m.notifications e.1 e.2)).flatten := by
      intro ev hev
      apply List.mem_append_right
      rw [List.mem_flatten]
      exact ⟨_, List.mem_map.2 ⟨e, he, rfl⟩, hev⟩
    refine ⟨hsub _ (by simp [stopEvents]), hsub _ (by simp [stopEvents]), fun ch hch => ?_⟩
    exact hsub _ (by simp [stopEvents, closeEvents, hch])
  · intro ev hev
    rcases List.mem_append.1 hev with h | h
    · obtain ⟨s, -, rfl⟩ := List.mem_map.1 h
      exact ⟨rfl, rfl⟩
    · rw [List.mem_flatten] at h
      obtain ⟨l, hl, hel⟩ := h
      obtain ⟨x, -, rfl⟩ := List.mem_map.1 hl
      simp only [stopEvents, closeEvents, List.mem_append, List.mem_cons, List.mem_singleton,
        List.not_mem_nil, or_false] at hel
      rcases hel with (rfl | rfl) | hel
      · exact ⟨rfl, rfl⟩
      · exact ⟨rfl, rfl⟩
      · cases hn : m.notifications.get x.1 with
        | none => simp [hn] at hel
        | some ch =>
          simp only [hn, List.mem_singleton] at hel
          subst hel
          exact ⟨rfl, rfl⟩

/-- Counterexample to C23 as stated: instance "a" is registered and has one stored error
record. The withdrawal path calls `Cleanup` of the reconciler for it and deletes the record;
`Stop` does neither. -/
theorem Stop_skips_cleanup_counterexample :
    exManagerAWithError.BGPInstances = [("a", 0)]
    ∧ exManagerAWithError.table = [{ Instance := "a", ErrorID := 0, Error := "old" }]
    ∧ (Stop exManagerAWithError).1.trace
        = [Event.cancelCtx 0, Event.routerStop 0 false, Event.closeCh 0]
    ∧ (Stop exManagerAWithError).1.table = [{ Instance := "a", ErrorID := 0, Error := "old" }]
    ∧ (withdrawAllV2 (exEnv [okReconciler "r1"] none none) exManagerAWithError
        (newReconcileDiffV2 exNode)).trace
        = [Event.cleanup 0 0, Event.cancelCtx 0, Event.routerStop 0 false, Event.closeCh 0,
           Event.tableDelete { Instance := "a", ErrorID := 0, Error := "old" }]
    ∧ (withdrawAllV2 (exEnv [okReconciler "r1"] none none) exManagerAWithError
        (newReconcileDiffV2 exNode)).table = [] := by
  refine ⟨by decide, by decide, by decide, by decide, by decide, by decide⟩
/-! ### The router ID set in the configuration -/

theorem head_data_append (a b : String) (h : a.data ≠ []) :
    (a ++ b).data.head? = a.data.head? := by
  rw [String.data_append]
  cases ha : a.data with
  | nil => exact absurd ha h
  | cons c l => rfl

theorem ne_of_head_ne (s t : String) (h : s.data.head? ≠ t.data.head?) : s ≠ t := by
  intro hst
  apply h
  rw [hst]

theorem invalidIPv4_head (rid : String) :
    ("the router-id " ++ rid ++ " is not a valid IPv4 address").data.head? = some 't' := by
  rw [head_data_append _ _ (by rw [String.data_append]; simp),
    head_data_append _ _ (by decide)]
  rfl

theorem calcRouterIDFromMacAddress_error (env : Env) (rid : String) :
    calcRouterIDFromMacAddress env
      ≠ .error (GoError.leaf ("the router-id " ++ rid ++ " is not a valid IPv4 address") false) := by
  unfold calcRouterIDFromMacAddress
  simp only
  cases env.LinkByName env.HostDevice with
  | error err => simp [Errorf_w]
  | ok omac =>
    cases omac with
    | none =>
      simp only [ne_eq, Except.error.injEq, GoError.leaf.injEq, and_true]
      apply ne_of_head_ne
      rw [invalidIPv4_head, head_data_append _ _ (by decide)]
      decide
    | some mac =>
      simp only
      cases macToRouterID mac with
      | error err => simp [Errorf_w]
      | ok r => simp

/-- C30: a router ID set in the configuration is returned as it is and without error,
whatever the allocation mode and whether or not it is a valid IPv4 address. Hence, when the
configuration sets none and the annotations resolve none, the ip-pool mode always ends in the
"can't find the router-id" error; the "not a valid IPv4 address" error is returned for no
input, and the result does not depend on the validity test at all. -/
theorem getRouterID_config_value_first (env : Env) (c : CiliumBGPNodeInstance)
    (ciliumNode : CiliumNode) (asn : Int) :
    (∀ rid, c.RouterID = some rid → getRouterID env c ciliumNode asn = .ok rid)
    ∧ (c.RouterID = none → env.BGPRouterIDAllocationMode = BGPRouterIDAllocationModeIPPool →
        ∀ annoMap err, env.NewAnnotationMap ciliumNode.Annotations = .ok annoMap →
          env.ResolveRouterID annoMap asn = .error err →
          getRouterID env c ciliumNode asn
            = .error (GoError.leaf "can't find the router-id in the CiliumBGPNodeInstance" false))
    ∧ (∀ rid, getRouterID env c ciliumNode asn
        ≠ .error (GoError.leaf ("the router-id " ++ rid ++ " is not a valid IPv4 address") false))
    ∧ (∀ valid : String → Bool,
        getRouterID { env with ParseIPTo4 := valid } c ciliumNode asn
          = getRouterID env c ciliumNode asn) := by
  refine ⟨?_, ?_, ?_, ?_⟩
  · intro rid h
    simp only [getRouterID, h]
  · intro hnone hmode annoMap err hmap hres
    have hne : BGPRouterIDAllocationModeIPPool ≠ BGPRouterIDAllocationModeDefault := by decide
    simp only [getRouterID, hnone, hmap, hres, hmode, if_neg hne, if_true]
  · intro rid
    unfold getRouterID
    cases hr : c.RouterID with
    | some r => simp
    | none =>
      simp only
      cases env.NewAnnotationMap ciliumNode.Annotations with
      | error err => simp [Errorf_w]
      | ok annoMap =>
        simp only
        cases env.ResolveRouterID annoMap asn with
        | ok r => simp
        | error err =>
          simp only
          split
          · cases env.GetIP ciliumNode with
            | some ip => simp
            | none =>
              simp only
              have hcalc := calcRouterIDFromMacAddress_error env rid
              cases hc : calcRouterIDFromMacAddress env with
              | error e =>
                rw [hc] at hcalc
                exact hcalc
              | ok r => simp
          · split
            · simp only [ne_eq, Except.error.injEq, GoError.leaf.injEq, and_true]
              apply ne_of_head_ne
              rw [invalidIPv4_head]
              decide
            · simp only [ne_eq, Except.error.injEq, GoError.leaf.injEq, and_true]
              apply ne_of_head_ne
              rw [invalidIPv4_head]
              have h : "invalid router-id allocation mode: ".data
                  = 'i' :: "nvalid router-id allocation mode: ".data := by decide
              simp only [String.data_append, h, List.cons_append, List.head?_cons]
              decide
  · intro valid
    unfold getRouterID
    cases hr : c.RouterID with
    | some r => rfl
    | none => rfl

/-- Witness for C30: in ip-pool mode a router ID that is no IPv4 address is returned as it is
when the configuration sets it, and the "can't find" error is returned when it sets none. -/
theorem getRouterID_config_value_first_witness :
    getRouterID { exEnvIPPool with ParseIPTo4 := fun _ => false }
        { exInstanceA with RouterID := some "not-an-address" } exNode 65001
      = .ok "not-an-address"
    ∧ getRouterID exEnvIPPool exInstanceA exNode 65001
      = .error (GoError.leaf "can't find the router-id in the CiliumBGPNodeInstance" false) :=
  ⟨(getRouterID_config_value_first { exEnvIPPool with ParseIPTo4 := fun _ => false }
      { exInstanceA with RouterID := some "not-an-address" } exNode 65001).1 "not-an-address" rfl,
   (getRouterID_config_value_first exEnvIPPool exInstanceA exNode 65001).2.1 rfl rfl []
      (GoError.leaf "router id not specified by annotation" false) rfl rfl⟩

/-! ### What the phases of a pass preserve -/

theorem registerState_preserves (env : Env) (rd : reconcileDiffV2) (P : BGPRouterManager → Prop)
    (hr : ∀ m name c, rd.seen.get name = some c → P m →
      P (registerBGPInstance env m c rd.ciliumNode).1)
    (names : List String) (m : BGPRouterManager) (h : P m) :
    P (registerState env rd m names) := by
  induction names generalizing m with
  | nil => rwa [registerState_nil]
  | cons name rest ih =>
    rw [registerState_cons]
    apply ih
    unfold registerTurn
    cases hs : rd.seen.get name with
    | none => exact h
    | some c => exact hr m name c hs h

theorem reconcileState_preserves (env : Env) (rd : reconcileDiffV2)
    (P : BGPRouterManager → Prop)
    (hc : ∀ m name i c, m.BGPInstances.get name = some i → rd.seen.get name = some c → P m →
      P (reconcileBGPConfigV2 env m i c rd.ciliumNode).1)
    (names : List String) (m : BGPRouterManager) (h : P m) :
    P (reconcileState env rd m names) := by
  induction names generalizing m with
  | nil => rwa [reconcileState_nil]
  | cons name rest ih =>
    rw [reconcileState_cons]
    apply ih
    unfold reconcileTurn
    cases hi : m.BGPInstances.get name with
    | none => exact h
    | some i =>
      cases hs : rd.seen.get name with
      | none => exact h
      | some c => exact hc m name i c hi hs h

/-- The manager after a pass whose diff is `rd`. -/
theorem ReconcileInstances_state (env : Env) (m : BGPRouterManager)
    (nodeObj : CiliumBGPNodeConfig) (ciliumNode : CiliumNode) (rd : reconcileDiffV2)
    (hdiff : env.diff (newReconcileDiffV2 ciliumNode) m.BGPInstances m.heap nodeObj = .ok rd) :
    (ReconcileInstances env m (some nodeObj) ciliumNode).1
      = if rd.empty then m
        else reconcileState env rd (registerState env rd (withdrawPhase env m rd) rd.register)
          rd.reconcile := by
  unfold ReconcileInstances
  simp only [hdiff]
  split
  · rfl
  · rw [registerPhase_none]
    unfold reconcilePhase
    split
    · simp only
      rw [reconcileV2_state]
    · rename_i h
      have hnil : rd.reconcile = [] := List.length_eq_zero.1 (by omega)
      simp only
      rw [hnil, reconcileState_nil]

theorem phases_preserve (env : Env) (rd : reconcileDiffV2) (P : BGPRouterManager → Prop)
    (hw : ∀ m, P m → P (withdrawV2 env m rd))
    (hr : ∀ m name c, rd.seen.get name = some c → P m →
      P (registerBGPInstance env m c rd.ciliumNode).1)
    (hc : ∀ m name i c, m.BGPInstances.get name = some i → rd.seen.get name = some c → P m →
      P (reconcileBGPConfigV2 env m i c rd.ciliumNode).1)
    (m : BGPRouterManager) (h : P m) :
    P (reconcileState env rd (registerState env rd (withdrawPhase env m rd) rd.register)
      rd.reconcile) := by
  apply reconcileState_preserves env rd P hc
  apply registerState_preserves env rd P hr
  unfold withdrawPhase
  split
  · exact hw m h
  · exact h

/-! ### The names of the registry and of the notification map -/

theorem SameNames_registerBGPInstance (env : Env) (m : BGPRouterManager)
    (c : CiliumBGPNodeInstance) (ciliumNode : CiliumNode) (h : SameNames m) :
    SameNames (registerBGPInstance env m c ciliumNode).1 := by
  obtain ⟨evs, -, hcase⟩ := registerBGPInstance_ext env m c ciliumNode
  rcases hcase with ⟨ch, hst, -⟩ | ⟨x, tbl, hst, -⟩
  · rw [hst]
    exact h
  · rw [hst]
    intro name
    simp only [GoMap.get_set]
    by_cases hn : name = c.Name
    · simp [hn]
    · simp only [if_neg hn]
      exact h name

theorem SameNames_withdrawV2 (env : Env) (m : BGPRouterManager) (rd : reconcileDiffV2)
    (h : SameNames m) : SameNames (withdrawV2 env m rd) := by
  obtain ⟨W, tbl, hst, -⟩ := withdrawV2_state env m rd
  rw [hst]
  intro name
  simp only
  rw [GoMap.get_filter m.BGPInstances (fun k => decide (k ∉ rd.withdraw)) name,
    GoMap.get_filter m.notifications
      (fun k => !(decide (k ∈ rd.withdraw) && (m.BGPInstances.get k).isSome)) name]
  have hn := h name
  by_cases hw : name ∈ rd.withdraw
  · cases hr : m.BGPInstances.get name with
    | none =>
      rw [hr] at hn
      simp [hw, ← hn]
    | some i => simp [hw]
  · simp [hw, hn]

theorem SameNames_withdrawAllV2 (env : Env) (m : BGPRouterManager) (rd : reconcileDiffV2)
    (h : SameNames m) : SameNames (withdrawAllV2 env m rd) := by
  unfold withdrawAllV2
  split
  · exact h
  · exact SameNames_withdrawV2 env m _ h

theorem SameNames_reconcileBGPConfigV2 (env : Env) (m : BGPRouterManager) (i : Ptr)
    (c : CiliumBGPNodeInstance) (ciliumNode : CiliumNode) (h : SameNames m) :
    SameNames (reconcileBGPConfigV2 env m i c ciliumNode).1 := by
  obtain ⟨evs, tbl, hst, -⟩ := reconcileBGPConfigV2_ext env m i c ciliumNode
  rw [hst]
  exact h

theorem SameNames_ReconcileInstances (env : Env) (m : BGPRouterManager)
    (nodeObj : Option CiliumBGPNodeConfig) (ciliumNode : CiliumNode) (h : SameNames m) :
    SameNames (ReconcileInstances env m nodeObj ciliumNode).1 := by
  cases nodeObj with
  | none => exact SameNames_withdrawAllV2 env m _ h
  | some nodeObj =>
    cases hdiff : env.diff (newReconcileDiffV2 ciliumNode) m.BGPInstances m.heap nodeObj with
    | error err =>
      unfold ReconcileInstances
      simp only [hdiff]
      exact h
    | ok rd =>
      rw [ReconcileInstances_state env m nodeObj ciliumNode rd hdiff]
      split
      · exact h
      · exact phases_preserve env rd SameNames
          (fun m hm => SameNames_withdrawV2 env m rd hm)
          (fun m _ c _ hm => SameNames_registerBGPInstance env m c rd.ciliumNode hm)
          (fun m _ i c _ _ hm => SameNames_reconcileBGPConfigV2 env m i c rd.ciliumNode hm)
          m h

/-- C28: if the registry and the notification map hold the same names, they still do after
`registerBGPInstance`, `withdrawV2`, `withdrawAllV2`, `ReconcileInstances` and `Stop`,
whatever the outcome of the operation. -/
theorem registry_and_notifications_same_names (env : Env) (m : BGPRouterManager)
    (h : SameNames m) :
    (∀ c ciliumNode, SameNames (registerBGPInstance env m c ciliumNode).1)
    ∧ (∀ rd, SameNames (withdrawV2 env m rd))
    ∧ (∀ rd, SameNames (withdrawAllV2 env m rd))
    ∧ (∀ nodeObj ciliumNode, SameNames (ReconcileInstances env m nodeObj ciliumNode).1)
    ∧ SameNames (Stop m).1 :=
  ⟨fun c ciliumNode => SameNames_registerBGPInstance env m c ciliumNode h,
   fun rd => SameNames_withdrawV2 env m rd h,
   fun rd => SameNames_withdrawAllV2 env m rd h,
   fun nodeObj ciliumNode => SameNames_ReconcileInstances env m nodeObj ciliumNode h,
   fun _ => rfl⟩

/-- Witness for C28: the names agree in a manager with the one instance "a", and still do
after a pass that withdraws "a" and registers "b". -/
theorem registry_and_notifications_same_names_witness :
    SameNames exManagerA
    ∧ SameNames (ReconcileInstances (exEnv [okReconciler "r1"] none none) exManagerA
        (some exNodeConfigB) exNode).1 := by
  have h : SameNames exManagerA := by
    intro name
    by_cases hn : name = "a"
    · subst hn
      rfl
    · simp [exManagerA, NewBGPRouterManager, GoMap.get, Ne.symm hn]
  exact ⟨h, (registry_and_notifications_same_names (exEnv [okReconciler "r1"] none none)
    exManagerA h).2.2.2.1 (some exNodeConfigB) exNode⟩

/-! ### The work diff -/

theorem GoMap.mem_keys_iff {K V : Type} [DecidableEq K] (m : GoMap K V) (k : K) :
    k ∈ m.keys ↔ (m.get k).isSome = true := by
  constructor
  · intro h
    cases hg : m.get k with
    | some v => rfl
    | none =>
      rw [GoMap.get_eq_none_iff] at hg
      unfold GoMap.keys at h
      obtain ⟨e, he, hk⟩ := List.mem_map.1 h
      exact absurd hk (hg e he)
  · intro h
    cases hg : m.get k with
    | none =>
      rw [hg] at h
      cases h
    | some v => exact GoMap.mem_keys_of_get m k v hg

/-- C25: the work diff of a registry and a desired state. `register` holds the names of the
desired state absent from the registry, `withdraw` the names of the registry absent from the
desired state, and `reconcile` the names present in both whose desired configuration differs
from the last-applied one; no name is in two of the lists, and `empty` holds exactly when the
three lists are empty. -/
theorem diff_lists (ciliumNode : CiliumNode) (registry : GoMap String Ptr)
    (heap : List BGPInstance) (desired : CiliumBGPNodeConfig) :
    ∃ rd, reconcileDiffV2.diff (newReconcileDiffV2 ciliumNode) registry heap desired = .ok rd
      ∧ (∀ n, n ∈ rd.register ↔
          (∃ c ∈ desired.BGPInstances, c.Name = n) ∧ registry.get n = none)
      ∧ (∀ n, n ∈ rd.withdraw ↔
          (registry.get n).isSome = true ∧ ∀ c ∈ desired.BGPInstances, c.Name ≠ n)
      ∧ (∀ n, n ∈ rd.reconcile ↔
          ∃ c ∈ desired.BGPInstances, c.Name = n
            ∧ ∃ i, registry.get n = some i ∧ configOf heap i ≠ some c)
      ∧ (∀ n, ¬ (n ∈ rd.register ∧ n ∈ rd.withdraw))
      ∧ (∀ n, ¬ (n ∈ rd.register ∧ n ∈ rd.reconcile))
      ∧ (∀ n, ¬ (n ∈ rd.withdraw ∧ n ∈ rd.reconcile))
      ∧ (rd.empty = true ↔ rd.register = [] ∧ rd.withdraw = [] ∧ rd.reconcile = []) := by
  refine ⟨_, rfl, ?_⟩
  have hreg : ∀ n, n ∈ (newReconcileDiffV2 ciliumNode).register ++
      (desired.BGPInstances.filter (fun c => (registry.get c.Name).isNone)).map (fun c => c.Name)
      ↔ (∃ c ∈ desired.BGPInstances, c.Name = n) ∧ registry.get n = none := by
    intro n
    simp only [newReconcileDiffV2, List.nil_append, List.mem_map, List.mem_filter,
      Option.isNone_iff_eq_none]
    constructor
    · rintro ⟨c, ⟨hc, hn⟩, rfl⟩
      exact ⟨⟨c, hc, rfl⟩, hn⟩
    · rintro ⟨⟨c, hc, rfl⟩, hn⟩
      exact ⟨c, ⟨hc, hn⟩, rfl⟩
  have hwd : ∀ n, n ∈ (newReconcileDiffV2 ciliumNode).withdraw ++
      registry.keys.filter (fun n => desired.BGPInstances.all (fun c => decide (c.Name ≠ n)))
      ↔ (registry.get n).isSome = true ∧ ∀ c ∈ desired.BGPInstances, c.Name ≠ n := by
    intro n
    simp only [newReconcileDiffV2, List.nil_append, List.mem_filter, GoMap.mem_keys_iff,
      List.all_eq_true, decide_eq_true_eq]
  have hrec : ∀ n, n ∈ (newReconcileDiffV2 ciliumNode).reconcile ++
      (desired.BGPInstances.filter (fun c =>
        match registry.get c.Name with
        | some i => decide ((heap.get? i).bind (fun o => o.Config) ≠ some c)
        | none => false)).map (fun c => c.Name)
      ↔ ∃ c ∈ desired.BGPInstances, c.Name = n
          ∧ ∃ i, registry.get n = some i ∧ configOf heap i ≠ some c := by
    intro n
    simp only [newReconcileDiffV2, List.nil_append, List.mem_map, List.mem_filter, configOf]
    constructor
    · rintro ⟨c, ⟨hc, hq⟩, rfl⟩
      refine ⟨c, hc, rfl, ?_⟩
      cases hg : registry.get c.Name with
      | none => simp [hg] at hq
      | some i =>
        simp only [hg, decide_eq_true_eq] at hq
        exact ⟨i, rfl, by simpa using hq⟩
    · rintro ⟨c, hc, rfl, i, hg, hne⟩
      refine ⟨c, ⟨hc, ?_⟩, rfl⟩
      simp only [hg, decide_eq_true_eq]
      simpa using hne
  refine ⟨hreg, hwd, hrec, ?_, ?_, ?_, ?_⟩
  · rintro n ⟨h1, h2⟩
    have a := (hreg n).1 h1
    have b := (hwd n).1 h2
    rw [a.2] at b
    cases b.1
  · rintro n ⟨h1, h2⟩
    have a := (hreg n).1 h1
    obtain ⟨c, -, -, i, hi, -⟩ := (hrec n).1 h2
    rw [a.2] at hi
    cases hi
  · rintro n ⟨h1, h2⟩
    have a := (hwd n).1 h1
    obtain ⟨c, hc, hn, -⟩ := (hrec n).1 h2
    exact a.2 c hc hn
  · simp only [reconcileDiffV2.empty, beq_iff_eq]
    constructor
    · intro h
      exact ⟨List.length_eq_zero.1 (by omega), List.length_eq_zero.1 (by omega),
        List.length_eq_zero.1 (by omega)⟩
    · rintro ⟨h1, h2, h3⟩
      rw [h1, h2, h3]
      rfl

/-- The scenario of the spec: the desired state names "a" and "b" and the registry is empty;
both names are to be registered and nothing else is to be done. -/
theorem diff_example :
    reconcileDiffV2.diff (newReconcileDiffV2 exNode) [] [] exNodeConfigAB
      = .ok { seen := [("a", exInstanceA), ("b", exInstanceB)], ciliumNode := exNode,
              register := ["a", "b"], withdraw := [], reconcile := [] } := by
  rfl

/-! ### The routes of the BGPv2 instances -/

theorem valueOf_value {α : Type} (tr : List Event) (v : α) :
    valueOf (tr, GoResult.value v) = some (tr, v) := rfl

theorem valueOf_error {α : Type} (tr : List Event) (err : GoError) :
    valueOf ((tr, GoResult.error err) : List Event × GoResult α) = none := rfl

theorem valueOf_panic {α : Type} (tr : List Event) :
    valueOf ((tr, GoResult.panic) : List Event × GoResult α) = none := rfl

/-- The loop over the peers returns the concatenation of the fetches, in whatever state the
neighbor of the parameters was left by earlier turns. -/
theorem getRoutesV2Peers_spec (env : Env) (heap : List BGPInstance) (i : Ptr)
    (params : GetBgpRoutesParams) (peers : List BgpPeer) (params0 : GetBgpRoutesParams)
    (hsame : ∀ n, ({ params0 with Neighbor := n } : GetBgpRoutesParams)
      = { params with Neighbor := n })
    (tr : List Event) (res : List BgpRoute) :
    valueOf (getRoutesV2Peers env heap i peers params0 tr res).2
        = (peerRoutes env heap i params peers tr).map (fun x => (x.1, res ++ x.2))
    ∧ ∀ n, ({ (getRoutesV2Peers env heap i peers params0 tr res).1 with Neighbor := n }
        : GetBgpRoutesParams) = { params with Neighbor := n } := by
  induction peers generalizing params0 tr res with
  | nil => exact ⟨by simp [getRoutesV2Peers, peerRoutes, valueOf], hsame⟩
  | cons peer rest ih =>
    unfold getRoutesV2Peers peerRoutes
    rw [hsame (some peer.PeerAddress)]
    rcases hr : getRoutesFromInstance env heap tr i
      { params with Neighbor := some peer.PeerAddress } with ⟨tr1, r⟩
    cases r with
    | value routes =>
      simp only [valueOf_value]
      have h := ih { params with Neighbor := some peer.PeerAddress } (fun n => rfl) tr1
        (res ++ routes)
      refine ⟨?_, h.2⟩
      rw [h.1]
      cases peerRoutes env heap i params rest tr1 with
      | none => rfl
      | some x => simp [List.append_assoc]
    | error err => exact ⟨by simp [valueOf], fun n => rfl⟩
    | panic => exact ⟨by simp [valueOf], fun n => rfl⟩

theorem getRoutesV2Loop_spec (env : Env) (heap : List BGPInstance) (allPeers : Bool)
    (params : GetBgpRoutesParams) (insts : List (String × Ptr)) (params0 : GetBgpRoutesParams)
    (hsame : ∀ n, ({ params0 with Neighbor := n } : GetBgpRoutesParams)
      = { params with Neighbor := n })
    (hdirect : allPeers = false → params0 = params)
    (tr : List Event) (res : List BgpRoute) :
    valueOf (getRoutesV2Loop env heap allPeers insts params0 tr res)
      = (instanceRoutes env heap allPeers params insts tr).map (fun x => (x.1, res ++ x.2)) := by
  induction insts generalizing params0 tr res with
  | nil => simp [getRoutesV2Loop, instanceRoutes, valueOf]
  | cons e rest ih =>
    obtain ⟨name, i⟩ := e
    have hasn : params0.RouterAsn = params.RouterAsn :=
      (GetBgpRoutesParams.mk.inj (hsame none)).2.2.2.2
    unfold getRoutesV2Loop instanceRoutes
    rw [hasn]
    cases hs : skipInstance heap params.RouterAsn i with
    | none => simp [valueOf]
    | some b =>
      cases b with
      | true =>
        simp only
        exact ih params0 hsame hdirect tr res
      | false =>
        simp only
        cases allPeers with
        | true =>
          simp only [if_true]
          cases env.GetPeerState tr (.router i) with
          | error err => simp [valueOf]
          | ok peers =>
            simp only
            have hp := getRoutesV2Peers_spec env heap i params peers params0 hsame
              (tr ++ [Event.getPeerState (.router i)]) res
            rcases hr : getRoutesV2Peers env heap i peers params0
              (tr ++ [Event.getPeerState (.router i)]) res with ⟨params1, tr1, r⟩
            rw [hr] at hp
            obtain ⟨hv, hsame1⟩ := hp
            simp only at hv hsame1
            cases r with
            | value res1 =>
              simp only
              rw [valueOf_value] at hv
              cases hpr : peerRoutes env heap i params peers
                (tr ++ [Event.getPeerState (.router i)]) with
              | none =>
                rw [hpr] at hv
                simp at hv
              | some x =>
                obtain ⟨xt, xr⟩ := x
                rw [hpr] at hv
                simp only [Option.map_some', Option.some.injEq, Prod.mk.injEq] at hv
                obtain ⟨h1, h2⟩ := hv
                rw [h1, h2, ih params1 hsame1 (fun h => by cases h) xt (res ++ xr)]
                simp only
                cases instanceRoutes env heap true params rest xt with
                | none => rfl
                | some y => simp [List.append_assoc]
            | error err =>
              simp only
              rw [valueOf_error] at hv
              cases hpr : peerRoutes env heap i params peers
                (tr ++ [Event.getPeerState (.router i)]) with
              | none => simp [valueOf]
              | some x =>
                rw [hpr] at hv
                simp at hv
            | panic =>
              simp only
              rw [valueOf_panic] at hv
              cases hpr : peerRoutes env heap i params peers
                (tr ++ [Event.getPeerState (.router i)]) with
              | none => simp [valueOf]
              | some x =>
                rw [hpr] at hv
                simp at hv
        | false =>
          simp only [Bool.false_eq_true, if_false]
          have hpar : params0 = params := hdirect rfl
          subst hpar
          rcases hr : getRoutesFromInstance env heap tr i params0 with ⟨tr1, r⟩
          cases r with
          | value routes =>
            simp only [valueOf_value]
            rw [ih params0 hsame hdirect tr1 (res ++ routes)]
            cases instanceRoutes env heap false params0 rest tr1 with
            | none => rfl
            | some y => simp [List.append_assoc]
          | error err => simp [valueOf]
          | panic => simp [valueOf]
theorem allPeersOf_iff (env : Env) (params : GetBgpRoutesParams) :
    allPeersOf env params = true
      ↔ (env.ParseTableType params.TableType = env.TableTypeAdjRIBIn
          ∨ env.ParseTableType params.TableType = env.TableTypeAdjRIBOut)
        ∧ (params.Neighbor = none ∨ params.Neighbor = some "") := by
  simp [allPeersOf]

theorem getRoutesFromInstance_value (env : Env) (heap : List BGPInstance) (tr : List Event)
    (i : Ptr) (params : GetBgpRoutesParams) (tr1 : List Event) (routes : List BgpRoute)
    (h : valueOf (getRoutesFromInstance env heap tr i params) = some (tr1, routes)) :
    (∃ req, env.ToAgentGetRoutesRequest params = .ok req
      ∧ tr1 = tr ++ [Event.getRoutes (.router i) req])
    ∧ routes = routesOf env heap tr i params := by
  have hro : routes = routesOf env heap tr i params := by
    unfold routesOf
    rcases hr : getRoutesFromInstance env heap tr i params with ⟨t, r⟩
    rw [hr] at h
    cases r with
    | value v =>
      simp only [valueOf_value, Option.some.injEq, Prod.mk.injEq] at h
      exact h.2.symm
    | error err => simp [valueOf] at h
    | panic => simp [valueOf] at h
  refine ⟨?_, hro⟩
  unfold getRoutesFromInstance at h
  cases hc : (heap[i]?).bind (fun o => o.Config) with
  | none => simp [hc, valueOf] at h
  | some c =>
    simp only [hc] at h
    cases hl : c.LocalASN with
    | none => simp [hl, valueOf] at h
    | some l =>
      simp only [hl] at h
      cases hq : env.ToAgentGetRoutesRequest params with
      | error err => simp [hq, valueOf] at h
      | ok req =>
        simp only [hq] at h
        cases hg : env.GetRoutes tr (.router i) req with
        | error err => simp [hg, valueOf] at h
        | ok rs =>
          simp only [hg] at h
          cases ha : env.ToAPIRoutes rs l (neighborOf params) with
          | error err => simp [ha, valueOf] at h
          | ok out =>
            simp only [ha, valueOf_value, Option.some.injEq, Prod.mk.injEq] at h
            exact ⟨req, rfl, h.1.symm⟩

theorem routesOf_steady (env : Env) (hst : SteadyRouters env) (heap : List BGPInstance)
    (tr : List Event) (i : Ptr) (params : GetBgpRoutesParams) :
    routesOf env heap tr i params = routesOf env heap [] i params := by
  unfold routesOf getRoutesFromInstance
  cases (heap[i]?).bind (fun o => o.Config) with
  | none => rfl
  | some c =>
    simp only
    cases c.LocalASN with
    | none => rfl
    | some l =>
      simp only
      cases env.ToAgentGetRoutesRequest params with
      | error err => rfl
      | ok req =>
        simp only
        rw [(hst tr [] (.router i)).2 req]
        cases env.GetRoutes [] (.router i) req with
        | error err => rfl
        | ok rs =>
          simp only
          cases env.ToAPIRoutes rs l (neighborOf params) <;> rfl

theorem peerRoutes_steady (env : Env) (hst : SteadyRouters env) (heap : List BGPInstance)
    (i : Ptr) (params : GetBgpRoutesParams) (peers : List BgpPeer) (tr tr1 : List Event)
    (rs : List BgpRoute) (h : peerRoutes env heap i params peers tr = some (tr1, rs)) :
    rs = (peers.map (fun p =>
      routesOf env heap [] i { params with Neighbor := some p.PeerAddress })).flatten := by
  induction peers generalizing tr rs with
  | nil =>
    simp only [peerRoutes, Option.some.injEq, Prod.mk.injEq] at h
    rw [← h.2]
    rfl
  | cons peer rest ih =>
    unfold peerRoutes at h
    cases hv : valueOf (getRoutesFromInstance env heap tr i
      { params with Neighbor := some peer.PeerAddress }) with
    | none => simp [hv] at h
    | some x =>
      obtain ⟨t1, routes⟩ := x
      simp only [hv] at h
      cases hp : peerRoutes env heap i params rest t1 with
      | none => simp [hp] at h
      | some y =>
        obtain ⟨t2, more⟩ := y
        simp only [hp, Option.some.injEq, Prod.mk.injEq] at h
        obtain ⟨h1, h2⟩ := h
        subst h1
        have hr := (getRoutesFromInstance_value env heap tr i _ t1 routes hv).2
        rw [routesOf_steady env hst] at hr
        rw [← h2, List.map_cons, List.flatten_cons, ← ih t1 more hp, hr]

theorem matchingInstances_cons (heap : List BGPInstance) (ra : Option Int) (name : String)
    (i : Ptr) (rest : List (String × Ptr)) :
    matchingInstances heap ra ((name, i) :: rest)
      = if skipInstance heap ra i = some false then i :: matchingInstances heap ra rest
        else matchingInstances heap ra rest := by
  unfold matchingInstances
  rw [List.filter_cons]
  by_cases h : skipInstance heap ra i = some false
  · simp [h]
  · have hb : (skipInstance heap ra i == some false) = false := by
      cases hs : skipInstance heap ra i with
      | none => rfl
      | some b =>
        cases b with
        | true => rfl
        | false => exact absurd hs h
    simp [h, hb]

theorem instanceRoutes_fanOut_steady (env : Env) (hst : SteadyRouters env)
    (heap : List BGPInstance) (params : GetBgpRoutesParams) (insts : List (String × Ptr))
    (tr tr1 : List Event) (rs : List BgpRoute)
    (h : instanceRoutes env heap true params insts tr = some (tr1, rs)) :
    rs = ((matchingInstances heap params.RouterAsn insts).map (fun i =>
      ((peersOf env [] i).map (fun p =>
        routesOf env heap [] i { params with Neighbor := some p.PeerAddress })).flatten)).flatten
    := by
  induction insts generalizing tr rs with
  | nil =>
    simp only [instanceRoutes, Option.some.injEq, Prod.mk.injEq] at h
    rw [← h.2]
    rfl
  | cons e rest ih =>
    obtain ⟨name, i⟩ := e
    unfold instanceRoutes at h
    rw [matchingInstances_cons]
    cases hs : skipInstance heap params.RouterAsn i with
    | none => simp [hs] at h
    | some b =>
      cases b with
      | true =>
        simp only [hs] at h
        simp only [reduceCtorEq, Option.some.injEq, Bool.true_eq_false, if_false]
        exact ih tr rs h
      | false =>
        simp only [hs, if_true] at h
        simp only [if_true, List.map_cons, List.flatten_cons]
        have hpeers : peersOf env [] i = peersOf env tr i := by
          unfold peersOf
          rw [(hst [] tr (.router i)).1]
        cases hg : env.GetPeerState tr (.router i) with
        | error err => simp [hg] at h
        | ok peers =>
          simp only [hg] at h
          have hpo : peersOf env tr i = peers := by
            unfold peersOf
            rw [hg]
          cases hp : peerRoutes env heap i params peers
            (tr ++ [Event.getPeerState (.router i)]) with
          | none => simp [hp] at h
          | some x =>
            obtain ⟨t1, routes⟩ := x
            simp only [hp] at h
            cases hi : instanceRoutes env heap true params rest t1 with
            | none => simp [hi] at h
            | some y =>
              obtain ⟨t2, more⟩ := y
              simp only [hi, Option.some.injEq, Prod.mk.injEq] at h
              obtain ⟨h1, h2⟩ := h
              subst h1
              rw [← h2, ← ih t1 more hi, hpeers, hpo,
                ← peerRoutes_steady env hst heap i params peers _ t1 routes hp]

theorem instanceRoutes_direct (env : Env) (heap : List BGPInstance)
    (params : GetBgpRoutesParams) (req : GetRoutesRequest)
    (hreq : env.ToAgentGetRoutesRequest params = .ok req) (insts : List (String × Ptr))
    (tr tr1 : List Event) (rs : List BgpRoute)
    (h : instanceRoutes env heap false params insts tr = some (tr1, rs)) :
    tr1 = tr ++ (matchingInstances heap params.RouterAsn insts).map
        (fun i => Event.getRoutes (.router i) req)
    ∧ (SteadyRouters env →
        rs = ((matchingInstances heap params.RouterAsn insts).map
          (fun i => routesOf env heap [] i params)).flatten) := by
  induction insts generalizing tr rs with
  | nil =>
    simp only [instanceRoutes, Option.some.injEq, Prod.mk.injEq] at h
    rw [← h.1, ← h.2]
    exact ⟨by simp [matchingInstances], fun _ => rfl⟩
  | cons e rest ih =>
    obtain ⟨name, i⟩ := e
    unfold instanceRoutes at h
    rw [matchingInstances_cons]
    cases hs : skipInstance heap params.RouterAsn i with
    | none => simp [hs] at h
    | some b =>
      cases b with
      | true =>
        simp only [hs] at h
        simp only [reduceCtorEq, Option.some.injEq, Bool.true_eq_false, if_false]
        exact ih tr rs h
      | false =>
        simp only [hs, Bool.false_eq_true, if_false] at h
        simp only [if_true, List.map_cons, List.flatten_cons]
        cases hv : valueOf (getRoutesFromInstance env heap tr i params) with
        | none => simp [hv] at h
        | some x =>
          obtain ⟨t1, routes⟩ := x
          simp only [hv] at h
          cases hi : instanceRoutes env heap false params rest t1 with
          | none => simp [hi] at h
          | some y =>
            obtain ⟨t2, more⟩ := y
            simp only [hi, Option.some.injEq, Prod.mk.injEq] at h
            obtain ⟨h1, h2⟩ := h
            subst h1
            obtain ⟨⟨req2, hreq2, ht1⟩, hroutes⟩ :=
              getRoutesFromInstance_value env heap tr i params t1 routes hv
            rw [hreq] at hreq2
            cases hreq2
            obtain ⟨ih1, ih2⟩ := ih t1 more hi
            refine ⟨?_, fun hst => ?_⟩
            · rw [ih1, ht1]
              simp
            · rw [← h2, ← ih2 hst, hroutes, routesOf_steady env hst]

theorem getRoutesV2_validated (env : Env) (m : BGPRouterManager) (params : GetBgpRoutesParams)
    (hasn : ∀ asn, params.RouterAsn = some asn → asnExistsInInstances m asn = some true)
    (hmulti : (params.Neighbor.isSome && decide (m.BGPInstances.length > 1)
      && params.RouterAsn.isNone) = false) :
    getRoutesV2 env m params
      = getRoutesV2Loop env m.heap (allPeersOf env params) m.BGPInstances params m.trace [] := by
  unfold getRoutesV2
  simp only [hmulti, Bool.false_eq_true, if_false]
  cases hra : params.RouterAsn with
  | none => rfl
  | some asn =>
    simp only [hasn asn hra]

/-- C21: `getRoutesV2`, once its validations are passed, goes through the instances that the
router ASN does not skip. When the parsed table type is adj-rib-in or adj-rib-out and the
neighbor is absent or empty, it asks each of them for its peers and fetches the routes once
per peer, with the parameters of the caller and the neighbor set to the address of the peer;
the result is the concatenation of these routes, instance after instance. Otherwise it makes
exactly one `GetRoutes` request per such instance, with the parameters of the caller, and
returns the concatenation of the answers. -/
theorem getRoutesV2_fan_out (env : Env) (m : BGPRouterManager) (params : GetBgpRoutesParams)
    (hasn : ∀ asn, params.RouterAsn = some asn → asnExistsInInstances m asn = some true)
    (hmulti : (params.Neighbor.isSome && decide (m.BGPInstances.length > 1)
      && params.RouterAsn.isNone) = false) :
    (allPeersOf env params = true
      ↔ (env.ParseTableType params.TableType = env.TableTypeAdjRIBIn
          ∨ env.ParseTableType params.TableType = env.TableTypeAdjRIBOut)
        ∧ (params.Neighbor = none ∨ params.Neighbor = some ""))
    ∧ valueOf (getRoutesV2 env m params)
        = instanceRoutes env m.heap (allPeersOf env params) params m.BGPInstances m.trace
    ∧ (allPeersOf env params = true → SteadyRouters env → ∀ tr out,
        getRoutesV2 env m params = (tr, .value out) →
        out = ((matchingInstances m.heap params.RouterAsn m.BGPInstances).map (fun i =>
          ((peersOf env [] i).map (fun p =>
            routesOf env m.heap [] i { params with Neighbor := some p.PeerAddress })).flatten)
          ).flatten)
    ∧ (allPeersOf env params = false → ∀ tr out req,
        getRoutesV2 env m params = (tr, .value out) →
        env.ToAgentGetRoutesRequest params = .ok req →
        tr = m.trace ++ (matchingInstances m.heap params.RouterAsn m.BGPInstances).map
            (fun i => Event.getRoutes (.router i) req)
        ∧ (SteadyRouters env →
            out = ((matchingInstances m.heap params.RouterAsn m.BGPInstances).map
              (fun i => routesOf env m.heap [] i params)).flatten)) := by
  have hspec : valueOf (getRoutesV2 env m params)
      = instanceRoutes env m.heap (allPeersOf env params) params m.BGPInstances m.trace := by
    rw [getRoutesV2_validated env m params hasn hmulti,
      getRoutesV2Loop_spec env m.heap _ params m.BGPInstances params (fun _ => rfl)
        (fun _ => rfl) m.trace []]
    cases instanceRoutes env m.heap (allPeersOf env params) params m.BGPInstances m.trace with
    | none => rfl
    | some x => simp
  refine ⟨allPeersOf_iff env params, hspec, ?_, ?_⟩
  · intro hall hst tr out hres
    rw [hres, valueOf_value, hall] at hspec
    exact instanceRoutes_fanOut_steady env hst m.heap params m.BGPInstances m.trace tr out
      hspec.symm
  · intro hall tr out req hres hreq
    rw [hres, valueOf_value, hall] at hspec
    exact instanceRoutes_direct env m.heap params req hreq m.BGPInstances m.trace tr out
      hspec.symm

theorem exEnv_steady (rs : List ConfigReconciler) (ins del : Option GoError) :
    SteadyRouters (exEnv rs ins del) :=
  fun _ _ _ => ⟨rfl, fun _ => rfl⟩

/-- Witness for C21: "a" and "b" have one peer each; asked for the routes received from all
peers of all routers, `getRoutesV2` returns the routes of the peer of "a" followed by those of
the peer of "b". -/
theorem getRoutesV2_fan_out_witness :
    ([{ RouterAsn := 65001, Neighbor := "192.0.2.1", Prefix := "10.1.0.0/24 via 192.0.2.1" },
      { RouterAsn := 65002, Neighbor := "192.0.2.1", Prefix := "10.1.0.0/24 via 192.0.2.1" }]
        : List BgpRoute)
      = ((matchingInstances exManagerAB.heap exAdjRibInAll.RouterAsn
            exManagerAB.BGPInstances).map (fun i =>
          ((peersOf (exEnv [okReconciler "r1"] none none) [] i).map (fun p =>
            routesOf (exEnv [okReconciler "r1"] none none) exManagerAB.heap [] i
              { exAdjRibInAll with Neighbor := some p.PeerAddress })).flatten)).flatten :=
  (getRoutesV2_fan_out (exEnv [okReconciler "r1"] none none) exManagerAB exAdjRibInAll
    (fun asn h => by cases h) rfl).2.2.1 rfl (exEnv_steady _ _ _)
    (exManagerAB.trace ++
      [Event.getPeerState (.router 0),
       Event.getRoutes (.router 0)
         { TableType := 2, Family := "ipv4/unicast", Neighbor := "192.0.2.1" },
       Event.getPeerState (.router 1),
       Event.getRoutes (.router 1)
         { TableType := 2, Family := "ipv4/unicast", Neighbor := "192.0.2.1" }])
    _ rfl

/-- One request per instance: asked for the local RIB, `getRoutesV2` makes one `GetRoutes`
request on the Router of "a" and one on the Router of "b". -/
theorem getRoutesV2_direct_example :
    (getRoutesV2 (exEnv [okReconciler "r1"] none none) exManagerAB
        { exAdjRibInAll with TableType := "loc-rib" }).1
      = exManagerAB.trace ++
          [Event.getRoutes (.router 0) { TableType := 1, Family := "ipv4/unicast", Neighbor := "" },
           Event.getRoutes (.router 1) { TableType := 1, Family := "ipv4/unicast", Neighbor := "" }]
    := by
  decide

/-! ### Registration of a BGPv1 server -/

theorem initLoopV1_events (heap : List ServerWithConfig) (s : Ptr)
    (rs : List ConfigReconcilerV1) (k : Nat) (tr : List Event) :
    ∃ evs, (initLoopV1 heap s rs k tr).1 = tr ++ evs ∧ ∀ e ∈ evs, e.isServerStop = false := by
  induction rs generalizing k tr with
  | nil => exact ⟨[], by simp [initLoopV1]⟩
  | cons r rest ih =>
    unfold initLoopV1
    cases r.Init tr heap s with
    | some err => exact ⟨[Event.initServer k s], rfl, by simp [Event.isServerStop]⟩
    | none =>
      simp only
      obtain ⟨evs, he, hall⟩ := ih (k + 1) (tr ++ [Event.initServer k s])
      refine ⟨Event.initServer k s :: evs, by rw [he]; simp, ?_⟩
      intro e hmem
      rcases List.mem_cons.1 hmem with rfl | h
      · rfl
      · exact hall e h

theorem reconcileLoopV1_events (heap : List ServerWithConfig) (sc : Ptr)
    (newc : CiliumBGPVirtualRouter) (ciliumNode : CiliumNode) (rs : List ConfigReconcilerV1)
    (k : Nat) (tr : List Event) :
    ∃ evs, (reconcileLoopV1 heap sc newc ciliumNode rs k tr).1 = tr ++ evs
      ∧ ∀ e ∈ evs, e.isServerStop = false := by
  induction rs generalizing k tr with
  | nil => exact ⟨[], by simp [reconcileLoopV1]⟩
  | cons r rest ih =>
    unfold reconcileLoopV1
    cases r.Reconcile tr heap sc newc ciliumNode with
    | some err =>
      exact ⟨[Event.reconcileServer k sc newc ciliumNode], rfl, by simp [Event.isServerStop]⟩
    | none =>
      simp only
      obtain ⟨evs, he, hall⟩ := ih (k + 1) (tr ++ [Event.reconcileServer k sc newc ciliumNode])
      refine ⟨Event.reconcileServer k sc newc ciliumNode :: evs, by rw [he]; simp, ?_⟩
      intro e hmem
      rcases List.mem_cons.1 hmem with rfl | h
      · rfl
      · exact hall e h

theorem reconcileBGPConfig_ext (env : Env) (m : BGPRouterManager) (sc : Ptr)
    (newc : CiliumBGPVirtualRouter) (ciliumNode : CiliumNode) :
    (reconcileBGPConfig env m sc newc ciliumNode).1.Servers = m.Servers
    ∧ ∃ evs, (reconcileBGPConfig env m sc newc ciliumNode).1.trace = m.trace ++ evs
      ∧ ∀ e ∈ evs, e.isServerStop = false := by
  unfold reconcileBGPConfig
  split
  · exact ⟨rfl, [], by simp⟩
  · obtain ⟨evs, he, hall⟩ := reconcileLoopV1_events m.serverHeap sc newc ciliumNode
      env.Reconcilers 0 m.trace
    rcases hr : reconcileLoopV1 m.serverHeap sc newc ciliumNode env.Reconcilers 0 m.trace
      with ⟨tr, _ | err⟩
    · rw [hr] at he
      exact ⟨rfl, evs, he, hall⟩
    · rw [hr] at he
      exact ⟨rfl, evs, he, hall⟩

theorem commitBGPServer_ext (env : Env) (m1 : BGPRouterManager) (s : Ptr)
    (c : CiliumBGPVirtualRouter) (ciliumNode : CiliumNode) :
    (commitBGPServer env m1 s c ciliumNode).1.Servers = m1.Servers.set c.LocalASN s
    ∧ ∃ evs, (commitBGPServer env m1 s c ciliumNode).1.trace = m1.trace ++ evs
      ∧ ∀ e ∈ evs, e.isServerStop = false := by
  unfold commitBGPServer
  simp only
  obtain ⟨ievs, hie, hiall⟩ := initLoopV1_events m1.serverHeap s env.Reconcilers 0 m1.trace
  rcases hinit : initLoopV1 m1.serverHeap s env.Reconcilers 0 m1.trace with ⟨tr, _ | err⟩
  · rw [hinit] at hie
    simp only at hie
    obtain ⟨hS, revs, hre, hrall⟩ := reconcileBGPConfig_ext env
      { m1 with Servers := m1.Servers.set c.LocalASN s, trace := tr } s c ciliumNode
    have hall : ∀ e ∈ ievs ++ revs, e.isServerStop = false := by
      intro e hmem
      rcases List.mem_append.1 hmem with h | h
      · exact hiall e h
      · exact hrall e h
    rcases hrec : reconcileBGPConfig env
      { m1 with Servers := m1.Servers.set c.LocalASN s, trace := tr } s c ciliumNode
      with ⟨m3, _ | err⟩
    · rw [hrec] at hS hre
      simp only at hS hre
      simp only [hrec]
      exact ⟨hS, ievs ++ revs, by rw [hre, hie, List.append_assoc], hall⟩
    · rw [hrec] at hS hre
      simp only at hS hre
      simp only [hrec]
      exact ⟨hS, ievs ++ revs, by rw [hre, hie, List.append_assoc], hall⟩
  · rw [hinit] at hie
    simp only at hie
    exact ⟨rfl, ievs, hie, hiall⟩

/-- What `registerBGPServer` does once its server is started and added to the manager: the
server stays in the `Servers` map under its local ASN and no `Stop` is called on any server,
whether the function then returns nil or fails because a reconciler `Init` or the first
`reconcileBGPConfig` fails. -/
theorem registerBGPServer_keeps_server (env : Env) (m : BGPRouterManager)
    (c : CiliumBGPVirtualRouter) (ciliumNode : CiliumNode) (annoMap : GoMap Int Attributes)
    (routerID : String)
    (hmap : env.NewAnnotationMap ciliumNode.Annotations = .ok annoMap)
    (hrid : routerIDV1 env annoMap c ciliumNode = .ok routerID)
    (hnew : env.newServerWithConfig m.trace (serverParametersV1 annoMap c routerID) = none) :
    (registerBGPServer env m c ciliumNode).1.Servers.get c.LocalASN = some m.serverHeap.length
    ∧ ∃ evs, (registerBGPServer env m c ciliumNode).1.trace
          = m.trace ++ Event.newServer m.serverHeap.length
              (serverParametersV1 annoMap c routerID) :: evs
        ∧ ∀ e ∈ evs, e.isServerStop = false := by
  have hreg : registerBGPServer env m c ciliumNode
      = commitBGPServer env
          { m with
            serverHeap := m.serverHeap ++
              [{ ASN := (c.LocalASN % 2 ^ 32).toNat, Config := none }]
            trace := m.trace ++ [Event.newServer m.serverHeap.length
              (serverParametersV1 annoMap c routerID)] }
          m.serverHeap.length c ciliumNode := by
    unfold serverParametersV1 at hnew ⊢
    simp only [registerBGPServer, hmap, hrid, NewServerWithConfig, hnew]
  obtain ⟨hS, evs, he, hall⟩ := commitBGPServer_ext env
    { m with
      serverHeap := m.serverHeap ++ [{ ASN := (c.LocalASN % 2 ^ 32).toNat, Config := none }]
      trace := m.trace ++ [Event.newServer m.serverHeap.length
        (serverParametersV1 annoMap c routerID)] }
    m.serverHeap.length c ciliumNode
  rw [hreg]
  refine ⟨?_, evs, ?_, hall⟩
  · rw [hS, GoMap.get_set]
    simp
  · rw [he]
    simp

/-- The only reconciler fails at `Reconcile`; the server stays registered. -/
theorem registerBGPServer_keeps_server_witness :
    (registerBGPServer exEnvV1ReconcileFails NewBGPRouterManager exVirtualRouter exNode).1.Servers.get
        exVirtualRouter.LocalASN = some NewBGPRouterManager.serverHeap.length :=
  (registerBGPServer_keeps_server exEnvV1ReconcileFails NewBGPRouterManager exVirtualRouter exNode
    [] "10.0.0.1" rfl rfl rfl).1

/-- C26, evaluated on the virtual router with local ASN 65001 registered on a new manager
whose only reconciler fails at `Init`, after the server has been started and added:
`registerBGPServer` returns the error, the server is still in the `Servers` map and no `Stop`
has been called on it; the same holds when the first `reconcileBGPConfig` fails. -/
theorem registerBGPServer_failed_init_keeps_server :
    (registerBGPServer exEnvV1InitFails NewBGPRouterManager exVirtualRouter exNode).1.Servers
        = [(65001, 0)]
    ∧ (registerBGPServer exEnvV1InitFails NewBGPRouterManager exVirtualRouter exNode).1.trace
        = [Event.newServer 0
            { Global := { ASN := 65001, RouterID := "10.0.0.1", ListenPort := -1,
                          AdvertiseInactiveRoutes := true },
              StateNotification := 0 },
           Event.initServer 0 0]
    ∧ ((registerBGPServer exEnvV1InitFails NewBGPRouterManager exVirtualRouter exNode).2).isSome
        = true
    ∧ (registerBGPServer exEnvV1ReconcileFails NewBGPRouterManager exVirtualRouter
        exNode).1.Servers = [(65001, 0)]
    ∧ (registerBGPServer exEnvV1ReconcileFails NewBGPRouterManager exVirtualRouter
        exNode).1.trace
        = [Event.newServer 0
            { Global := { ASN := 65001, RouterID := "10.0.0.1", ListenPort := -1,
                          AdvertiseInactiveRoutes := true },
              StateNotification := 0 },
           Event.initServer 0 0,
           Event.reconcileServer 0 0 exVirtualRouter exNode]
    ∧ ((registerBGPServer exEnvV1ReconcileFails NewBGPRouterManager exVirtualRouter
        exNode).2).isSome = true := by
  refine ⟨by decide, by decide, rfl, by decide, by decide, rfl⟩

/-! ### Configured instances and nil dereferences -/

theorem configOf_lt (heap : List BGPInstance) (i : Ptr) (c : CiliumBGPNodeInstance)
    (h : configOf heap i = some c) : i < heap.length := by
  unfold configOf at h
  by_contra hlt
  rw [List.getElem?_eq_none (Nat.le_of_not_lt hlt)] at h
  cases h

theorem configOf_append (heap : List BGPInstance) (x : BGPInstance) (i : Ptr)
    (h : i < heap.length) : configOf (heap ++ [x]) i = configOf heap i := by
  unfold configOf
  rw [List.getElem?_append_left h]

theorem configOf_append_last (heap : List BGPInstance) (x : BGPInstance) :
    configOf (heap ++ [x]) heap.length = x.Config := by
  unfold configOf
  simp

theorem configOf_setConfig (heap : List BGPInstance) (i j : Ptr) (c : CiliumBGPNodeInstance) :
    configOf (setConfig heap i c) j
      = if j = i ∧ i < heap.length then some c else configOf heap j := by
  unfold configOf setConfig
  rw [List.getElem?_modify]
  by_cases hji : j = i
  · subst hji
    by_cases hlt : j < heap.length
    · simp [hlt, List.getElem?_eq_getElem hlt]
    · simp [hlt, List.getElem?_eq_none (Nat.le_of_not_lt hlt)]
  · have : ¬ i = j := fun h => hji h.symm
    simp [hji, this]

theorem initLoop_none (heap : List BGPInstance) (i : Ptr) (rs : List ConfigReconciler)
    (h : ∀ r ∈ rs, ∀ tr heap i, r.Init tr heap i = none) (k : Nat) (tr : List Event) :
    (initLoop heap i rs k tr).2 = none := by
  induction rs generalizing k tr with
  | nil => rfl
  | cons r rest ih =>
    unfold initLoop
    rw [h r (List.mem_cons_self _ _)]
    exact ih (fun r2 hr2 => h r2 (List.mem_cons_of_mem _ hr2)) _ _

/-- When no `Init` fails, `registerBGPInstance` either leaves the registry and the heap alone
or registers a new instance whose last-applied configuration is the desired one, which has a
local ASN. -/
theorem registerBGPInstance_configured (env : Env) (m : BGPRouterManager)
    (c : CiliumBGPNodeInstance) (ciliumNode : CiliumNode) (hinit : InitSucceeds env) :
    ((registerBGPInstance env m c ciliumNode).1.BGPInstances = m.BGPInstances
      ∧ (registerBGPInstance env m c ciliumNode).1.heap = m.heap)
    ∨ (∃ x asn, (registerBGPInstance env m c ciliumNode).1.BGPInstances
          = m.BGPInstances.set c.Name m.heap.length
        ∧ (registerBGPInstance env m c ciliumNode).1.heap = m.heap ++ [x]
        ∧ x.Config = some c ∧ c.LocalASN = some asn) := by
  cases hasn : getLocalASN c with
  | error err => exact Or.inl (by simp [registerBGPInstance, hasn])
  | ok localASN =>
    have hl : c.LocalASN = some localASN := by
      unfold getLocalASN at hasn
      cases hc : c.LocalASN with
      | none => simp [hc] at hasn
      | some a =>
        simp only [hc, Except.ok.injEq] at hasn
        rw [hasn]
    cases hport : getLocalPort env c ciliumNode localASN with
    | error err => exact Or.inl (by simp [registerBGPInstance, hasn, hport])
    | ok localPort =>
      cases hrid : getRouterID env c ciliumNode localASN with
      | error err => exact Or.inl (by simp [registerBGPInstance, hasn, hport, hrid])
      | ok routerID =>
        cases hnew : env.newBGPInstance m.trace c.Name
            ⟨⟨(localASN % 2 ^ 32).toNat, routerID, localPort, true⟩, m.chans⟩ with
        | some err =>
          exact Or.inl (by simp only [registerBGPInstance, hasn, hport, hrid, NewBGPInstance, hnew, and_self])
        | none =>
          rw [registerBGPInstance_created env m c ciliumNode localASN localPort routerID hasn
            hport hrid hnew]
          have hie : initError env
              (createdState m c ⟨⟨(localASN % 2 ^ 32).toNat, routerID, localPort, true⟩, m.chans⟩)
              m.heap.length m.chans c = none := initLoop_none _ _ _ hinit _ _
          rw [((commitBGPInstance_cases env _ m.heap.length m.chans c ciliumNode).2 hie).1]
          obtain ⟨evs, tbl, heq, -⟩ := reconcileBGPConfigV2_ext env
            (initialisedState env
              (createdState m c ⟨⟨(localASN % 2 ^ 32).toNat, routerID, localPort, true⟩, m.chans⟩)
              m.heap.length m.chans c) m.heap.length c ciliumNode
          rw [heq]
          refine Or.inr ⟨⟨c.Name, ⟨(localASN % 2 ^ 32).toNat, routerID, localPort, true⟩, some c⟩,
            localASN, rfl, ?_, rfl, hl⟩
          simp only [initialisedState, committedState, createdState]
          rw [setConfig_append_last]

theorem AllConfiguredASN_registerBGPInstance (env : Env) (m : BGPRouterManager)
    (c : CiliumBGPNodeInstance) (ciliumNode : CiliumNode) (hinit : InitSucceeds env)
    (h : AllConfiguredASN m) : AllConfiguredASN (registerBGPInstance env m c ciliumNode).1 := by
  rcases registerBGPInstance_configured env m c ciliumNode hinit with
    ⟨h1, h2⟩ | ⟨x, asn, h1, h2, hx, hl⟩
  · intro e he
    rw [h1] at he
    rw [h2]
    exact h e he
  · intro e he
    rw [h1] at he
    rw [h2]
    rcases GoMap.mem_set _ _ _ e he with rfl | ⟨he, -⟩
    · exact ⟨c, asn, by rw [configOf_append_last]; exact hx, hl⟩
    · obtain ⟨c2, a2, hc2, ha2⟩ := h e he
      exact ⟨c2, a2, by rw [configOf_append _ _ _ (configOf_lt _ _ _ hc2)]; exact hc2, ha2⟩

theorem AllConfiguredASN_reconcileBGPConfigV2 (env : Env) (m : BGPRouterManager) (i : Ptr)
    (newc : CiliumBGPNodeInstance) (ciliumNode : CiliumNode) (asn : Int)
    (hl : newc.LocalASN = some asn) (h : AllConfiguredASN m) :
    AllConfiguredASN (reconcileBGPConfigV2 env m i newc ciliumNode).1 := by
  obtain ⟨evs, tbl, heq, -⟩ := reconcileBGPConfigV2_ext env m i newc ciliumNode
  rw [heq]
  intro e he
  obtain ⟨c2, a2, hc2, ha2⟩ := h e he
  show ∃ c asn, configOf (setConfig m.heap i newc) e.2 = some c ∧ c.LocalASN = some asn
  rw [configOf_setConfig]
  split
  · exact ⟨newc, asn, rfl, hl⟩
  · exact ⟨c2, a2, hc2, ha2⟩

theorem AllConfiguredASN_withdrawV2 (env : Env) (m : BGPRouterManager) (rd : reconcileDiffV2)
    (h : AllConfiguredASN m) : AllConfiguredASN (withdrawV2 env m rd) := by
  obtain ⟨W, tbl, heq, -⟩ := withdrawV2_state env m rd
  rw [heq]
  intro e he
  exact h e (List.mem_filter.1 he).1

theorem AllConfiguredASN_withdrawAllV2 (env : Env) (m : BGPRouterManager) (rd : reconcileDiffV2)
    (h : AllConfiguredASN m) : AllConfiguredASN (withdrawAllV2 env m rd) := by
  unfold withdrawAllV2
  split
  · exact h
  · exact AllConfiguredASN_withdrawV2 env m _ h

theorem AllConfiguredASN_ReconcileInstances (env : Env) (m : BGPRouterManager)
    (nodeObj : CiliumBGPNodeConfig) (ciliumNode : CiliumNode) (hinit : InitSucceeds env)
    (hseen : SeenFromDesired env) (hasn : ∀ c ∈ nodeObj.BGPInstances, c.LocalASN ≠ none)
    (h : AllConfiguredASN m) :
    AllConfiguredASN (ReconcileInstances env m (some nodeObj) ciliumNode).1 := by
  cases hd : env.diff (newReconcileDiffV2 ciliumNode) m.BGPInstances m.heap nodeObj with
  | error err =>
    unfold ReconcileInstances
    simp only [hd]
    exact h
  | ok rd =>
    rw [ReconcileInstances_state env m nodeObj ciliumNode rd hd]
    split
    · exact h
    · refine phases_preserve env rd AllConfiguredASN
        (fun m2 hm => AllConfiguredASN_withdrawV2 env m2 rd hm)
        (fun m2 name c _ hm => AllConfiguredASN_registerBGPInstance env m2 c _ hinit hm)
        (fun m2 name i c _ hs hm => ?_) m h
      have hne := hasn c (hseen ciliumNode m.BGPInstances m.heap nodeObj rd hd name c hs)
      cases hl : c.LocalASN with
      | none => exact absurd hl hne
      | some asn => exact AllConfiguredASN_reconcileBGPConfigV2 env m2 i c _ asn hl hm

theorem AllConfiguredASN_runOps (env : Env) (hinit : InitSucceeds env)
    (hseen : SeenFromDesired env) (ops : List Op) (hasn : ∀ op ∈ ops, op.desiredASNSet)
    (m : BGPRouterManager) (h : AllConfiguredASN m) : AllConfiguredASN (runOps env m ops) := by
  induction ops generalizing m with
  | nil => exact h
  | cons op rest ih =>
    have hrest : ∀ op ∈ rest, op.desiredASNSet := fun o ho => hasn o (List.mem_cons_of_mem _ ho)
    have hop := hasn op (List.mem_cons_self _ _)
    show AllConfiguredASN (runOps env (step env m op) rest)
    apply ih hrest
    cases op with
    | reconcileInstances nodeObj ciliumNode =>
      cases nodeObj with
      | none => exact AllConfiguredASN_withdrawAllV2 env m _ h
      | some nodeObj =>
        exact AllConfiguredASN_ReconcileInstances env m nodeObj ciliumNode hinit hseen hop h
    | stop =>
      intro e he
      simp [step, Stop] at he
    | destroyRouterOnStop d => exact h

theorem asnExistsLoop_isSome (heap : List BGPInstance) (insts : List (String × Ptr)) (asn : Int)
    (hcfg : ∀ e ∈ insts, (configOf heap e.2).isSome = true) :
    (asnExistsLoop heap insts asn).isSome = true := by
  induction insts with
  | nil => rfl
  | cons e rest ih =>
    obtain ⟨n, i⟩ := e
    have hi := hcfg (n, i) (List.mem_cons_self _ _)
    have hrest := ih (fun e he => hcfg e (List.mem_cons_of_mem _ he))
    unfold asnExistsLoop
    unfold configOf at hi
    cases hc : (heap[i]?).bind (fun o => o.Config) with
    | none => simp [hc] at hi
    | some config =>
      simp only
      cases config.LocalASN with
      | none => exact hrest
      | some a =>
        simp only
        split
        · rfl
        · exact hrest

theorem skipInstance_isSome (heap : List BGPInstance) (routerAsn : Option Int) (i : Ptr)
    (hi : (configOf heap i).isSome = true) : (skipInstance heap routerAsn i).isSome = true := by
  unfold skipInstance
  unfold configOf at hi
  cases routerAsn with
  | none => rfl
  | some asn =>
    cases hc : (heap[i]?).bind (fun o => o.Config) with
    | none => simp [hc] at hi
    | some config =>
      simp only
      cases config.LocalASN <;> rfl

theorem getRoutesFromInstance_isPanic (env : Env) (heap : List BGPInstance) (tr : List Event)
    (i : Ptr) (params : GetBgpRoutesParams) (hi : (configOf heap i).isSome = true) :
    (getRoutesFromInstance env heap tr i params).2.isPanic = false := by
  unfold getRoutesFromInstance
  unfold configOf at hi
  cases hc : (heap[i]?).bind (fun o => o.Config) with
  | none => simp [hc] at hi
  | some config =>
    simp only
    cases config.LocalASN with
    | none => rfl
    | some a =>
      simp only
      cases env.ToAgentGetRoutesRequest params with
      | error err => rfl
      | ok req =>
        simp only
        cases env.GetRoutes tr (.router i) req with
        | error err => rfl
        | ok routes =>
          simp only
          cases env.ToAPIRoutes routes a (neighborOf params) <;> rfl

theorem getRoutesV2Peers_isPanic (env : Env) (heap : List BGPInstance) (i : Ptr)
    (hi : (configOf heap i).isSome = true) (peers : List BgpPeer) (params : GetBgpRoutesParams)
    (tr : List Event) (res : List BgpRoute) :
    (getRoutesV2Peers env heap i peers params tr res).2.2.isPanic = false := by
  induction peers generalizing params tr res with
  | nil => rfl
  | cons peer rest ih =>
    unfold getRoutesV2Peers
    have h := getRoutesFromInstance_isPanic env heap tr i
      { params with Neighbor := some peer.PeerAddress } hi
    rcases hr : getRoutesFromInstance env heap tr i
      { params with Neighbor := some peer.PeerAddress } with ⟨tr1, v | err | _⟩
    · exact ih _ _ _
    · rfl
    · rw [hr] at h
      cases h

theorem getRoutesV2Loop_isPanic (env : Env) (heap : List BGPInstance) (allPeers : Bool)
    (insts : List (String × Ptr)) (hcfg : ∀ e ∈ insts, (configOf heap e.2).isSome = true)
    (params : GetBgpRoutesParams) (tr : List Event) (res : List BgpRoute) :
    (getRoutesV2Loop env heap allPeers insts params tr res).2.isPanic = false := by
  induction insts generalizing params tr res with
  | nil => rfl
  | cons e rest ih =>
    obtain ⟨n, i⟩ := e
    have hi := hcfg (n, i) (List.mem_cons_self _ _)
    have hrest := ih (fun e he => hcfg e (List.mem_cons_of_mem _ he))
    unfold getRoutesV2Loop
    have hs := skipInstance_isSome heap params.RouterAsn i hi
    rcases hsk : skipInstance heap params.RouterAsn i with _ | _ | _
    · rw [hsk] at hs
      cases hs
    · simp only
      cases allPeers with
      | true =>
        simp only [if_true]
        cases env.GetPeerState tr (.router i) with
        | error err => rfl
        | ok peers =>
          simp only
          have hp := getRoutesV2Peers_isPanic env heap i hi peers params
            (tr ++ [Event.getPeerState (.router i)]) res
          rcases hr : getRoutesV2Peers env heap i peers params
            (tr ++ [Event.getPeerState (.router i)]) res with ⟨p1, tr1, v | err | _⟩
          · exact hrest _ _ _
          · rfl
          · rw [hr] at hp
            cases hp
      | false =>
        simp only [Bool.false_eq_true, if_false]
        have hp := getRoutesFromInstance_isPanic env heap tr i params hi
        rcases hr : getRoutesFromInstance env heap tr i params with ⟨tr1, v | err | _⟩
        · exact hrest _ _ _
        · rfl
        · rw [hr] at hp
          cases hp
    · exact hrest _ _ _

theorem getRoutesV2_isPanic (env : Env) (m : BGPRouterManager) (params : GetBgpRoutesParams)
    (hcfg : ∀ e ∈ m.BGPInstances, (configOf m.heap e.2).isSome = true) :
    (getRoutesV2 env m params).2.isPanic = false := by
  have hv : (if params.Neighbor.isSome && decide (m.BGPInstances.length > 1)
        && params.RouterAsn.isNone then
      ((m.trace, GoResult.error (GoError.leaf
        "multiple virtual routers configured, router ASN must be specified" false)) :
        List Event × GoResult (List BgpRoute))
    else
      getRoutesV2Loop env m.heap (allPeersOf env params) m.BGPInstances params m.trace []).2.isPanic
      = false := by
    split
    · rfl
    · exact getRoutesV2Loop_isPanic env m.heap _ m.BGPInstances hcfg params m.trace []
  unfold getRoutesV2
  simp only
  cases hra : params.RouterAsn with
  | none =>
    rw [hra] at hv
    exact hv
  | some asn =>
    rw [hra] at hv
    simp only
    have hs := asnExistsLoop_isSome m.heap m.BGPInstances asn hcfg
    unfold asnExistsInInstances
    rcases he : asnExistsLoop m.heap m.BGPInstances asn with _ | _ | _
    · rw [he] at hs
      cases hs
    · rfl
    · exact hv

theorem getRoutePoliciesV2Loop_isPanic (env : Env) (heap : List BGPInstance)
    (routerAsn : Option Int) (insts : List (String × Ptr))
    (hcfg : ∀ e ∈ insts, ∃ c asn, configOf heap e.2 = some c ∧ c.LocalASN = some asn)
    (tr : List Event) (res : List BgpRoutePolicy) :
    (getRoutePoliciesV2Loop env heap routerAsn insts tr res).2.isPanic = false := by
  induction insts generalizing tr res with
  | nil => rfl
  | cons e rest ih =>
    obtain ⟨n, i⟩ := e
    obtain ⟨c, a, hc, ha⟩ := hcfg (n, i) (List.mem_cons_self _ _)
    have hrest := ih (fun e he => hcfg e (List.mem_cons_of_mem _ he))
    unfold getRoutePoliciesV2Loop
    have hs := skipInstance_isSome heap routerAsn i (by rw [hc]; rfl)
    rcases hsk : skipInstance heap routerAsn i with _ | _ | _
    · rw [hsk] at hs
      cases hs
    · simp only
      cases env.GetRoutePolicies tr (.router i) with
      | error err => rfl
      | ok policies =>
        simp only
        unfold configOf at hc
        rw [hc]
        simp only [Option.some_bind, ha]
        exact hrest _ _
    · exact hrest _ _

theorem getRoutePoliciesV2_isPanic (env : Env) (m : BGPRouterManager)
    (params : GetBgpRoutePoliciesParams) (h : AllConfiguredASN m) :
    (getRoutePoliciesV2 env m params).2.isPanic = false := by
  have hcfg : ∀ e ∈ m.BGPInstances, (configOf m.heap e.2).isSome = true := by
    intro e he
    obtain ⟨c, a, hc, -⟩ := h e he
    rw [hc]
    rfl
  unfold getRoutePoliciesV2
  cases hra : params.RouterAsn with
  | none => exact getRoutePoliciesV2Loop_isPanic env m.heap _ m.BGPInstances h m.trace []
  | some asn =>
    simp only
    have hs := asnExistsLoop_isSome m.heap m.BGPInstances asn hcfg
    unfold asnExistsInInstances
    rcases he : asnExistsLoop m.heap m.BGPInstances asn with _ | _ | _
    · rw [he] at hs
      cases hs
    · rfl
    · exact getRoutePoliciesV2Loop_isPanic env m.heap _ m.BGPInstances h m.trace []

theorem foldl_set_get (l : List CiliumBGPNodeInstance)
    (s : GoMap String CiliumBGPNodeInstance) (n : String) (c : CiliumBGPNodeInstance)
    (h : (l.foldl (fun s c => s.set c.Name c) s).get n = some c) :
    (c ∈ l ∧ c.Name = n) ∨ s.get n = some c := by
  induction l generalizing s with
  | nil => exact Or.inr h
  | cons a rest ih =>
    rcases ih (s.set a.Name a) h with ⟨h1, h2⟩ | h1
    · exact Or.inl ⟨List.mem_cons_of_mem _ h1, h2⟩
    · rw [GoMap.get_set] at h1
      split at h1
      · rename_i hn
        simp only [Option.some.injEq] at h1
        subst h1
        exact Or.inl ⟨List.mem_cons_self _ _, hn.symm⟩
      · exact Or.inr h1

theorem diff_seen (ciliumNode : CiliumNode) (registry : GoMap String Ptr)
    (heap : List BGPInstance) (desired : CiliumBGPNodeConfig) (rd : reconcileDiffV2)
    (hd : reconcileDiffV2.diff (newReconcileDiffV2 ciliumNode) registry heap desired = .ok rd)
    (n : String) (c : CiliumBGPNodeInstance) (h : rd.seen.get n = some c) :
    c ∈ desired.BGPInstances ∧ c.Name = n := by
  unfold reconcileDiffV2.diff at hd
  simp only [Except.ok.injEq] at hd
  subst hd
  rcases foldl_set_get _ _ n c h with h1 | h1
  · exact h1
  · cases h1

theorem SeenFromDesired_of_diff (env : Env) (h : env.diff = reconcileDiffV2.diff) :
    SeenFromDesired env := by
  intro ciliumNode registry heap desired rd hd n c hs
  rw [h] at hd
  exact (diff_seen ciliumNode registry heap desired rd hd n c hs).1

/-- When the read APIs are safe: in every state reached from the new manager by calls of
`ReconcileInstances`, `Stop` and `DestroyRouterOnStop`, when no reconciler `Init` fails and
every instance of every desired state has its local ASN set, each registered instance has a
last-applied configuration whose local ASN is set; `asnExistsInInstances`, `getRoutesV2` and
`getRoutePoliciesV2` then return without a nil pointer dereference. -/
theorem reachable_instances_configured_with_asn (env : Env) (ops : List Op)
    (hinit : InitSucceeds env) (hseen : SeenFromDesired env)
    (hasn : ∀ op ∈ ops, op.desiredASNSet) :
    AllConfiguredASN (runOps env NewBGPRouterManager ops)
    ∧ (∀ asn, (asnExistsInInstances (runOps env NewBGPRouterManager ops) asn).isSome = true)
    ∧ (∀ params, (getRoutesV2 env (runOps env NewBGPRouterManager ops) params).2.isPanic = false)
    ∧ (∀ params,
        (getRoutePoliciesV2 env (runOps env NewBGPRouterManager ops) params).2.isPanic = false) := by
  have h : AllConfiguredASN (runOps env NewBGPRouterManager ops) :=
    AllConfiguredASN_runOps env hinit hseen ops hasn NewBGPRouterManager
      (fun e he => by simp [NewBGPRouterManager] at he)
  have hcfg : ∀ e ∈ (runOps env NewBGPRouterManager ops).BGPInstances,
      (configOf (runOps env NewBGPRouterManager ops).heap e.2).isSome = true := by
    intro e he
    obtain ⟨c, a, hc, -⟩ := h e he
    rw [hc]
    rfl
  exact ⟨h, fun asn => asnExistsLoop_isSome _ _ asn hcfg,
    fun params => getRoutesV2_isPanic env _ params hcfg,
    fun params => getRoutePoliciesV2_isPanic env _ params h⟩

/-- After one pass that registers "a" and "b", both with a local ASN and with a reconciler
whose `Init` succeeds, the read APIs return without a nil pointer dereference. -/
theorem reachable_instances_configured_with_asn_witness :
    InitSucceeds (exEnv [okReconciler "r1"] none none)
    ∧ SeenFromDesired (exEnv [okReconciler "r1"] none none)
    ∧ (∀ op ∈ [Op.reconcileInstances (some exNodeConfigAB) exNode], op.desiredASNSet)
    ∧ AllConfiguredASN exManagerAB
    ∧ (∀ asn, (asnExistsInInstances exManagerAB asn).isSome = true)
    ∧ (∀ params,
        (getRoutesV2 (exEnv [okReconciler "r1"] none none) exManagerAB params).2.isPanic = false)
    ∧ (∀ params,
        (getRoutePoliciesV2 (exEnv [okReconciler "r1"] none none) exManagerAB params).2.isPanic
          = false) := by
  have hinit : InitSucceeds (exEnv [okReconciler "r1"] none none) := by
    intro r hr tr heap i
    simp only [exEnv, List.mem_singleton] at hr
    subst hr
    rfl
  have hseen : SeenFromDesired (exEnv [okReconciler "r1"] none none) :=
    SeenFromDesired_of_diff _ rfl
  have hasn : ∀ op ∈ [Op.reconcileInstances (some exNodeConfigAB) exNode], op.desiredASNSet := by
    intro op hop
    simp only [List.mem_singleton] at hop
    subst hop
    intro c hc
    simp only [exNodeConfigAB, List.mem_cons, List.mem_singleton, List.not_mem_nil, or_false] at hc
    rcases hc with rfl | rfl <;> decide
  exact ⟨hinit, hseen, hasn,
    reachable_instances_configured_with_asn (exEnv [okReconciler "r1"] none none)
      [Op.reconcileInstances (some exNodeConfigAB) exNode] hinit hseen hasn⟩

/-- C29, evaluated on two reachable states. After one pass in which the registration of "a"
fails at the `Init` of a reconciler, "a" is registered with a nil `Config`:
`asnExistsInInstances`, `getRoutesV2` and `getRoutePoliciesV2` dereference it. After two
passes of which the second reconciles "b" to a configuration without local ASN, the `Config`
of "b" has a nil `LocalASN`, which `getRoutePoliciesV2` dereferences. -/
theorem read_apis_dereference_nil_on_reachable_state :
    exManagerInitFailed
      = (ReconcileInstances exEnvInitFails NewBGPRouterManager (some exNodeConfigA) exNode).1
    ∧ exManagerInitFailed.BGPInstances = [("a", 0)]
    ∧ configOf exManagerInitFailed.heap 0 = none
    ∧ asnExistsInInstances exManagerInitFailed 65001 = none
    ∧ (getRoutesV2 exEnvInitFails exManagerInitFailed exAdjRibInAll).2.isPanic = true
    ∧ (getRoutesV2 exEnvInitFails exManagerInitFailed (exAdjRibInParams 65001)).2.isPanic = true
    ∧ (getRoutePoliciesV2 exEnvInitFails exManagerInitFailed { RouterAsn := some 65001 }).2.isPanic
        = true
    ∧ exManagerNoASN
      = (ReconcileInstances (exEnv [okReconciler "r1"] none none)
          (ReconcileInstances (exEnv [okReconciler "r1"] none none) NewBGPRouterManager
            (some exNodeConfigAB) exNode).1 (some exNodeConfigABNoASN) exNode).1
    ∧ exManagerNoASN.BGPInstances = [("a", 0), ("b", 1)]
    ∧ (configOf exManagerNoASN.heap 1).map (fun c => c.LocalASN) = some none
    ∧ (getRoutePoliciesV2 (exEnv [okReconciler "r1"] none none) exManagerNoASN
        { RouterAsn := none }).2.isPanic = true := by
  refine ⟨rfl, by decide, by decide, by decide, ?_, ?_, ?_, rfl, by decide, by decide, ?_⟩ <;> rfl

/-! ### A second pass with the same desired state -/

/-- The lists of the work diff, by membership. -/
theorem diff_mem (ciliumNode : CiliumNode) (registry : GoMap String Ptr)
    (heap : List BGPInstance) (desired : CiliumBGPNodeConfig) (rd : reconcileDiffV2)
    (hd : reconcileDiffV2.diff (newReconcileDiffV2 ciliumNode) registry heap desired = .ok rd) :
    (∀ n, n ∈ rd.register ↔
        (∃ c ∈ desired.BGPInstances, c.Name = n) ∧ registry.get n = none)
    ∧ (∀ n, n ∈ rd.withdraw ↔
        (registry.get n).isSome = true ∧ ∀ c ∈ desired.BGPInstances, c.Name ≠ n)
    ∧ (∀ n, n ∈ rd.reconcile ↔
        ∃ c ∈ desired.BGPInstances, c.Name = n
          ∧ ∃ i, registry.get n = some i ∧ configOf heap i ≠ some c) := by
  unfold reconcileDiffV2.diff at hd
  simp only [Except.ok.injEq] at hd
  subst hd
  refine ⟨?_, ?_, ?_⟩
  · intro n
    simp only [newReconcileDiffV2, List.nil_append, List.mem_map, List.mem_filter,
      Option.isNone_iff_eq_none]
    constructor
    · rintro ⟨c, ⟨hc, hn⟩, rfl⟩
      exact ⟨⟨c, hc, rfl⟩, hn⟩
    · rintro ⟨⟨c, hc, rfl⟩, hn⟩
      exact ⟨c, ⟨hc, hn⟩, rfl⟩
  · intro n
    simp only [newReconcileDiffV2, List.nil_append, List.mem_filter, GoMap.mem_keys_iff,
      List.all_eq_true, decide_eq_true_eq]
  · intro n
    simp only [newReconcileDiffV2, List.nil_append, List.mem_map, List.mem_filter, configOf]
    constructor
    · rintro ⟨c, ⟨hc, hq⟩, rfl⟩
      refine ⟨c, hc, rfl, ?_⟩
      cases hg : registry.get c.Name with
      | none => simp [hg] at hq
      | some i =>
        simp only [hg, decide_eq_true_eq] at hq
        exact ⟨i, rfl, by simpa using hq⟩
    · rintro ⟨c, hc, rfl, i, hg, hne⟩
      refine ⟨c, ⟨hc, ?_⟩, rfl⟩
      simp only [hg, decide_eq_true_eq]
      simpa using hne

theorem diff_empty_of_lists (rd : reconcileDiffV2) (h1 : ∀ n, n ∉ rd.register)
    (h2 : ∀ n, n ∉ rd.withdraw) (h3 : ∀ n, n ∉ rd.reconcile) : rd.empty = true := by
  have a := List.eq_nil_iff_forall_not_mem.2 h1
  have b := List.eq_nil_iff_forall_not_mem.2 h2
  have c := List.eq_nil_iff_forall_not_mem.2 h3
  simp [reconcileDiffV2.empty, a, b, c]

theorem withdrawPhase_registry (env : Env) (m : BGPRouterManager) (rd : reconcileDiffV2) :
    (∀ n, (withdrawPhase env m rd).BGPInstances.get n
        = if n ∈ rd.withdraw then none else m.BGPInstances.get n)
    ∧ (withdrawPhase env m rd).heap = m.heap := by
  unfold withdrawPhase
  split
  · obtain ⟨W, tbl, heq, -⟩ := withdrawV2_state env m rd
    rw [heq]
    refine ⟨fun n => ?_, rfl⟩
    simp only
    rw [GoMap.get_filter m.BGPInstances (fun k => decide (k ∉ rd.withdraw)) n]
    by_cases hn : n ∈ rd.withdraw <;> simp [hn]
  · rename_i hlen
    have : rd.withdraw = [] := List.length_eq_zero.1 (by omega)
    refine ⟨fun n => ?_, rfl⟩
    simp [this]

theorem phases_of_empty (env : Env) (m : BGPRouterManager) (rd : reconcileDiffV2)
    (h : rd.empty = true) :
    reconcileState env rd (registerState env rd (withdrawPhase env m rd) rd.register)
      rd.reconcile = m := by
  simp only [reconcileDiffV2.empty, beq_iff_eq] at h
  have a : rd.register = [] := List.length_eq_zero.1 (by omega)
  have b : rd.withdraw = [] := List.length_eq_zero.1 (by omega)
  have c : rd.reconcile = [] := List.length_eq_zero.1 (by omega)
  rw [a, c, reconcileState_nil, registerState_nil]
  unfold withdrawPhase
  simp [b]

/-- After the three phases of a pass on the work diff of `m` and the desired state, every
registered name is the name of a desired instance. -/
theorem phases_names_desired (env : Env) (m : BGPRouterManager)
    (desired : CiliumBGPNodeConfig) (ciliumNode : CiliumNode) (rd : reconcileDiffV2)
    (hd : reconcileDiffV2.diff (newReconcileDiffV2 ciliumNode) m.BGPInstances m.heap desired
      = .ok rd)
    (n : String)
    (h : ((reconcileState env rd (registerState env rd (withdrawPhase env m rd) rd.register)
      rd.reconcile).BGPInstances.get n).isSome = true) :
    ∃ c ∈ desired.BGPInstances, c.Name = n := by
  obtain ⟨-, hwd, -⟩ := diff_mem ciliumNode m.BGPInstances m.heap desired rd hd
  have hseen := diff_seen ciliumNode m.BGPInstances m.heap desired rd hd
  obtain ⟨hwget, -⟩ := withdrawPhase_registry env m rd
  rw [reconcileState_registry] at h
  revert n
  refine registerState_preserves env rd
    (fun st => ∀ n, (st.BGPInstances.get n).isSome = true → ∃ c ∈ desired.BGPInstances, c.Name = n)
    ?_ rd.register (withdrawPhase env m rd) ?_
  · intro st name c hs hP n hn
    obtain ⟨evs, -, hcase⟩ := registerBGPInstance_ext env st c rd.ciliumNode
    rcases hcase with ⟨ch, heq, -⟩ | ⟨x, tbl, heq, -, -⟩
    · rw [heq] at hn
      exact hP n hn
    · rw [heq] at hn
      simp only at hn
      rw [GoMap.get_set] at hn
      split at hn
      · rename_i hcn
        exact ⟨c, (hseen name c hs).1, hcn.symm⟩
      · exact hP n hn
  · intro n hn
    rw [hwget] at hn
    split at hn
    · cases hn
    · rename_i hnw
      by_contra hno
      apply hnw
      refine (hwd n).2 ⟨hn, ?_⟩
      intro c hc hcn
      exact hno ⟨c, hc, hcn⟩

/-- C24 (amended): a second `ReconcileInstances` call with the same desired state, made after
a first call that left every desired instance registered with the desired configuration as
its last-applied one, finds an empty diff and returns nil with the manager as it was: no call
is made on a Router, a reconciler or the error table, and the registry is unchanged. The diff
is the one of the spec. -/
theorem ReconcileInstances_second_call_no_op (env : Env) (m : BGPRouterManager)
    (nodeObj : CiliumBGPNodeConfig) (ciliumNode : CiliumNode)
    (hdiff : env.diff = reconcileDiffV2.diff)
    (hreg : ∀ c ∈ nodeObj.BGPInstances,
      Configured (ReconcileInstances env m (some nodeObj) ciliumNode).1 c) :
    (∃ rd, env.diff (newReconcileDiffV2 ciliumNode)
        (ReconcileInstances env m (some nodeObj) ciliumNode).1.BGPInstances
        (ReconcileInstances env m (some nodeObj) ciliumNode).1.heap nodeObj = .ok rd
      ∧ rd.empty = true)
    ∧ ReconcileInstances env (ReconcileInstances env m (some nodeObj) ciliumNode).1
        (some nodeObj) ciliumNode
      = ((ReconcileInstances env m (some nodeObj) ciliumNode).1, none) := by
  obtain ⟨rd, hd⟩ : ∃ rd, reconcileDiffV2.diff (newReconcileDiffV2 ciliumNode) m.BGPInstances
      m.heap nodeObj = .ok rd := ⟨_, rfl⟩
  have hm1 : (ReconcileInstances env m (some nodeObj) ciliumNode).1
      = reconcileState env rd (registerState env rd (withdrawPhase env m rd) rd.register)
          rd.reconcile := by
    rw [ReconcileInstances_state env m nodeObj ciliumNode rd (by rw [hdiff]; exact hd)]
    split
    · rename_i he
      exact (phases_of_empty env m rd he).symm
    · rfl
  generalize (ReconcileInstances env m (some nodeObj) ciliumNode).1 = m1 at hm1 hreg ⊢
  have F1 : ∀ n, (m1.BGPInstances.get n).isSome = true →
      ∃ c ∈ nodeObj.BGPInstances, c.Name = n := by
    intro n hn
    rw [hm1] at hn
    exact phases_names_desired env m nodeObj ciliumNode rd hd n hn
  obtain ⟨rd2, hd2⟩ : ∃ rd2, reconcileDiffV2.diff (newReconcileDiffV2 ciliumNode)
      m1.BGPInstances m1.heap nodeObj = .ok rd2 := ⟨_, rfl⟩
  obtain ⟨hreg2, hwd2, hrec2⟩ := diff_mem ciliumNode m1.BGPInstances m1.heap nodeObj rd2 hd2
  have hempty : rd2.empty = true := by
    apply diff_empty_of_lists
    · intro n hn
      obtain ⟨⟨c, hc, rfl⟩, hnone⟩ := (hreg2 n).1 hn
      obtain ⟨i, x, hi, -, -⟩ := hreg c hc
      rw [hnone] at hi
      cases hi
    · intro n hn
      obtain ⟨hsome, hno⟩ := (hwd2 n).1 hn
      obtain ⟨c, hc, hcn⟩ := F1 n hsome
      exact hno c hc hcn
    · intro n hn
      obtain ⟨c, hc, rfl, i, hg, hne⟩ := (hrec2 n).1 hn
      obtain ⟨i2, x, hi2, hx, hcfg⟩ := hreg c hc
      rw [hg] at hi2
      simp only [Option.some.injEq] at hi2
      subst hi2
      apply hne
      unfold configOf
      rw [hx]
      exact hcfg
  have hd3 : env.diff (newReconcileDiffV2 ciliumNode) m1.BGPInstances m1.heap nodeObj
      = .ok rd2 := by
    rw [hdiff]
    exact hd2
  refine ⟨⟨rd2, hd3, hempty⟩, ?_⟩
  unfold ReconcileInstances
  simp only [hd3, hempty, if_true]

/-- Witness for C24: the first pass registers "a" and "b" with their configurations; the
second pass with the same desired state finds an empty diff and leaves the manager as it
was. -/
theorem ReconcileInstances_second_call_no_op_witness :
    (exEnv [okReconciler "r1"] none none).diff = reconcileDiffV2.diff
    ∧ (∀ c ∈ exNodeConfigAB.BGPInstances, Configured exManagerAB c)
    ∧ (∃ rd, (exEnv [okReconciler "r1"] none none).diff (newReconcileDiffV2 exNode)
          exManagerAB.BGPInstances exManagerAB.heap exNodeConfigAB = .ok rd
        ∧ rd.empty = true)
    ∧ ReconcileInstances (exEnv [okReconciler "r1"] none none) exManagerAB
        (some exNodeConfigAB) exNode = (exManagerAB, none) := by
  have hreg : ∀ c ∈ exNodeConfigAB.BGPInstances,
      Configured (ReconcileInstances (exEnv [okReconciler "r1"] none none) NewBGPRouterManager
        (some exNodeConfigAB) exNode).1 c := by
    intro c hc
    simp only [exNodeConfigAB, List.mem_cons, List.mem_singleton, List.not_mem_nil,
      or_false] at hc
    rcases hc with rfl | rfl
    · exact ⟨0, _, by decide, rfl, rfl⟩
    · exact ⟨1, _, by decide, rfl, rfl⟩
  exact ⟨rfl, hreg,
    ReconcileInstances_second_call_no_op (exEnv [okReconciler "r1"] none none)
      NewBGPRouterManager exNodeConfigAB exNode rfl hreg⟩

/-- Counterexample to C24 as stated. The first call registers "a" but the `Init` of the
reconciler fails, so "a" is left without last-applied configuration: the second call with the
same desired state finds "a" to reconcile and invokes the reconciler. In the second scenario
the registration of "b" fails in the first call for want of a local ASN: the second call
finds "b" to register again and returns an error. In the third scenario the desired state
names "a" twice: the first call returns nil and leaves "a" with the second configuration, and
the second call finds "a" to reconcile for the first one and invokes the reconciler. -/
theorem ReconcileInstances_second_call_reconciles_counterexample :
    exManagerInitFailed
      = (ReconcileInstances exEnvInitFails NewBGPRouterManager (some exNodeConfigA) exNode).1
    ∧ exEnvInitFails.diff (newReconcileDiffV2 exNode) exManagerInitFailed.BGPInstances
        exManagerInitFailed.heap exNodeConfigA
      = .ok { seen := [("a", exInstanceA)], ciliumNode := exNode, register := [],
              withdraw := [], reconcile := ["a"] }
    ∧ (ReconcileInstances exEnvInitFails exManagerInitFailed (some exNodeConfigA) exNode).1.trace
      = exManagerInitFailed.trace
        ++ [Event.reconcile 0
              { BGPInstance := 0, DesiredConfig := exInstanceA, CiliumNode := exNode }]
    ∧ (exEnv [okReconciler "r1"] none none).diff (newReconcileDiffV2 exNode)
        (ReconcileInstances (exEnv [okReconciler "r1"] none none) NewBGPRouterManager
          (some exNodeConfigTwoFail) exNode).1.BGPInstances
        (ReconcileInstances (exEnv [okReconciler "r1"] none none) NewBGPRouterManager
          (some exNodeConfigTwoFail) exNode).1.heap exNodeConfigTwoFail
      = .ok { seen := [("b", exInstanceBNoASN), ("c", exInstanceC)], ciliumNode := exNode,
              register := ["b"], withdraw := [], reconcile := [] }
    ∧ (ReconcileInstances (exEnv [okReconciler "r1"] none none)
        (ReconcileInstances (exEnv [okReconciler "r1"] none none) NewBGPRouterManager
          (some exNodeConfigTwoFail) exNode).1 (some exNodeConfigTwoFail) exNode).2.isSome
      = true
    ∧ (ReconcileInstances (exEnv [okReconciler "r1"] none none) NewBGPRouterManager
        (some exNodeConfigTwiceA) exNode).2.isNone = true
    ∧ (ReconcileInstances (exEnv [okReconciler "r1"] none none) NewBGPRouterManager
        (some exNodeConfigTwiceA) exNode).1.BGPInstances = [("a", 1)]
    ∧ configOf (ReconcileInstances (exEnv [okReconciler "r1"] none none) NewBGPRouterManager
        (some exNodeConfigTwiceA) exNode).1.heap 1 = some exInstanceAPeer
    ∧ (ReconcileInstances (exEnv [okReconciler "r1"] none none)
        (ReconcileInstances (exEnv [okReconciler "r1"] none none) NewBGPRouterManager
          (some exNodeConfigTwiceA) exNode).1 (some exNodeConfigTwiceA) exNode).1.trace
      = (ReconcileInstances (exEnv [okReconciler "r1"] none none) NewBGPRouterManager
          (some exNodeConfigTwiceA) exNode).1.trace
        ++ [Event.reconcile 0
              { BGPInstance := 1, DesiredConfig := exInstanceAPeer, CiliumNode := exNode }] := by
  refine ⟨rfl, rfl, by decide, rfl, rfl, rfl, by decide, by decide, by decide⟩

end BGPManager

namespace PolicyAPI

/-! ### Egress rules with an empty slice -/

theorem GoSlice.append_eq_none {α : Type} (s : GoSlice α) (xs : List α) :
    s.append xs = none ↔ s = none ∧ xs = [] := by
  cases s <;> cases xs <;> simp [GoSlice.append]

/-- The deny rule keeps its promise: the cached selectors of a rule whose `ToEntities`,
`ToCIDR` or `ToCIDRSet` is empty and not nil are nil, and so is the result. -/
theorem EgressDenyRule_empty_slice_selects_nothing (env : SelectorEnv) (e : EgressDenyRule)
    (requirements : GoSlice LabelSelectorRequirement) (hagg : e.aggregatedSelectors = none)
    (h : e.toEgressCommonRule.hasEmptyNonNil = true) :
    (e.GetDestinationEndpointSelectorsWithRequirements env requirements).2 = none := by
  simp only [EgressDenyRule.GetDestinationEndpointSelectorsWithRequirements, hagg,
    Option.isNone_none, if_true, EgressCommonRule.getDestinationEndpointSelectorsWithRequirements,
    EgressCommonRule.SetAggregatedSelectors, EgressCommonRule.getAggregatedSelectors]
  simp only [EgressCommonRule.hasEmptyNonNil, Bool.or_eq_true] at h
  by_cases h3 : (e.ToEntities.isEmptyNonNil || e.ToCIDR.isEmptyNonNil
      || e.ToCIDRSet.isEmptyNonNil) = true
  · simp [h3]
  · have h3f : (e.ToEntities.isEmptyNonNil || e.ToCIDR.isEmptyNonNil
        || e.ToCIDRSet.isEmptyNonNil) = false := by simpa using h3
    have h2 : e.ToEndpoints.isEmptyNonNil = true ∨ e.ToNodes.isEmptyNonNil = true := by
      simp only [Bool.or_eq_false_iff] at h3f
      rcases h with (((h | h) | h) | h) | h
      · simp [h] at h3f
      · simp [h] at h3f
      · simp [h] at h3f
      · exact Or.inl h
      · exact Or.inr h
    rcases h2 with h2 | h2 <;> simp [h2]

/-- What `EgressRule.GetDestinationEndpointSelectorsWithRequirements` returns for a rule
without cached selectors in which some of the five slices is empty and not nil: nil exactly
when `ToEndpoints` or `ToNodes` is such a slice, or `ToFQDNs` yields no selector. -/
theorem EgressRule_empty_slice_result (env : SelectorEnv) (e : EgressRule)
    (requirements : GoSlice LabelSelectorRequirement) (hagg : e.aggregatedSelectors = none)
    (h : e.toEgressCommonRule.hasEmptyNonNil = true) :
    (e.GetDestinationEndpointSelectorsWithRequirements env requirements).2 = none
      ↔ (e.ToEndpoints.isEmptyNonNil = true ∨ e.ToNodes.isEmptyNonNil = true
          ∨ env.FQDNsAsEndpointSelectors e.ToFQDNs = []) := by
  simp only [EgressRule.GetDestinationEndpointSelectorsWithRequirements, hagg,
    Option.isNone_none, if_true, EgressCommonRule.getDestinationEndpointSelectorsWithRequirements,
    EgressRule.SetAggregatedSelectors]
  by_cases hE : e.ToEndpoints.isEmptyNonNil = true
  · simp [hE]
  by_cases hN : e.ToNodes.isEmptyNonNil = true
  · simp [hN]
  have hE2 : e.ToEndpoints.isEmptyNonNil = false := by simpa using hE
  have hN2 : e.ToNodes.isEmptyNonNil = false := by simpa using hN
  have h3 : (e.ToEntities.isEmptyNonNil || e.ToCIDR.isEmptyNonNil
      || e.ToCIDRSet.isEmptyNonNil) = true := by
    simp only [EgressCommonRule.hasEmptyNonNil, hE2, hN2, Bool.or_false] at h
    exact h
  have hga : e.toEgressCommonRule.getAggregatedSelectors env = none := by
    simp [EgressCommonRule.getAggregatedSelectors, h3]
  simp only [hga, hE2, hN2, Bool.or_false, false_or]
  cases hF : env.FQDNsAsEndpointSelectors e.ToFQDNs with
  | nil => simp [GoSlice.append]
  | cons x rest =>
    have happ : GoSlice.append (none : GoSlice EndpointSelector) (x :: rest)
        = some (x :: rest) := rfl
    simp only [happ, Option.isNone_some, Bool.false_eq_true, if_false, reduceCtorEq, or_self,
      iff_false]
    intro hnone
    rw [GoSlice.append_eq_none] at hnone
    simp [GoSlice.elems] at hnone

/-- C27, evaluated on the rule `toEntities: []` with one FQDN selector and no cached
selectors: `ToEntities` is an empty slice that is not nil, yet the result is not nil but the
selector of the FQDN; the deny rule with the same common part returns nil. -/
theorem EgressRule_empty_entities_with_fqdn :
    exRuleEmptyEntitiesWithFQDN.aggregatedSelectors = none
    ∧ exRuleEmptyEntitiesWithFQDN.ToEntities = some []
    ∧ (exRuleEmptyEntitiesWithFQDN.GetDestinationEndpointSelectorsWithRequirements
        exSelectorEnv none).2
      = some [{ MatchLabels := [("fqdn", "example.com")], MatchExpressions := none,
                cachedLabelSelectorString := "fqdn:example.com" }]
    ∧ (exDenyRuleEmptyEntities.GetDestinationEndpointSelectorsWithRequirements
        exSelectorEnv none).2 = none :=
  ⟨rfl, rfl, rfl, rfl⟩

/-- A rule `toEntities: []` without FQDN selector selects nothing. -/
theorem EgressRule_empty_slice_result_witness :
    (exRuleEmptyEntities.GetDestinationEndpointSelectorsWithRequirements exSelectorEnv none).2
      = none :=
  (EgressRule_empty_slice_result exSelectorEnv exRuleEmptyEntities none rfl rfl).2
    (Or.inr (Or.inr rfl))

end PolicyAPI
